import Mathlib

/-!
# ncnn tensor compute core: a shallow embedding

C++ `int` values are modelled by `Int`; `/` and `%` on `int` are the truncating
`Int.tdiv` and `Int.tmod`.  `size_t` values are modelled by `Nat`.  Division by zero is
undefined in C++; the theorems that depend on a quotient state the non-zero divisor as a
hypothesis.  Floating-point arithmetic is replaced by exact arithmetic in a semiring.
-/

namespace Ncnn

/-! ## Common vocabulary -/

/-- Values taken by the loop variable of `for (int x = 0; x < n; x++)`, in order. -/
def loopRange (n : Int) : List Int :=
  (List.range n.toNat).map Int.ofNat

/-- Fields of `ncnn::Option` read by the layers embedded here. -/
structure Opt where
  use_packing_layout : Bool
  use_fp16_storage : Bool
  use_fp16_arithmetic : Bool
  use_bf16_storage : Bool
  use_shader_pack8 : Bool
  lightmode : Bool
deriving DecidableEq, Repr

/-- Preprocessor configuration the translation units are compiled under. -/
structure Build where
  arm_neon : Bool
  ncnn_arm82 : Bool
  ncnn_bf16 : Bool
  riscv_zvfh : Bool
deriving DecidableEq, Repr

/-! ## DeconvolutionDepthWise: layer parameters and geometry -/

/-- Parameters of the `DeconvolutionDepthWise` layer (C++ `int` members). -/
structure DeconvolutionDepthWise where
  num_output : Int
  kernel_w : Int
  kernel_h : Int
  dilation_w : Int
  dilation_h : Int
  stride_w : Int
  stride_h : Int
  pad_left : Int
  pad_right : Int
  pad_top : Int
  pad_bottom : Int
  output_pad_right : Int
  output_pad_bottom : Int
  output_w : Int
  output_h : Int
  bias_term : Int
  weight_data_size : Int
  group : Int
  activation_type : Int
  dynamic_weight : Int

namespace DeconvolutionDepthWise

/-- Source: `const int kernel_extent_w = dilation_w * (kernel_w - 1) + 1;`. -/
def kernel_extent_w (L : DeconvolutionDepthWise) : Int :=
  L.dilation_w * (L.kernel_w - 1) + 1

/-- Source: `const int kernel_extent_h = dilation_h * (kernel_h - 1) + 1;`. -/
def kernel_extent_h (L : DeconvolutionDepthWise) : Int :=
  L.dilation_h * (L.kernel_h - 1) + 1

/-- Source: `int outw = (w - 1) * stride_w + kernel_extent_w + output_pad_right;`. -/
def outw (L : DeconvolutionDepthWise) (w : Int) : Int :=
  (w - 1) * L.stride_w + L.kernel_extent_w + L.output_pad_right

/-- Source: `int outh = (h - 1) * stride_h + kernel_extent_h + output_pad_bottom;`. -/
def outh (L : DeconvolutionDepthWise) (h : Int) : Int :=
  (h - 1) * L.stride_h + L.kernel_extent_h + L.output_pad_bottom

/-- Source: `const int maxk = kernel_w * kernel_h;`. -/
def maxk (L : DeconvolutionDepthWise) : Int :=
  L.kernel_w * L.kernel_h

/-- Source: `int sys = (i + y * dilation_h - (kernel_extent_h - 1));`. -/
def sys (L : DeconvolutionDepthWise) (i y : Int) : Int :=
  i + y * L.dilation_h - (L.kernel_extent_h - 1)

/-- Source: `int sxs = (j + x * dilation_w - (kernel_extent_w - 1));`. -/
def sxs (L : DeconvolutionDepthWise) (j x : Int) : Int :=
  j + x * L.dilation_w - (L.kernel_extent_w - 1)

/-! ## The sparse-tap loop nest

The four depthwise kernels of `DeconvolutionDepthWise_arm::forward` / `forward_bf16s`
and the four of `DeconvolutionDepthWise_riscv::forward_fp16s` / `forward_fp16sa` share
one loop nest over the taps `(y, x)`; they differ in the innermost statement only.
`sparse_taps` is that loop nest, with the innermost statement as `body`. -/

/-- The loops `for y < kernel_h { row test; for x < kernel_w { column test; body } }`
of one output pixel `(i, j)` over an input of size `w` x `h`.  `body sum sy sx k` is the
innermost statement, run with input row `sy`, input column `sx`, tap `k = y * kernel_w + x`. -/
def sparse_taps {β : Type} (L : DeconvolutionDepthWise) (h w i j : Int)
    (body : β → Int → Int → Int → β) (init : β) : β :=
  (loopRange L.kernel_h).foldl (fun sum y =>
    let sys := i + y * L.dilation_h - (L.kernel_extent_h - 1)
    if sys < 0 ∨ sys.tmod L.stride_h ≠ 0 then sum
    else
      let sy := sys.tdiv L.stride_h
      if sy ≥ h then sum
      else
        (loopRange L.kernel_w).foldl (fun sum x =>
          let sxs := j + x * L.dilation_w - (L.kernel_extent_w - 1)
          if sxs < 0 ∨ sxs.tmod L.stride_w ≠ 0 then sum
          else
            let sx := sxs.tdiv L.stride_w
            if sx ≥ w then sum
            else body sum sy sx (y * L.kernel_w + x)) sum) init

/-- What the loop nest does, step by step. -/
inductive TapStep where
  | rowTest (y : Int)
  | colTest (y x : Int)
  | mac (y x sy sx k : Int)
deriving DecidableEq, Repr

/-- The loop nest of `sparse_taps`, instrumented: every evaluation of the row test, of the
column test and of the multiply-accumulate statement is logged, in program order. -/
def tap_steps (L : DeconvolutionDepthWise) (h w i j : Int) : List TapStep :=
  (loopRange L.kernel_h).flatMap (fun y =>
    let sys := i + y * L.dilation_h - (L.kernel_extent_h - 1)
    TapStep.rowTest y ::
      if sys < 0 ∨ sys.tmod L.stride_h ≠ 0 then []
      else
        let sy := sys.tdiv L.stride_h
        if sy ≥ h then []
        else
          (loopRange L.kernel_w).flatMap (fun x =>
            let sxs := j + x * L.dilation_w - (L.kernel_extent_w - 1)
            TapStep.colTest y x ::
              if sxs < 0 ∨ sxs.tmod L.stride_w ≠ 0 then []
              else
                let sx := sxs.tdiv L.stride_w
                if sx ≥ w then []
                else [TapStep.mac y x sy sx (y * L.kernel_w + x)]))

/-- Accumulate the logged taps: `sum += term sy sx k` for every `mac` step, in order. -/
def accumulate {α : Type} [Add α] (term : Int → Int → Int → α) (steps : List TapStep)
    (sum0 : α) : α :=
  steps.foldl (fun sum st =>
    match st with
    | TapStep.mac _ _ sy sx k => sum + term sy sx k
    | _ => sum) sum0

/-! ## Weight flip of `create_pipeline` (ARM) and `create_pipeline_fp16s` (RISC-V) -/

/-- Source: `int channels = (weight_data_size / group) / maxk / (num_output / group) * group;`. -/
def create_pipeline_channels (L : DeconvolutionDepthWise) : Int :=
  (((L.weight_data_size.tdiv L.group).tdiv L.maxk).tdiv (L.num_output.tdiv L.group)) * L.group

/-- The flip loop of the depthwise branch: for each of `n` kernels, `pt[maxk - 1 - k] = p[k]`
for `k < maxk`, then `p += maxk; pt += maxk`.  `pt0` is the content of the freshly created
`weight_data_transposed` before the loop. -/
def flip_loop {α : Type} (maxk n : Int) (p pt0 : Int → α) : Int → α :=
  (loopRange n).foldl (fun pt i =>
    (loopRange maxk).foldl (fun pt k =>
      Function.update pt (i * maxk + (maxk - 1 - k)) (p (i * maxk + k))) pt) pt0

/-- The array `weight_data_transposed` built by the depthwise branch of `create_pipeline`;
with elempack 1 and fp32 storage it becomes `weight_data_tm`. -/
def weight_data_transposed {α : Type} (L : DeconvolutionDepthWise) (weight_data pt0 : Int → α) :
    Int → α :=
  flip_loop L.maxk
    ((L.create_pipeline_channels.tdiv L.group) * (L.num_output.tdiv L.group) * L.group)
    weight_data pt0

/-- Modelled from the spec: `convert_packing(src, dst, 4, opt)` (not among the sources) on a
2-D tensor of width `w`, which "produces a tensor logically identical to `src` but with
`target_pack` lanes per stored unit": lane `l` of column `k` of packed row `r` of `dst`,
stored at `(r * w + k) * 4 + l`, is column `k` of row `4 * r + l` of `src`. -/
def convert_packing_rows4 {α : Type} (w : Int) (src : Int → α) : Int → α :=
  fun idx => src (((idx / 4 / w) * 4 + idx % 4) * w + idx / 4 % w)

/-- The array `weight_data_tm` built by the depthwise branch of `create_pipeline` with
elempack 4 and fp32 storage: `weight_data_transposed.reshape(maxk, group)` converted to 4
lanes. -/
def weight_data_tm_pack4 {α : Type} (L : DeconvolutionDepthWise) (weight_data pt0 : Int → α) :
    Int → α :=
  convert_packing_rows4 L.maxk (L.weight_data_transposed weight_data pt0)

/-! ## Scatter form of transposed convolution (the specification side) -/

/-- The scatter-form definition of depthwise transposed convolution, following the
specification's words: `bias[g]` (or 0) plus the sum, over all `(sy, sx, ky, kx)` with
`0 <= sy < h`, `0 <= sx < w`, `0 <= ky < kernel_h`, `0 <= kx < kernel_w`,
`sy * stride_h + ky * dilation_h = i` and `sx * stride_w + kx * dilation_w = j`, of
`in[g][sy][sx] * W[g][ky * kernel_w + kx]`, where `W` is the original (unflipped) kernel. -/
def scatter_deconvolution {α : Type} [AddCommMonoid α] [Mul α] (L : DeconvolutionDepthWise)
    (W bias : Int → α) (inp : Int → Int → Int → α) (w h g i j : Int) : α :=
  (if L.bias_term ≠ 0 then bias g else 0) +
    ∑ q ∈ (Finset.Ico (0 : Int) h ×ˢ Finset.Ico (0 : Int) w ×ˢ
        Finset.Ico (0 : Int) L.kernel_h ×ˢ Finset.Ico (0 : Int) L.kernel_w).filter
        (fun q => q.1 * L.stride_h + q.2.2.1 * L.dilation_h = i ∧
                  q.2.1 * L.stride_w + q.2.2.2 * L.dilation_w = j),
      inp g q.1 q.2.1 * W (g * L.maxk + (q.2.2.1 * L.kernel_w + q.2.2.2))

end DeconvolutionDepthWise

namespace DeconvolutionDepthWise_arm

/-! ## Depthwise kernels of `DeconvolutionDepthWise_arm::forward`

A tensor channel is a function of (row, flat column); `weight_data_tm` and `bias_data`
are flat arrays.  `act` stands for `activation_ss(., activation_type, activation_params)`
(respectively `activation_ps`), which lives in `arm_activation.h`. -/

/-- Value stored to `outptr[j]` in row `i` of channel `g`, elempack 1
(`m = bottom_blob.channel(g)`, `kptr = weight_data_tm + maxk * g`). -/
def pixel_pack1 {α : Type} [Zero α] [Add α] [Mul α] (L : DeconvolutionDepthWise) (act : α → α)
    (weight_data_tm bias_data : Int → α) (m : Int → Int → α) (h w g i j : Int) : α :=
  let sum0 : α := if L.bias_term ≠ 0 then bias_data g else 0
  act (L.sparse_taps h w i j
    (fun sum sy sx k => sum + m sy sx * weight_data_tm (L.maxk * g + k)) sum0)

/-- Lane `l` of the vector stored to `outptr + j * 4` in row `i` of channel `g`, elempack 4
(`kptr = weight_data_tm + maxk * g * 4`, `sptr = m.row(sy) + sx * 4`). -/
def pixel_pack4 {α : Type} [Zero α] [Add α] [Mul α] (L : DeconvolutionDepthWise) (act : α → α)
    (weight_data_tm bias_data : Int → α) (m : Int → Int → α) (h w g i j l : Int) : α :=
  let sum0 : α := if L.bias_term ≠ 0 then bias_data (g * 4 + l) else 0
  act (L.sparse_taps h w i j
    (fun sum sy sx k => sum + m sy (sx * 4 + l) * weight_data_tm (L.maxk * g * 4 + k * 4 + l)) sum0)

/-- The elempack-1 depthwise loop `for g < channels, for i < outh, for j < outw` of
`forward`: element `(i, j)` of channel `g` of `top_blob_bordered` after the loop, `none`
where the loop stores nothing. -/
def depthwise_pack1 {α : Type} [Zero α] [Add α] [Mul α] (L : DeconvolutionDepthWise) (act : α → α)
    (weight_data_tm bias_data : Int → α) (bottom_blob : Int → Int → Int → α)
    (w h channels : Int) (g i j : Int) : Option α :=
  if 0 ≤ g ∧ g < channels ∧ 0 ≤ i ∧ i < L.outh h ∧ 0 ≤ j ∧ j < L.outw w then
    some (pixel_pack1 L act weight_data_tm bias_data (bottom_blob g) h w g i j)
  else none

/-- The elempack-4 depthwise loop of `forward`: flat column `c` (pixel `c / 4`, lane
`c % 4`) of row `i` of packed channel `g` of `top_blob_bordered` after the loop. -/
def depthwise_pack4 {α : Type} [Zero α] [Add α] [Mul α] (L : DeconvolutionDepthWise) (act : α → α)
    (weight_data_tm bias_data : Int → α) (bottom_blob : Int → Int → Int → α)
    (w h channels : Int) (g i c : Int) : Option α :=
  if 0 ≤ g ∧ g < channels ∧ 0 ≤ i ∧ i < L.outh h ∧ 0 ≤ c ∧ c < L.outw w * 4 then
    some (pixel_pack4 L act weight_data_tm bias_data (bottom_blob g) h w g i (c / 4) (c % 4))
  else none

end DeconvolutionDepthWise_arm

/-! ## Depthwise kernels of `DeconvolutionDepthWise_riscv::forward_fp16s` / `forward_fp16sa`

Same loop nest; `packn` lanes instead of 4.  The fp16 <-> fp32 conversions of the source are
the identity in exact arithmetic. -/

namespace DeconvolutionDepthWise_riscv

/-- Lane `l` of the vector stored to `outptr + j * packn` by `forward_fp16s`
(`kptr = weight_data_tm + maxk * g * packn`, bias read from `bias_data + g * packn`). -/
def pixel_fp16s_packn {α : Type} [Zero α] [Add α] [Mul α] (L : DeconvolutionDepthWise)
    (act : α → α) (packn : Int) (weight_data_tm bias_data : Int → α) (m : Int → Int → α)
    (h w g i j l : Int) : α :=
  let sum0 : α := if L.bias_term ≠ 0 then bias_data (g * packn + l) else 0
  act (L.sparse_taps h w i j
    (fun sum sy sx k =>
      sum + m sy (sx * packn + l) * weight_data_tm (L.maxk * g * packn + k * packn + l)) sum0)

/-- Value stored to `outptr[j]` by the elempack-1 loop of `forward_fp16s`. -/
def pixel_fp16s_pack1 {α : Type} [Zero α] [Add α] [Mul α] (L : DeconvolutionDepthWise)
    (act : α → α) (weight_data_tm bias_data : Int → α) (m : Int → Int → α)
    (h w g i j : Int) : α :=
  let sum0 : α := if L.bias_term ≠ 0 then bias_data g else 0
  act (L.sparse_taps h w i j
    (fun sum sy sx k => sum + m sy sx * weight_data_tm (L.maxk * g + k)) sum0)

/-- Lane `l` of the vector stored to `outptr + j * packn` by `forward_fp16sa`
(bias read from `bias_data_fp16 + g * packn`). -/
def pixel_fp16sa_packn {α : Type} [Zero α] [Add α] [Mul α] (L : DeconvolutionDepthWise)
    (act : α → α) (packn : Int) (weight_data_tm bias_data_fp16 : Int → α) (m : Int → Int → α)
    (h w g i j l : Int) : α :=
  let sum0 : α := if L.bias_term ≠ 0 then bias_data_fp16 (g * packn + l) else 0
  act (L.sparse_taps h w i j
    (fun sum sy sx k =>
      sum + m sy (sx * packn + l) * weight_data_tm (L.maxk * g * packn + k * packn + l)) sum0)

/-- Value stored to `outptr[j]` by the elempack-1 loop of `forward_fp16sa`
(bias read from `bias_data`). -/
def pixel_fp16sa_pack1 {α : Type} [Zero α] [Add α] [Mul α] (L : DeconvolutionDepthWise)
    (act : α → α) (weight_data_tm bias_data : Int → α) (m : Int → Int → α)
    (h w g i j : Int) : α :=
  let sum0 : α := if L.bias_term ≠ 0 then bias_data g else 0
  act (L.sparse_taps h w i j
    (fun sum sy sx k => sum + m sy sx * weight_data_tm (L.maxk * g + k)) sum0)

end DeconvolutionDepthWise_riscv

/-! ## Control flow of `forward`: tensors, external operations, event log

`forward` is a sequence of fallible steps, each followed in the source by
`if (failed) return code;`.  `Mat::create`, `convert_packing`, `cut_padding`, `flatten`
and the sub-operators (`Deconvolution`, created through `create_layer_cpu`) are not among
the sources: their outcomes are parameters (`Externals`). -/

/-- Modelled from the spec: the header of a tensor (`Mat`, declared in mat.h, which is not
among the sources): width, height, channel count, element size in bytes and element pack.
These are the fields `forward` reads from its input and the shape it requests from
`Mat::create`. -/
structure Mat where
  w : Int
  h : Int
  c : Int
  elemsize : Nat
  elempack : Int
deriving DecidableEq, Repr

/-- Modelled from the spec: `Mat::elembits()` (mat.h is not among the sources), the
"element bit-width" of the tensor: the bits of one scalar, `elemsize * 8 / elempack`, and 0
for a tensor without element pack. -/
def Mat.elembits (m : Mat) : Nat :=
  if m.elempack = 0 then 0 else m.elemsize * 8 / m.elempack.toNat

/-- What a `forward` did, in program order; every event records its outcome. -/
inductive Event where
  | create (m : Mat) (workspace : Bool) (empty : Bool)
  | kernel (elempack : Int)
  | convert_packing (pack : Int) (empty : Bool)
  | sub_forward (g : Int) (ret : Int)
  | cut_padding (empty : Bool)
  | flatten (blob : Nat) (empty : Bool)
  | op_create_pipeline (ret : Int)
  | op_forward (ret : Int)
  | op_destroy_pipeline (ret : Int)
  | forward_fp16s (ret : Int)
  | forward_fp16sa (ret : Int)
deriving DecidableEq, Repr

/-- Outcomes of the operations that are not among the sources. -/
structure Externals where
  /-- Outcome of `m.create(shape, allocator); m.empty()` for the requested shape and
  allocator (`true`: workspace allocator, `false`: blob allocator). -/
  create_empty : Mat → Bool → Bool
  /-- Whether `convert_packing(bottom_blob, bottom_blob_unpacked, ...)` left the result empty. -/
  unpack_empty : Bool
  /-- Whether `convert_packing(top_blob_bordered_unpacked, top_blob_bordered, ...)` left the
  result empty. -/
  repack_empty : Bool
  /-- Whether `cut_padding(top_blob_bordered, top_blob, opt)` left `top_blob` empty. -/
  cut_padding_empty : Bool
  /-- Status returned by `group_ops[g]->forward(...)`. -/
  sub_forward : Int → Int
  /-- Status returned by `forward_fp16s` / `forward_fp16sa` of the ARM layer
  (deconvolutiondepthwise_arm_asimdhp.cpp is not among the sources). -/
  arm_forward_fp16s : Int
  arm_forward_fp16sa : Int

/-- A step of a `forward`: the event, and the status on which the source branches after it
(non-zero: `return` that status at once; 0: go on, also where the source ignores the
outcome). -/
abbrev Step := Event × Int

/-- Run steps in order: a step with non-zero status returns that status at once; after the
last step `return 0`.  The result is the returned status and the events that took place. -/
def run_steps : List Step → Int × List Event
  | [] => (0, [])
  | (e, st) :: rest =>
    if st ≠ 0 then (st, [e])
    else ((run_steps rest).1, e :: (run_steps rest).2)

/-- Source: `m.create(...); if (m.empty()) return -100;`. -/
def checked_create (X : Externals) (m : Mat) (workspace : Bool) : Step :=
  (Event.create m workspace (X.create_empty m workspace),
    if X.create_empty m workspace then -100 else 0)

/-- Source: an operation followed by `if (result.empty()) return -100;`. -/
def checked (e : Bool → Event) (empty : Bool) : Step :=
  (e empty, if empty then -100 else 0)

/-- An operation whose outcome the source does not test. -/
def unchecked (e : Event) : Step :=
  (e, 0)

/-! ## `DeconvolutionDepthWise_arm::forward` -/

namespace DeconvolutionDepthWise_arm

/-- The steps of the fp32 path of `forward` (source lines 223-455), in program order: each
operation with the status the source tests after it. -/
def forward_fp32_steps (B : Build) (L : DeconvolutionDepthWise) (X : Externals) (opt : Opt)
    (bottom_blob : Mat) : List Step :=
  let w := bottom_blob.w
  let h := bottom_blob.h
  let channels := bottom_blob.c
  let elemsize := bottom_blob.elemsize
  let elempack := bottom_blob.elempack
  let outw := (w - 1) * L.stride_w + L.kernel_extent_w + L.output_pad_right
  let outh := (h - 1) * L.stride_h + L.kernel_extent_h + L.output_pad_bottom
  let out_elempack : Int :=
    if B.arm_neon ∧ opt.use_packing_layout then (if L.num_output.tmod 4 = 0 then 4 else 1) else 1
  let out_elemsize : Nat := elemsize / elempack.toNat * out_elempack.toNat
  let workspace : Bool := decide (L.pad_left > 0 ∨ L.pad_right > 0 ∨ L.pad_top > 0 ∨
    L.pad_bottom > 0 ∨ (L.output_w > 0 ∧ L.output_h > 0))
  let top_blob_bordered : Mat :=
    ⟨outw, outh, L.num_output.tdiv out_elempack, out_elemsize, out_elempack⟩
  [checked_create X top_blob_bordered workspace] ++
    (if channels * elempack = L.group ∧ L.group = L.num_output then
      -- depth-wise
      (if B.arm_neon ∧ elempack = 4 then [unchecked (Event.kernel 4)] else []) ++
      (if elempack = 1 then [unchecked (Event.kernel 1)] else [])
    else
      -- group deconvolution
      let channels_g := (channels * elempack).tdiv L.group
      let num_output_g := L.num_output.tdiv L.group
      let g_elempack : Int :=
        if B.arm_neon ∧ opt.use_packing_layout then (if channels_g.tmod 4 = 0 then 4 else 1) else 1
      let out_g_elempack : Int :=
        if B.arm_neon ∧ opt.use_packing_layout then (if num_output_g.tmod 4 = 0 then 4 else 1)
        else 1
      (if elempack = 4 ∧ g_elempack = 1 then
        [checked (Event.convert_packing 1) X.unpack_empty] else []) ++
      (if out_g_elempack = 1 ∧ out_elempack = 4 then
        [checked_create X ⟨outw, outh, L.num_output, out_elemsize / out_elempack.toNat, 1⟩ true]
        else []) ++
      (loopRange L.group).map
        (fun g => (Event.sub_forward g (X.sub_forward g), X.sub_forward g)) ++
      (if out_g_elempack = 1 ∧ out_elempack = 4 then
        [checked (Event.convert_packing 4) X.repack_empty] else [])) ++
    [checked Event.cut_padding X.cut_padding_empty]

/-- The fp32 path of `forward` (source lines 223-455): geometry, creation of the bordered
output, depthwise kernels or per-group sub-operators, `cut_padding`. -/
def forward_fp32 (B : Build) (L : DeconvolutionDepthWise) (X : Externals) (opt : Opt)
    (bottom_blob : Mat) : Int × List Event :=
  run_steps (forward_fp32_steps B L X opt bottom_blob)

/-- The steps of `forward_bf16s` (source lines 600-835), in program order; they are those of
the fp32 path, statement for statement. -/
def forward_bf16s_steps (B : Build) (L : DeconvolutionDepthWise) (X : Externals) (opt : Opt)
    (bottom_blob : Mat) : List Step :=
  let w := bottom_blob.w
  let h := bottom_blob.h
  let channels := bottom_blob.c
  let elemsize := bottom_blob.elemsize
  let elempack := bottom_blob.elempack
  let outw := (w - 1) * L.stride_w + L.kernel_extent_w + L.output_pad_right
  let outh := (h - 1) * L.stride_h + L.kernel_extent_h + L.output_pad_bottom
  let out_elempack : Int :=
    if B.arm_neon ∧ opt.use_packing_layout then (if L.num_output.tmod 4 = 0 then 4 else 1) else 1
  let out_elemsize : Nat := elemsize / elempack.toNat * out_elempack.toNat
  let workspace : Bool := decide (L.pad_left > 0 ∨ L.pad_right > 0 ∨ L.pad_top > 0 ∨
    L.pad_bottom > 0 ∨ (L.output_w > 0 ∧ L.output_h > 0))
  let top_blob_bordered : Mat :=
    ⟨outw, outh, L.num_output.tdiv out_elempack, out_elemsize, out_elempack⟩
  [checked_create X top_blob_bordered workspace] ++
    (if channels * elempack = L.group ∧ L.group = L.num_output then
      (if B.arm_neon ∧ elempack = 4 then [unchecked (Event.kernel 4)] else []) ++
      (if elempack = 1 then [unchecked (Event.kernel 1)] else [])
    else
      let channels_g := (channels * elempack).tdiv L.group
      let num_output_g := L.num_output.tdiv L.group
      let g_elempack : Int :=
        if B.arm_neon ∧ opt.use_packing_layout then (if channels_g.tmod 4 = 0 then 4 else 1) else 1
      let out_g_elempack : Int :=
        if B.arm_neon ∧ opt.use_packing_layout then (if num_output_g.tmod 4 = 0 then 4 else 1)
        else 1
      (if elempack = 4 ∧ g_elempack = 1 then
        [checked (Event.convert_packing 1) X.unpack_empty] else []) ++
      (if out_g_elempack = 1 ∧ out_elempack = 4 then
        [checked_create X ⟨outw, outh, L.num_output, out_elemsize / out_elempack.toNat, 1⟩ true]
        else []) ++
      (loopRange L.group).map
        (fun g => (Event.sub_forward g (X.sub_forward g), X.sub_forward g)) ++
      (if out_g_elempack = 1 ∧ out_elempack = 4 then
        [checked (Event.convert_packing 4) X.repack_empty] else [])) ++
    [checked Event.cut_padding X.cut_padding_empty]

/-- The function `forward_bf16s` (source lines 600-835); its control flow is that of the
fp32 path, statement for statement. -/
def forward_bf16s (B : Build) (L : DeconvolutionDepthWise) (X : Externals) (opt : Opt)
    (bottom_blob : Mat) : Int × List Event :=
  run_steps (forward_bf16s_steps B L X opt bottom_blob)

/-- The function `forward(const Mat&, Mat&, const Option&)`: dispatch on the element bit
width and the options, then the fp32 path.  `support_fp16_storage` is the member set by the
constructor from `cpu_support_arm_asimdhp()`. -/
def forward (B : Build) (support_fp16_storage : Bool) (L : DeconvolutionDepthWise)
    (X : Externals) (opt : Opt) (bottom_blob : Mat) : Int × List Event :=
  let elembits := bottom_blob.elembits
  if B.ncnn_arm82 ∧ support_fp16_storage ∧ opt.use_fp16_storage ∧ elembits = 16 then
    if opt.use_fp16_arithmetic then
      (X.arm_forward_fp16sa, [Event.forward_fp16sa X.arm_forward_fp16sa])
    else (X.arm_forward_fp16s, [Event.forward_fp16s X.arm_forward_fp16s])
  else if B.ncnn_bf16 ∧ opt.use_bf16_storage ∧ elembits = 16 then
    forward_bf16s B L X opt bottom_blob
  else forward_fp32 B L X opt bottom_blob

/-- Outcomes of the operations of the dynamic-weight `forward` that are not among the
sources. -/
structure DynExternals where
  /-- Whether `flatten(_weight_data, weight_data_flattened, opt)` left the result empty. -/
  flatten_weight_empty : Bool
  /-- Whether `weight_data_transposed.create(...)` left the tensor empty. -/
  create_transposed_empty : Bool
  /-- Whether `flatten(_bias_data, bias_data_flattened, opt)` left the result empty. -/
  flatten_bias_empty : Bool
  /-- Status returned by `op->create_pipeline(opt)` of the ephemeral operator. -/
  op_create_pipeline : Int
  /-- Status returned by `op->forward(bottom_blob, top_blob, opt)`. -/
  op_forward : Int
  /-- Status returned by `op->destroy_pipeline(opt)`. -/
  op_destroy_pipeline : Int

/-- The steps of the dynamic-weight `forward`, in program order. -/
def forward_dynamic_weight_steps (L : DeconvolutionDepthWise) (D : DynExternals)
    (bottom_blob : Mat) (weight_w weight_h weight_d : Int) : List Step :=
  let _num_input := bottom_blob.c * bottom_blob.elempack
  let _kernel_w := weight_w
  let _kernel_h := weight_h
  let _num_output := weight_d * L.group
  [checked (Event.flatten 1) D.flatten_weight_empty] ++
    [checked (Event.create
      ⟨(_kernel_w * _kernel_h * _num_output * _num_input).tdiv L.group, 1, 1, 4, 1⟩ true)
      D.create_transposed_empty] ++
    (if L.bias_term ≠ 0 then [checked (Event.flatten 2) D.flatten_bias_empty] else []) ++
    [unchecked (Event.op_create_pipeline D.op_create_pipeline),
     unchecked (Event.op_forward D.op_forward),
     unchecked (Event.op_destroy_pipeline D.op_destroy_pipeline)]

/-- The overload `forward(const std::vector<Mat>&, std::vector<Mat>&, const Option&)`
(weights as a run-time tensor): flatten and transpose the weights, flatten the bias, build an
ephemeral operator, run it, tear it down, `return 0`.  `weight_w`, `weight_h`, `weight_d`
are the dimensions of `bottom_blobs[1]`. -/
def forward_dynamic_weight (L : DeconvolutionDepthWise) (D : DynExternals)
    (bottom_blob : Mat) (weight_w weight_h weight_d : Int) : Int × List Event :=
  run_steps (forward_dynamic_weight_steps L D bottom_blob weight_w weight_h weight_d)

end DeconvolutionDepthWise_arm

/-! ## `DeconvolutionDepthWise_riscv::forward_fp16s` and `forward_fp16sa` -/

namespace DeconvolutionDepthWise_riscv

/-- The steps of `forward_fp16s`, in program order. -/
def forward_fp16s_steps (B : Build) (vlenb : Int) (L : DeconvolutionDepthWise) (X : Externals)
    (opt : Opt) (bottom_blob : Mat) : List Step :=
  let packn := vlenb.tdiv 2
  let w := bottom_blob.w
  let h := bottom_blob.h
  let channels := bottom_blob.c
  let elemsize := bottom_blob.elemsize
  let elempack := bottom_blob.elempack
  let outw := (w - 1) * L.stride_w + L.kernel_extent_w + L.output_pad_right
  let outh := (h - 1) * L.stride_h + L.kernel_extent_h + L.output_pad_bottom
  let out_elempack : Int :=
    if B.riscv_zvfh ∧ opt.use_packing_layout then
      (if L.num_output.tmod packn = 0 then packn else 1) else 1
  let out_elemsize : Nat := elemsize / elempack.toNat * out_elempack.toNat
  let workspace : Bool := decide (L.pad_left > 0 ∨ L.pad_right > 0 ∨ L.pad_top > 0 ∨
    L.pad_bottom > 0 ∨ (L.output_w > 0 ∧ L.output_h > 0))
  let top_blob_bordered : Mat :=
    ⟨outw, outh, L.num_output.tdiv out_elempack, out_elemsize, out_elempack⟩
  [checked_create X top_blob_bordered workspace] ++
    (if channels * elempack = L.group ∧ L.group = L.num_output then
      (if B.riscv_zvfh ∧ elempack = packn then [unchecked (Event.kernel packn)] else []) ++
      (if elempack = 1 then [unchecked (Event.kernel 1)] else [])
    else
      let channels_g := (channels * elempack).tdiv L.group
      let num_output_g := L.num_output.tdiv L.group
      let g_elempack : Int :=
        if B.riscv_zvfh ∧ opt.use_packing_layout then
          (if channels_g.tmod packn = 0 then packn else 1) else 1
      let out_g_elempack : Int :=
        if B.riscv_zvfh ∧ opt.use_packing_layout then
          (if num_output_g.tmod packn = 0 then packn else 1) else 1
      (if elempack > g_elempack then
        [unchecked (Event.convert_packing 1 X.unpack_empty)] else []) ++
      (if out_g_elempack < out_elempack then
        [checked_create X ⟨outw, outh, L.num_output, out_elemsize / out_elempack.toNat, 1⟩ true]
        else []) ++
      (loopRange L.group).map
        (fun g => unchecked (Event.sub_forward g (X.sub_forward g))) ++
      (if out_g_elempack < out_elempack then
        [unchecked (Event.convert_packing out_elempack X.repack_empty)] else [])) ++
    [checked Event.cut_padding X.cut_padding_empty]

/-- The function `forward_fp16s`; `vlenb` is the value of `csrr_vlenb()`. -/
def forward_fp16s (B : Build) (vlenb : Int) (L : DeconvolutionDepthWise) (X : Externals)
    (opt : Opt) (bottom_blob : Mat) : Int × List Event :=
  run_steps (forward_fp16s_steps B vlenb L X opt bottom_blob)

/-- The steps of `forward_fp16sa`, in program order. -/
def forward_fp16sa_steps (B : Build) (vlenb : Int) (L : DeconvolutionDepthWise) (X : Externals)
    (opt : Opt) (bottom_blob : Mat) : List Step :=
  let packn := vlenb.tdiv 2
  let w := bottom_blob.w
  let h := bottom_blob.h
  let channels := bottom_blob.c
  let elemsize := bottom_blob.elemsize
  let elempack := bottom_blob.elempack
  let outw := (w - 1) * L.stride_w + L.kernel_extent_w + L.output_pad_right
  let outh := (h - 1) * L.stride_h + L.kernel_extent_h + L.output_pad_bottom
  let out_elempack : Int :=
    if B.riscv_zvfh ∧ opt.use_packing_layout then
      (if L.num_output.tmod packn = 0 then packn else 1) else 1
  let out_elemsize : Nat := elemsize / elempack.toNat * out_elempack.toNat
  let workspace : Bool := decide (L.pad_left > 0 ∨ L.pad_right > 0 ∨ L.pad_top > 0 ∨
    L.pad_bottom > 0 ∨ (L.output_w > 0 ∧ L.output_h > 0))
  let top_blob_bordered : Mat :=
    ⟨outw, outh, L.num_output.tdiv out_elempack, out_elemsize, out_elempack⟩
  [checked_create X top_blob_bordered workspace] ++
    (if channels * elempack = L.group ∧ L.group = L.num_output then
      (if B.riscv_zvfh ∧ elempack = packn then [unchecked (Event.kernel packn)] else []) ++
      (if elempack = 1 then [unchecked (Event.kernel 1)] else [])
    else
      let channels_g := (channels * elempack).tdiv L.group
      let num_output_g := L.num_output.tdiv L.group
      let g_elempack : Int :=
        if B.riscv_zvfh ∧ opt.use_packing_layout then
          (if channels_g.tmod packn = 0 then packn else 1) else 1
      let out_g_elempack : Int :=
        if B.riscv_zvfh ∧ opt.use_packing_layout then
          (if num_output_g.tmod packn = 0 then packn else 1) else 1
      (if elempack > g_elempack then
        [unchecked (Event.convert_packing g_elempack X.unpack_empty)] else []) ++
      (if out_g_elempack < out_elempack then
        [checked_create X ⟨outw, outh, L.num_output.tdiv out_g_elempack,
          out_elemsize / out_elempack.toNat * out_g_elempack.toNat, out_g_elempack⟩ true]
        else []) ++
      (loopRange L.group).map
        (fun g => unchecked (Event.sub_forward g (X.sub_forward g))) ++
      (if out_g_elempack < out_elempack then
        [unchecked (Event.convert_packing out_elempack X.repack_empty)] else [])) ++
    [checked Event.cut_padding X.cut_padding_empty]

/-- The function `forward_fp16sa`; `vlenb` is the value of `csrr_vlenb()`. -/
def forward_fp16sa (B : Build) (vlenb : Int) (L : DeconvolutionDepthWise) (X : Externals)
    (opt : Opt) (bottom_blob : Mat) : Int × List Event :=
  run_steps (forward_fp16sa_steps B vlenb L X opt bottom_blob)

end DeconvolutionDepthWise_riscv

/-! ## Reading the event log -/

/-- Modelled from the spec: the number of elements of a tensor (`Mat::total()`, mat.h is not
among the sources); a tensor without elements is "empty/zero-sized". -/
def Mat.total (m : Mat) : Int :=
  m.w * m.h * m.c

/-! ## `Slice_vulkan::forward`: the outputs of the paths that slice the packed axis -/

/-- Modelled from the spec: the header of a GPU tensor (`VkMat`, not among the sources):
rank, width, height, depth, channel count, element size in bytes and element pack. -/
structure VkMat where
  dims : Int
  w : Int
  h : Int
  d : Int
  c : Int
  elemsize : Nat
  elempack : Int
deriving DecidableEq, Repr

/-- Parameters of the `Slice` layer.  `slices` and `indices` are the `int` arrays behind
`slices_ptr` and `indices_ptr`; `indices = none` is the null `indices_ptr`. -/
structure Slice where
  slices : Nat → Int
  indices : Option (Nat → Int)
  axis : Int

namespace Slice_vulkan

/-- Conversion of an `int` to `size_t` (64 bits). -/
def to_size_t (x : Int) : Nat :=
  (x % 2 ^ 64).toNat

/-- Conversion `static_cast<int>` of a `size_t` (two's complement, 32 bits). -/
def to_int (n : Nat) : Int :=
  ((n : Int) + 2 ^ 31) % 2 ^ 32 - 2 ^ 31

/-- The `int slice` computed by the first loop of every path, for output `i` of
`n = top_blobs.size()`, along an axis of extent `extent`, with `q` the sum of the earlier
slice lengths. -/
def slice_length (S : Slice) (n : Nat) (extent q : Int) (i : Nat) : Int :=
  match S.indices with
  | some indices_ptr =>
    if i = n - 1 then extent - q
    else
      let indice := indices_ptr i
      let positive_indice := if indice < 0 then extent + indice else indice
      positive_indice - q
  | none =>
    let slice := S.slices i
    if slice = -233 then to_int (to_size_t (extent - q) / (n - i)) else slice

/-- Source: `opt.use_shader_pack8 && slice % 8 == 0 ? 8 : slice % 4 == 0 ? 4 : 1`. -/
def select_elempack (opt : Opt) (slice : Int) : Int :=
  if opt.use_shader_pack8 ∧ slice.tmod 8 = 0 then 8 else if slice.tmod 4 = 0 then 4 else 1

/-- The paths of `forward` that slice the packed axis: `dims == 1`; `dims == 2`,
`dims == 3` and `dims == 4` with `positive_axis == 0`. -/
inductive PackedPath where
  | dims1
  | dims2
  | dims3
  | dims4
deriving DecidableEq, Repr

/-- Extent of the sliced axis in scalars: `bottom_blob.w * elempack`,
`bottom_blob.h * elempack`, `bottom_blob.c * elempack`. -/
def packed_extent (bottom_blob : VkMat) : PackedPath → Int
  | PackedPath.dims1 => bottom_blob.w * bottom_blob.elempack
  | PackedPath.dims2 => bottom_blob.h * bottom_blob.elempack
  | PackedPath.dims3 => bottom_blob.c * bottom_blob.elempack
  | PackedPath.dims4 => bottom_blob.c * bottom_blob.elempack

/-- Modelled from the spec: `VkMat::create(w, elemsize, elempack, allocator)` (not among the
sources) gives the tensor the requested 1-D shape. -/
def create1 (w : Int) (elemsize : Nat) (elempack : Int) : VkMat :=
  ⟨1, w, 1, 1, 1, elemsize, elempack⟩

/-- Modelled from the spec: `VkMat::create(w, h, elemsize, elempack, allocator)` (not among
the sources) gives the tensor the requested 2-D shape. -/
def create2 (w h : Int) (elemsize : Nat) (elempack : Int) : VkMat :=
  ⟨2, w, h, 1, 1, elemsize, elempack⟩

/-- Modelled from the spec: `VkMat::create(w, h, c, elemsize, elempack, allocator)` (not
among the sources) gives the tensor the requested 3-D shape. -/
def create3 (w h c : Int) (elemsize : Nat) (elempack : Int) : VkMat :=
  ⟨3, w, h, 1, c, elemsize, elempack⟩

/-- Modelled from the spec: `VkMat::create(w, h, d, c, elemsize, elempack, allocator)` (not
among the sources) gives the tensor the requested 4-D shape. -/
def create4 (w h d c : Int) (elemsize : Nat) (elempack : Int) : VkMat :=
  ⟨4, w, h, d, c, elemsize, elempack⟩

/-- The tensor created by `top_blob.create(...)` in the first loop of a packed path, for
slice length `slice`. -/
def create_top (path : PackedPath) (bottom_blob : VkMat) (opt : Opt) (slice : Int) : VkMat :=
  let out_elempack := select_elempack opt slice
  let out_elemsize : Nat :=
    bottom_blob.elemsize / bottom_blob.elempack.toNat * out_elempack.toNat
  match path with
  | PackedPath.dims1 => create1 (slice.tdiv out_elempack) out_elemsize out_elempack
  | PackedPath.dims2 =>
    create2 bottom_blob.w (slice.tdiv out_elempack) out_elemsize out_elempack
  | PackedPath.dims3 =>
    create3 bottom_blob.w bottom_blob.h (slice.tdiv out_elempack) out_elemsize out_elempack
  | PackedPath.dims4 =>
    create4 bottom_blob.w bottom_blob.h bottom_blob.d (slice.tdiv out_elempack) out_elemsize
      out_elempack

/-- Extent of a tensor along the packed axis, in packed units. -/
def packed_axis (t : VkMat) : PackedPath → Int
  | PackedPath.dims1 => t.w
  | PackedPath.dims2 => t.h
  | PackedPath.dims3 => t.c
  | PackedPath.dims4 => t.c

/-- The first loop of a packed path from output `i` on: each output is created with its
slice length; `none` is `return -100` (a created tensor is empty).  The result lists, for
every output, its slice length and the tensor created. -/
def create_tops_from (S : Slice) (opt : Opt) (create_empty : VkMat → Bool) (path : PackedPath)
    (bottom_blob : VkMat) (n : Nat) : List Nat → Int → Option (List (Int × VkMat))
  | [], _ => some []
  | i :: rest, q =>
    let slice := slice_length S n (packed_extent bottom_blob path) q i
    let top_blob := create_top path bottom_blob opt slice
    if create_empty top_blob then none
    else
      (create_tops_from S opt create_empty path bottom_blob n rest (q + slice)).map
        (fun tops => (slice, top_blob) :: tops)

/-- The first loop of a packed path: `for (size_t i = 0; i < top_blobs.size(); i++)` with
`int q = 0`. -/
def create_tops (S : Slice) (opt : Opt) (create_empty : VkMat → Bool) (path : PackedPath)
    (bottom_blob : VkMat) (n : Nat) : Option (List (Int × VkMat)) :=
  create_tops_from S opt create_empty path bottom_blob n (List.range n) 0

/-! ### The rest of a packed path: unified pack, conversion, dispatches -/

/-- The six arrays of two pipelines held by the layer, under the names of the members. -/
inductive PipelineKind where
  | pipeline_slice
  | pipeline_slice_pack4
  | pipeline_slice_pack1to4
  | pipeline_slice_pack8
  | pipeline_slice_pack1to8
  | pipeline_slice_pack4to8
deriving DecidableEq, Repr

/-- The pair (source pack, output pack) in the name of the shader each array is created from
in `create_pipeline`: `slice`, `slice_pack4`, `slice_pack1to4`, `slice_pack8`,
`slice_pack1to8`, `slice_pack4to8`. -/
def PipelineKind.label : PipelineKind → Int × Int
  | PipelineKind.pipeline_slice => (1, 1)
  | PipelineKind.pipeline_slice_pack4 => (4, 4)
  | PipelineKind.pipeline_slice_pack1to4 => (1, 4)
  | PipelineKind.pipeline_slice_pack8 => (8, 8)
  | PipelineKind.pipeline_slice_pack1to8 => (1, 8)
  | PipelineKind.pipeline_slice_pack4to8 => (4, 8)

/-- One call `cmd.record_pipeline(pipeline, bindings, constants, top_blob)`.  `pipeline` is
the array entry the local pointer was assigned from (`none`: the pointer is still `0`);
`offset` is `constants[12].i`. -/
structure Dispatch where
  pipeline : Option (PipelineKind × Nat)
  bindings0 : VkMat
  bindings1 : VkMat
  offset : Int
deriving DecidableEq, Repr

/-- The value of `out_elempack` after
`int out_elempack = top_blobs[0].elempack; for (...) out_elempack = std::min(out_elempack,
top_blobs[i].elempack);`.  Reading `top_blobs[0]` needs an output; without one the value
is not defined by the source and 0 stands for it. -/
def unified_elempack (top_blobs : List VkMat) : Int :=
  match top_blobs with
  | [] => 0
  | top_blob0 :: _ =>
    top_blobs.foldl (fun out_elempack top_blob => min out_elempack top_blob.elempack)
      top_blob0.elempack

/-- Modelled from the spec: `vkdev->convert_packing(src, dst, out_elempack, cmd, opt)` (not
among the sources) gives `dst` the logical shape of `src` with `out_elempack` lanes per
stored unit along the packed axis (`w`, `h` or `c` for rank 1, 2 or above). -/
def convert_packing (src : VkMat) (out_elempack : Int) : VkMat :=
  let out_elemsize : Nat := src.elemsize / src.elempack.toNat * out_elempack.toNat
  if src.dims = 1 then
    { src with w := (src.w * src.elempack).tdiv out_elempack, elemsize := out_elemsize,
               elempack := out_elempack }
  else if src.dims = 2 then
    { src with h := (src.h * src.elempack).tdiv out_elempack, elemsize := out_elemsize,
               elempack := out_elempack }
  else
    { src with c := (src.c * src.elempack).tdiv out_elempack, elemsize := out_elemsize,
               elempack := out_elempack }

/-- The `if` / `else if` chain assigning `pipeline` in the second loop of a packed path. -/
def select_pipeline (out_elempack top_elempack : Int) (i : Nat) :
    Option (PipelineKind × Nat) :=
  if out_elempack = 1 ∧ top_elempack = 1 then
    some (PipelineKind.pipeline_slice, i % 2)
  else if out_elempack = 4 ∧ top_elempack = 4 then
    some (PipelineKind.pipeline_slice_pack4, i % 2)
  else if out_elempack = 1 ∧ top_elempack = 4 then
    some (PipelineKind.pipeline_slice_pack1to4, i % 2)
  else if out_elempack = 8 ∧ top_elempack = 8 then
    some (PipelineKind.pipeline_slice_pack8, i % 2)
  else if out_elempack = 1 ∧ top_elempack = 8 then
    some (PipelineKind.pipeline_slice_pack1to8, i % 2)
  else if out_elempack = 4 ∧ top_elempack = 8 then
    some (PipelineKind.pipeline_slice_pack4to8, i % 2)
  else none

/-- The second loop of a packed path from output `i` on, with `offset` the value of
`woffset` / `hoffset` / `coffset` on entry: one dispatch per output, then
`offset += top_blob.w * top_blob.elempack / out_elempack` (`.h`, `.c` on the other paths). -/
def record_packed_from (path : PackedPath) (bottom_blob_unpacked : VkMat)
    (out_elempack : Int) : List VkMat → Nat → Int → List Dispatch
  | [], _, _ => []
  | top_blob :: rest, i, offset =>
    { pipeline := select_pipeline out_elempack top_blob.elempack i,
      bindings0 := bottom_blob_unpacked, bindings1 := top_blob, offset := offset } ::
      record_packed_from path bottom_blob_unpacked out_elempack rest (i + 1)
        (offset + (packed_axis top_blob path * top_blob.elempack).tdiv out_elempack)

/-- What a run of `forward` leaves behind: the status returned, the target packs of the
calls of `convert_packing`, and the dispatches recorded, in program order. -/
structure Recorded where
  status : Int
  conversions : List Int
  dispatches : List Dispatch
deriving DecidableEq, Repr

/-- A packed path of `forward` with `n = top_blobs.size()` outputs. -/
def forward_packed (S : Slice) (opt : Opt) (create_empty : VkMat → Bool) (path : PackedPath)
    (bottom_blob : VkMat) (n : Nat) : Recorded :=
  match create_tops S opt create_empty path bottom_blob n with
  | none => ⟨-100, [], []⟩
  | some tops =>
    let top_blobs := tops.map Prod.snd
    let out_elempack := unified_elempack top_blobs
    let unpack : Bool := decide (bottom_blob.elempack > out_elempack)
    let bottom_blob_unpacked :=
      if unpack then convert_packing bottom_blob out_elempack else bottom_blob
    ⟨0, if unpack then [out_elempack] else [],
      record_packed_from path bottom_blob_unpacked out_elempack top_blobs 0 0⟩

/-! ### The paths that slice an axis other than the packed one -/

/-- The paths of `forward` that leave the packed axis whole: `dims == 2` with
`positive_axis == 1` (width); `dims == 3` with `positive_axis == 1` (height) and `2`
(width); `dims == 4` with `positive_axis == 1` (depth), `2` (height) and `3` (width). -/
inductive PlainPath where
  | dims2_w
  | dims3_h
  | dims3_w
  | dims4_d
  | dims4_h
  | dims4_w
deriving DecidableEq, Repr

/-- Extent of the sliced axis on a plain path: `bottom_blob.w`, `.h` or `.d`. -/
def plain_extent (bottom_blob : VkMat) : PlainPath → Int
  | PlainPath.dims2_w => bottom_blob.w
  | PlainPath.dims3_h => bottom_blob.h
  | PlainPath.dims3_w => bottom_blob.w
  | PlainPath.dims4_d => bottom_blob.d
  | PlainPath.dims4_h => bottom_blob.h
  | PlainPath.dims4_w => bottom_blob.w

/-- The tensor created by `top_blob.create(...)` in the first loop of a plain path: the
source shape with the sliced axis replaced by `slice`, `elemsize` and `elempack` kept. -/
def create_top_plain (path : PlainPath) (bottom_blob : VkMat) (slice : Int) : VkMat :=
  let w := bottom_blob.w
  let h := bottom_blob.h
  let d := bottom_blob.d
  let channels := bottom_blob.c
  let elemsize := bottom_blob.elemsize
  let elempack := bottom_blob.elempack
  match path with
  | PlainPath.dims2_w => create2 slice h elemsize elempack
  | PlainPath.dims3_h => create3 w slice channels elemsize elempack
  | PlainPath.dims3_w => create3 slice h channels elemsize elempack
  | PlainPath.dims4_d => create4 w h slice channels elemsize elempack
  | PlainPath.dims4_h => create4 w slice d channels elemsize elempack
  | PlainPath.dims4_w => create4 slice h d channels elemsize elempack

/-- Extent of a tensor along the sliced axis of a plain path (`top_blob.w`, `.h`, `.d`). -/
def plain_axis (t : VkMat) : PlainPath → Int
  | PlainPath.dims2_w => t.w
  | PlainPath.dims3_h => t.h
  | PlainPath.dims3_w => t.w
  | PlainPath.dims4_d => t.d
  | PlainPath.dims4_h => t.h
  | PlainPath.dims4_w => t.w

/-- The first loop of a plain path from output `i` on, as `create_tops_from`. -/
def create_tops_plain_from (S : Slice) (create_empty : VkMat → Bool) (path : PlainPath)
    (bottom_blob : VkMat) (n : Nat) : List Nat → Int → Option (List (Int × VkMat))
  | [], _ => some []
  | i :: rest, q =>
    let slice := slice_length S n (plain_extent bottom_blob path) q i
    let top_blob := create_top_plain path bottom_blob slice
    if create_empty top_blob then none
    else
      (create_tops_plain_from S create_empty path bottom_blob n rest (q + slice)).map
        (fun tops => (slice, top_blob) :: tops)

/-- The first loop of a plain path. -/
def create_tops_plain (S : Slice) (create_empty : VkMat → Bool) (path : PlainPath)
    (bottom_blob : VkMat) (n : Nat) : Option (List (Int × VkMat)) :=
  create_tops_plain_from S create_empty path bottom_blob n (List.range n) 0

/-- Source: `elempack == 8 ? pipeline_slice_pack8[i % 2] : elempack == 4 ?
pipeline_slice_pack4[i % 2] : pipeline_slice[i % 2]`. -/
def select_pipeline_plain (elempack : Int) (i : Nat) : PipelineKind × Nat :=
  if elempack = 8 then (PipelineKind.pipeline_slice_pack8, i % 2)
  else if elempack = 4 then (PipelineKind.pipeline_slice_pack4, i % 2)
  else (PipelineKind.pipeline_slice, i % 2)

/-- The second loop of a plain path from output `i` on: one dispatch per output, then
`offset += top_blob.w` (`.h`, `.d` on the other paths). -/
def record_plain_from (path : PlainPath) (bottom_blob : VkMat) :
    List VkMat → Nat → Int → List Dispatch
  | [], _, _ => []
  | top_blob :: rest, i, offset =>
    { pipeline := some (select_pipeline_plain bottom_blob.elempack i),
      bindings0 := bottom_blob, bindings1 := top_blob, offset := offset } ::
      record_plain_from path bottom_blob rest (i + 1) (offset + plain_axis top_blob path)

/-- A plain path of `forward` with `n = top_blobs.size()` outputs. -/
def forward_plain (S : Slice) (create_empty : VkMat → Bool) (path : PlainPath)
    (bottom_blob : VkMat) (n : Nat) : Recorded :=
  match create_tops_plain S create_empty path bottom_blob n with
  | none => ⟨-100, [], []⟩
  | some tops => ⟨0, [], record_plain_from path bottom_blob (tops.map Prod.snd) 0 0⟩

/-- A path of `forward`. -/
inductive Path where
  | packed (path : PackedPath)
  | plain (path : PlainPath)
deriving DecidableEq, Repr

/-- The sequence of `if (dims == ... && positive_axis == ...)` of `forward`;
`none`: no branch is taken and the final `return 0` is reached. -/
def select_path (S : Slice) (bottom_blob : VkMat) : Option Path :=
  let dims := bottom_blob.dims
  let positive_axis := if S.axis < 0 then dims + S.axis else S.axis
  if dims = 1 then some (Path.packed PackedPath.dims1)
  else if dims = 2 ∧ positive_axis = 0 then some (Path.packed PackedPath.dims2)
  else if dims = 2 ∧ positive_axis = 1 then some (Path.plain PlainPath.dims2_w)
  else if dims = 3 ∧ positive_axis = 0 then some (Path.packed PackedPath.dims3)
  else if dims = 3 ∧ positive_axis = 1 then some (Path.plain PlainPath.dims3_h)
  else if dims = 3 ∧ positive_axis = 2 then some (Path.plain PlainPath.dims3_w)
  else if dims = 4 ∧ positive_axis = 0 then some (Path.packed PackedPath.dims4)
  else if dims = 4 ∧ positive_axis = 1 then some (Path.plain PlainPath.dims4_d)
  else if dims = 4 ∧ positive_axis = 2 then some (Path.plain PlainPath.dims4_h)
  else if dims = 4 ∧ positive_axis = 3 then some (Path.plain PlainPath.dims4_w)
  else none

/-- The run of `forward` along a given path. -/
def forward_on (S : Slice) (opt : Opt) (create_empty : VkMat → Bool) (bottom_blob : VkMat)
    (n : Nat) : Path → Recorded
  | Path.packed path => forward_packed S opt create_empty path bottom_blob n
  | Path.plain path => forward_plain S create_empty path bottom_blob n

/-- The outputs created along a given path, each with its slice length. -/
def tops_on (S : Slice) (opt : Opt) (create_empty : VkMat → Bool) (bottom_blob : VkMat)
    (n : Nat) : Path → Option (List (Int × VkMat))
  | Path.packed path => create_tops S opt create_empty path bottom_blob n
  | Path.plain path => create_tops_plain S create_empty path bottom_blob n

/-- The divisor of the offset increment along a path: `out_elempack` on a packed path; a
plain path adds the extent itself. -/
def offset_unit (top_blobs : List VkMat) : Path → Int
  | Path.packed _ => unified_elempack top_blobs
  | Path.plain _ => 1

/-- `Slice_vulkan::forward` on `bottom_blobs[0] = bottom_blob` with
`n = top_blobs.size()` outputs. -/
def forward (S : Slice) (opt : Opt) (create_empty : VkMat → Bool) (bottom_blob : VkMat)
    (n : Nat) : Recorded :=
  match select_path S bottom_blob with
  | some path => forward_on S opt create_empty bottom_blob n path
  | none => ⟨0, [], []⟩

end Slice_vulkan

/-! ## Concrete instances -/

/-- A depthwise layer with 2 channels, a 3 x 2 kernel, strides (2, 3), dilations (2, 1),
output pad 1 on the right, and a bias. -/
def example_layer : DeconvolutionDepthWise :=
  { num_output := 2, kernel_w := 3, kernel_h := 2, dilation_w := 2, dilation_h := 1,
    stride_w := 2, stride_h := 3, pad_left := 0, pad_right := 0, pad_top := 0, pad_bottom := 0,
    output_pad_right := 1, output_pad_bottom := 0, output_w := 0, output_h := 0,
    bias_term := 1, weight_data_size := 12, group := 2, activation_type := 0,
    dynamic_weight := 0 }

/-- A depthwise layer with 2 channels and a 1 x 1 kernel, stride 1, dilation 1, no pads and
no bias. -/
def example_layer_1x1 : DeconvolutionDepthWise :=
  { num_output := 2, kernel_w := 1, kernel_h := 1, dilation_w := 1, dilation_h := 1,
    stride_w := 1, stride_h := 1, pad_left := 0, pad_right := 0, pad_top := 0, pad_bottom := 0,
    output_pad_right := 0, output_pad_bottom := 0, output_w := 0, output_h := 0,
    bias_term := 0, weight_data_size := 2, group := 2, activation_type := 0,
    dynamic_weight := 0 }

/-- A depthwise layer with 2 channels and a 3 x 3 kernel, stride 1, dilation 1, no pads and
no bias. -/
def example_layer_3x3 : DeconvolutionDepthWise :=
  { num_output := 2, kernel_w := 3, kernel_h := 3, dilation_w := 1, dilation_h := 1,
    stride_w := 1, stride_h := 1, pad_left := 0, pad_right := 0, pad_top := 0, pad_bottom := 0,
    output_pad_right := 0, output_pad_bottom := 0, output_w := 0, output_h := 0,
    bias_term := 0, weight_data_size := 18, group := 2, activation_type := 0,
    dynamic_weight := 0 }

/-- A grouped layer: 2 groups, 8 input and 4 output channels, 1 x 1 kernel. -/
def example_layer_grouped : DeconvolutionDepthWise :=
  { num_output := 4, kernel_w := 1, kernel_h := 1, dilation_w := 1, dilation_h := 1,
    stride_w := 1, stride_h := 1, pad_left := 0, pad_right := 0, pad_top := 0, pad_bottom := 0,
    output_pad_right := 0, output_pad_bottom := 0, output_w := 0, output_h := 0,
    bias_term := 0, weight_data_size := 16, group := 2, activation_type := 0,
    dynamic_weight := 0 }

/-- Weights `1, 2, 3, ...`. -/
def example_weights : Int → ℚ :=
  fun k => k + 1

/-- Biases `100, 200, ...`. -/
def example_bias : Int → ℚ :=
  fun g => 100 * (g + 1)

/-- An input tensor. -/
def example_input : Int → Int → Int → ℚ :=
  fun g y x => 1000 * g + 37 * y + 5 * x + 1

/-- The tensor `example_input` with channel 0 replaced. -/
def example_input_other : Int → Int → Int → ℚ :=
  fun g y x => if g = 0 then 7 else 1000 * g + 37 * y + 5 * x + 1

/-- Options with everything off. -/
def example_opt : Opt :=
  { use_packing_layout := false, use_fp16_storage := false, use_fp16_arithmetic := false,
    use_bf16_storage := false, use_shader_pack8 := false, lightmode := false }

/-- Options with packing layout and shader pack8 on. -/
def example_opt_packing : Opt :=
  { use_packing_layout := true, use_fp16_storage := false, use_fp16_arithmetic := false,
    use_bf16_storage := false, use_shader_pack8 := true, lightmode := false }

/-- A build with NEON, bf16 and the RISC-V vector fp16 extension compiled in. -/
def example_build : Build :=
  { arm_neon := true, ncnn_arm82 := false, ncnn_bf16 := true, riscv_zvfh := true }

/-- Externals of a run in which no allocation fails: a created tensor is empty exactly when
it has no element, conversions and `cut_padding` succeed, every sub-operator returns 0. -/
def example_externals : Externals :=
  { create_empty := fun m _ => decide (m.total = 0 ∨ m.elemsize = 0),
    unpack_empty := false, repack_empty := false, cut_padding_empty := false,
    sub_forward := fun _ => 0, arm_forward_fp16s := 0, arm_forward_fp16sa := 0 }

/-- Externals of a run in which the input conversion yields an empty tensor and the
sub-operator of group 0 fails with -100. -/
def example_externals_failing : Externals :=
  { create_empty := fun m _ => decide (m.total = 0 ∨ m.elemsize = 0),
    unpack_empty := true, repack_empty := false, cut_padding_empty := false,
    sub_forward := fun g => if g = 0 then -100 else 0,
    arm_forward_fp16s := 0, arm_forward_fp16sa := 0 }

/-- Externals of a dynamic-weight run in which the ephemeral operator fails: its
`create_pipeline` returns -1 and its `forward` returns -100. -/
def example_dyn_failing : DeconvolutionDepthWise_arm.DynExternals :=
  { flatten_weight_empty := false, create_transposed_empty := false,
    flatten_bias_empty := false, op_create_pipeline := -1, op_forward := -100,
    op_destroy_pipeline := 0 }

/-- An fp32 input tensor, 4 x 3 with 2 channels, elempack 1. -/
def example_blob : Mat :=
  ⟨4, 3, 2, 4, 1⟩

/-- An fp32 input tensor of 8 channels packed by 4. -/
def example_blob_pack4 : Mat :=
  ⟨1, 1, 2, 16, 4⟩

/-- Externals of a run in which every tensor creation fails. -/
def example_externals_alloc_fail : Externals :=
  { create_empty := fun _ _ => true,
    unpack_empty := false, repack_empty := false, cut_padding_empty := false,
    sub_forward := fun _ => 0, arm_forward_fp16s := 0, arm_forward_fp16sa := 0 }

/-- A `Slice` layer with automatic slice lengths and no indices. -/
def example_slice : Slice :=
  { slices := fun _ => -233, indices := none, axis := 0 }

/-- A 3-D source tensor of shape (w = 8, h = 1, c = 16), fp32, elempack 1. -/
def example_vkblob : VkMat :=
  ⟨3, 8, 1, 1, 16, 4, 1⟩

/-- The source tensor of the slicing example: shape (w = 8, h = 1, c = 4), fp32,
elempack 1. -/
def example_vkblob_c4 : VkMat :=
  ⟨3, 8, 1, 1, 4, 4, 1⟩

/-- Slice parameters giving every output the explicit length 2 along axis 0. -/
def example_slice_explicit : Slice :=
  { slices := fun _ => 2, indices := none, axis := 0 }

/-- A 3-D source tensor of 12 channels stored with elempack 4 (shape (8, 1, 3)), fp32. -/
def example_vkblob_pack4 : VkMat :=
  ⟨3, 8, 1, 1, 3, 16, 4⟩

/-- Slice parameters with the explicit lengths 4 and 8 along axis 0. -/
def example_slice_mixed : Slice :=
  { slices := fun i => if i = 0 then 4 else 8, indices := none, axis := 0 }

/-! ## `destroy_pipeline` -/

namespace Slice_vulkan

/-- The twelve pipeline pointers of the layer, as six arrays of two.  A pointer is `none`
(the null pointer `0`) or `some a`, the `Pipeline` object at address `a`. -/
structure Pipelines where
  pipeline_slice : Option Nat × Option Nat
  pipeline_slice_pack4 : Option Nat × Option Nat
  pipeline_slice_pack1to4 : Option Nat × Option Nat
  pipeline_slice_pack8 : Option Nat × Option Nat
  pipeline_slice_pack1to8 : Option Nat × Option Nat
  pipeline_slice_pack4to8 : Option Nat × Option Nat
deriving DecidableEq, Repr

/-- The objects released by `delete p[0]; delete p[1];` (deleting a null pointer does
nothing). -/
def delete_pair (p : Option Nat × Option Nat) : List Nat :=
  p.1.toList ++ p.2.toList

/-- `Slice_vulkan::destroy_pipeline`: the status returned, the pointers afterwards and the
objects deleted, in program order. -/
def destroy_pipeline (s : Pipelines) : Int × Pipelines × List Nat :=
  (0,
   { pipeline_slice := (none, none),
     pipeline_slice_pack4 := (none, none),
     pipeline_slice_pack1to4 := (none, none),
     pipeline_slice_pack8 := (none, none),
     pipeline_slice_pack1to8 := (none, none),
     pipeline_slice_pack4to8 := (none, none) },
   delete_pair s.pipeline_slice ++ delete_pair s.pipeline_slice_pack4 ++
     delete_pair s.pipeline_slice_pack1to4 ++ delete_pair s.pipeline_slice_pack8 ++
     delete_pair s.pipeline_slice_pack1to8 ++ delete_pair s.pipeline_slice_pack4to8)

end Slice_vulkan

namespace DeconvolutionDepthWise_arm

/-- What `destroy_pipeline` does with a sub-operator of `group_ops`. -/
inductive Release (ν : Type) where
  /-- The call `group_ops[i]->destroy_pipeline(opt)`; its result is not read. -/
  | destroy_pipeline (op : ν)
  /-- The statement `delete group_ops[i]`. -/
  | delete (op : ν)
deriving DecidableEq, Repr

/-- `DeconvolutionDepthWise_arm::destroy_pipeline` on the vector `group_ops`: the status
returned, `group_ops` afterwards (`clear()`), and what was done to the sub-operators, in
program order. -/
def destroy_pipeline {ν : Type} (group_ops : List ν) : Int × List ν × List (Release ν) :=
  (0, [], group_ops.flatMap (fun op => [Release.destroy_pipeline op, Release.delete op]))

end DeconvolutionDepthWise_arm

/-! ## Weight transposition of the dynamic-weight `forward` -/

namespace DeconvolutionDepthWise_arm

/-- Length requested by `weight_data_transposed.create(_kernel_w * _kernel_h * _num_output *
_num_input / group, 4u, ...)`.  It is `weight_data_transposed.w`, which the function later
declares as `weight_data_size` (`pd.set(6, weight_data_transposed.w)`). -/
def transposed_size (group _num_input _kernel_w _kernel_h _num_output : Int) : Int :=
  (_kernel_w * _kernel_h * _num_output * _num_input).tdiv group

/-- The transposition loop of the dynamic-weight `forward`, with
`wg2 = weight_data_transposed + g * outch_g * inch_g * maxk` and
`wg = weight_data_flattened + g * inch_g * outch_g * maxk`:
`wg2[(i * inch_g + j) * maxk + k] = wg[(j * outch_g + i) * maxk + k]`.
`wt0` is the content of the created `weight_data_transposed` before the loop; in the
source `_num_output = _weight_data.d * group`. -/
def transpose_loop {α : Type} (group _num_input _kernel_w _kernel_h _num_output : Int)
    (weight_data_flattened wt0 : Int → α) : Int → α :=
  let outch_g := _num_output.tdiv group
  let inch_g := _num_input.tdiv group
  let maxk := _kernel_h * _kernel_w
  (loopRange group).foldl (fun wt g =>
    (loopRange outch_g).foldl (fun wt i =>
      (loopRange inch_g).foldl (fun wt j =>
        (loopRange maxk).foldl (fun wt k =>
          Function.update wt (g * outch_g * inch_g * maxk + ((i * inch_g + j) * maxk + k))
            (weight_data_flattened
              (g * inch_g * outch_g * maxk + ((j * outch_g + i) * maxk + k)))) wt) wt) wt) wt0

/-- The assignments made by the transposition loop, in program order: for each one the
index written in `weight_data_transposed` and the index read in `weight_data_flattened`. -/
def transpose_steps (group _num_input _kernel_w _kernel_h _num_output : Int) :
    List (Int × Int) :=
  let outch_g := _num_output.tdiv group
  let inch_g := _num_input.tdiv group
  let maxk := _kernel_h * _kernel_w
  (loopRange group).flatMap (fun g =>
    (loopRange outch_g).flatMap (fun i =>
      (loopRange inch_g).flatMap (fun j =>
        (loopRange maxk).map (fun k =>
          (g * outch_g * inch_g * maxk + ((i * inch_g + j) * maxk + k),
           g * inch_g * outch_g * maxk + ((j * outch_g + i) * maxk + k))))))

end DeconvolutionDepthWise_arm

/-! ## The 3x3 kernels `conv3x3s1` / `conv3x3s2`, `pack1to4` and `pack1to8` (fp16sa) -/

namespace Conv3x3

/-- The instructions of the `asm volatile` blocks of the four kernels.  Operand `%0` is
`outptr0`, `%1`, `%2`, `%3` are `r0`, `r1`, `r2`, and `%8` .. `%16` are `_k00` .. `_k22`;
registers are given by number, immediates in bytes as written.  The prefetch hints `prfm`
change neither registers nor memory and are left out. -/
inductive Insn where
  /-- Load consecutive output pixels into accumulators and post-increment `%0`:
  `ld1 {v24.8h, v25.8h, v26.8h, v27.8h}, [%0], #64`, `ldr q30, [%0]`. -/
  | ld_out (regs : List Nat) (post : Int)
  /-- Store accumulators to consecutive output pixels and post-increment `%0`:
  `st1 {v28.8h, v29.8h, v30.8h, v31.8h}, [%0], #64`, `str q30, [%0], #16`. -/
  | st_out (regs : List Nat) (post : Int)
  /-- The instruction `sub %0, %0, #imm`. -/
  | sub_out (imm : Int)
  /-- Load `lanes` consecutive input elements from row pointer `%row` into `v reg` (the
  other lanes are cleared) and post-increment the pointer: `ldr q0, [%1], #16`,
  `ldr s1, [%1]`, `ld1 {v0.4h}, [%1], #8`. -/
  | ld_in (reg lanes row : Nat) (post : Int)
  /-- Load one input element into one lane, the others kept: `ld1 {v1.h}[0], [%1]`. -/
  | ld_lane (reg lane row : Nat)
  /-- The instruction `add %row, %row, #imm`. -/
  | add_in (row : Nat) (imm : Int)
  /-- Multiply-accumulate by element: `fmla v24.8h, %8.8h, v0.h[0]`. -/
  | fmla (dst k src lane : Nat)
deriving DecidableEq, Repr

/-- What a block reads and leaves behind: the pixels of `out0` (one vector of `elempack`
lanes each), `outptr0` as a pixel index into `out0`, and `r0`, `r1`, `r2` as element
indices into `img0`. -/
structure KState (V : Type) where
  out : Int → V
  outptr0 : Int
  r0 : Int
  r1 : Int
  r2 : Int

/-- The state of a block in execution: the kernel state, the accumulator registers
(`v24` .. `v31`, as vectors) and the input registers (`v0` .. `v5`, by lane). -/
structure Machine (α V : Type) where
  st : KState V
  acc : Nat → V
  inp : Nat → Nat → α

/-- The row pointer behind operand `%1`, `%2` or `%3`. -/
def KState.row {V : Type} (s : KState V) (n : Nat) : Int :=
  if n = 1 then s.r0 else if n = 2 then s.r1 else s.r2

/-- Assignment to the row pointer behind operand `%1`, `%2` or `%3`. -/
def KState.set_row {V : Type} (s : KState V) (n : Nat) (v : Int) : KState V :=
  if n = 1 then { s with r0 := v } else if n = 2 then { s with r1 := v }
  else { s with r2 := v }

/-- Registers `regs` loaded from the pixels at `ptr`, `ptr + 1`, ... -/
def load_regs {V : Type} (out : Int → V) : Int → List Nat → (Nat → V) → (Nat → V)
  | _, [], acc => acc
  | ptr, reg :: regs, acc => load_regs out (ptr + 1) regs (Function.update acc reg (out ptr))

/-- Registers `regs` stored to the pixels at `ptr`, `ptr + 1`, ... -/
def store_regs {V : Type} (acc : Nat → V) : Int → List Nat → (Int → V) → (Int → V)
  | _, [], out => out
  | ptr, reg :: regs, out => store_regs acc (ptr + 1) regs (Function.update out ptr (acc reg))

/-- Execution of one instruction.  `P` is the element pack of the output (a pixel takes
`2 * P` bytes, an input element 2 bytes), `fma d k a` the result of `fmla` on accumulator
`d`, kernel vector `k` and input element `a`, `zero` the cleared lane, `img` the elements
of `img0`, and `k n` the vector `_k00` .. `_k22` for `n = 0 .. 8`. -/
def exec {α V : Type} (P : Int) (fma : V → V → α → V) (zero : α) (img : Int → α)
    (k : Nat → V) (m : Machine α V) : Insn → Machine α V
  | Insn.ld_out regs post =>
    { m with acc := load_regs m.st.out m.st.outptr0 regs m.acc,
             st := { m.st with outptr0 := m.st.outptr0 + post / (2 * P) } }
  | Insn.st_out regs post =>
    { m with st := { m.st with out := store_regs m.acc m.st.outptr0 regs m.st.out,
                               outptr0 := m.st.outptr0 + post / (2 * P) } }
  | Insn.sub_out imm => { m with st := { m.st with outptr0 := m.st.outptr0 - imm / (2 * P) } }
  | Insn.ld_in reg lanes row post =>
    { m with inp := Function.update m.inp reg
               (fun l => if l < lanes then img (m.st.row row + l) else zero),
             st := m.st.set_row row (m.st.row row + post / 2) }
  | Insn.ld_lane reg lane row =>
    { m with inp := Function.update m.inp reg
               (Function.update (m.inp reg) lane (img (m.st.row row))) }
  | Insn.add_in row imm => { m with st := m.st.set_row row (m.st.row row + imm / 2) }
  | Insn.fmla dst kn src lane =>
    { m with acc := Function.update m.acc dst (fma (m.acc dst) (k (kn - 8)) (m.inp src lane)) }

/-- Execution of an `asm volatile` block from kernel state `s`; `acc0` and `inp0` are the
contents of the vector registers on entry. -/
def run_asm {α V : Type} (P : Int) (fma : V → V → α → V) (zero : α) (img : Int → α)
    (k : Nat → V) (acc0 : Nat → V) (inp0 : Nat → Nat → α) (prog : List Insn)
    (s : KState V) : KState V :=
  (prog.foldl (exec P fma zero img k) { st := s, acc := acc0, inp := inp0 }).st

/-- The nine multiply-accumulates of one output pixel, in the order `_k00`, `_k01`, `_k02`,
`_k10`, ..., `_k22`, on the input elements at `r0`, `r0 + 1`, `r0 + 2`, `r1`, ..., `r2 + 2`. -/
def tap9 {α V : Type} (fma : V → V → α → V) (img : Int → α) (k : Nat → V) (v : V)
    (r0 r1 r2 : Int) : V :=
  fma (fma (fma (fma (fma (fma (fma (fma (fma v
    (k 0) (img r0)) (k 1) (img (r0 + 1))) (k 2) (img (r0 + 2)))
    (k 3) (img r1)) (k 4) (img (r1 + 1))) (k 5) (img (r1 + 2)))
    (k 6) (img r2)) (k 7) (img (r2 + 1))) (k 8) (img (r2 + 2))

/-- One output column by the book: the pixel at `outptr0` receives its nine taps, `outptr0`
moves on by one pixel and the row pointers by the stride `S`. -/
def column {α V : Type} (S : Int) (fma : V → V → α → V) (img : Int → α) (k : Nat → V)
    (s : KState V) : KState V :=
  { out := Function.update s.out s.outptr0 (tap9 fma img k (s.out s.outptr0) s.r0 s.r1 s.r2),
    outptr0 := s.outptr0 + 1,
    r0 := s.r0 + S,
    r1 := s.r1 + S,
    r2 := s.r2 + S }

/-- The `asm volatile` body of the loop `for (; j + 7 < outw; j += 8)` of
`conv3x3s1_pack1to4_fp16sa_neon`. -/
def conv3x3s1_pack1to4_block8 : List Insn :=
  [Insn.ld_out [24, 25, 26, 27] 32, Insn.ld_out [28, 29, 30, 31] 0, Insn.sub_out 32,
   Insn.ld_in 0 8 1 16, Insn.ld_in 1 4 1 0, Insn.fmla 24 8 0 0, Insn.fmla 25 8 0 1,
   Insn.fmla 26 8 0 2, Insn.fmla 27 8 0 3, Insn.fmla 28 8 0 4, Insn.fmla 29 8 0 5,
   Insn.fmla 30 8 0 6, Insn.fmla 31 8 0 7, Insn.fmla 24 9 0 1, Insn.fmla 25 9 0 2,
   Insn.fmla 26 9 0 3, Insn.fmla 27 9 0 4, Insn.fmla 28 9 0 5, Insn.fmla 29 9 0 6,
   Insn.fmla 30 9 0 7, Insn.fmla 31 9 1 0, Insn.fmla 24 10 0 2, Insn.fmla 25 10 0 3,
   Insn.fmla 26 10 0 4, Insn.fmla 27 10 0 5, Insn.fmla 28 10 0 6, Insn.fmla 29 10 0 7,
   Insn.fmla 30 10 1 0, Insn.fmla 31 10 1 1, Insn.ld_in 2 8 2 16, Insn.ld_in 3 4 2 0,
   Insn.fmla 24 11 2 0, Insn.fmla 25 11 2 1, Insn.fmla 26 11 2 2, Insn.fmla 27 11 2 3,
   Insn.fmla 28 11 2 4, Insn.fmla 29 11 2 5, Insn.fmla 30 11 2 6, Insn.fmla 31 11 2 7,
   Insn.fmla 24 12 2 1, Insn.fmla 25 12 2 2, Insn.fmla 26 12 2 3, Insn.fmla 27 12 2 4,
   Insn.fmla 28 12 2 5, Insn.fmla 29 12 2 6, Insn.fmla 30 12 2 7, Insn.fmla 31 12 3 0,
   Insn.fmla 24 13 2 2, Insn.fmla 25 13 2 3, Insn.fmla 26 13 2 4, Insn.fmla 27 13 2 5,
   Insn.fmla 28 13 2 6, Insn.fmla 29 13 2 7, Insn.fmla 30 13 3 0, Insn.fmla 31 13 3 1,
   Insn.ld_in 4 8 3 16, Insn.ld_in 5 4 3 0, Insn.fmla 24 14 4 0, Insn.fmla 25 14 4 1,
   Insn.fmla 26 14 4 2, Insn.fmla 27 14 4 3, Insn.fmla 28 14 4 4, Insn.fmla 29 14 4 5,
   Insn.fmla 30 14 4 6, Insn.fmla 31 14 4 7, Insn.fmla 24 15 4 1, Insn.fmla 25 15 4 2,
   Insn.fmla 26 15 4 3, Insn.fmla 27 15 4 4, Insn.fmla 28 15 4 5, Insn.fmla 29 15 4 6,
   Insn.fmla 30 15 4 7, Insn.fmla 31 15 5 0, Insn.fmla 24 16 4 2, Insn.fmla 25 16 4 3,
   Insn.fmla 26 16 4 4, Insn.fmla 27 16 4 5, Insn.fmla 28 16 4 6, Insn.fmla 29 16 4 7,
   Insn.fmla 30 16 5 0, Insn.fmla 31 16 5 1, Insn.st_out [24, 25, 26, 27] 32,
   Insn.st_out [28, 29, 30, 31] 32]

/-- The `asm volatile` body of the loop `for (; j + 3 < outw; j += 4)` of
`conv3x3s1_pack1to4_fp16sa_neon`. -/
def conv3x3s1_pack1to4_block4 : List Insn :=
  [Insn.ld_out [28, 29, 30, 31] 0, Insn.ld_in 0 8 1 0, Insn.fmla 28 8 0 0, Insn.fmla 29 8 0 1,
   Insn.fmla 30 8 0 2, Insn.fmla 31 8 0 3, Insn.fmla 28 9 0 1, Insn.fmla 29 9 0 2,
   Insn.fmla 30 9 0 3, Insn.fmla 31 9 0 4, Insn.fmla 28 10 0 2, Insn.fmla 29 10 0 3,
   Insn.fmla 30 10 0 4, Insn.fmla 31 10 0 5, Insn.ld_in 1 8 2 0, Insn.fmla 28 11 1 0,
   Insn.fmla 29 11 1 1, Insn.fmla 30 11 1 2, Insn.fmla 31 11 1 3, Insn.fmla 28 12 1 1,
   Insn.fmla 29 12 1 2, Insn.fmla 30 12 1 3, Insn.fmla 31 12 1 4, Insn.fmla 28 13 1 2,
   Insn.fmla 29 13 1 3, Insn.fmla 30 13 1 4, Insn.fmla 31 13 1 5, Insn.ld_in 2 8 3 0,
   Insn.fmla 28 14 2 0, Insn.fmla 29 14 2 1, Insn.fmla 30 14 2 2, Insn.fmla 31 14 2 3,
   Insn.fmla 28 15 2 1, Insn.fmla 29 15 2 2, Insn.fmla 30 15 2 3, Insn.fmla 31 15 2 4,
   Insn.fmla 28 16 2 2, Insn.fmla 29 16 2 3, Insn.fmla 30 16 2 4, Insn.fmla 31 16 2 5,
   Insn.add_in 1 8, Insn.add_in 2 8, Insn.add_in 3 8, Insn.st_out [28, 29, 30, 31] 32]

/-- The `asm volatile` body of the loop `for (; j + 1 < outw; j += 2)` of
`conv3x3s1_pack1to4_fp16sa_neon`. -/
def conv3x3s1_pack1to4_block2 : List Insn :=
  [Insn.ld_out [30, 31] 0, Insn.ld_in 0 4 1 0, Insn.fmla 30 8 0 0, Insn.fmla 31 8 0 1,
   Insn.fmla 30 9 0 1, Insn.fmla 31 9 0 2, Insn.fmla 30 10 0 2, Insn.fmla 31 10 0 3,
   Insn.ld_in 1 4 2 0, Insn.fmla 30 11 1 0, Insn.fmla 31 11 1 1, Insn.fmla 30 12 1 1,
   Insn.fmla 31 12 1 2, Insn.fmla 30 13 1 2, Insn.fmla 31 13 1 3, Insn.ld_in 2 4 3 0,
   Insn.fmla 30 14 2 0, Insn.fmla 31 14 2 1, Insn.fmla 30 15 2 1, Insn.fmla 31 15 2 2,
   Insn.fmla 30 16 2 2, Insn.fmla 31 16 2 3, Insn.add_in 1 4, Insn.add_in 2 4, Insn.add_in 3 4,
   Insn.st_out [30, 31] 16]

/-- The `asm volatile` body of the loop `for (; j < outw; j++)` of
`conv3x3s1_pack1to4_fp16sa_neon`. -/
def conv3x3s1_pack1to4_block1 : List Insn :=
  [Insn.ld_out [30] 0, Insn.ld_in 0 4 1 0, Insn.fmla 30 8 0 0, Insn.fmla 30 9 0 1,
   Insn.fmla 30 10 0 2, Insn.ld_in 1 4 2 0, Insn.fmla 30 11 1 0, Insn.fmla 30 12 1 1,
   Insn.fmla 30 13 1 2, Insn.ld_in 2 4 3 0, Insn.fmla 30 14 2 0, Insn.fmla 30 15 2 1,
   Insn.fmla 30 16 2 2, Insn.add_in 1 2, Insn.add_in 2 2, Insn.add_in 3 2, Insn.st_out [30] 8]

/-- The `asm volatile` body of the loop `for (; j + 3 < outw; j += 4)` of
`conv3x3s2_pack1to4_fp16sa_neon`. -/
def conv3x3s2_pack1to4_block4 : List Insn :=
  [Insn.ld_out [28, 29, 30, 31] 0, Insn.ld_in 0 8 1 16, Insn.ld_lane 1 0 1, Insn.fmla 28 8 0 0,
   Insn.fmla 29 8 0 2, Insn.fmla 30 8 0 4, Insn.fmla 31 8 0 6, Insn.fmla 28 9 0 1,
   Insn.fmla 29 9 0 3, Insn.fmla 30 9 0 5, Insn.fmla 31 9 0 7, Insn.fmla 28 10 0 2,
   Insn.fmla 29 10 0 4, Insn.fmla 30 10 0 6, Insn.fmla 31 10 1 0, Insn.ld_in 2 8 2 16,
   Insn.ld_lane 3 0 2, Insn.fmla 28 11 2 0, Insn.fmla 29 11 2 2, Insn.fmla 30 11 2 4,
   Insn.fmla 31 11 2 6, Insn.fmla 28 12 2 1, Insn.fmla 29 12 2 3, Insn.fmla 30 12 2 5,
   Insn.fmla 31 12 2 7, Insn.fmla 28 13 2 2, Insn.fmla 29 13 2 4, Insn.fmla 30 13 2 6,
   Insn.fmla 31 13 3 0, Insn.ld_in 4 8 3 16, Insn.ld_lane 5 0 3, Insn.fmla 28 14 4 0,
   Insn.fmla 29 14 4 2, Insn.fmla 30 14 4 4, Insn.fmla 31 14 4 6, Insn.fmla 28 15 4 1,
   Insn.fmla 29 15 4 3, Insn.fmla 30 15 4 5, Insn.fmla 31 15 4 7, Insn.fmla 28 16 4 2,
   Insn.fmla 29 16 4 4, Insn.fmla 30 16 4 6, Insn.fmla 31 16 5 0, Insn.st_out [28, 29, 30, 31] 32]

/-- The `asm volatile` body of the loop `for (; j + 1 < outw; j += 2)` of
`conv3x3s2_pack1to4_fp16sa_neon`. -/
def conv3x3s2_pack1to4_block2 : List Insn :=
  [Insn.ld_out [30, 31] 0, Insn.ld_in 0 4 1 8, Insn.ld_lane 1 0 1, Insn.fmla 30 8 0 0,
   Insn.fmla 31 8 0 2, Insn.fmla 30 9 0 1, Insn.fmla 31 9 0 3, Insn.fmla 30 10 0 2,
   Insn.fmla 31 10 1 0, Insn.ld_in 2 4 2 8, Insn.ld_lane 3 0 2, Insn.fmla 30 11 2 0,
   Insn.fmla 31 11 2 2, Insn.fmla 30 12 2 1, Insn.fmla 31 12 2 3, Insn.fmla 30 13 2 2,
   Insn.fmla 31 13 3 0, Insn.ld_in 4 4 3 8, Insn.ld_lane 5 0 3, Insn.fmla 30 14 4 0,
   Insn.fmla 31 14 4 2, Insn.fmla 30 15 4 1, Insn.fmla 31 15 4 3, Insn.fmla 30 16 4 2,
   Insn.fmla 31 16 5 0, Insn.st_out [30, 31] 16]

/-- The `asm volatile` body of the loop `for (; j < outw; j++)` of
`conv3x3s2_pack1to4_fp16sa_neon`. -/
def conv3x3s2_pack1to4_block1 : List Insn :=
  [Insn.ld_out [30] 0, Insn.ld_in 0 4 1 0, Insn.fmla 30 8 0 0, Insn.fmla 30 9 0 1,
   Insn.fmla 30 10 0 2, Insn.ld_in 1 4 2 0, Insn.fmla 30 11 1 0, Insn.fmla 30 12 1 1,
   Insn.fmla 30 13 1 2, Insn.ld_in 2 4 3 0, Insn.fmla 30 14 2 0, Insn.fmla 30 15 2 1,
   Insn.fmla 30 16 2 2, Insn.add_in 1 4, Insn.add_in 2 4, Insn.add_in 3 4, Insn.st_out [30] 8]

/-- The `asm volatile` body of the loop `for (; j + 7 < outw; j += 8)` of
`conv3x3s1_pack1to8_fp16sa_neon`. -/
def conv3x3s1_pack1to8_block8 : List Insn :=
  [Insn.ld_out [24, 25, 26, 27] 64, Insn.ld_out [28, 29, 30, 31] 0, Insn.sub_out 64,
   Insn.ld_in 0 8 1 16, Insn.ld_in 1 2 1 0, Insn.fmla 24 8 0 0, Insn.fmla 25 8 0 1,
   Insn.fmla 26 8 0 2, Insn.fmla 27 8 0 3, Insn.fmla 28 8 0 4, Insn.fmla 29 8 0 5,
   Insn.fmla 30 8 0 6, Insn.fmla 31 8 0 7, Insn.fmla 24 9 0 1, Insn.fmla 25 9 0 2,
   Insn.fmla 26 9 0 3, Insn.fmla 27 9 0 4, Insn.fmla 28 9 0 5, Insn.fmla 29 9 0 6,
   Insn.fmla 30 9 0 7, Insn.fmla 31 9 1 0, Insn.fmla 24 10 0 2, Insn.fmla 25 10 0 3,
   Insn.fmla 26 10 0 4, Insn.fmla 27 10 0 5, Insn.fmla 28 10 0 6, Insn.fmla 29 10 0 7,
   Insn.fmla 30 10 1 0, Insn.fmla 31 10 1 1, Insn.ld_in 2 8 2 16, Insn.ld_in 3 2 2 0,
   Insn.fmla 24 11 2 0, Insn.fmla 25 11 2 1, Insn.fmla 26 11 2 2, Insn.fmla 27 11 2 3,
   Insn.fmla 28 11 2 4, Insn.fmla 29 11 2 5, Insn.fmla 30 11 2 6, Insn.fmla 31 11 2 7,
   Insn.fmla 24 12 2 1, Insn.fmla 25 12 2 2, Insn.fmla 26 12 2 3, Insn.fmla 27 12 2 4,
   Insn.fmla 28 12 2 5, Insn.fmla 29 12 2 6, Insn.fmla 30 12 2 7, Insn.fmla 31 12 3 0,
   Insn.fmla 24 13 2 2, Insn.fmla 25 13 2 3, Insn.fmla 26 13 2 4, Insn.fmla 27 13 2 5,
   Insn.fmla 28 13 2 6, Insn.fmla 29 13 2 7, Insn.fmla 30 13 3 0, Insn.fmla 31 13 3 1,
   Insn.ld_in 4 8 3 16, Insn.ld_in 5 2 3 0, Insn.fmla 24 14 4 0, Insn.fmla 25 14 4 1,
   Insn.fmla 26 14 4 2, Insn.fmla 27 14 4 3, Insn.fmla 28 14 4 4, Insn.fmla 29 14 4 5,
   Insn.fmla 30 14 4 6, Insn.fmla 31 14 4 7, Insn.fmla 24 15 4 1, Insn.fmla 25 15 4 2,
   Insn.fmla 26 15 4 3, Insn.fmla 27 15 4 4, Insn.fmla 28 15 4 5, Insn.fmla 29 15 4 6,
   Insn.fmla 30 15 4 7, Insn.fmla 31 15 5 0, Insn.fmla 24 16 4 2, Insn.fmla 25 16 4 3,
   Insn.fmla 26 16 4 4, Insn.fmla 27 16 4 5, Insn.fmla 28 16 4 6, Insn.fmla 29 16 4 7,
   Insn.fmla 30 16 5 0, Insn.fmla 31 16 5 1, Insn.st_out [24, 25, 26, 27] 64,
   Insn.st_out [28, 29, 30, 31] 64]

/-- The `asm volatile` body of the loop `for (; j + 3 < outw; j += 4)` of
`conv3x3s1_pack1to8_fp16sa_neon`. -/
def conv3x3s1_pack1to8_block4 : List Insn :=
  [Insn.ld_out [28, 29, 30, 31] 0, Insn.ld_in 0 8 1 0, Insn.fmla 28 8 0 0, Insn.fmla 29 8 0 1,
   Insn.fmla 30 8 0 2, Insn.fmla 31 8 0 3, Insn.fmla 28 9 0 1, Insn.fmla 29 9 0 2,
   Insn.fmla 30 9 0 3, Insn.fmla 31 9 0 4, Insn.fmla 28 10 0 2, Insn.fmla 29 10 0 3,
   Insn.fmla 30 10 0 4, Insn.fmla 31 10 0 5, Insn.ld_in 1 8 2 0, Insn.fmla 28 11 1 0,
   Insn.fmla 29 11 1 1, Insn.fmla 30 11 1 2, Insn.fmla 31 11 1 3, Insn.fmla 28 12 1 1,
   Insn.fmla 29 12 1 2, Insn.fmla 30 12 1 3, Insn.fmla 31 12 1 4, Insn.fmla 28 13 1 2,
   Insn.fmla 29 13 1 3, Insn.fmla 30 13 1 4, Insn.fmla 31 13 1 5, Insn.ld_in 2 8 3 0,
   Insn.fmla 28 14 2 0, Insn.fmla 29 14 2 1, Insn.fmla 30 14 2 2, Insn.fmla 31 14 2 3,
   Insn.fmla 28 15 2 1, Insn.fmla 29 15 2 2, Insn.fmla 30 15 2 3, Insn.fmla 31 15 2 4,
   Insn.fmla 28 16 2 2, Insn.fmla 29 16 2 3, Insn.fmla 30 16 2 4, Insn.fmla 31 16 2 5,
   Insn.add_in 1 8, Insn.add_in 2 8, Insn.add_in 3 8, Insn.st_out [28, 29, 30, 31] 64]

/-- The `asm volatile` body of the loop `for (; j + 1 < outw; j += 2)` of
`conv3x3s1_pack1to8_fp16sa_neon`. -/
def conv3x3s1_pack1to8_block2 : List Insn :=
  [Insn.ld_out [30, 31] 0, Insn.ld_in 0 4 1 0, Insn.fmla 30 8 0 0, Insn.fmla 31 8 0 1,
   Insn.fmla 30 9 0 1, Insn.fmla 31 9 0 2, Insn.fmla 30 10 0 2, Insn.fmla 31 10 0 3,
   Insn.ld_in 1 4 2 0, Insn.fmla 30 11 1 0, Insn.fmla 31 11 1 1, Insn.fmla 30 12 1 1,
   Insn.fmla 31 12 1 2, Insn.fmla 30 13 1 2, Insn.fmla 31 13 1 3, Insn.ld_in 2 4 3 0,
   Insn.fmla 30 14 2 0, Insn.fmla 31 14 2 1, Insn.fmla 30 15 2 1, Insn.fmla 31 15 2 2,
   Insn.fmla 30 16 2 2, Insn.fmla 31 16 2 3, Insn.add_in 1 4, Insn.add_in 2 4, Insn.add_in 3 4,
   Insn.st_out [30, 31] 32]

/-- The `asm volatile` body of the loop `for (; j < outw; j++)` of
`conv3x3s1_pack1to8_fp16sa_neon`. -/
def conv3x3s1_pack1to8_block1 : List Insn :=
  [Insn.ld_out [30] 0, Insn.ld_in 0 4 1 0, Insn.fmla 30 8 0 0, Insn.fmla 30 9 0 1,
   Insn.fmla 30 10 0 2, Insn.ld_in 1 4 2 0, Insn.fmla 30 11 1 0, Insn.fmla 30 12 1 1,
   Insn.fmla 30 13 1 2, Insn.ld_in 2 4 3 0, Insn.fmla 30 14 2 0, Insn.fmla 30 15 2 1,
   Insn.fmla 30 16 2 2, Insn.add_in 1 2, Insn.add_in 2 2, Insn.add_in 3 2, Insn.st_out [30] 16]

/-- The `asm volatile` body of the loop `for (; j + 3 < outw; j += 4)` of
`conv3x3s2_pack1to8_fp16sa_neon`. -/
def conv3x3s2_pack1to8_block4 : List Insn :=
  [Insn.ld_out [28, 29, 30, 31] 0, Insn.ld_in 0 8 1 16, Insn.ld_in 1 1 1 0, Insn.fmla 28 8 0 0,
   Insn.fmla 29 8 0 2, Insn.fmla 30 8 0 4, Insn.fmla 31 8 0 6, Insn.fmla 28 9 0 1,
   Insn.fmla 29 9 0 3, Insn.fmla 30 9 0 5, Insn.fmla 31 9 0 7, Insn.fmla 28 10 0 2,
   Insn.fmla 29 10 0 4, Insn.fmla 30 10 0 6, Insn.fmla 31 10 1 0, Insn.ld_in 2 8 2 16,
   Insn.ld_in 3 1 2 0, Insn.fmla 28 11 2 0, Insn.fmla 29 11 2 2, Insn.fmla 30 11 2 4,
   Insn.fmla 31 11 2 6, Insn.fmla 28 12 2 1, Insn.fmla 29 12 2 3, Insn.fmla 30 12 2 5,
   Insn.fmla 31 12 2 7, Insn.fmla 28 13 2 2, Insn.fmla 29 13 2 4, Insn.fmla 30 13 2 6,
   Insn.fmla 31 13 3 0, Insn.ld_in 4 8 3 16, Insn.ld_in 5 1 3 0, Insn.fmla 28 14 4 0,
   Insn.fmla 29 14 4 2, Insn.fmla 30 14 4 4, Insn.fmla 31 14 4 6, Insn.fmla 28 15 4 1,
   Insn.fmla 29 15 4 3, Insn.fmla 30 15 4 5, Insn.fmla 31 15 4 7, Insn.fmla 28 16 4 2,
   Insn.fmla 29 16 4 4, Insn.fmla 30 16 4 6, Insn.fmla 31 16 5 0, Insn.st_out [28, 29, 30, 31] 64]

/-- The `asm volatile` body of the loop `for (; j + 1 < outw; j += 2)` of
`conv3x3s2_pack1to8_fp16sa_neon`. -/
def conv3x3s2_pack1to8_block2 : List Insn :=
  [Insn.ld_out [30, 31] 0, Insn.ld_in 0 4 1 8, Insn.ld_in 1 1 1 0, Insn.fmla 30 8 0 0,
   Insn.fmla 31 8 0 2, Insn.fmla 30 9 0 1, Insn.fmla 31 9 0 3, Insn.fmla 30 10 0 2,
   Insn.fmla 31 10 1 0, Insn.ld_in 2 4 2 8, Insn.ld_in 3 1 2 0, Insn.fmla 30 11 2 0,
   Insn.fmla 31 11 2 2, Insn.fmla 30 12 2 1, Insn.fmla 31 12 2 3, Insn.fmla 30 13 2 2,
   Insn.fmla 31 13 3 0, Insn.ld_in 4 4 3 8, Insn.ld_in 5 1 3 0, Insn.fmla 30 14 4 0,
   Insn.fmla 31 14 4 2, Insn.fmla 30 15 4 1, Insn.fmla 31 15 4 3, Insn.fmla 30 16 4 2,
   Insn.fmla 31 16 5 0, Insn.st_out [30, 31] 32]

/-- The `asm volatile` body of the loop `for (; j < outw; j++)` of
`conv3x3s2_pack1to8_fp16sa_neon`. -/
def conv3x3s2_pack1to8_block1 : List Insn :=
  [Insn.ld_out [30] 0, Insn.ld_in 0 4 1 0, Insn.fmla 30 8 0 0, Insn.fmla 30 9 0 1,
   Insn.fmla 30 10 0 2, Insn.ld_in 1 4 2 0, Insn.fmla 30 11 1 0, Insn.fmla 30 12 1 1,
   Insn.fmla 30 13 1 2, Insn.ld_in 2 4 3 0, Insn.fmla 30 14 2 0, Insn.fmla 30 15 2 1,
   Insn.fmla 30 16 2 2, Insn.add_in 1 4, Insn.add_in 2 4, Insn.add_in 3 4, Insn.st_out [30] 16]

/-- A loop `for (; j + (W - 1) < outw; j += W) body` entered with column `j` and state `s`:
the values of `j` and of the state on exit.  `fuel` bounds the number of iterations. -/
def block_loop {σ : Type} (W outw : Int) (body : Int → σ → σ) : Nat → Int → σ → Int × σ
  | 0, j, s => (j, s)
  | fuel + 1, j, s =>
    if j + (W - 1) < outw then block_loop W outw body fuel (j + W) (body j s) else (j, s)

/-- The column loops of one output row of the stride-1 kernels: `int j = 0;` then the loops
with steps 8, 4, 2 and 1.  Every iteration advances `j` by at least 1, so `outw`
iterations are never exceeded. -/
def columns_s1 {σ : Type} (outw : Int) (b8 b4 b2 b1 : Int → σ → σ) (s : σ) : Int × σ :=
  let fuel := outw.toNat
  let js8 := block_loop 8 outw b8 fuel 0 s
  let js4 := block_loop 4 outw b4 fuel js8.1 js8.2
  let js2 := block_loop 2 outw b2 fuel js4.1 js4.2
  block_loop 1 outw b1 fuel js2.1 js2.2

/-- The column loops of one output row of the stride-2 kernels: `int j = 0;` then the loops
with steps 4, 2 and 1. -/
def columns_s2 {σ : Type} (outw : Int) (b4 b2 b1 : Int → σ → σ) (s : σ) : Int × σ :=
  let fuel := outw.toNat
  let js4 := block_loop 4 outw b4 fuel 0 s
  let js2 := block_loop 2 outw b2 fuel js4.1 js4.2
  block_loop 1 outw b1 fuel js2.1 js2.2

/-- The blocks run by the column loops of a stride-1 kernel for one output row, each as
(value of `j` on entry, number of columns), in program order, with the final `j`. -/
def block_trace_s1 (outw : Int) : Int × List (Int × Int) :=
  columns_s1 outw (fun j l => l ++ [(j, 8)]) (fun j l => l ++ [(j, 4)])
    (fun j l => l ++ [(j, 2)]) (fun j l => l ++ [(j, 1)]) []

/-- The blocks run by the column loops of a stride-2 kernel for one output row. -/
def block_trace_s2 (outw : Int) : Int × List (Int × Int) :=
  columns_s2 outw (fun j l => l ++ [(j, 4)]) (fun j l => l ++ [(j, 2)])
    (fun j l => l ++ [(j, 1)]) []

/-- The loop `for (; i < outh; i++)`: the column loops, then `r0 += tail; r1 += tail;
r2 += tail;` (`tail` is 2 in the stride-1 kernels and `tailstep` in the stride-2 ones). -/
def rows {V : Type} (columns : KState V → Int × KState V) (tail outh : Int)
    (s : KState V) : KState V :=
  (loopRange outh).foldl (fun s _ =>
    let s' := (columns s).2
    { s' with r0 := s'.r0 + tail, r1 := s'.r1 + tail, r2 := s'.r2 + tail }) s

/-- The vector operations the kernels use next to the assembly: `vld1q_f16` / `vld1_f16`
(load of `elempack` consecutive elements), `vdupq_n_f16` / `vdup_n_f16`, the arithmetic of
`fmla`, and the value `(__fp16)0.f`. -/
structure Simd (α V : Type) where
  vld1 : (Int → α) → Int → V
  vdup : α → V
  fma : V → V → α → V
  zero : α

/-- The state on entry of the loop over output rows for input channel `img0`: `outptr0` at
the start of `out0`, `r0`, `r1`, `r2` at rows 0, 1, 2 of `img0` (rows of `w` elements). -/
def channel_entry {V : Type} (out0 : Int → V) (w : Int) : KState V :=
  { out := out0, outptr0 := 0, r0 := 0, r1 := w, r2 := 2 * w }

/-- The vectors `_k00` .. `_k22` (`n = 0 .. 8`) loaded from `k0`, `k0 + P`, ..., `k0 + 8 * P`. -/
def load_kernel {α V : Type} (X : Simd α V) (P : Int) (kernel_p : Int → α) (k0 : Int)
    (n : Nat) : V :=
  X.vld1 kernel_p (k0 + n * P)

/-- The vector `_bias0`: `bias ? vld1q_f16(bias + p * P) : vdupq_n_f16((__fp16)0.f)`
(`vld1_f16`, `vdup_n_f16` for `P = 4`); `bias = none` is the null pointer. -/
def load_bias {α V : Type} (X : Simd α V) (P : Int) (bias : Option (Int → α)) (p : Int) : V :=
  match bias with
  | some b => X.vld1 b (p * P)
  | none => X.vdup X.zero

/-- The loop over output rows of a stride-1 kernel with column blocks `b8`, `b4`, `b2`,
`b1`, for the input channel `img` and kernel vectors `k`; `acc0`, `inp0` are the vector
registers on entry of a block. -/
def rows_s1 {α V : Type} (P : Int) (fma : V → V → α → V) (zero : α) (img : Int → α)
    (k : Nat → V) (acc0 : Nat → V) (inp0 : Nat → Nat → α) (b8 b4 b2 b1 : List Insn)
    (outw outh : Int) (s : KState V) : KState V :=
  let block := fun (prog : List Insn) (_ : Int) (s : KState V) =>
    run_asm P fma zero img k acc0 inp0 prog s
  rows (columns_s1 outw (block b8) (block b4) (block b2) (block b1)) 2 outh s

/-- The loop over output rows of a stride-2 kernel with column blocks `b4`, `b2`, `b1`,
where `const int tailstep = w - 2 * outw + w;`. -/
def rows_s2 {α V : Type} (P : Int) (fma : V → V → α → V) (zero : α) (img : Int → α)
    (k : Nat → V) (acc0 : Nat → V) (inp0 : Nat → Nat → α) (b4 b2 b1 : List Insn)
    (w outw outh : Int) (s : KState V) : KState V :=
  let tailstep := w - 2 * outw + w
  let block := fun (prog : List Insn) (_ : Int) (s : KState V) =>
    run_asm P fma zero img k acc0 inp0 prog s
  rows (columns_s2 outw (block b4) (block b2) (block b1)) tailstep outh s

/-- The body of `for (int p = 0; p < outch; p++)` of the stride-1 kernels, as the final
pixels of `out0 = top_blob.channel(p)`.  `w`, `inch` are `bottom_blob.w`, `bottom_blob.c`;
`bottom_blob q` holds the elements of channel `q`, `kernel p` those of `kernel.channel(p)`.
`out0.fill(_bias0)` gives every pixel the value `_bias0`; the fold over the input channels
carries `out0` and the pointer `k0`, which starts at `kernel.channel(p)` and is advanced
by `9 * P` after each channel. -/
def conv3x3s1 {α V : Type} (X : Simd α V) (P : Int) (b8 b4 b2 b1 : List Insn)
    (acc0 : Nat → V) (inp0 : Nat → Nat → α) (w inch outw outh : Int)
    (bottom_blob kernel : Int → Int → α) (bias : Option (Int → α)) (p : Int) : Int → V :=
  let _bias0 : V := load_bias X P bias p
  ((loopRange inch).foldl (fun (st : (Int → V) × Int) q =>
    ((rows_s1 P X.fma X.zero (bottom_blob q) (load_kernel X P (kernel p) st.2) acc0 inp0
        b8 b4 b2 b1 outw outh (channel_entry st.1 w)).out,
      st.2 + 9 * P)) (fun _ => _bias0, 0)).1

/-- The body of `for (int p = 0; p < outch; p++)` of the stride-2 kernels. -/
def conv3x3s2 {α V : Type} (X : Simd α V) (P : Int) (b4 b2 b1 : List Insn)
    (acc0 : Nat → V) (inp0 : Nat → Nat → α) (w inch outw outh : Int)
    (bottom_blob kernel : Int → Int → α) (bias : Option (Int → α)) (p : Int) : Int → V :=
  let _bias0 : V := load_bias X P bias p
  ((loopRange inch).foldl (fun (st : (Int → V) × Int) q =>
    ((rows_s2 P X.fma X.zero (bottom_blob q) (load_kernel X P (kernel p) st.2) acc0 inp0
        b4 b2 b1 w outw outh (channel_entry st.1 w)).out,
      st.2 + 9 * P)) (fun _ => _bias0, 0)).1

/-- The four kernels. -/
inductive Kernel where
  | conv3x3s1_pack1to4
  | conv3x3s2_pack1to4
  | conv3x3s1_pack1to8
  | conv3x3s2_pack1to8
deriving DecidableEq, Repr

/-- Element pack of the output of a kernel. -/
def Kernel.P : Kernel → Int
  | Kernel.conv3x3s1_pack1to4 => 4
  | Kernel.conv3x3s2_pack1to4 => 4
  | Kernel.conv3x3s1_pack1to8 => 8
  | Kernel.conv3x3s2_pack1to8 => 8

/-- Stride of a kernel. -/
def Kernel.S : Kernel → Int
  | Kernel.conv3x3s1_pack1to4 => 1
  | Kernel.conv3x3s2_pack1to4 => 2
  | Kernel.conv3x3s1_pack1to8 => 1
  | Kernel.conv3x3s2_pack1to8 => 2

/-- The column blocks of a kernel, widest first, each with its number of columns. -/
def Kernel.blocks : Kernel → List (Int × List Insn)
  | Kernel.conv3x3s1_pack1to4 =>
    [(8, conv3x3s1_pack1to4_block8), (4, conv3x3s1_pack1to4_block4),
     (2, conv3x3s1_pack1to4_block2), (1, conv3x3s1_pack1to4_block1)]
  | Kernel.conv3x3s2_pack1to4 =>
    [(4, conv3x3s2_pack1to4_block4), (2, conv3x3s2_pack1to4_block2),
     (1, conv3x3s2_pack1to4_block1)]
  | Kernel.conv3x3s1_pack1to8 =>
    [(8, conv3x3s1_pack1to8_block8), (4, conv3x3s1_pack1to8_block4),
     (2, conv3x3s1_pack1to8_block2), (1, conv3x3s1_pack1to8_block1)]
  | Kernel.conv3x3s2_pack1to8 =>
    [(4, conv3x3s2_pack1to8_block4), (2, conv3x3s2_pack1to8_block2),
     (1, conv3x3s2_pack1to8_block1)]

/-- The functions `conv3x3s1_pack1to4_fp16sa_neon`, `conv3x3s2_pack1to4_fp16sa_neon`,
`conv3x3s1_pack1to8_fp16sa_neon` and `conv3x3s2_pack1to8_fp16sa_neon`, as the pixels
written to channel `p` of `top_blob`. -/
def Kernel.conv {α V : Type} (K : Kernel) (X : Simd α V) (acc0 : Nat → V)
    (inp0 : Nat → Nat → α) (w inch outw outh : Int) (bottom_blob kernel : Int → Int → α)
    (bias : Option (Int → α)) (p : Int) : Int → V :=
  match K with
  | Kernel.conv3x3s1_pack1to4 =>
    conv3x3s1 X 4 conv3x3s1_pack1to4_block8 conv3x3s1_pack1to4_block4
      conv3x3s1_pack1to4_block2 conv3x3s1_pack1to4_block1 acc0 inp0 w inch outw outh
      bottom_blob kernel bias p
  | Kernel.conv3x3s2_pack1to4 =>
    conv3x3s2 X 4 conv3x3s2_pack1to4_block4 conv3x3s2_pack1to4_block2
      conv3x3s2_pack1to4_block1 acc0 inp0 w inch outw outh bottom_blob kernel bias p
  | Kernel.conv3x3s1_pack1to8 =>
    conv3x3s1 X 8 conv3x3s1_pack1to8_block8 conv3x3s1_pack1to8_block4
      conv3x3s1_pack1to8_block2 conv3x3s1_pack1to8_block1 acc0 inp0 w inch outw outh
      bottom_blob kernel bias p
  | Kernel.conv3x3s2_pack1to8 =>
    conv3x3s2 X 8 conv3x3s2_pack1to8_block4 conv3x3s2_pack1to8_block2
      conv3x3s2_pack1to8_block1 acc0 inp0 w inch outw outh bottom_blob kernel bias p

/-- Exact arithmetic on vectors of `P` lanes modelled by their lanes `0 .. P - 1` (the
other lanes are 0): `fmla` adds to each lane of the accumulator the product of the input
element with the lane of the kernel vector. -/
def exact_simd (α : Type) [CommRing α] (P : Int) : Simd α (Int → α) where
  vld1 := fun mem a l => if 0 ≤ l ∧ l < P then mem (a + l) else 0
  vdup := fun x l => if 0 ≤ l ∧ l < P then x else 0
  fma := fun d k a l => d l + a * k l
  zero := 0

end Conv3x3

namespace Conv3x3

/-- The loop over output rows of a kernel, for the input channel `img` and kernel vectors
`k`, entered in state `s`. -/
def Kernel.row_loop {α V : Type} (K : Kernel) (fma : V → V → α → V) (zero : α)
    (img : Int → α) (k : Nat → V) (acc0 : Nat → V) (inp0 : Nat → Nat → α)
    (w outw outh : Int) (s : KState V) : KState V :=
  match K with
  | Kernel.conv3x3s1_pack1to4 =>
    rows_s1 4 fma zero img k acc0 inp0 conv3x3s1_pack1to4_block8 conv3x3s1_pack1to4_block4
      conv3x3s1_pack1to4_block2 conv3x3s1_pack1to4_block1 outw outh s
  | Kernel.conv3x3s2_pack1to4 =>
    rows_s2 4 fma zero img k acc0 inp0 conv3x3s2_pack1to4_block4 conv3x3s2_pack1to4_block2
      conv3x3s2_pack1to4_block1 w outw outh s
  | Kernel.conv3x3s1_pack1to8 =>
    rows_s1 8 fma zero img k acc0 inp0 conv3x3s1_pack1to8_block8 conv3x3s1_pack1to8_block4
      conv3x3s1_pack1to8_block2 conv3x3s1_pack1to8_block1 outw outh s
  | Kernel.conv3x3s2_pack1to8 =>
    rows_s2 8 fma zero img k acc0 inp0 conv3x3s2_pack1to8_block4 conv3x3s2_pack1to8_block2
      conv3x3s2_pack1to8_block1 w outw outh s

/-- Advance of the row pointers per output row: the columns, then the step at the end of
the row (2 in the stride-1 kernels, `tailstep = w - 2 * outw + w` in the stride-2 ones). -/
def Kernel.row_step (K : Kernel) (w outw : Int) : Int :=
  match K with
  | Kernel.conv3x3s1_pack1to4 => outw + 2
  | Kernel.conv3x3s2_pack1to4 => 2 * outw + (w - 2 * outw + w)
  | Kernel.conv3x3s1_pack1to8 => outw + 2
  | Kernel.conv3x3s2_pack1to8 => 2 * outw + (w - 2 * outw + w)

/-- An output pixel computed channel after channel: starting from `bias0`, each input
channel `q` adds its nine taps in the order of `tap9`, reading the input at `r0`, `r1`,
`r2` and the kernel vectors at `q * (9 * P)`. -/
def pixel_by_channel {α V : Type} (X : Simd α V) (P inch : Int)
    (bottom_blob : Int → Int → α) (kernel_p : Int → α) (bias0 : V) (r0 r1 r2 : Int) : V :=
  (loopRange inch).foldl (fun v q =>
    tap9 X.fma (bottom_blob q) (load_kernel X P kernel_p (q * (9 * P))) v r0 r1 r2) bias0

end Conv3x3

namespace Conv3x3

/-- The columns processed by a list of blocks (first column, number of columns), in
order. -/
def columns_of (blocks : List (Int × Int)) : List Int :=
  blocks.flatMap (fun b => (loopRange b.2).map (fun c => b.1 + c))

end Conv3x3

/-- An input blob whose element at flat index `e` of every channel is `e`. -/
def example_conv_input : Int → Int → Int :=
  fun _ e => e

/-- Kernel weights that are 1 at flat index 0 of every channel (tap `_k00`, lane 0) and 0
elsewhere. -/
def example_conv_kernel : Int → Int → Int :=
  fun _ e => if e = 0 then 1 else 0

namespace Slice_vulkan

/-- Extent of the sliced axis along a path of `forward`, in scalars. -/
def extent_on (bottom_blob : VkMat) : Path → Int
  | Path.packed path => packed_extent bottom_blob path
  | Path.plain path => plain_extent bottom_blob path

/-- The values taken by `int slice` in the first loop of a path from output `i` on, with
`q` the running sum (`q += slice`): the loop of `create_tops_from` without the calls of
`create`. -/
def slice_lengths_from (S : Slice) (n : Nat) (extent : Int) : List Nat → Int → List Int
  | [], _ => []
  | i :: rest, q =>
    let slice := slice_length S n extent q i
    slice :: slice_lengths_from S n extent rest (q + slice)

/-- The slice lengths computed for `n = top_blobs.size()` outputs, from `int q = 0`. -/
def slice_lengths (S : Slice) (n : Nat) (extent : Int) : List Int :=
  slice_lengths_from S n extent (List.range n) 0

end Slice_vulkan

/-- A two-way slice of explicit length 5 followed by the automatic remainder. -/
def example_slice_tail : Slice :=
  { slices := fun i => if i = 0 then 5 else -233, indices := none, axis := 0 }

/-- Modelled from the spec: the header fields of a shape hint (`Mat`, not among the
sources) read by `Slice_vulkan::create_pipeline`: rank and extents. -/
structure ShapeHint where
  dims : Int
  w : Int
  h : Int
  d : Int
  c : Int
deriving DecidableEq, Repr

namespace Slice_vulkan

/-- Modelled from the spec: the default-constructed `Mat()` (not among the sources) has
rank 0 and no extent. -/
def ShapeHint.empty : ShapeHint :=
  ⟨0, 0, 0, 0, 0⟩

/-- The pack `create_pipeline` derives from a shape: starting from `1`, the three
`if (shape.dims == ...) elempack = opt.use_shader_pack8 && x % 8 == 0 ? 8 : x % 4 == 0 ? 4 :
1` with `x` the width, height or channel count. -/
def hint_elempack (opt : Opt) (shape : ShapeHint) : Int :=
  let elempack : Int := 1
  let elempack := if shape.dims = 1 then select_elempack opt shape.w else elempack
  let elempack := if shape.dims = 2 then select_elempack opt shape.h else elempack
  let elempack :=
    if shape.dims = 3 ∨ shape.dims = 4 then select_elempack opt shape.c else elempack
  elempack

/-- The value of `out_elempack` in `create_pipeline`. -/
def create_out_elempack (S : Slice) (opt : Opt) (bottom_shapes top_shapes : List ShapeHint) :
    Int :=
  let shape := bottom_shapes.headD ShapeHint.empty
  let out_shape := top_shapes.headD ShapeHint.empty
  let positive_axis := if S.axis < 0 then shape.dims + S.axis else S.axis
  let elempack := hint_elempack opt shape
  if positive_axis = 0 then
    (top_shapes.drop 1).foldl
      (fun out_elempack shape1 => min out_elempack (hint_elempack opt shape1))
      (hint_elempack opt out_shape)
  else elempack

/-- One block `if (cond) { p[0] = new Pipeline(vkdev); ...; p[1] = new Pipeline(vkdev);
... }` of `create_pipeline`: objects are named by consecutive numbers from `fresh`. -/
def create_pair (cond : Bool) (p : Option Nat × Option Nat) (fresh : Nat) :
    (Option Nat × Option Nat) × Nat :=
  if cond then ((some fresh, some (fresh + 1)), fresh + 2) else (p, fresh)

/-- The condition guarding the creation of each array in `create_pipeline` (`// pack1`,
`// pack4`, `// pack1to4`, `// pack8`, `// pack1to8`, `// pack4to8`). -/
def create_condition (S : Slice) (opt : Opt) (bottom_shapes top_shapes : List ShapeHint) :
    PipelineKind → Bool :=
  let shape := bottom_shapes.headD ShapeHint.empty
  let positive_axis := if S.axis < 0 then shape.dims + S.axis else S.axis
  let out_elempack := create_out_elempack S opt bottom_shapes top_shapes
  fun kind =>
    match kind with
    | PipelineKind.pipeline_slice => decide (shape.dims = 0 ∨ out_elempack = 1)
    | PipelineKind.pipeline_slice_pack4 => decide (shape.dims = 0 ∨ out_elempack = 4)
    | PipelineKind.pipeline_slice_pack1to4 =>
      decide ((positive_axis ≤ 0 ∧ shape.dims = 0) ∨ out_elempack = 1)
    | PipelineKind.pipeline_slice_pack8 =>
      opt.use_shader_pack8 && decide (shape.dims = 0 ∨ out_elempack = 8)
    | PipelineKind.pipeline_slice_pack1to8 =>
      opt.use_shader_pack8 &&
        decide ((positive_axis ≤ 0 ∧ shape.dims = 0) ∨ out_elempack = 1)
    | PipelineKind.pipeline_slice_pack4to8 =>
      opt.use_shader_pack8 &&
        decide ((positive_axis ≤ 0 ∧ shape.dims = 0) ∨ out_elempack = 4)

/-- `Slice_vulkan::create_pipeline` with the hints `bottom_shapes`, `top_shapes`, on the
pointers `s`: the status returned and the pointers afterwards.  The six blocks run in the
order of the source. -/
def create_pipeline (S : Slice) (opt : Opt) (bottom_shapes top_shapes : List ShapeHint)
    (s : Pipelines) (fresh : Nat) : Int × Pipelines :=
  let cond := create_condition S opt bottom_shapes top_shapes
  let p1 := create_pair (cond PipelineKind.pipeline_slice) s.pipeline_slice fresh
  let p4 := create_pair (cond PipelineKind.pipeline_slice_pack4) s.pipeline_slice_pack4 p1.2
  let p1to4 := create_pair (cond PipelineKind.pipeline_slice_pack1to4)
    s.pipeline_slice_pack1to4 p4.2
  let p8 := create_pair (cond PipelineKind.pipeline_slice_pack8) s.pipeline_slice_pack8
    p1to4.2
  let p1to8 := create_pair (cond PipelineKind.pipeline_slice_pack1to8)
    s.pipeline_slice_pack1to8 p8.2
  let p4to8 := create_pair (cond PipelineKind.pipeline_slice_pack4to8)
    s.pipeline_slice_pack4to8 p1to8.2
  (0,
   { pipeline_slice := p1.1,
     pipeline_slice_pack4 := p4.1,
     pipeline_slice_pack1to4 := p1to4.1,
     pipeline_slice_pack8 := p8.1,
     pipeline_slice_pack1to8 := p1to8.1,
     pipeline_slice_pack4to8 := p4to8.1 })

/-- The pointer `kind[idx]` read by `forward` (`idx` is `i % 2`); `none` is the null
pointer. -/
def Pipelines.lookup (s : Pipelines) (entry : PipelineKind × Nat) : Option Nat :=
  let pair :=
    match entry.1 with
    | PipelineKind.pipeline_slice => s.pipeline_slice
    | PipelineKind.pipeline_slice_pack4 => s.pipeline_slice_pack4
    | PipelineKind.pipeline_slice_pack1to4 => s.pipeline_slice_pack1to4
    | PipelineKind.pipeline_slice_pack8 => s.pipeline_slice_pack8
    | PipelineKind.pipeline_slice_pack1to8 => s.pipeline_slice_pack1to8
    | PipelineKind.pipeline_slice_pack4to8 => s.pipeline_slice_pack4to8
  if entry.2 = 0 then pair.1 else pair.2

/-- The pointers left by the constructor: all twelve null. -/
def Pipelines.null : Pipelines :=
  ⟨(none, none), (none, none), (none, none), (none, none), (none, none), (none, none)⟩

/-- The shape a hint describes for a run-time tensor: its rank and its extents in scalars
(the packed axis multiplied by the pack). -/
def logical_shape (t : VkMat) : ShapeHint :=
  if t.dims = 1 then ⟨t.dims, t.w * t.elempack, t.h, t.d, t.c⟩
  else if t.dims = 2 then ⟨t.dims, t.w, t.h * t.elempack, t.d, t.c⟩
  else ⟨t.dims, t.w, t.h, t.d, t.c * t.elempack⟩

end Slice_vulkan

/-- The two-way slice of lengths 4 and 8 with `axis = 1`. -/
def example_slice_axis1 : Slice :=
  { slices := fun i => if i = 0 then 4 else 8, indices := none, axis := 1 }

/-- A vector of 12 scalars stored in 3 units of pack 4. -/
def example_vkvector_pack4 : VkMat :=
  ⟨1, 3, 1, 1, 1, 16, 4⟩

namespace Pnnx

/-- The `float` operations used by `get_pool_ceil_padding`, taken as parameters: the
conversion of an `int` to `float`, the `float` division, and `int(ceil(x))`. -/
structure FloatOps (F : Type) where
  of_int : Int → F
  div : F → F → F
  ceil_to_int : F → Int

/-- Source: `int(ceil((w + pad * 2 - ksize) / float(stride)))`. -/
def ceil_quotient {F : Type} (fl : FloatOps F) (w ksize stride pad : Int) : Int :=
  fl.ceil_to_int (fl.div (fl.of_int (w + pad * 2 - ksize)) (fl.of_int stride))

/-- `get_pool_ceil_padding` of `F_max_pool1d.cpp`. -/
def get_pool_ceil_padding {F : Type} (fl : FloatOps F) (w ksize stride pad : Int) : Int :=
  if stride = 1 then 0
  else
    let ceiled_output_w := ceil_quotient fl w ksize stride pad + 1
    let ceiled_output_w :=
      if (ceiled_output_w - 1) * stride ≥ w + pad then ceiled_output_w - 1
      else ceiled_output_w
    let ceil_pad := ksize - (w + pad * 2 - ((ceiled_output_w - 1) * stride + 1))
    ceil_pad

/-- Float operations without rounding: rational arithmetic. -/
def exact_float : FloatOps ℚ :=
  { of_int := fun n => (n : ℚ), div := fun a b => a / b, ceil_to_int := fun x => ⌈x⌉ }

end Pnnx

namespace DeconvolutionDepthWise_arm

/-- The configuration of the `Deconvolution` sub-operator of one group: the entries set in
its `ParamDict`, under the names the comments of the source give them (`pd.set(10,
activation_params)` carries an array and is left out), and the ranges of `weight_data` and
`bias_data` it is loaded with, as (first element, number of elements). -/
structure SubOp where
  num_output : Int
  kernel_w : Int
  kernel_h : Int
  dilation_w : Int
  dilation_h : Int
  stride_w : Int
  stride_h : Int
  pad_w : Int
  pad_h : Int
  output_pad_right : Int
  output_pad_bottom : Int
  bias_term : Int
  weight_data_size : Int
  activation_type : Int
  weight_data_g : Int × Int
  bias_data_g : Option (Int × Int)

/-- The body of `for (int g = 0; g < group; g++)` in `create_pipeline`: the sub-operator
stored in `group_ops[g]`. -/
def group_op (L : DeconvolutionDepthWise) (channels_g num_output_g g : Int) : SubOp :=
  let maxk := L.maxk
  { num_output := num_output_g,
    kernel_w := L.kernel_w,
    kernel_h := L.kernel_h,
    dilation_w := L.dilation_w,
    dilation_h := L.dilation_h,
    stride_w := L.stride_w,
    stride_h := L.stride_h,
    pad_w := 0,
    pad_h := 0,
    output_pad_right := L.output_pad_right,
    output_pad_bottom := L.output_pad_bottom,
    bias_term := L.bias_term,
    weight_data_size := maxk * channels_g * num_output_g,
    activation_type := L.activation_type,
    weight_data_g := (maxk * channels_g * num_output_g * g, maxk * channels_g * num_output_g),
    bias_data_g := if L.bias_term ≠ 0 then some (num_output_g * g, num_output_g) else none }

/-- What `create_pipeline` acts on: `weight_data_tm` (`none`: never assigned; otherwise the
element pack of the fused depthwise weights and whether they were cast to bfloat16), the
vector `group_ops`, and whether `weight_data` has been released. -/
structure Prepared where
  weight_data_tm : Option (Int × Bool)
  group_ops : List SubOp
  weight_data_released : Bool

/-- `DeconvolutionDepthWise_arm::create_pipeline` on the members `old`: the status
returned, the members afterwards, and the sub-operators deleted.  `fp16s` stands for the
outcome of `create_pipeline_fp16s` (deconvolutiondepthwise_arm_asimdhp.cpp is not among the
sources). -/
def create_pipeline (B : Build) (support_fp16_storage : Bool) (L : DeconvolutionDepthWise)
    (opt : Opt) (fp16s : Int × Prepared × List SubOp) (old : Prepared) :
    Int × Prepared × List SubOp :=
  if L.dynamic_weight ≠ 0 then (0, old, [])
  else if B.ncnn_arm82 ∧ support_fp16_storage ∧ opt.use_fp16_storage then fp16s
  else
    let channels := L.create_pipeline_channels
    if channels = L.group ∧ L.group = L.num_output then
      -- depth-wise
      let elempack : Int :=
        if B.arm_neon ∧ opt.use_packing_layout then (if channels.tmod 4 = 0 then 4 else 1)
        else 1
      if B.ncnn_bf16 ∧ opt.use_bf16_storage then
        let tm := if B.arm_neon ∧ elempack = 4 then some ((4 : Int), true)
          else old.weight_data_tm
        let tm := if elempack = 1 then some ((1 : Int), true) else tm
        (0, { old with weight_data_tm := tm,
                       weight_data_released :=
                         if opt.lightmode then true else old.weight_data_released }, [])
      else
        let tm := if B.arm_neon ∧ elempack = 4 then some ((4 : Int), false)
          else old.weight_data_tm
        let tm := if elempack = 1 then some ((1 : Int), false) else tm
        (0, { old with weight_data_tm := tm,
                       weight_data_released :=
                         if opt.lightmode then true else old.weight_data_released }, [])
    else
      -- group deconvolution
      let channels_g := channels.tdiv L.group
      let num_output_g := L.num_output.tdiv L.group
      (0, { old with group_ops :=
                       (loopRange L.group).map (group_op L channels_g num_output_g),
                     weight_data_released :=
                       if opt.lightmode then true else old.weight_data_released },
        old.group_ops)

/-- The elements of `weight_data` a sub-operator is loaded with, in order. -/
def SubOp.weight_elements (op : SubOp) : List Int :=
  (loopRange op.weight_data_g.2).map (fun k => op.weight_data_g.1 + k)

/-- The members left by the constructor: nothing prepared. -/
def Prepared.initial : Prepared :=
  { weight_data_tm := none, group_ops := [], weight_data_released := false }

end DeconvolutionDepthWise_arm

/-- A layer whose `weight_data_size` (10) is not a multiple of `maxk` (3). -/
def example_layer_ragged : DeconvolutionDepthWise :=
  { num_output := 1, kernel_w := 3, kernel_h := 1, dilation_w := 1, dilation_h := 1,
    stride_w := 1, stride_h := 1, pad_left := 0, pad_right := 0, pad_top := 0,
    pad_bottom := 0, output_pad_right := 0, output_pad_bottom := 0, output_w := 0,
    output_h := 0, bias_term := 0, weight_data_size := 10, group := 1,
    activation_type := 0, dynamic_weight := 0 }

/-- Modelled from the spec: `convert_packing(src, dst, out_elempack, opt)` on a CPU tensor
(not among the sources) keeps the logical shape and stores `out_elempack` lanes per
channel. -/
def Mat.convert_packing (src : Mat) (out_elempack : Int) : Mat :=
  ⟨src.w, src.h, (src.c * src.elempack).tdiv out_elempack,
    src.elemsize / src.elempack.toNat * out_elempack.toNat, out_elempack⟩

/-- The tensors and channel ranges of the grouped path of a deconvolution forward:
`channels_g`, `num_output_g`, `g_elempack`, `out_g_elempack`, the tensors
`bottom_blob_unpacked` and `top_blob_bordered_unpacked`, and for each `g` the arguments
(first channel, channel count) of the two calls of `channel_range`. -/
structure GroupBlobs where
  channels_g : Int
  num_output_g : Int
  g_elempack : Int
  out_g_elempack : Int
  bottom_blob_unpacked : Mat
  top_blob_bordered_unpacked : Mat
  bottom_blob_g : Int → Int × Int
  top_blob_bordered_g : Int → Int × Int

/-- The channels of `bottom_blob_unpacked` handed to the sub-operators `g = 0 ..
group - 1`, in order. -/
def GroupBlobs.bottom_channels (V : GroupBlobs) (group : Int) : List Int :=
  (loopRange group).flatMap
    (fun g => (loopRange (V.bottom_blob_g g).2).map (fun k => (V.bottom_blob_g g).1 + k))

/-- The channels of `top_blob_bordered_unpacked` handed to the sub-operators, in order. -/
def GroupBlobs.top_channels (V : GroupBlobs) (group : Int) : List Int :=
  (loopRange group).flatMap
    (fun g => (loopRange (V.top_blob_bordered_g g).2).map
      (fun k => (V.top_blob_bordered_g g).1 + k))

namespace DeconvolutionDepthWise_arm

/-- The grouped branch of `forward` (source lines 387-449) and of `forward_bf16s` (lines
766-828, the same statements): tensors and channel ranges. -/
def grouped_blobs (B : Build) (L : DeconvolutionDepthWise) (opt : Opt) (bottom_blob : Mat) :
    GroupBlobs :=
  let w := bottom_blob.w
  let h := bottom_blob.h
  let channels := bottom_blob.c
  let elemsize := bottom_blob.elemsize
  let elempack := bottom_blob.elempack
  let outw := (w - 1) * L.stride_w + L.kernel_extent_w + L.output_pad_right
  let outh := (h - 1) * L.stride_h + L.kernel_extent_h + L.output_pad_bottom
  let out_elempack : Int :=
    if B.arm_neon ∧ opt.use_packing_layout then (if L.num_output.tmod 4 = 0 then 4 else 1) else 1
  let out_elemsize : Nat := elemsize / elempack.toNat * out_elempack.toNat
  let top_blob_bordered : Mat :=
    ⟨outw, outh, L.num_output.tdiv out_elempack, out_elemsize, out_elempack⟩
  let channels_g := (channels * elempack).tdiv L.group
  let num_output_g := L.num_output.tdiv L.group
  let g_elempack : Int :=
    if B.arm_neon ∧ opt.use_packing_layout then (if channels_g.tmod 4 = 0 then 4 else 1) else 1
  let out_g_elempack : Int :=
    if B.arm_neon ∧ opt.use_packing_layout then (if num_output_g.tmod 4 = 0 then 4 else 1)
    else 1
  { channels_g := channels_g,
    num_output_g := num_output_g,
    g_elempack := g_elempack,
    out_g_elempack := out_g_elempack,
    bottom_blob_unpacked :=
      if elempack = 4 ∧ g_elempack = 1 then bottom_blob.convert_packing 1 else bottom_blob,
    top_blob_bordered_unpacked :=
      if out_g_elempack = 1 ∧ out_elempack = 4 then
        ⟨outw, outh, L.num_output, out_elemsize / out_elempack.toNat, 1⟩
      else top_blob_bordered,
    bottom_blob_g := fun g =>
      ((channels_g * g).tdiv g_elempack, channels_g.tdiv g_elempack),
    top_blob_bordered_g := fun g =>
      ((num_output_g * g).tdiv out_g_elempack, num_output_g.tdiv out_g_elempack) }

end DeconvolutionDepthWise_arm

namespace DeconvolutionDepthWise_riscv

/-- The grouped branch of `forward_fp16s` (source lines 260-316): tensors and channel
ranges.  The input is unpacked to pack 1 and the unpacked output is created with pack 1. -/
def fp16s_grouped_blobs (B : Build) (vlenb : Int) (L : DeconvolutionDepthWise) (opt : Opt)
    (bottom_blob : Mat) : GroupBlobs :=
  let packn := vlenb.tdiv 2
  let w := bottom_blob.w
  let h := bottom_blob.h
  let channels := bottom_blob.c
  let elemsize := bottom_blob.elemsize
  let elempack := bottom_blob.elempack
  let outw := (w - 1) * L.stride_w + L.kernel_extent_w + L.output_pad_right
  let outh := (h - 1) * L.stride_h + L.kernel_extent_h + L.output_pad_bottom
  let out_elempack : Int :=
    if B.riscv_zvfh ∧ opt.use_packing_layout then
      (if L.num_output.tmod packn = 0 then packn else 1) else 1
  let out_elemsize : Nat := elemsize / elempack.toNat * out_elempack.toNat
  let top_blob_bordered : Mat :=
    ⟨outw, outh, L.num_output.tdiv out_elempack, out_elemsize, out_elempack⟩
  let channels_g := (channels * elempack).tdiv L.group
  let num_output_g := L.num_output.tdiv L.group
  let g_elempack : Int :=
    if B.riscv_zvfh ∧ opt.use_packing_layout then
      (if channels_g.tmod packn = 0 then packn else 1) else 1
  let out_g_elempack : Int :=
    if B.riscv_zvfh ∧ opt.use_packing_layout then
      (if num_output_g.tmod packn = 0 then packn else 1) else 1
  { channels_g := channels_g,
    num_output_g := num_output_g,
    g_elempack := g_elempack,
    out_g_elempack := out_g_elempack,
    bottom_blob_unpacked :=
      if elempack > g_elempack then bottom_blob.convert_packing 1 else bottom_blob,
    top_blob_bordered_unpacked :=
      if out_g_elempack < out_elempack then
        ⟨outw, outh, L.num_output, out_elemsize / out_elempack.toNat, 1⟩
      else top_blob_bordered,
    bottom_blob_g := fun g =>
      ((channels_g * g).tdiv g_elempack, channels_g.tdiv g_elempack),
    top_blob_bordered_g := fun g =>
      ((num_output_g * g).tdiv out_g_elempack, num_output_g.tdiv out_g_elempack) }

/-- The grouped branch of `forward_fp16sa` (source lines 498-554): tensors and channel
ranges.  The input is unpacked to `g_elempack` and the unpacked output is created with
`out_g_elempack`. -/
def fp16sa_grouped_blobs (B : Build) (vlenb : Int) (L : DeconvolutionDepthWise) (opt : Opt)
    (bottom_blob : Mat) : GroupBlobs :=
  let packn := vlenb.tdiv 2
  let w := bottom_blob.w
  let h := bottom_blob.h
  let channels := bottom_blob.c
  let elemsize := bottom_blob.elemsize
  let elempack := bottom_blob.elempack
  let outw := (w - 1) * L.stride_w + L.kernel_extent_w + L.output_pad_right
  let outh := (h - 1) * L.stride_h + L.kernel_extent_h + L.output_pad_bottom
  let out_elempack : Int :=
    if B.riscv_zvfh ∧ opt.use_packing_layout then
      (if L.num_output.tmod packn = 0 then packn else 1) else 1
  let out_elemsize : Nat := elemsize / elempack.toNat * out_elempack.toNat
  let top_blob_bordered : Mat :=
    ⟨outw, outh, L.num_output.tdiv out_elempack, out_elemsize, out_elempack⟩
  let channels_g := (channels * elempack).tdiv L.group
  let num_output_g := L.num_output.tdiv L.group
  let g_elempack : Int :=
    if B.riscv_zvfh ∧ opt.use_packing_layout then
      (if channels_g.tmod packn = 0 then packn else 1) else 1
  let out_g_elempack : Int :=
    if B.riscv_zvfh ∧ opt.use_packing_layout then
      (if num_output_g.tmod packn = 0 then packn else 1) else 1
  { channels_g := channels_g,
    num_output_g := num_output_g,
    g_elempack := g_elempack,
    out_g_elempack := out_g_elempack,
    bottom_blob_unpacked :=
      if elempack > g_elempack then bottom_blob.convert_packing g_elempack else bottom_blob,
    top_blob_bordered_unpacked :=
      if out_g_elempack < out_elempack then
        ⟨outw, outh, L.num_output.tdiv out_g_elempack,
          out_elemsize / out_elempack.toNat * out_g_elempack.toNat, out_g_elempack⟩
      else top_blob_bordered,
    bottom_blob_g := fun g =>
      ((channels_g * g).tdiv g_elempack, channels_g.tdiv g_elempack),
    top_blob_bordered_g := fun g =>
      ((num_output_g * g).tdiv out_g_elempack, num_output_g.tdiv out_g_elempack) }

end DeconvolutionDepthWise_riscv

/-- The four deconvolution forwards with a grouped path. -/
inductive GroupedForward where
  | arm_forward
  | arm_forward_bf16s
  | riscv_forward_fp16s
  | riscv_forward_fp16sa
deriving DecidableEq, Repr

/-- The tensors and channel ranges of the grouped path of each forward; `vlenb` is the
value of `csrr_vlenb()` on RISC-V. -/
def GroupedForward.blobs (F : GroupedForward) (B : Build) (vlenb : Int)
    (L : DeconvolutionDepthWise) (opt : Opt) (bottom_blob : Mat) : GroupBlobs :=
  match F with
  | GroupedForward.arm_forward => DeconvolutionDepthWise_arm.grouped_blobs B L opt bottom_blob
  | GroupedForward.arm_forward_bf16s =>
    DeconvolutionDepthWise_arm.grouped_blobs B L opt bottom_blob
  | GroupedForward.riscv_forward_fp16s =>
    DeconvolutionDepthWise_riscv.fp16s_grouped_blobs B vlenb L opt bottom_blob
  | GroupedForward.riscv_forward_fp16sa =>
    DeconvolutionDepthWise_riscv.fp16sa_grouped_blobs B vlenb L opt bottom_blob

/-- The lane count each forward packs channels by: 4 on ARM, `packn = csrr_vlenb() / 2` on
RISC-V. -/
def GroupedForward.lanes (F : GroupedForward) (vlenb : Int) : Int :=
  match F with
  | GroupedForward.arm_forward => 4
  | GroupedForward.arm_forward_bf16s => 4
  | GroupedForward.riscv_forward_fp16s => vlenb.tdiv 2
  | GroupedForward.riscv_forward_fp16sa => vlenb.tdiv 2

/-- Whether packing is compiled in and enabled: `__ARM_NEON` / `__riscv_zvfh` and
`opt.use_packing_layout`. -/
def GroupedForward.packing (F : GroupedForward) (B : Build) (opt : Opt) : Bool :=
  match F with
  | GroupedForward.arm_forward => B.arm_neon && opt.use_packing_layout
  | GroupedForward.arm_forward_bf16s => B.arm_neon && opt.use_packing_layout
  | GroupedForward.riscv_forward_fp16s => B.riscv_zvfh && opt.use_packing_layout
  | GroupedForward.riscv_forward_fp16sa => B.riscv_zvfh && opt.use_packing_layout

/-- The canonical pack of a tensor of `c` channels in all: the lane count when packing is
on and the lane count divides `c`, else 1 (the rule every forward applies to `num_output`
for its own output). -/
def GroupedForward.canonical_pack (F : GroupedForward) (B : Build) (vlenb : Int) (opt : Opt)
    (c : Int) : Int :=
  if F.packing B opt then (if c.tmod (F.lanes vlenb) = 0 then F.lanes vlenb else 1) else 1

namespace Mlir2ncnn

/-- One item written to the weight file `bp` by `fwrite`: an `int` or a `float`. -/
inductive Word (α : Type) where
  | int (n : Int)
  | float (x : α)
deriving DecidableEq, Repr

/-- The loop nest `for p < num_output, for q < num_input, for i < kernel_size_h,
for j < kernel_size_w` of the weight reordering blocks, with the innermost statements as
`body`: the values produced, in program order. -/
def reorder_loops {β : Type} (num_output num_input kernel_size_h kernel_size_w : Int)
    (body : Int → Int → Int → Int → β) : List β :=
  (loopRange num_output).flatMap (fun p =>
    (loopRange num_input).flatMap (fun q =>
      (loopRange kernel_size_h).flatMap (fun i =>
        (loopRange kernel_size_w).map (fun j => body p q i j))))

/-- The index read from `v` by `tf.Conv2D` and `ncnn.KerasConv2D` (`// reorder h-w-i-o to
o-i-h-w`). -/
def hwio_index (kernel_size_w num_input num_output p q i j : Int) : Int :=
  i * kernel_size_w * num_input * num_output + j * num_input * num_output + q * num_output + p

/-- The index read from `v` by `tf.Conv2DBackpropInput` (`// reorder h-w-o-i to
o-i-h-w`). -/
def hwoi_index (kernel_size_w num_input num_output p q i j : Int) : Int :=
  i * kernel_size_w * num_output * num_input + j * num_output * num_input + p * num_input + q

/-- The items written to `bp` by the reordering block of `tf.Conv2D` /
`ncnn.KerasConv2D` for a weight `v` of shape `[kernel_size_h, kernel_size_w, num_input,
num_output]`: the quantize tag, then one float per iteration. -/
def reorder_hwio {α : Type} (kernel_size_h kernel_size_w num_input num_output : Int)
    (v : Int → α) : List (Word α) :=
  Word.int 0 ::
    reorder_loops num_output num_input kernel_size_h kernel_size_w
      (fun p q i j => Word.float (v (hwio_index kernel_size_w num_input num_output p q i j)))

/-- The items written to `bp` by the reordering block of `tf.Conv2DBackpropInput` for a
weight `v` of shape `[kernel_size_h, kernel_size_w, num_output, num_input]`. -/
def reorder_hwoi {α : Type} (kernel_size_h kernel_size_w num_input num_output : Int)
    (v : Int → α) : List (Word α) :=
  Word.int 0 ::
    reorder_loops num_output num_input kernel_size_h kernel_size_w
      (fun p q i j => Word.float (v (hwoi_index kernel_size_w num_input num_output p q i j)))

end Mlir2ncnn

namespace DeconvolutionDepthWise_arm

end DeconvolutionDepthWise_arm

namespace Conv3x3

end Conv3x3

namespace Mlir2ncnn

/-- The operation names that the reference counting of `main` tells apart; `other` is any
other name (`std.return`, `tf.AddV2`, `tf.Placeholder`, ..., also an unsupported one):
for all of them `main` writes one layer line in the same way. -/
inductive OpName where
  | tf_Const
  | ncnn_KerasConv2D
  | ncnn_KerasDense
  | ncnn_KerasBatchNorm
  | ncnn_InstanceNormAffine
  | tf_ConcatV2
  | tf_Conv2D
  | tf_Conv2DBackpropInput
  | tf_DepthwiseConv2dNative
  | tf_MatMul
  | tf_Mean
  | tf_Pad
  | tf_Reshape
  | tf_ResizeBilinear
  | tf_ResizeNearestNeighbor
  | tf_StridedSlice
  | other
deriving DecidableEq, Repr

/-- A `std::string`, as the list of its bytes. -/
abbrev Name := List Nat

/-- The digits of `std::to_string(n)` for `n >= 0`, most significant first, put before
`digits`; `fuel` bounds the number of digits. -/
def to_string_digits : Nat → Nat → List Nat → List Nat
  | 0, _, digits => digits
  | fuel + 1, n, digits =>
    if n < 10 then (48 + n) :: digits
    else to_string_digits fuel (n / 10) ((48 + n % 10) :: digits)

/-- `std::to_string(n)` for a non-negative `int`: the decimal digits as bytes (`'0'` is
48). -/
def to_string (n : Nat) : Name :=
  to_string_digits (n + 1) n []

/-- `get_mlir_value_uniq_id` (source lines 19-37) for a value whose location is a
`FileLineColLoc` (or a `FusedLoc` that starts with one) of the given line and column:
`std::to_string(line) + ":" + std::to_string(column)` (`':'` is 58). -/
def get_mlir_value_uniq_id (line column : Nat) : Name :=
  to_string line ++ [58] ++ to_string column

/-- `a < b` on `std::string`, the order of the keys of `std::map<std::string, _>` and
`std::set<std::string>`: lexicographic on the bytes. -/
def string_lt : Name → Name → Bool
  | [], [] => false
  | [], _ :: _ => true
  | _ :: _, [] => false
  | a :: as, b :: bs => if a < b then true else if b < a then false else string_lt as bs

/-- Modelled from the spec: what `main` reads of an `mlir::Operation` (MLIR is not among
the sources): its name, the strings `get_mlir_value_uniq_id` gives its operands and
results, and the attributes `transpose_a`, `transpose_b`. -/
structure Operation where
  op : OpName
  operands : List Name
  results : List Name
  transpose_a : Int
  transpose_b : Int
deriving DecidableEq, Repr

/-- `m.find(k)` on a `std::map<std::string, int>` kept as a list of entries in key order. -/
def map_find (m : List (Name × Int)) (k : Name) : Option Int :=
  match m with
  | [] => none
  | (k', v) :: rest => if k = k' then some v else map_find rest k

/-- `m[k] = v` on a `std::map<std::string, int>`. -/
def map_set (m : List (Name × Int)) (k : Name) (v : Int) : List (Name × Int) :=
  match m with
  | [] => [(k, v)]
  | (k', v') :: rest =>
    if k = k' then (k, v) :: rest
    else if string_lt k k' then (k, v) :: (k', v') :: rest
    else (k', v') :: map_set rest k v

/-- The value of `m[k]` read from a `std::map<std::string, int>` (0 for a new key). -/
def map_get (m : List (Name × Int)) (k : Name) : Int :=
  (map_find m k).getD 0

/-- `s.insert(k)` on a `std::set<std::string>` (also the key set of `weights`), kept in
key order. -/
def set_insert (s : List Name) (k : Name) : List Name :=
  match s with
  | [] => [k]
  | k' :: rest =>
    if k = k' then k' :: rest
    else if string_lt k k' then k :: k' :: rest
    else k' :: set_insert rest k

/-- The maps filled by the first loop over the operations. -/
structure References where
  weights : List Name
  blob_names : List Name
  node_reference : List (Name × Int)
deriving DecidableEq, Repr

/-- The body of the first loop (source lines 290-330) for one operation. -/
def count_operation (s : References) (operation : Operation) : References :=
  let weights :=
    if operation.op = OpName.tf_Const then
      match operation.results with
      | output_name :: _ => set_insert s.weights output_name
      | [] => s.weights
    else s.weights
  let s1 := operation.operands.foldl (fun (s : References) input_name =>
    { s with
      blob_names := set_insert s.blob_names input_name,
      node_reference :=
        match map_find s.node_reference input_name with
        | none => map_set s.node_reference input_name 1
        | some v => map_set s.node_reference input_name (v + 1) })
    { s with weights := weights }
  operation.results.foldl (fun (s : References) output_name =>
    { s with
      blob_names := set_insert s.blob_names output_name,
      node_reference := map_set s.node_reference output_name 0 }) s1

/-- The operand positions whose names the second loop (source lines 333-435) takes off
the reference count: the operands an operation folds into its own parameters.  The same
names are looked up by `weights[...]` when the layer line is written. -/
def folded_operands (operation : Operation) : List Nat :=
  match operation.op with
  | OpName.ncnn_KerasConv2D => [1, 2]
  | OpName.ncnn_KerasDense => [1, 2]
  | OpName.ncnn_KerasBatchNorm => [1, 2]
  | OpName.ncnn_InstanceNormAffine => [1, 2]
  | OpName.tf_ConcatV2 => [operation.operands.length - 1]
  | OpName.tf_Conv2D => [1]
  | OpName.tf_Conv2DBackpropInput => [0, 1]
  | OpName.tf_DepthwiseConv2dNative => [1]
  | OpName.tf_MatMul =>
    if operation.transpose_a = 0 ∧ operation.transpose_b = 1 then [1] else []
  | OpName.tf_Mean => [1]
  | OpName.tf_Pad => [1]
  | OpName.tf_Reshape => [1]
  | OpName.tf_ResizeBilinear => [1]
  | OpName.tf_ResizeNearestNeighbor => [1]
  | OpName.tf_StridedSlice => [1, 2, 3]
  | OpName.tf_Const => []
  | OpName.other => []

/-- The names `get_mlir_value_uniq_id(operation.getOperand(k))` for the folded operands;
an operand the operation does not have (excluded by the MLIR verifier) is passed over. -/
def folded_names (operation : Operation) : List Name :=
  (folded_operands operation).filterMap (fun k => operation.operands[k]?)

/-- The body of the second loop for one operation: `node_reference[name] -= 1` for every
folded operand. -/
def reduce_operation (node_reference : List (Name × Int)) (operation : Operation) :
    List (Name × Int) :=
  (folded_names operation).foldl
    (fun node_reference name => map_set node_reference name (map_get node_reference name - 1))
    node_reference

/-- The maps after the first two loops. -/
def references (operations : List Operation) : References :=
  let s := operations.foldl count_operation ⟨[], [], []⟩
  { s with node_reference := operations.foldl reduce_operation s.node_reference }

/-- The entries copied to `split_node_reference`: those of `node_reference` with a value
above one. -/
def split_entries (node_reference : List (Name × Int)) : List (Name × Int) :=
  node_reference.filter (fun e => decide (e.2 > 1))

/-- The two numbers of the global definition line (source line 464):
`node_count - zero_reference_weight_node_count + split_layer_count` and
`blob_names.size() - zero_reference_weight_node_count + splitncnn_blob_count`. -/
def header (operations : List Operation) : Int × Int :=
  let s := references operations
  let node_count : Int := operations.length
  let zero_reference_weight_node_count : Int :=
    (s.weights.filter (fun input_name => decide (map_get s.node_reference input_name = 0))).length
  let split_layer_count : Int := (split_entries s.node_reference).length
  let splitncnn_blob_count : Int := ((split_entries s.node_reference).map Prod.snd).sum
  (node_count - zero_reference_weight_node_count + split_layer_count,
    (s.blob_names.length : Int) - zero_reference_weight_node_count + splitncnn_blob_count)

/-- A blob name written to the param file: the id of a value, or `<id>_splitncnn_<k>`
(`sprintf(splitsuffix, "_splitncnn_%d", k)`). -/
structure BlobName where
  id : Name
  splitncnn : Option Int
deriving DecidableEq, Repr

/-- The kind of a layer line: a `MemoryData` line, a `Split` line, or the line of the
operation with the given `opid`. -/
inductive LineKind where
  | memory_data
  | split (internal_split : Int)
  | operation (opid : Int)
deriving DecidableEq, Repr

/-- One layer line of the param file: its kind, the two counts printed after the layer
name, and the blob names that follow (inputs, then outputs). -/
structure Line where
  kind : LineKind
  num_input : Int
  num_output : Int
  inputs : List BlobName
  outputs : List BlobName
deriving DecidableEq, Repr

/-- The `Split` line written for a value of reference count `refcount`. -/
def split_line (internal_split : Int) (name : Name) (refcount : Int) : Line :=
  { kind := LineKind.split internal_split, num_input := 1, num_output := refcount,
    inputs := [⟨name, none⟩],
    outputs := (loopRange refcount).map (fun k => ⟨name, some k⟩) }

/-- What the emission loops carry: the key set of `weights`, `split_node_reference`,
`internal_split`, `g_opid`, and the lines written so far. -/
structure Emit where
  weights : List Name
  split_node_reference : List (Name × Int)
  internal_split : Int
  g_opid : Int
  lines : List Line
deriving DecidableEq, Repr

/-- The body of the `MemoryData` loop (source lines 469-554) for one key of `weights`. -/
def emit_weight (node_reference : List (Name × Int)) (e : Emit) (input_name : Name) : Emit :=
  let refcount := map_get node_reference input_name
  if refcount = 0 then e
  else
    let memory_data : Line :=
      { kind := LineKind.memory_data, num_input := 0, num_output := 1, inputs := [],
        outputs := [⟨input_name, none⟩] }
    if refcount ≤ 1 then { e with lines := e.lines ++ [memory_data] }
    else
      { e with
        lines := e.lines ++ [memory_data, split_line e.internal_split input_name refcount],
        internal_split := e.internal_split + 1 }

/-- The loop writing the input names of a layer line (source lines 775-793): a weight
without reference is passed over, a split value takes the next `_splitncnn_` suffix. -/
def emit_inputs (node_reference : List (Name × Int)) (weights : List Name) :
    List Name → List (Name × Int) → List BlobName × List (Name × Int)
  | [], split_node_reference => ([], split_node_reference)
  | input_name :: rest, split_node_reference =>
    if input_name ∈ weights ∧ map_get node_reference input_name = 0 then
      emit_inputs node_reference weights rest split_node_reference
    else
      match map_find split_node_reference input_name with
      | some v =>
        let refidx := v - 1
        let r := emit_inputs node_reference weights rest
          (map_set split_node_reference input_name refidx)
        (⟨input_name, some refidx⟩ :: r.1, r.2)
      | none =>
        let r := emit_inputs node_reference weights rest split_node_reference
        (⟨input_name, none⟩ :: r.1, r.2)

/-- The loop after a layer line (source lines 1778-1801): a `Split` line for every result
of reference count above one. -/
def emit_splits (node_reference : List (Name × Int)) :
    List Name → Int → List Line × Int
  | [], internal_split => ([], internal_split)
  | output_name :: rest, internal_split =>
    match map_find node_reference output_name with
    | some refcount =>
      if refcount > 1 then
        let r := emit_splits node_reference rest (internal_split + 1)
        (split_line internal_split output_name refcount :: r.1, r.2)
      else emit_splits node_reference rest internal_split
    | none => emit_splits node_reference rest internal_split

/-- The body of the operation loop (source lines 559-1802) for one operation.  The lookups
`weights[name]` of the folded operands add their names to the keys of `weights`: for
`tf.Mean` while the layer type is chosen, for the other operations after the names are
written. -/
def emit_operation (node_reference : List (Name × Int)) (e : Emit) (operation : Operation) :
    Emit :=
  let opid := e.g_opid
  let num_input : Int :=
    (operation.operands.length : Int) -
      (operation.operands.filter (fun input_name =>
        decide (input_name ∈ e.weights ∧ map_get node_reference input_name = 0))).length
  let num_output : Int := operation.results.length
  if operation.op = OpName.tf_Const then { e with g_opid := e.g_opid + 1 }
  else
    let weights_before :=
      if operation.op = OpName.tf_Mean then (folded_names operation).foldl set_insert e.weights
      else e.weights
    let ins := emit_inputs node_reference weights_before operation.operands
      e.split_node_reference
    let line : Line :=
      { kind := LineKind.operation opid, num_input := num_input, num_output := num_output,
        inputs := ins.1,
        outputs := operation.results.map (fun output_name => ⟨output_name, none⟩) }
    let splits := emit_splits node_reference operation.results e.internal_split
    { weights := (folded_names operation).foldl set_insert weights_before,
      split_node_reference := ins.2,
      internal_split := splits.2,
      g_opid := e.g_opid + 1,
      lines := e.lines ++ line :: splits.1 }

/-- The layer lines `main` writes after the global definition line, in program order. -/
def layer_lines (operations : List Operation) : List Line :=
  let s := references operations
  let e0 : Emit :=
    { weights := s.weights, split_node_reference := split_entries s.node_reference,
      internal_split := 0, g_opid := 0, lines := [] }
  let e1 := s.weights.foldl (emit_weight s.node_reference) e0
  (operations.foldl (emit_operation s.node_reference) e1).lines

/-- The blob names appearing in a list of layer lines. -/
def blob_names_of (lines : List Line) : List BlobName :=
  lines.flatMap (fun line => line.inputs ++ line.outputs)

/-- The ids of the results of a list of operations. -/
def result_ids (operations : List Operation) : List Name :=
  operations.flatMap (fun operation => operation.results)

/-- Every operand is a result of an earlier operation of the block. -/
def operands_defined_earlier : List Operation → List Name → Bool
  | [], _ => true
  | operation :: rest, earlier =>
    operation.operands.all (fun x => decide (x ∈ earlier)) &&
      operands_defined_earlier rest (earlier ++ operation.results)

/-- A block in which a constant is folded into a convolution as its weight and also added
twice, one operation per line, the results at column 10: `%0 = Const` (line 2),
`%1 = Placeholder`, `%2 = Conv2D(%1, %0)`, `%3 = AddV2(%2, %0)`, `%4 = AddV2(%3, %0)`. -/
def example_block : List Operation :=
  [⟨OpName.tf_Const, [], [get_mlir_value_uniq_id 2 10], 0, 0⟩,
   ⟨OpName.other, [], [get_mlir_value_uniq_id 3 10], 0, 0⟩,
   ⟨OpName.tf_Conv2D, [get_mlir_value_uniq_id 3 10, get_mlir_value_uniq_id 2 10],
      [get_mlir_value_uniq_id 4 10], 0, 0⟩,
   ⟨OpName.other, [get_mlir_value_uniq_id 4 10, get_mlir_value_uniq_id 2 10],
      [get_mlir_value_uniq_id 5 10], 0, 0⟩,
   ⟨OpName.other, [get_mlir_value_uniq_id 5 10, get_mlir_value_uniq_id 2 10],
      [get_mlir_value_uniq_id 6 10], 0, 0⟩]

end Mlir2ncnn

end Ncnn

/-! # Theorems -/

namespace Ncnn

/-! ## Loops as sums -/

theorem loopRange_natCast_succ (n : Nat) :
    loopRange ((n : Int) + 1) = loopRange (n : Int) ++ [(n : Int)] := by
  have h : ((n : Int) + 1).toNat = n + 1 := by omega
  simp [loopRange, h, List.range_succ]

theorem loopRange_zero : loopRange 0 = [] := by
  simp [loopRange]

theorem mem_loopRange {n x : Int} : x ∈ loopRange n ↔ 0 ≤ x ∧ x < n := by
  simp only [loopRange, List.mem_map, List.mem_range]
  constructor
  · rintro ⟨k, hk, rfl⟩
    have : (Int.ofNat k) = (k : Int) := rfl
    omega
  · rintro ⟨h0, h1⟩
    refine ⟨x.toNat, by omega, ?_⟩
    have : (Int.ofNat x.toNat) = ((x.toNat : Nat) : Int) := rfl
    omega

theorem foldl_add_eq_sum {α ι : Type} [AddCommMonoid α] (body : α → ι → α) (F : ι → α)
    (hb : ∀ s a, body s a = s + F a) (l : List ι) (init : α) :
    l.foldl body init = init + (l.map F).sum := by
  induction l generalizing init with
  | nil => simp
  | cons a l ih => simp [ih, hb, add_assoc]

theorem sum_map_loopRange {α : Type} [AddCommMonoid α] (F : Int → α) (n : Int) :
    ((loopRange n).map F).sum = ∑ y ∈ Finset.Ico (0 : Int) n, F y := by
  rcases le_or_lt 0 n with hn | hn
  · obtain ⟨k, rfl⟩ := Int.eq_ofNat_of_zero_le hn
    induction k with
    | zero => simp [loopRange]
    | succ k ih =>
      have e : ((k + 1 : Nat) : Int) = (k : Int) + 1 := by push_cast; ring
      rw [e, loopRange_natCast_succ, List.map_append, List.sum_append, ih (by omega)]
      have : Finset.Ico (0 : Int) ((k : Int) + 1) = insert (k : Int) (Finset.Ico (0 : Int) k) := by
        ext x; simp only [Finset.mem_Ico, Finset.mem_insert]; omega
      rw [this, Finset.sum_insert (by simp), add_comm]
      simp
  · have h1 : n.toNat = 0 := by omega
    have h2 : Finset.Ico (0 : Int) n = ∅ := by
      ext x; simp only [Finset.mem_Ico, Finset.not_mem_empty, iff_false]; omega
    simp [loopRange, h1, h2]

theorem sum_Ico_reflect {α : Type} [AddCommMonoid α] (F : Int → α) (n : Int) :
    ∑ y ∈ Finset.Ico (0 : Int) n, F (n - 1 - y) = ∑ y ∈ Finset.Ico (0 : Int) n, F y := by
  refine Finset.sum_nbij' (fun y => n - 1 - y) (fun y => n - 1 - y) ?_ ?_ ?_ ?_ ?_
  · intro y hy; simp only [Finset.mem_Ico] at hy ⊢; omega
  · intro y hy; simp only [Finset.mem_Ico] at hy ⊢; omega
  · intro y _; simp
  · intro y _; simp
  · intro y _; rfl

theorem sum_select {α : Type} [AddCommMonoid α] (f : Int → α) (n s t : Int) (hs : 0 < s) :
    (∑ x ∈ Finset.Ico (0 : Int) n, if x * s = t then f x else 0) =
      if t < 0 ∨ t.tmod s ≠ 0 then 0 else if t.tdiv s ≥ n then 0 else f (t.tdiv s) := by
  by_cases ht : t < 0
  · rw [if_pos (Or.inl ht)]
    apply Finset.sum_eq_zero
    intro x hx
    simp only [Finset.mem_Ico] at hx
    have : 0 ≤ x * s := mul_nonneg hx.1 hs.le
    rw [if_neg (by omega)]
  · have ht0 : 0 ≤ t := by omega
    rw [Int.tmod_eq_emod ht0 hs.le, Int.tdiv_eq_ediv ht0 hs.le]
    by_cases hm : t % s = 0
    · have hq : t / s * s = t := Int.ediv_mul_cancel (Int.dvd_of_emod_eq_zero hm)
      have hq0 : 0 ≤ t / s := Int.ediv_nonneg ht0 hs.le
      have hc : ∀ x : Int, (x * s = t) ↔ (t / s = x) := by
        intro x
        constructor
        · intro h; rw [← h]; exact Int.mul_ediv_cancel x hs.ne'
        · intro h; rw [← h]; exact hq
      simp only [hc]
      rw [Finset.sum_ite_eq, if_neg (show ¬(t < 0 ∨ t % s ≠ 0) by rintro (h | h); exacts [ht h, h hm])]
      by_cases hn : t / s ≥ n
      · rw [if_pos hn, if_neg]; simp only [Finset.mem_Ico]; omega
      · rw [if_neg hn, if_pos]; simp only [Finset.mem_Ico]; omega
    · rw [if_pos (Or.inr hm)]
      apply Finset.sum_eq_zero
      intro x _
      rw [if_neg]
      intro h
      apply hm
      rw [← h]
      exact Int.mul_emod_left x s

namespace DeconvolutionDepthWise

theorem sparse_taps_eq_sum {α : Type} [AddCommMonoid α] (L : DeconvolutionDepthWise)
    (h w i j : Int) (T : Int → Int → Int → α) (init : α) :
    L.sparse_taps h w i j (fun sum sy sx k => sum + T sy sx k) init =
      init + ∑ y ∈ Finset.Ico (0 : Int) L.kernel_h,
        (if i + y * L.dilation_h - (L.kernel_extent_h - 1) < 0 ∨
            (i + y * L.dilation_h - (L.kernel_extent_h - 1)).tmod L.stride_h ≠ 0 then 0
         else if (i + y * L.dilation_h - (L.kernel_extent_h - 1)).tdiv L.stride_h ≥ h then 0
         else ∑ x ∈ Finset.Ico (0 : Int) L.kernel_w,
          (if j + x * L.dilation_w - (L.kernel_extent_w - 1) < 0 ∨
              (j + x * L.dilation_w - (L.kernel_extent_w - 1)).tmod L.stride_w ≠ 0 then 0
           else if (j + x * L.dilation_w - (L.kernel_extent_w - 1)).tdiv L.stride_w ≥ w then 0
           else T ((i + y * L.dilation_h - (L.kernel_extent_h - 1)).tdiv L.stride_h)
                  ((j + x * L.dilation_w - (L.kernel_extent_w - 1)).tdiv L.stride_w)
                  (y * L.kernel_w + x))) := by
  unfold sparse_taps
  rw [← sum_map_loopRange]
  apply foldl_add_eq_sum
  intro s y
  dsimp only
  split_ifs with h1 h2
  · simp
  · simp
  · rw [← sum_map_loopRange]
    apply foldl_add_eq_sum
    intro s x
    dsimp only
    split_ifs <;> simp

theorem flip_inner {α : Type} (maxk base : Int) (p pt : Int → α) (m : Nat) (x : Int) :
    (loopRange (m : Int)).foldl (fun pt k =>
      Function.update pt (base + (maxk - 1 - k)) (p (base + k))) pt x =
      if base + maxk - m ≤ x ∧ x < base + maxk then p (base + (maxk - 1 - (x - base))) else pt x := by
  induction m generalizing x with
  | zero =>
    have hx : ¬ (base + maxk - ((0 : Nat) : Int) ≤ x ∧ x < base + maxk) := by
      intro h; have := h.1; have := h.2; omega
    rw [if_neg hx]
    simp [loopRange_zero]
  | succ m ih =>
    have e : ((m + 1 : Nat) : Int) = (m : Int) + 1 := by push_cast; ring
    rw [e, loopRange_natCast_succ, List.foldl_append]
    simp only [List.foldl_cons, List.foldl_nil, Function.update_apply]
    by_cases hx : x = base + (maxk - 1 - (m : Int))
    · rw [if_pos hx, if_pos (by omega)]
      congr 1; omega
    · rw [if_neg hx, ih]
      by_cases hr : base + maxk - (m : Int) ≤ x ∧ x < base + maxk
      · rw [if_pos hr, if_pos (by omega)]
      · rw [if_neg hr, if_neg (by omega)]

theorem flip_loop_apply {α : Type} (maxk : Int) (p pt0 : Int → α) (hk : 0 ≤ maxk) (n : Nat)
    (c r : Int) (hc : 0 ≤ c ∧ c < n) (hr : 0 ≤ r ∧ r < maxk) :
    flip_loop maxk (n : Int) p pt0 (c * maxk + r) = p (c * maxk + (maxk - 1 - r)) := by
  unfold flip_loop
  obtain ⟨km, rfl⟩ := Int.eq_ofNat_of_zero_le hk
  induction n with
  | zero => omega
  | succ n ih =>
    have e : ((n + 1 : Nat) : Int) = (n : Int) + 1 := by push_cast; ring
    rw [e, loopRange_natCast_succ, List.foldl_append]
    simp only [List.foldl_cons, List.foldl_nil]
    rw [flip_inner]
    by_cases hcn : c = n
    · subst hcn
      rw [if_pos (by omega)]
      congr 1; omega
    · have hc1 : c + 1 ≤ (n : Int) := by omega
      have hle : (c + 1) * (km : Int) ≤ (n : Int) * (km : Int) :=
        Int.mul_le_mul_of_nonneg_right hc1 hk
      have hlt : c * (km : Int) + r < (n : Int) * (km : Int) := by
        have : (c + 1) * (km : Int) = c * km + km := by ring
        omega
      rw [if_neg (by omega)]
      exact ih (by omega)

theorem scatter_sum_eq {α : Type} [AddCommMonoid α] (L : DeconvolutionDepthWise)
    (G : Int → Int → Int → Int → α) (w h i j : Int)
    (hsw : 0 < L.stride_w) (hsh : 0 < L.stride_h) :
    (∑ q ∈ (Finset.Ico (0 : Int) h ×ˢ Finset.Ico (0 : Int) w ×ˢ
        Finset.Ico (0 : Int) L.kernel_h ×ˢ Finset.Ico (0 : Int) L.kernel_w).filter
        (fun q => q.1 * L.stride_h + q.2.2.1 * L.dilation_h = i ∧
                  q.2.1 * L.stride_w + q.2.2.2 * L.dilation_w = j),
      G q.1 q.2.1 q.2.2.1 q.2.2.2) =
    ∑ ky ∈ Finset.Ico (0 : Int) L.kernel_h,
      (if i - ky * L.dilation_h < 0 ∨ (i - ky * L.dilation_h).tmod L.stride_h ≠ 0 then 0
       else if (i - ky * L.dilation_h).tdiv L.stride_h ≥ h then 0
       else ∑ kx ∈ Finset.Ico (0 : Int) L.kernel_w,
        (if j - kx * L.dilation_w < 0 ∨ (j - kx * L.dilation_w).tmod L.stride_w ≠ 0 then 0
         else if (j - kx * L.dilation_w).tdiv L.stride_w ≥ w then 0
         else G ((i - ky * L.dilation_h).tdiv L.stride_h)
                ((j - kx * L.dilation_w).tdiv L.stride_w) ky kx)) := by
  rw [Finset.sum_filter, Finset.sum_product]
  simp only [Finset.sum_product]
  -- the right-hand side as a four-fold sum in the order ky, sy, kx, sx
  have hrhs : ∀ ky : Int,
      (if i - ky * L.dilation_h < 0 ∨ (i - ky * L.dilation_h).tmod L.stride_h ≠ 0 then 0
       else if (i - ky * L.dilation_h).tdiv L.stride_h ≥ h then 0
       else ∑ kx ∈ Finset.Ico (0 : Int) L.kernel_w,
        (if j - kx * L.dilation_w < 0 ∨ (j - kx * L.dilation_w).tmod L.stride_w ≠ 0 then 0
         else if (j - kx * L.dilation_w).tdiv L.stride_w ≥ w then 0
         else G ((i - ky * L.dilation_h).tdiv L.stride_h)
                ((j - kx * L.dilation_w).tdiv L.stride_w) ky kx)) =
      ∑ sy ∈ Finset.Ico (0 : Int) h, ∑ kx ∈ Finset.Ico (0 : Int) L.kernel_w,
        ∑ sx ∈ Finset.Ico (0 : Int) w,
          if sy * L.stride_h + ky * L.dilation_h = i ∧ sx * L.stride_w + kx * L.dilation_w = j
          then G sy sx ky kx else 0 := by
    intro ky
    rw [← sum_select (fun sy => ∑ kx ∈ Finset.Ico (0 : Int) L.kernel_w,
        (if j - kx * L.dilation_w < 0 ∨ (j - kx * L.dilation_w).tmod L.stride_w ≠ 0 then 0
         else if (j - kx * L.dilation_w).tdiv L.stride_w ≥ w then 0
         else G sy ((j - kx * L.dilation_w).tdiv L.stride_w) ky kx)) h L.stride_h
        (i - ky * L.dilation_h) hsh]
    refine Finset.sum_congr rfl (fun sy _ => ?_)
    by_cases hrow : sy * L.stride_h = i - ky * L.dilation_h
    · rw [if_pos hrow]
      refine Finset.sum_congr rfl (fun kx _ => ?_)
      rw [← sum_select (fun sx => G sy sx ky kx) w L.stride_w (j - kx * L.dilation_w) hsw]
      refine Finset.sum_congr rfl (fun sx _ => ?_)
      by_cases hcol : sx * L.stride_w = j - kx * L.dilation_w
      · rw [if_pos hcol, if_pos ⟨by omega, by omega⟩]
      · rw [if_neg hcol, if_neg (fun hh => hcol (by have := hh.2; omega))]
    · rw [if_neg hrow]
      symm
      apply Finset.sum_eq_zero
      intro kx _
      apply Finset.sum_eq_zero
      intro sx _
      rw [if_neg]
      intro hh
      exact hrow (by have := hh.1; omega)
  simp only [hrhs]
  -- reorder sy, sx, ky, kx into ky, sy, kx, sx
  refine (Finset.sum_congr rfl (fun sy _ => Finset.sum_comm)).trans ?_
  refine Finset.sum_comm.trans ?_
  exact Finset.sum_congr rfl (fun ky _ => Finset.sum_congr rfl (fun sy _ => Finset.sum_comm))

theorem weight_data_transposed_apply {α : Type} (L : DeconvolutionDepthWise)
    (weight_data pt0 : Int → α)
    (hcreate : L.create_pipeline_channels = L.group ∧ L.group = L.num_output)
    (g y x : Int) (hg : 0 ≤ g ∧ g < L.group)
    (hy : 0 ≤ y ∧ y < L.kernel_h) (hx : 0 ≤ x ∧ x < L.kernel_w) :
    L.weight_data_transposed weight_data pt0 (L.maxk * g + (y * L.kernel_w + x)) =
      weight_data (g * L.maxk + ((L.kernel_h - 1 - y) * L.kernel_w + (L.kernel_w - 1 - x))) := by
  obtain ⟨hc1, hc2⟩ := hcreate
  have hgrp : L.group ≠ 0 := by omega
  have hn : (L.create_pipeline_channels.tdiv L.group) * (L.num_output.tdiv L.group) * L.group
      = L.group := by
    rw [hc1, ← hc2, Int.tdiv_self hgrp]; ring
  unfold weight_data_transposed
  rw [hn]
  obtain ⟨n, hn'⟩ := Int.eq_ofNat_of_zero_le (show 0 ≤ L.group by omega)
  rw [hn'] at hg ⊢
  have hy1 : y * L.kernel_w ≤ (L.kernel_h - 1) * L.kernel_w :=
    Int.mul_le_mul_of_nonneg_right (by omega) (by omega)
  have hy0 : 0 ≤ y * L.kernel_w := mul_nonneg hy.1 (by omega)
  have hmk : L.maxk = (L.kernel_h - 1) * L.kernel_w + L.kernel_w := by
    unfold maxk; ring
  have e : L.maxk * g + (y * L.kernel_w + x) = g * L.maxk + (y * L.kernel_w + x) := by ring
  rw [e, flip_loop_apply L.maxk weight_data pt0 (by omega) n g (y * L.kernel_w + x) hg
    ⟨by omega, by omega⟩]
  congr 1
  have : (L.kernel_h - 1 - y) * L.kernel_w = (L.kernel_h - 1) * L.kernel_w - y * L.kernel_w := by
    ring
  omega

/-- C1. Depthwise deconvolution equals the scatter form of transposed convolution: with
`weight_data_tm` the array produced by the flip of `create_pipeline` (elempack 1) from the
original kernel `weight_data`, positive strides, kernel sizes at least 1 and identity
activation, the pack1 depthwise path of `forward` stores, for every channel `g` and every
pixel `(i, j)` of the bordered output, `bias[g]` (or 0) plus the sum over all quadruples
`(sy, sx, ky, kx)` in range with `sy * stride_h + ky * dilation_h = i` and
`sx * stride_w + kx * dilation_w = j` of `in[g][sy][sx] * W[g][ky * kernel_w + kx]`, each
quadruple being counted once (exact rational arithmetic). -/
theorem depthwise_pack1_eq_scatter (L : DeconvolutionDepthWise)
    (weight_data bias_data pt0 : Int → ℚ) (bottom_blob : Int → Int → Int → ℚ)
    (w h channels g i j : Int)
    (hsw : 0 < L.stride_w) (hsh : 0 < L.stride_h)
    (hcreate : L.create_pipeline_channels = L.group ∧ L.group = L.num_output)
    (hfwd : channels * 1 = L.group ∧ L.group = L.num_output)
    (hg : 0 ≤ g ∧ g < channels) (hi : 0 ≤ i ∧ i < L.outh h) (hj : 0 ≤ j ∧ j < L.outw w) :
    DeconvolutionDepthWise_arm.depthwise_pack1 L id (L.weight_data_transposed weight_data pt0)
        bias_data bottom_blob w h channels g i j =
      some (L.scatter_deconvolution weight_data bias_data bottom_blob w h g i j) := by
  unfold DeconvolutionDepthWise_arm.depthwise_pack1
  rw [if_pos ⟨hg.1, hg.2, hi.1, hi.2, hj.1, hj.2⟩]
  congr 1
  unfold DeconvolutionDepthWise_arm.pixel_pack1 scatter_deconvolution
  simp only [id]
  rw [sparse_taps_eq_sum]
  congr 1
  rw [scatter_sum_eq L (fun sy sx ky kx =>
      bottom_blob g sy sx * weight_data (g * L.maxk + (ky * L.kernel_w + kx))) w h i j hsw hsh]
  rw [← sum_Ico_reflect _ L.kernel_h]
  refine Finset.sum_congr rfl (fun y hy => ?_)
  rw [Finset.mem_Ico] at hy
  have e1 : i + (L.kernel_h - 1 - y) * L.dilation_h - (L.kernel_extent_h - 1) =
      i - y * L.dilation_h := by
    unfold kernel_extent_h; ring
  rw [e1]
  by_cases hbad : i - y * L.dilation_h < 0 ∨ (i - y * L.dilation_h).tmod L.stride_h ≠ 0
  · rw [if_pos hbad, if_pos hbad]
  · rw [if_neg hbad, if_neg hbad]
    by_cases hge : (i - y * L.dilation_h).tdiv L.stride_h ≥ h
    · rw [if_pos hge, if_pos hge]
    · rw [if_neg hge, if_neg hge]
      rw [← sum_Ico_reflect _ L.kernel_w]
      refine Finset.sum_congr rfl (fun x hx => ?_)
      rw [Finset.mem_Ico] at hx
      have e2 : j + (L.kernel_w - 1 - x) * L.dilation_w - (L.kernel_extent_w - 1) =
          j - x * L.dilation_w := by
        unfold kernel_extent_w; ring
      rw [e2, weight_data_transposed_apply L weight_data pt0 hcreate g (L.kernel_h - 1 - y)
        (L.kernel_w - 1 - x) (by omega) (by omega) (by omega), sub_sub_cancel, sub_sub_cancel]

end DeconvolutionDepthWise

/-! ## The sparse-tap gather -/

theorem foldl_flatMap {α β γ : Type} (f : γ → β → γ) (g : α → List β) (l : List α) (b : γ) :
    (l.flatMap g).foldl f b = l.foldl (fun b a => (g a).foldl f b) b := by
  induction l generalizing b with
  | nil => simp
  | cons a l ih => simp [List.flatMap_cons, List.foldl_append, ih]

namespace DeconvolutionDepthWise

theorem sparse_taps_eq_accumulate {α : Type} [Add α] (L : DeconvolutionDepthWise)
    (h w i j : Int) (term : Int → Int → Int → α) (sum0 : α) :
    L.sparse_taps h w i j (fun sum sy sx k => sum + term sy sx k) sum0 =
      accumulate term (L.tap_steps h w i j) sum0 := by
  unfold sparse_taps accumulate tap_steps
  rw [foldl_flatMap]
  apply List.foldl_ext
  intro s y _
  dsimp only
  rw [List.foldl_cons]
  split_ifs with h1 h2
  · simp
  · simp
  · rw [foldl_flatMap]
    apply List.foldl_ext
    intro s x _
    dsimp only
    split_ifs <;> simp

end DeconvolutionDepthWise

namespace DeconvolutionDepthWise

theorem mac_mem_tap_steps (L : DeconvolutionDepthWise) (h w i j y x sy sx k : Int) :
    TapStep.mac y x sy sx k ∈ L.tap_steps h w i j ↔
      (0 ≤ y ∧ y < L.kernel_h) ∧ (0 ≤ x ∧ x < L.kernel_w) ∧
      (0 ≤ L.sys i y ∧ L.stride_h ∣ L.sys i y ∧ (L.sys i y).tdiv L.stride_h < h) ∧
      (0 ≤ L.sxs j x ∧ L.stride_w ∣ L.sxs j x ∧ (L.sxs j x).tdiv L.stride_w < w) ∧
      sy = (L.sys i y).tdiv L.stride_h ∧ sx = (L.sxs j x).tdiv L.stride_w ∧
      k = y * L.kernel_w + x := by
  simp only [tap_steps, sys, sxs, List.mem_flatMap, mem_loopRange, Int.dvd_iff_tmod_eq_zero]
  constructor
  · rintro ⟨y', hy', hm⟩
    rw [List.mem_cons] at hm
    rcases hm with hm | hm
    · cases hm
    split_ifs at hm with h1 h2
    · cases hm
    · cases hm
    · simp only [List.mem_flatMap, mem_loopRange] at hm
      obtain ⟨x', hx', hm⟩ := hm
      rw [List.mem_cons] at hm
      rcases hm with hm | hm
      · cases hm
      split_ifs at hm with h3 h4
      · cases hm
      · cases hm
      · rw [List.mem_singleton] at hm
        cases hm
        push_neg at h1 h3
        exact ⟨hy', hx', ⟨h1.1, h1.2, by omega⟩, ⟨h3.1, h3.2, by omega⟩, rfl, rfl, rfl⟩
  · rintro ⟨hy, hx, ⟨r1, r2, r3⟩, ⟨c1, c2, c3⟩, rfl, rfl, rfl⟩
    refine ⟨y, hy, ?_⟩
    rw [List.mem_cons]
    right
    rw [if_neg (by push_neg; exact ⟨r1, r2⟩), if_neg (by omega)]
    simp only [List.mem_flatMap, mem_loopRange]
    refine ⟨x, hx, ?_⟩
    rw [List.mem_cons]
    right
    rw [if_neg (by push_neg; exact ⟨c1, c2⟩), if_neg (by omega)]
    exact List.mem_singleton.2 rfl

end DeconvolutionDepthWise

theorem sublist_flatMap_of_mem {α β : Type} (g : α → List β) {l : List α} {a : α}
    (ha : a ∈ l) : (g a).Sublist (l.flatMap g) := by
  unfold List.flatMap
  exact List.sublist_flatten_of_mem (List.mem_map_of_mem g ha)

namespace DeconvolutionDepthWise

theorem tap_steps_order (L : DeconvolutionDepthWise) (h w i j y x : Int)
    (hy : 0 ≤ y ∧ y < L.kernel_h) (hx : 0 ≤ x ∧ x < L.kernel_w)
    (hrow : 0 ≤ L.sys i y ∧ L.stride_h ∣ L.sys i y ∧ (L.sys i y).tdiv L.stride_h < h)
    (tail : List TapStep)
    (htail : tail.Sublist
      (if L.sxs j x < 0 ∨ (L.sxs j x).tmod L.stride_w ≠ 0 then []
       else if (L.sxs j x).tdiv L.stride_w ≥ w then []
       else [TapStep.mac y x ((L.sys i y).tdiv L.stride_h) ((L.sxs j x).tdiv L.stride_w)
          (y * L.kernel_w + x)])) :
    (TapStep.rowTest y :: TapStep.colTest y x :: tail).Sublist (L.tap_steps h w i j) := by
  have hy' : y ∈ loopRange L.kernel_h := mem_loopRange.2 hy
  have hx' : x ∈ loopRange L.kernel_w := mem_loopRange.2 hx
  unfold tap_steps
  refine List.Sublist.trans ?_ (sublist_flatMap_of_mem _ hy')
  dsimp only
  apply List.Sublist.cons₂
  have r2 : (i + y * L.dilation_h - (L.kernel_extent_h - 1)).tmod L.stride_h = 0 :=
    Int.dvd_iff_tmod_eq_zero.1 hrow.2.1
  have r1 : 0 ≤ i + y * L.dilation_h - (L.kernel_extent_h - 1) := hrow.1
  have r3 : (i + y * L.dilation_h - (L.kernel_extent_h - 1)).tdiv L.stride_h < h := hrow.2.2
  rw [if_neg (by push_neg; exact ⟨r1, r2⟩), if_neg (by omega)]
  refine List.Sublist.trans ?_ (sublist_flatMap_of_mem _ hx')
  dsimp only
  apply List.Sublist.cons₂
  exact htail

theorem colTest_mem_tap_steps (L : DeconvolutionDepthWise) (h w i j y x : Int)
    (hm : TapStep.colTest y x ∈ L.tap_steps h w i j) :
    (0 ≤ y ∧ y < L.kernel_h) ∧ (0 ≤ x ∧ x < L.kernel_w) ∧
      (0 ≤ L.sys i y ∧ L.stride_h ∣ L.sys i y ∧ (L.sys i y).tdiv L.stride_h < h) := by
  simp only [tap_steps, sys, List.mem_flatMap, mem_loopRange, Int.dvd_iff_tmod_eq_zero] at hm ⊢
  obtain ⟨y', hy', hm⟩ := hm
  rw [List.mem_cons] at hm
  rcases hm with hm | hm
  · cases hm
  split_ifs at hm with h1 h2
  · cases hm
  · cases hm
  · simp only [List.mem_flatMap, mem_loopRange] at hm
    obtain ⟨x', hx', hm⟩ := hm
    rw [List.mem_cons] at hm
    rcases hm with hm | hm
    · cases hm
      push_neg at h1
      exact ⟨hy', hx', h1.1, h1.2, by omega⟩
    · split_ifs at hm with h3 h4
      · cases hm
      · cases hm
      · rw [List.mem_singleton] at hm
        cases hm

end DeconvolutionDepthWise

namespace DeconvolutionDepthWise

/-- C2. Sparse-tap gather rule.  In the loop nest shared by the depthwise kernels of the ARM
`forward` (pack1, pack4) and of the RISC-V `forward_fp16s` / `forward_fp16sa`, for output
pixel `(i, j)` the tap `(y, x)` is accumulated if and only if
`sys = i + y * dilation_h - (kernel_extent_h - 1)` is non-negative, divisible by `stride_h`
and `sys / stride_h < h`, and likewise `sxs` for the columns; it then multiplies input pixel
`(sys / stride_h, sxs / stride_w)` by transformed weight `y * kernel_w + x`.  A column test
of row `y` is evaluated only after the row test of `y` has passed, and an accumulation only
after both tests.  Each kernel accumulates exactly the logged taps, in order. -/
theorem sparse_tap_gather_rule {α : Type} [Zero α] [Add α] [Mul α]
    (L : DeconvolutionDepthWise) (act : α → α)
    (weight_data_tm bias_data bias_data_fp16 : Int → α) (m : Int → Int → α)
    (packn h w g i j l : Int) :
    (∀ y x sy sx k : Int, TapStep.mac y x sy sx k ∈ L.tap_steps h w i j ↔
      (0 ≤ y ∧ y < L.kernel_h) ∧ (0 ≤ x ∧ x < L.kernel_w) ∧
      (0 ≤ L.sys i y ∧ L.stride_h ∣ L.sys i y ∧ (L.sys i y).tdiv L.stride_h < h) ∧
      (0 ≤ L.sxs j x ∧ L.stride_w ∣ L.sxs j x ∧ (L.sxs j x).tdiv L.stride_w < w) ∧
      sy = (L.sys i y).tdiv L.stride_h ∧ sx = (L.sxs j x).tdiv L.stride_w ∧
      k = y * L.kernel_w + x) ∧
    (∀ y x : Int, TapStep.colTest y x ∈ L.tap_steps h w i j →
      (0 ≤ L.sys i y ∧ L.stride_h ∣ L.sys i y ∧ (L.sys i y).tdiv L.stride_h < h) ∧
      [TapStep.rowTest y, TapStep.colTest y x].Sublist (L.tap_steps h w i j)) ∧
    (∀ y x sy sx k : Int, TapStep.mac y x sy sx k ∈ L.tap_steps h w i j →
      [TapStep.rowTest y, TapStep.colTest y x, TapStep.mac y x sy sx k].Sublist
        (L.tap_steps h w i j)) ∧
    DeconvolutionDepthWise_arm.pixel_pack1 L act weight_data_tm bias_data m h w g i j =
      act (accumulate (fun sy sx k => m sy sx * weight_data_tm (L.maxk * g + k))
        (L.tap_steps h w i j) (if L.bias_term ≠ 0 then bias_data g else 0)) ∧
    DeconvolutionDepthWise_arm.pixel_pack4 L act weight_data_tm bias_data m h w g i j l =
      act (accumulate
        (fun sy sx k => m sy (sx * 4 + l) * weight_data_tm (L.maxk * g * 4 + k * 4 + l))
        (L.tap_steps h w i j) (if L.bias_term ≠ 0 then bias_data (g * 4 + l) else 0)) ∧
    DeconvolutionDepthWise_riscv.pixel_fp16s_pack1 L act weight_data_tm bias_data m h w g i j =
      act (accumulate (fun sy sx k => m sy sx * weight_data_tm (L.maxk * g + k))
        (L.tap_steps h w i j) (if L.bias_term ≠ 0 then bias_data g else 0)) ∧
    DeconvolutionDepthWise_riscv.pixel_fp16s_packn L act packn weight_data_tm bias_data m
        h w g i j l =
      act (accumulate
        (fun sy sx k =>
          m sy (sx * packn + l) * weight_data_tm (L.maxk * g * packn + k * packn + l))
        (L.tap_steps h w i j) (if L.bias_term ≠ 0 then bias_data (g * packn + l) else 0)) ∧
    DeconvolutionDepthWise_riscv.pixel_fp16sa_pack1 L act weight_data_tm bias_data m h w g i j =
      act (accumulate (fun sy sx k => m sy sx * weight_data_tm (L.maxk * g + k))
        (L.tap_steps h w i j) (if L.bias_term ≠ 0 then bias_data g else 0)) ∧
    DeconvolutionDepthWise_riscv.pixel_fp16sa_packn L act packn weight_data_tm bias_data_fp16 m
        h w g i j l =
      act (accumulate
        (fun sy sx k =>
          m sy (sx * packn + l) * weight_data_tm (L.maxk * g * packn + k * packn + l))
        (L.tap_steps h w i j)
        (if L.bias_term ≠ 0 then bias_data_fp16 (g * packn + l) else 0)) := by
  refine ⟨fun y x sy sx k => mac_mem_tap_steps L h w i j y x sy sx k, ?_, ?_,
    ?_, ?_, ?_, ?_, ?_, ?_⟩
  · intro y x hm
    obtain ⟨hy, hx, hrow⟩ := colTest_mem_tap_steps L h w i j y x hm
    exact ⟨hrow, tap_steps_order L h w i j y x hy hx hrow [] (List.nil_sublist _)⟩
  · intro y x sy sx k hm
    obtain ⟨hy, hx, hrow, hcol, rfl, rfl, rfl⟩ := (mac_mem_tap_steps L h w i j y x sy sx k).1 hm
    refine tap_steps_order L h w i j y x hy hx hrow _ ?_
    have c2 : (L.sxs j x).tmod L.stride_w = 0 := Int.dvd_iff_tmod_eq_zero.1 hcol.2.1
    rw [if_neg (by push_neg; exact ⟨hcol.1, c2⟩), if_neg (by have := hcol.2.2; omega)]
  · simp only [DeconvolutionDepthWise_arm.pixel_pack1, sparse_taps_eq_accumulate]
  · simp only [DeconvolutionDepthWise_arm.pixel_pack4, sparse_taps_eq_accumulate]
  · simp only [DeconvolutionDepthWise_riscv.pixel_fp16s_pack1, sparse_taps_eq_accumulate]
  · simp only [DeconvolutionDepthWise_riscv.pixel_fp16s_packn, sparse_taps_eq_accumulate]
  · simp only [DeconvolutionDepthWise_riscv.pixel_fp16sa_pack1, sparse_taps_eq_accumulate]
  · simp only [DeconvolutionDepthWise_riscv.pixel_fp16sa_packn, sparse_taps_eq_accumulate]

end DeconvolutionDepthWise

/-! ## Output geometry -/

theorem run_steps_head (e : Event) (st : Int) (rest : List Step) :
    (run_steps ((e, st) :: rest)).2.head? = some e := by
  unfold run_steps
  split_ifs <;> rfl

theorem geometry_facts (num_output p : Int) (elemsize elempack : Nat) (hp : 0 < p) :
    (if num_output.tmod p = 0 then p else 1) > 0 ∧
    num_output.tdiv (if num_output.tmod p = 0 then p else 1) *
      (if num_output.tmod p = 0 then p else 1) = num_output ∧
    (elemsize / elempack * (if num_output.tmod p = 0 then p else 1).toNat) /
      (if num_output.tmod p = 0 then p else 1).toNat = elemsize / elempack := by
  split_ifs with h
  · exact ⟨hp, Int.tdiv_mul_cancel (Int.dvd_of_tmod_eq_zero h),
      Nat.mul_div_cancel _ (by omega)⟩
  · refine ⟨by decide, by simp, by simp⟩

/-- C3. Output geometry.  Every forward variant (ARM fp32, ARM bf16, RISC-V fp16s, RISC-V
fp16sa) first creates the bordered output with
`outw = (w - 1) * stride_w + dilation_w * (kernel_w - 1) + 1 + output_pad_right`,
`outh = (h - 1) * stride_h + dilation_h * (kernel_h - 1) + 1 + output_pad_bottom`,
`num_output / out_elempack` packed channels and `out_elemsize = elemsize / elempack *
out_elempack`; the packed channels times `out_elempack` are `num_output`, and the byte size
of one scalar of the output is that of the input. -/
theorem bordered_output_geometry (B : Build) (vlenb : Int) (L : DeconvolutionDepthWise)
    (X : Externals) (opt : Opt) (bottom_blob : Mat)
    (hpack : 0 < bottom_blob.elempack) (hvlenb : 2 ≤ vlenb) :
    ∀ f ∈ [DeconvolutionDepthWise_arm.forward_fp32 B L X opt,
           DeconvolutionDepthWise_arm.forward_bf16s B L X opt,
           DeconvolutionDepthWise_riscv.forward_fp16s B vlenb L X opt,
           DeconvolutionDepthWise_riscv.forward_fp16sa B vlenb L X opt],
      ∃ (out_elempack : Int) (workspace empty : Bool),
        0 < out_elempack ∧
        (f bottom_blob).2.head? = some (Event.create
          ⟨(bottom_blob.w - 1) * L.stride_w + L.dilation_w * (L.kernel_w - 1) + 1
              + L.output_pad_right,
            (bottom_blob.h - 1) * L.stride_h + L.dilation_h * (L.kernel_h - 1) + 1
              + L.output_pad_bottom,
            L.num_output.tdiv out_elempack,
            bottom_blob.elemsize / bottom_blob.elempack.toNat * out_elempack.toNat,
            out_elempack⟩ workspace empty) ∧
        L.num_output.tdiv out_elempack * out_elempack = L.num_output ∧
        (bottom_blob.elemsize / bottom_blob.elempack.toNat * out_elempack.toNat)
            / out_elempack.toNat
          = bottom_blob.elemsize / bottom_blob.elempack.toNat := by
  have _hdefined := hpack
  have hpn : 0 < vlenb.tdiv 2 := by
    rw [Int.tdiv_eq_ediv (by omega) (by decide)]; omega
  have h1 : ∀ n : Int, ∀ e p : Nat, (0 : Int) < 1 ∧ n.tdiv 1 * 1 = n ∧
      (e / p * (1 : Int).toNat) / (1 : Int).toNat = e / p := by
    intro n e p; refine ⟨by decide, by simp, by simp⟩
  intro f hf
  simp only [List.mem_cons, List.mem_singleton, List.not_mem_nil, or_false] at hf
  rcases hf with rfl | rfl | rfl | rfl
  · by_cases hc : B.arm_neon = true ∧ opt.use_packing_layout = true
    · obtain ⟨g1, g2, g3⟩ := geometry_facts L.num_output 4 bottom_blob.elemsize
        bottom_blob.elempack.toNat (by decide)
      exact ⟨_, _, _, g1, by
        simp only [DeconvolutionDepthWise_arm.forward_fp32, DeconvolutionDepthWise_arm.forward_fp32_steps, checked_create, List.singleton_append,
          List.cons_append, run_steps_head, if_pos hc, DeconvolutionDepthWise.kernel_extent_w,
          DeconvolutionDepthWise.kernel_extent_h, add_assoc]
        exact rfl, g2, g3⟩
    · obtain ⟨g1, g2, g3⟩ := h1 L.num_output bottom_blob.elemsize bottom_blob.elempack.toNat
      exact ⟨_, _, _, g1, by
        simp only [DeconvolutionDepthWise_arm.forward_fp32, DeconvolutionDepthWise_arm.forward_fp32_steps, checked_create, List.singleton_append,
          List.cons_append, run_steps_head, if_neg hc, DeconvolutionDepthWise.kernel_extent_w,
          DeconvolutionDepthWise.kernel_extent_h, add_assoc]
        exact rfl, g2, g3⟩
  · by_cases hc : B.arm_neon = true ∧ opt.use_packing_layout = true
    · obtain ⟨g1, g2, g3⟩ := geometry_facts L.num_output 4 bottom_blob.elemsize
        bottom_blob.elempack.toNat (by decide)
      exact ⟨_, _, _, g1, by
        simp only [DeconvolutionDepthWise_arm.forward_bf16s, DeconvolutionDepthWise_arm.forward_bf16s_steps, checked_create, List.singleton_append,
          List.cons_append, run_steps_head, if_pos hc, DeconvolutionDepthWise.kernel_extent_w,
          DeconvolutionDepthWise.kernel_extent_h, add_assoc]
        exact rfl, g2, g3⟩
    · obtain ⟨g1, g2, g3⟩ := h1 L.num_output bottom_blob.elemsize bottom_blob.elempack.toNat
      exact ⟨_, _, _, g1, by
        simp only [DeconvolutionDepthWise_arm.forward_bf16s, DeconvolutionDepthWise_arm.forward_bf16s_steps, checked_create, List.singleton_append,
          List.cons_append, run_steps_head, if_neg hc, DeconvolutionDepthWise.kernel_extent_w,
          DeconvolutionDepthWise.kernel_extent_h, add_assoc]
        exact rfl, g2, g3⟩
  · by_cases hc : B.riscv_zvfh = true ∧ opt.use_packing_layout = true
    · obtain ⟨g1, g2, g3⟩ := geometry_facts L.num_output (vlenb.tdiv 2) bottom_blob.elemsize
        bottom_blob.elempack.toNat hpn
      exact ⟨_, _, _, g1, by
        simp only [DeconvolutionDepthWise_riscv.forward_fp16s, DeconvolutionDepthWise_riscv.forward_fp16s_steps, checked_create, List.singleton_append,
          List.cons_append, run_steps_head, if_pos hc, DeconvolutionDepthWise.kernel_extent_w,
          DeconvolutionDepthWise.kernel_extent_h, add_assoc]
        exact rfl, g2, g3⟩
    · obtain ⟨g1, g2, g3⟩ := h1 L.num_output bottom_blob.elemsize bottom_blob.elempack.toNat
      exact ⟨_, _, _, g1, by
        simp only [DeconvolutionDepthWise_riscv.forward_fp16s, DeconvolutionDepthWise_riscv.forward_fp16s_steps, checked_create, List.singleton_append,
          List.cons_append, run_steps_head, if_neg hc, DeconvolutionDepthWise.kernel_extent_w,
          DeconvolutionDepthWise.kernel_extent_h, add_assoc]
        exact rfl, g2, g3⟩
  · by_cases hc : B.riscv_zvfh = true ∧ opt.use_packing_layout = true
    · obtain ⟨g1, g2, g3⟩ := geometry_facts L.num_output (vlenb.tdiv 2) bottom_blob.elemsize
        bottom_blob.elempack.toNat hpn
      exact ⟨_, _, _, g1, by
        simp only [DeconvolutionDepthWise_riscv.forward_fp16sa, DeconvolutionDepthWise_riscv.forward_fp16sa_steps, checked_create, List.singleton_append,
          List.cons_append, run_steps_head, if_pos hc, DeconvolutionDepthWise.kernel_extent_w,
          DeconvolutionDepthWise.kernel_extent_h, add_assoc]
        exact rfl, g2, g3⟩
    · obtain ⟨g1, g2, g3⟩ := h1 L.num_output bottom_blob.elemsize bottom_blob.elempack.toNat
      exact ⟨_, _, _, g1, by
        simp only [DeconvolutionDepthWise_riscv.forward_fp16sa, DeconvolutionDepthWise_riscv.forward_fp16sa_steps, checked_create, List.singleton_append,
          List.cons_append, run_steps_head, if_neg hc, DeconvolutionDepthWise.kernel_extent_w,
          DeconvolutionDepthWise.kernel_extent_h, add_assoc]
        exact rfl, g2, g3⟩

/-! ## The 1x1 boundary case -/

namespace DeconvolutionDepthWise

theorem sparse_taps_1x1 {α : Type} (L : DeconvolutionDepthWise) (h w i j : Int)
    (body : α → Int → Int → Int → α) (init : α)
    (hkw : L.kernel_w = 1) (hkh : L.kernel_h = 1) (hsw : L.stride_w = 1) (hsh : L.stride_h = 1)
    (hi : 0 ≤ i ∧ i < h) (hj : 0 ≤ j ∧ j < w) :
    L.sparse_taps h w i j body init = body init i j 0 := by
  have e1 : loopRange 1 = [0] := by decide
  have hi' : ¬ (i < 0) := by omega
  have hj' : ¬ (j < 0) := by omega
  have hi2 : ¬ (h ≤ i) := by omega
  have hj2 : ¬ (w ≤ j) := by omega
  simp [sparse_taps, kernel_extent_h, kernel_extent_w, hkw, hkh, hsw, hsh, e1, hi', hj',
    hi2, hj2]

/-- C4. The 1x1 boundary case: with `kernel_w = kernel_h = 1`, stride 1, dilation 1, output
pads 0, no bias and identity activation, the bordered output of the depthwise path has the
width and height of the input, and every stored element is the input element times the
weight of its channel: `out[g][i][j] = in[g][i][j] * weight[g]` in the pack1 path (with
`weight_data_tm` produced by the flip of `create_pipeline`); lane-wise
`in * weight_data_tm[g * 4 + lane]` in the pack4 path, which is `in * weight[g * 4 + lane]`
for the `weight_data_tm` that `create_pipeline` packs by 4. -/
theorem deconvolution_1x1_is_scale (L : DeconvolutionDepthWise)
    (weight_data weight_data_tm bias_data pt0 : Int → ℚ) (bottom_blob : Int → Int → Int → ℚ)
    (w h channels g i j : Int)
    (hkw : L.kernel_w = 1) (hkh : L.kernel_h = 1) (hsw : L.stride_w = 1) (hsh : L.stride_h = 1)
    (hdw : L.dilation_w = 1) (hdh : L.dilation_h = 1)
    (hopr : L.output_pad_right = 0) (hopb : L.output_pad_bottom = 0)
    (hbias : L.bias_term = 0)
    (hcreate : L.create_pipeline_channels = L.group ∧ L.group = L.num_output)
    (hg : 0 ≤ g ∧ g < channels) (hi : 0 ≤ i ∧ i < h) (hj : 0 ≤ j ∧ j < w) :
    L.outw w = w ∧ L.outh h = h ∧
    (channels * 1 = L.group →
      DeconvolutionDepthWise_arm.depthwise_pack1 L id (L.weight_data_transposed weight_data pt0)
        bias_data bottom_blob w h channels g i j = some (bottom_blob g i j * weight_data g)) ∧
    (∀ l : Int, 0 ≤ l ∧ l < 4 →
      DeconvolutionDepthWise_arm.depthwise_pack4 L id weight_data_tm bias_data bottom_blob
        w h channels g i (j * 4 + l) =
          some (bottom_blob g i (j * 4 + l) * weight_data_tm (g * 4 + l))) ∧
    (channels * 4 = L.group → ∀ l : Int, 0 ≤ l ∧ l < 4 →
      DeconvolutionDepthWise_arm.depthwise_pack4 L id (L.weight_data_tm_pack4 weight_data pt0)
        bias_data bottom_blob w h channels g i (j * 4 + l) =
          some (bottom_blob g i (j * 4 + l) * weight_data (g * 4 + l))) := by
  have how : L.outw w = w := by
    simp [outw, kernel_extent_w, hkw, hsw, hdw, hopr]
  have hoh : L.outh h = h := by
    simp [outh, kernel_extent_h, hkh, hsh, hdh, hopb]
  have hmaxk : L.maxk = 1 := by simp [maxk, hkw, hkh]
  have hp4 : ∀ (wtm : Int → ℚ) (l : Int), 0 ≤ l ∧ l < 4 →
      DeconvolutionDepthWise_arm.depthwise_pack4 L id wtm bias_data bottom_blob
        w h channels g i (j * 4 + l) =
          some (bottom_blob g i (j * 4 + l) * wtm (g * 4 + l)) := by
    intro wtm l hl
    unfold DeconvolutionDepthWise_arm.depthwise_pack4
    have hq : (j * 4 + l) / 4 = j := by omega
    have hr : (j * 4 + l) % 4 = l := by omega
    rw [if_pos ⟨hg.1, hg.2, hi.1, by omega, by omega, by omega⟩]
    unfold DeconvolutionDepthWise_arm.pixel_pack4
    dsimp only
    rw [hq, hr, sparse_taps_1x1 L h w i j _ _ hkw hkh hsw hsh hi hj]
    simp [hbias, hmaxk]
  refine ⟨how, hoh, ?_, hp4 weight_data_tm, ?_⟩
  · intro hch
    unfold DeconvolutionDepthWise_arm.depthwise_pack1
    rw [if_pos ⟨hg.1, hg.2, hi.1, by omega, hj.1, by omega⟩]
    unfold DeconvolutionDepthWise_arm.pixel_pack1
    dsimp only
    rw [sparse_taps_1x1 L h w i j _ _ hkw hkh hsw hsh hi hj]
    have hwt := weight_data_transposed_apply L weight_data pt0 hcreate g 0 0 (by omega)
      (by omega) (by omega)
    simp only [hkw, hkh, hmaxk] at hwt
    simp only [hmaxk]
    have e : (1 : Int) * g + (0 * 1 + 0) = 1 * g + 0 := by ring
    rw [e] at hwt
    rw [hwt]
    simp [hbias]
  · intro hch l hl
    rw [hp4 _ l hl]
    have hwt := weight_data_transposed_apply L weight_data pt0 hcreate (g * 4 + l) 0 0
      (by omega) (by omega) (by omega)
    simp only [hkw, hkh, hmaxk] at hwt
    have e : (1 : Int) * (g * 4 + l) + (0 * 1 + 0) = g * 4 + l := by ring
    have e' : (g * 4 + l) * 1 + ((1 - 1 - 0) * 1 + (1 - 1 - 0)) = g * 4 + l := by ring
    rw [e, e'] at hwt
    have hq : (g * 4 + l) / 4 = g := by omega
    have hr : (g * 4 + l) % 4 = l := by omega
    unfold weight_data_tm_pack4 convert_packing_rows4
    simp only [hmaxk, hq, hr, Int.ediv_one, Int.emod_one, mul_one, add_zero]
    rw [hwt]

end DeconvolutionDepthWise

/-! ## Channel independence of the depthwise path -/

namespace DeconvolutionDepthWise

theorem sparse_taps_congr {α : Type} (L : DeconvolutionDepthWise) (h w i j : Int)
    (body1 body2 : α → Int → Int → Int → α) (init : α)
    (hb : ∀ sum sy sx k, 0 ≤ k ∧ k < L.maxk → body1 sum sy sx k = body2 sum sy sx k) :
    L.sparse_taps h w i j body1 init = L.sparse_taps h w i j body2 init := by
  unfold sparse_taps
  apply List.foldl_ext
  intro s y hy
  rw [mem_loopRange] at hy
  dsimp only
  split_ifs with h1 h2
  · rfl
  · rfl
  · apply List.foldl_ext
    intro s x hx
    rw [mem_loopRange] at hx
    dsimp only
    split_ifs with h3 h4
    · rfl
    · rfl
    · apply hb
      have hy1 : y * L.kernel_w ≤ (L.kernel_h - 1) * L.kernel_w :=
        Int.mul_le_mul_of_nonneg_right (by omega) (by omega)
      have hy0 : 0 ≤ y * L.kernel_w := mul_nonneg hy.1 (by omega)
      have hmk : L.maxk = (L.kernel_h - 1) * L.kernel_w + L.kernel_w := by
        unfold maxk; ring
      omega

/-- C5. No cross-channel accumulation in the depthwise path: two runs whose inputs agree on
channel `g` and whose transformed weights and bias agree on the block of channel `g`
(`maxk` weights and one bias for pack1; `maxk * 4` weights and 4 biases for pack4) store the
same values in channel `g` of the output, whatever the other channels, weights and biases
contain. -/
theorem depthwise_channel_independent {α : Type} [Zero α] [Add α] [Mul α]
    (L : DeconvolutionDepthWise) (act : α → α)
    (weight1 weight2 bias1 bias2 : Int → α) (bottom1 bottom2 : Int → Int → Int → α)
    (w h channels g : Int)
    (hin : bottom1 g = bottom2 g) :
    ((∀ k, 0 ≤ k ∧ k < L.maxk → weight1 (L.maxk * g + k) = weight2 (L.maxk * g + k)) →
      bias1 g = bias2 g →
      ∀ i j, DeconvolutionDepthWise_arm.depthwise_pack1 L act weight1 bias1 bottom1
          w h channels g i j =
        DeconvolutionDepthWise_arm.depthwise_pack1 L act weight2 bias2 bottom2
          w h channels g i j) ∧
    ((∀ k l, 0 ≤ k ∧ k < L.maxk → 0 ≤ l ∧ l < 4 →
        weight1 (L.maxk * g * 4 + k * 4 + l) = weight2 (L.maxk * g * 4 + k * 4 + l)) →
      (∀ l, 0 ≤ l ∧ l < 4 → bias1 (g * 4 + l) = bias2 (g * 4 + l)) →
      ∀ i c, DeconvolutionDepthWise_arm.depthwise_pack4 L act weight1 bias1 bottom1
          w h channels g i c =
        DeconvolutionDepthWise_arm.depthwise_pack4 L act weight2 bias2 bottom2
          w h channels g i c) := by
  constructor
  · intro hw hb i j
    unfold DeconvolutionDepthWise_arm.depthwise_pack1 DeconvolutionDepthWise_arm.pixel_pack1
    dsimp only
    rw [hin, hb]
    rw [sparse_taps_congr L h w i j
      (fun sum sy sx k => sum + bottom2 g sy sx * weight1 (L.maxk * g + k))
      (fun sum sy sx k => sum + bottom2 g sy sx * weight2 (L.maxk * g + k)) _
      (fun sum sy sx k hk => by dsimp only; rw [hw k hk])]
  · intro hw hb i c
    unfold DeconvolutionDepthWise_arm.depthwise_pack4 DeconvolutionDepthWise_arm.pixel_pack4
    dsimp only
    have hl : 0 ≤ c % 4 ∧ c % 4 < 4 := by omega
    rw [hin, hb _ hl]
    rw [sparse_taps_congr L h w i (c / 4)
      (fun sum sy sx k =>
        sum + bottom2 g sy (sx * 4 + c % 4) * weight1 (L.maxk * g * 4 + k * 4 + c % 4))
      (fun sum sy sx k =>
        sum + bottom2 g sy (sx * 4 + c % 4) * weight2 (L.maxk * g * 4 + k * 4 + c % 4)) _
      (fun sum sy sx k hk => by dsimp only; rw [hw k _ hk hl])]

end DeconvolutionDepthWise

/-! ## Early return: the semantics of `run_steps` -/

/-- C6, counterexample.  An empty input (width 0, height 1, 2 channels of fp32) to a
depthwise layer with a 3 x 3 kernel: the bordered output is 2 x 3 x 2 and is created, the
depthwise loops run, and `forward` returns 0, not -100. -/
theorem forward_empty_input_counterexample :
    (Mat.mk 0 1 2 4 1).total = 0 ∧
    DeconvolutionDepthWise_arm.forward example_build false example_layer_3x3 example_externals
        example_opt (Mat.mk 0 1 2 4 1) =
      (0, [Event.create (Mat.mk 2 3 2 4 1) false false, Event.kernel 1,
           Event.cut_padding false]) := by
  decide

/-- C6, amended.  On an input of positive element pack (so that `elemsize / elempack` is
defined), and when it does not delegate to `forward_fp16s` / `forward_fp16sa` (that is,
unless `NCNN_ARM82` is compiled in, the CPU supports fp16 storage, `opt.use_fp16_storage` is
set and the element bit width of the input is 16), `forward` first creates the bordered
output; if that tensor is empty, `forward` returns -100 and does nothing else: no kernel, no
sub-operator, no conversion.  For a zero-channel input in the depthwise configuration the
requested bordered output has zero channels.  The input itself is not tested for
emptiness. -/
theorem forward_empty_output_rejected (B : Build) (support_fp16_storage : Bool)
    (L : DeconvolutionDepthWise) (X : Externals) (opt : Opt) (bottom_blob : Mat)
    (helempack : 0 < bottom_blob.elempack)
    (hnofp16 : ¬ (B.ncnn_arm82 = true ∧ support_fp16_storage = true ∧
      opt.use_fp16_storage = true ∧ bottom_blob.elembits = 16)) :
    ∃ (top_blob_bordered : Mat) (workspace : Bool),
      (DeconvolutionDepthWise_arm.forward B support_fp16_storage L X opt bottom_blob).2.head? =
        some (Event.create top_blob_bordered workspace
          (X.create_empty top_blob_bordered workspace)) ∧
      (X.create_empty top_blob_bordered workspace = true →
        DeconvolutionDepthWise_arm.forward B support_fp16_storage L X opt bottom_blob =
          (-100, [Event.create top_blob_bordered workspace true])) ∧
      (bottom_blob.c = 0 →
        bottom_blob.c * bottom_blob.elempack = L.group ∧ L.group = L.num_output →
        top_blob_bordered.c = 0) := by
  have _hdefined := helempack
  have hbf : DeconvolutionDepthWise_arm.forward_bf16s B L X opt bottom_blob =
      DeconvolutionDepthWise_arm.forward_fp32 B L X opt bottom_blob := rfl
  have hfw : DeconvolutionDepthWise_arm.forward B support_fp16_storage L X opt bottom_blob =
      DeconvolutionDepthWise_arm.forward_fp32 B L X opt bottom_blob := by
    unfold DeconvolutionDepthWise_arm.forward
    dsimp only
    rw [if_neg hnofp16, hbf]
    split_ifs <;> rfl
  rw [hfw]
  refine ⟨_, _, run_steps_head _ _ _, ?_, ?_⟩
  · intro hempty
    simp only [DeconvolutionDepthWise_arm.forward_fp32,
      DeconvolutionDepthWise_arm.forward_fp32_steps, checked_create, hempty, if_true,
      List.singleton_append, List.cons_append]
    simp only [run_steps]
    simp
  · intro hc hdw
    have hn : L.num_output = 0 := by
      rw [← hdw.2, ← hdw.1, hc]; simp
    simp [hn]

/-! ## Failure propagation in the ARM `forward` -/

theorem loopRange_pairwise (n : Int) : (loopRange n).Pairwise (fun a b => a < b) := by
  unfold loopRange
  exact List.Pairwise.map _ (fun a b hab => by
    show ((a : Nat) : Int) < ((b : Nat) : Int)
    exact_mod_cast hab) (List.pairwise_lt_range _)

/-- C8, the code at a failing input.  Grouped path (2 groups, 8 input channels packed by 8,
4 outputs, `vlenb = 16`): the conversion of the input yields an empty tensor and the
sub-operator of group 0 returns -100, yet `forward_fp16s` and `forward_fp16sa` run group 1
and return 0. -/
theorem riscv_forward_ignores_failures :
    DeconvolutionDepthWise_riscv.forward_fp16s example_build 16 example_layer_grouped
        example_externals_failing example_opt_packing (Mat.mk 1 1 1 16 8) =
      (0, [Event.create (Mat.mk 1 1 4 2 1) false false, Event.convert_packing 1 true,
           Event.sub_forward 0 (-100), Event.sub_forward 1 0, Event.cut_padding false]) ∧
    DeconvolutionDepthWise_riscv.forward_fp16sa example_build 16 example_layer_grouped
        example_externals_failing example_opt_packing (Mat.mk 1 1 1 16 8) =
      (0, [Event.create (Mat.mk 1 1 4 2 1) false false, Event.convert_packing 1 true,
           Event.sub_forward 0 (-100), Event.sub_forward 1 0, Event.cut_padding false]) := by
  decide

/-- C9, the code at a failing input.  The ephemeral operator's `create_pipeline` returns -1
and its `forward` returns -100, yet the dynamic-weight `forward` returns 0. -/
theorem dynamic_forward_ignores_failures :
    DeconvolutionDepthWise_arm.forward_dynamic_weight example_layer_grouped example_dyn_failing
        (Mat.mk 4 4 8 4 1) 1 1 2 =
      (0, [Event.flatten 1 false, Event.create (Mat.mk 16 1 1 4 1) true false,
           Event.op_create_pipeline (-1), Event.op_forward (-100),
           Event.op_destroy_pipeline 0]) := by
  decide

/-! ## Slice: element pack of the outputs -/

namespace Slice_vulkan

theorem create_tops_from_mem (S : Slice) (opt : Opt) (create_empty : VkMat → Bool)
    (path : PackedPath) (bottom_blob : VkMat) (n : Nat) (l : List Nat) (q : Int)
    (tops : List (Int × VkMat))
    (h : create_tops_from S opt create_empty path bottom_blob n l q = some tops) :
    tops.length = l.length ∧
    ∀ st ∈ tops, st.2 = create_top path bottom_blob opt st.1 ∧ create_empty st.2 = false := by
  induction l generalizing q tops with
  | nil =>
    simp only [create_tops_from, Option.some.injEq] at h
    subst h
    exact ⟨rfl, by simp⟩
  | cons i rest ih =>
    simp only [create_tops_from] at h
    split_ifs at h with hempty
    cases hrest : create_tops_from S opt create_empty path bottom_blob n rest
        (q + slice_length S n (packed_extent bottom_blob path) q i) with
    | none => rw [hrest] at h; simp at h
    | some tops' =>
      rw [hrest] at h
      simp only [Option.map_some', Option.some.injEq] at h
      subst h
      obtain ⟨hlen, hall⟩ := ih _ _ hrest
      refine ⟨by simp [hlen], ?_⟩
      intro st hst
      rcases List.mem_cons.1 hst with rfl | hst
      · exact ⟨rfl, by simpa using hempty⟩
      · exact hall st hst

theorem create_top_pack (opt : Opt) (path : PackedPath) (bottom_blob : VkMat) (s : Int)
    (hs : 0 ≤ s) :
    (create_top path bottom_blob opt s).elempack =
      (if opt.use_shader_pack8 = true ∧ s % 8 = 0 then 8 else if s % 4 = 0 then 4 else 1) ∧
    packed_axis (create_top path bottom_blob opt s) path =
      s / (create_top path bottom_blob opt s).elempack ∧
    packed_axis (create_top path bottom_blob opt s) path *
      (create_top path bottom_blob opt s).elempack = s ∧
    (create_top path bottom_blob opt s).elemsize /
        (create_top path bottom_blob opt s).elempack.toNat =
      bottom_blob.elemsize / bottom_blob.elempack.toNat := by
  have h8 : s.tmod 8 = s % 8 := Int.tmod_eq_emod hs (by decide)
  have h4 : s.tmod 4 = s % 4 := Int.tmod_eq_emod hs (by decide)
  have hsel : select_elempack opt s =
      (if opt.use_shader_pack8 = true ∧ s % 8 = 0 then 8 else if s % 4 = 0 then 4 else 1) := by
    unfold select_elempack
    rw [h8, h4]
  have hdiv : ∀ p : Int, 0 < p → s % p = 0 →
      s.tdiv p = s / p ∧ s / p * p = s ∧
      (bottom_blob.elemsize / bottom_blob.elempack.toNat * p.toNat) / p.toNat =
        bottom_blob.elemsize / bottom_blob.elempack.toNat := by
    intro p hp hmod
    refine ⟨Int.tdiv_eq_ediv hs hp.le, Int.ediv_mul_cancel (Int.dvd_of_emod_eq_zero hmod),
      Nat.mul_div_cancel _ (by omega)⟩
  have hfacts : ∃ p : Int, select_elempack opt s = p ∧ 0 < p ∧ s % p = 0 := by
    rw [hsel]
    split_ifs with a b
    · exact ⟨8, rfl, by decide, a.2⟩
    · exact ⟨4, rfl, by decide, b⟩
    · exact ⟨1, rfl, by decide, by omega⟩
  obtain ⟨p, hp, hp0, hpm⟩ := hfacts
  obtain ⟨d1, d2, d3⟩ := hdiv p hp0 hpm
  have helempack : (create_top path bottom_blob opt s).elempack = select_elempack opt s := by
    cases path <;> rfl
  have haxis : packed_axis (create_top path bottom_blob opt s) path =
      s.tdiv (select_elempack opt s) := by
    cases path <;> rfl
  have hsize : (create_top path bottom_blob opt s).elemsize =
      bottom_blob.elemsize / bottom_blob.elempack.toNat * (select_elempack opt s).toNat := by
    cases path <;> rfl
  refine ⟨by rw [helempack, hsel], ?_, ?_, ?_⟩
  · rw [haxis, helempack, hp, d1]
  · rw [haxis, helempack, hp, d1, d2]
  · rw [hsize, helempack, hp, d3]

/-- C10. Per-output pack selection in `Slice_vulkan::forward`.  On every path that slices
the packed axis (1-D input; 2-D, 3-D, 4-D input with positive axis 0), the tensor created
for a slice length `s >= 0` has element pack 8 if `use_shader_pack8` and `s % 8 == 0`, else
4 if `s % 4 == 0`, else 1; its packed extent is `s / pack`, with `packed extent * pack = s`;
and the byte size of one scalar (`elemsize / elempack`) is that of the source.  When the
first loop completes, it has created one such tensor per output. -/
theorem slice_output_pack (S : Slice) (opt : Opt) (create_empty : VkMat → Bool)
    (path : PackedPath) (bottom_blob : VkMat) (n : Nat)
    (hpack : 0 < bottom_blob.elempack) :
    (∀ s : Int, 0 ≤ s →
      (create_top path bottom_blob opt s).elempack =
        (if opt.use_shader_pack8 = true ∧ s % 8 = 0 then 8 else if s % 4 = 0 then 4 else 1) ∧
      packed_axis (create_top path bottom_blob opt s) path =
        s / (create_top path bottom_blob opt s).elempack ∧
      packed_axis (create_top path bottom_blob opt s) path *
        (create_top path bottom_blob opt s).elempack = s ∧
      (create_top path bottom_blob opt s).elemsize /
          (create_top path bottom_blob opt s).elempack.toNat =
        bottom_blob.elemsize / bottom_blob.elempack.toNat) ∧
    (∀ tops : List (Int × VkMat),
      create_tops S opt create_empty path bottom_blob n = some tops →
      tops.length = n ∧
      ∀ st ∈ tops, st.2 = create_top path bottom_blob opt st.1 ∧
        (0 ≤ st.1 →
          st.2.elempack =
            (if opt.use_shader_pack8 = true ∧ st.1 % 8 = 0 then 8
             else if st.1 % 4 = 0 then 4 else 1) ∧
          packed_axis st.2 path = st.1 / st.2.elempack ∧
          packed_axis st.2 path * st.2.elempack = st.1 ∧
          st.2.elemsize / st.2.elempack.toNat =
            bottom_blob.elemsize / bottom_blob.elempack.toNat)) := by
  have _hdefined := hpack
  refine ⟨fun s hs => create_top_pack opt path bottom_blob s hs, ?_⟩
  intro tops hrun
  obtain ⟨hlen, hall⟩ := create_tops_from_mem S opt create_empty path bottom_blob n _ _ _ hrun
  refine ⟨by simpa using hlen, ?_⟩
  intro st hst
  obtain ⟨hcreate, _⟩ := hall st hst
  refine ⟨hcreate, fun hs => ?_⟩
  rw [hcreate]
  exact create_top_pack opt path bottom_blob st.1 hs

end Slice_vulkan

namespace Slice_vulkan

theorem foldl_min_spec (l : List VkMat) (a : Int) :
    l.foldl (fun m t => min m t.elempack) a ≤ a ∧
    (∀ t ∈ l, l.foldl (fun m t => min m t.elempack) a ≤ t.elempack) ∧
    (l.foldl (fun m t => min m t.elempack) a = a ∨
      ∃ t ∈ l, l.foldl (fun m t => min m t.elempack) a = t.elempack) := by
  induction l generalizing a with
  | nil => simp
  | cons t rest ih =>
    obtain ⟨h1, h2, h3⟩ := ih (min a t.elempack)
    simp only [List.foldl_cons, List.mem_cons, forall_eq_or_imp, exists_eq_or_imp]
    refine ⟨h1.trans (min_le_left _ _), ⟨h1.trans (min_le_right _ _), h2⟩, ?_⟩
    rcases h3 with h3 | ⟨u, hu, h3⟩
    · rcases min_choice a t.elempack with hm | hm
      · exact Or.inl (h3.trans hm)
      · exact Or.inr (Or.inl (h3.trans hm))
    · exact Or.inr (Or.inr ⟨u, hu, h3⟩)

theorem unified_elempack_spec (top_blobs : List VkMat) (hne : top_blobs ≠ []) :
    (∀ t ∈ top_blobs, unified_elempack top_blobs ≤ t.elempack) ∧
    ∃ t ∈ top_blobs, unified_elempack top_blobs = t.elempack := by
  cases top_blobs with
  | nil => exact absurd rfl hne
  | cons t0 rest =>
    obtain ⟨h1, h2, h3⟩ := foldl_min_spec (t0 :: rest) t0.elempack
    refine ⟨h2, ?_⟩
    rcases h3 with h3 | h3
    · exact ⟨t0, List.mem_cons_self _ _, h3⟩
    · exact h3

theorem select_elempack_cases (opt : Opt) (s : Int) :
    (select_elempack opt s = 1 ∨ select_elempack opt s = 4 ∨ select_elempack opt s = 8) ∧
    select_elempack opt s ∣ s := by
  unfold select_elempack
  split_ifs with a b
  · exact ⟨Or.inr (Or.inr rfl), Int.dvd_of_tmod_eq_zero a.2⟩
  · exact ⟨Or.inr (Or.inl rfl), Int.dvd_of_tmod_eq_zero b⟩
  · exact ⟨Or.inl rfl, one_dvd _⟩

theorem create_top_fields (opt : Opt) (path : PackedPath) (bottom_blob : VkMat) (s : Int) :
    (create_top path bottom_blob opt s).elempack = select_elempack opt s ∧
    packed_axis (create_top path bottom_blob opt s) path = s.tdiv (select_elempack opt s) := by
  cases path <;> exact ⟨rfl, rfl⟩

theorem pack_dvd_of_le {p q : Int} (hp : p = 1 ∨ p = 4 ∨ p = 8) (hq : q = 1 ∨ q = 4 ∨ q = 8)
    (h : p ≤ q) : p ∣ q := by
  rcases hp with rfl | rfl | rfl <;> rcases hq with rfl | rfl | rfl <;>
    first
      | exact dvd_refl _
      | exact one_dvd _
      | exact ⟨2, rfl⟩
      | (exfalso; omega)

theorem record_packed_from_get (path : PackedPath) (src : VkMat) (P : Int)
    (tops : List VkMat) (i : Nat) (off : Int) (k : Nat) (t : VkMat)
    (hk : tops[k]? = some t) :
    (record_packed_from path src P tops i off)[k]? =
      some { pipeline := select_pipeline P t.elempack (i + k), bindings0 := src,
             bindings1 := t,
             offset := off + ((tops.take k).map
               (fun u => (packed_axis u path * u.elempack).tdiv P)).sum } := by
  induction tops generalizing i off k with
  | nil => simp at hk
  | cons u rest ih =>
    cases k with
    | zero =>
      simp only [List.getElem?_cons_zero, Option.some.injEq] at hk
      subst hk
      simp [record_packed_from]
    | succ k =>
      simp only [List.getElem?_cons_succ] at hk
      simp only [record_packed_from, List.getElem?_cons_succ, List.take_succ_cons,
        List.map_cons, List.sum_cons]
      rw [ih (i + 1) _ k hk]
      simp only [Option.some.injEq, Dispatch.mk.injEq, and_true, true_and]
      exact ⟨by rw [Nat.add_assoc, Nat.add_comm 1 k], by ring⟩

theorem record_packed_from_length (path : PackedPath) (src : VkMat) (P : Int)
    (tops : List VkMat) (i : Nat) (off : Int) :
    (record_packed_from path src P tops i off).length = tops.length := by
  induction tops generalizing i off with
  | nil => rfl
  | cons u rest ih => simp [record_packed_from, ih]

theorem record_plain_from_get (path : PlainPath) (src : VkMat)
    (tops : List VkMat) (i : Nat) (off : Int) (k : Nat) (t : VkMat)
    (hk : tops[k]? = some t) :
    (record_plain_from path src tops i off)[k]? =
      some { pipeline := some (select_pipeline_plain src.elempack (i + k)), bindings0 := src,
             bindings1 := t,
             offset := off + ((tops.take k).map (fun u => plain_axis u path)).sum } := by
  induction tops generalizing i off k with
  | nil => simp at hk
  | cons u rest ih =>
    cases k with
    | zero =>
      simp only [List.getElem?_cons_zero, Option.some.injEq] at hk
      subst hk
      simp [record_plain_from]
    | succ k =>
      simp only [List.getElem?_cons_succ] at hk
      simp only [record_plain_from, List.getElem?_cons_succ, List.take_succ_cons,
        List.map_cons, List.sum_cons]
      rw [ih (i + 1) _ k hk]
      simp only [Option.some.injEq, Dispatch.mk.injEq, and_true, true_and]
      exact ⟨by rw [Nat.add_assoc, Nat.add_comm 1 k], by ring⟩

theorem record_plain_from_length (path : PlainPath) (src : VkMat)
    (tops : List VkMat) (i : Nat) (off : Int) :
    (record_plain_from path src tops i off).length = tops.length := by
  induction tops generalizing i off with
  | nil => rfl
  | cons u rest ih => simp [record_plain_from, ih]

theorem sum_tdiv_exact (P : Int) (hP : P ≠ 0) (l : List Int) (h : ∀ s ∈ l, P ∣ s) :
    P ∣ l.sum ∧ (l.map (fun s => s.tdiv P)).sum = l.sum.tdiv P := by
  induction l with
  | nil => simp
  | cons a rest ih =>
    obtain ⟨h1, h2⟩ := ih (fun s hs => h s (List.mem_cons_of_mem _ hs))
    have ha : P ∣ a := h a (List.mem_cons_self _ _)
    refine ⟨by simpa using dvd_add ha h1, ?_⟩
    simp only [List.map_cons, List.sum_cons, h2]
    obtain ⟨a', rfl⟩ := ha
    obtain ⟨b', hb⟩ := h1
    rw [hb, ← mul_add, Int.mul_tdiv_cancel_left _ hP, Int.mul_tdiv_cancel_left _ hP,
      Int.mul_tdiv_cancel_left _ hP]

theorem create_tops_plain_from_mem (S : Slice) (create_empty : VkMat → Bool)
    (path : PlainPath) (bottom_blob : VkMat) (n : Nat) (l : List Nat) (q : Int)
    (tops : List (Int × VkMat))
    (h : create_tops_plain_from S create_empty path bottom_blob n l q = some tops) :
    tops.length = l.length ∧
    ∀ st ∈ tops, st.2 = create_top_plain path bottom_blob st.1 ∧
      create_empty st.2 = false := by
  induction l generalizing q tops with
  | nil =>
    simp only [create_tops_plain_from, Option.some.injEq] at h
    subst h
    exact ⟨rfl, by simp⟩
  | cons i rest ih =>
    simp only [create_tops_plain_from] at h
    split_ifs at h with hempty
    cases hrest : create_tops_plain_from S create_empty path bottom_blob n rest
        (q + slice_length S n (plain_extent bottom_blob path) q i) with
    | none => rw [hrest] at h; simp at h
    | some tops' =>
      rw [hrest] at h
      simp only [Option.map_some', Option.some.injEq] at h
      subst h
      obtain ⟨hlen, hall⟩ := ih _ _ hrest
      refine ⟨by simp [hlen], ?_⟩
      intro st hst
      rcases List.mem_cons.1 hst with rfl | hst
      · exact ⟨rfl, by simpa using hempty⟩
      · exact hall st hst

theorem create_top_plain_axis (path : PlainPath) (bottom_blob : VkMat) (s : Int) :
    plain_axis (create_top_plain path bottom_blob s) path = s ∧
    (create_top_plain path bottom_blob s).elempack = bottom_blob.elempack := by
  cases path <;> exact ⟨rfl, rfl⟩

theorem packed_tops_facts (S : Slice) (opt : Opt) (create_empty : VkMat → Bool)
    (path : PackedPath) (bottom_blob : VkMat) (n : Nat) (tops : List (Int × VkMat))
    (h : create_tops S opt create_empty path bottom_blob n = some tops) :
    tops.length = n ∧
    ∀ st ∈ tops, (st.2.elempack = 1 ∨ st.2.elempack = 4 ∨ st.2.elempack = 8) ∧
      st.2.elempack ∣ st.1 ∧ packed_axis st.2 path * st.2.elempack = st.1 := by
  obtain ⟨hlen, hall⟩ := create_tops_from_mem S opt create_empty path bottom_blob n _ _ _ h
  refine ⟨by simpa using hlen, ?_⟩
  intro st hst
  obtain ⟨hcreate, _⟩ := hall st hst
  obtain ⟨hpack, haxis⟩ := create_top_fields opt path bottom_blob st.1
  obtain ⟨hcases, hdvd⟩ := select_elempack_cases opt st.1
  rw [hcreate, hpack, haxis]
  exact ⟨hcases, hdvd, Int.tdiv_mul_cancel hdvd⟩

theorem unified_facts (path : PackedPath) (tops : List (Int × VkMat)) (hne : tops ≠ [])
    (hall : ∀ st ∈ tops, (st.2.elempack = 1 ∨ st.2.elempack = 4 ∨ st.2.elempack = 8) ∧
      st.2.elempack ∣ st.1 ∧ packed_axis st.2 path * st.2.elempack = st.1) :
    (unified_elempack (tops.map Prod.snd) = 1 ∨ unified_elempack (tops.map Prod.snd) = 4 ∨
      unified_elempack (tops.map Prod.snd) = 8) ∧
    (∃ st ∈ tops, unified_elempack (tops.map Prod.snd) = st.2.elempack) ∧
    ∀ st ∈ tops, unified_elempack (tops.map Prod.snd) ≤ st.2.elempack ∧
      unified_elempack (tops.map Prod.snd) ∣ st.2.elempack ∧
      unified_elempack (tops.map Prod.snd) ∣ st.1 := by
  have hne' : tops.map Prod.snd ≠ [] := by simpa using hne
  obtain ⟨hle, t, ht, hmin⟩ := unified_elempack_spec (tops.map Prod.snd) hne'
  obtain ⟨st0, hst0, rfl⟩ := List.mem_map.1 ht
  have hP := (hall st0 hst0).1
  rw [← hmin] at hP
  refine ⟨hP, ⟨st0, hst0, hmin⟩, ?_⟩
  intro st hst
  have h1 := hle st.2 (List.mem_map.2 ⟨st, hst, rfl⟩)
  have h2 := pack_dvd_of_le hP (hall st hst).1 h1
  exact ⟨h1, h2, h2.trans (hall st hst).2.1⟩

theorem get_map_snd (tops : List (Int × VkMat)) (i : Nat) (st : Int × VkMat)
    (h : tops[i]? = some st) : (tops.map Prod.snd)[i]? = some st.2 := by
  simp [List.getElem?_map, h]

theorem take_sum_packed (path : PackedPath) (P : Int) (tops : List (Int × VkMat))
    (hall : ∀ st ∈ tops, packed_axis st.2 path * st.2.elempack = st.1) (i : Nat) :
    (((tops.map Prod.snd).take i).map
      (fun u => (packed_axis u path * u.elempack).tdiv P)).sum =
    (((tops.take i).map Prod.fst).map (fun s => s.tdiv P)).sum := by
  rw [← List.map_take, List.map_map, List.map_map]
  congr 1
  apply List.map_congr_left
  intro st hst
  simp only [Function.comp_apply]
  rw [hall st (List.mem_of_mem_take hst)]

theorem take_sum_plain (path : PlainPath) (tops : List (Int × VkMat))
    (hall : ∀ st ∈ tops, plain_axis st.2 path = st.1) (i : Nat) :
    (((tops.map Prod.snd).take i).map (fun u => plain_axis u path)).sum =
    ((tops.take i).map Prod.fst).sum := by
  rw [← List.map_take, List.map_map]
  congr 1
  apply List.map_congr_left
  intro st hst
  simp only [Function.comp_apply]
  rw [hall st (List.mem_of_mem_take hst)]

theorem mem_of_get {α : Type} (l : List α) (i : Nat) (a : α) (h : l[i]? = some a) : a ∈ l := by
  obtain ⟨hi, rfl⟩ := List.getElem?_eq_some.1 h
  exact List.getElem_mem hi

theorem select_pipeline_label {P q : Int} (hP : P = 1 ∨ P = 4 ∨ P = 8)
    (hq : q = 1 ∨ q = 4 ∨ q = 8) (hle : P ≤ q) (i : Nat) :
    ∃ kind, select_pipeline P q i = some (kind, i % 2) ∧ kind.label = (P, q) ∧
      (P, q) ∈ [((1 : Int), (1 : Int)), (4, 4), (1, 4), (8, 8), (1, 8), (4, 8)] := by
  rcases hP with rfl | rfl | rfl <;> rcases hq with rfl | rfl | rfl <;>
    first
      | (exfalso; omega)
      | exact ⟨PipelineKind.pipeline_slice, by simp [select_pipeline], rfl, by decide⟩
      | exact ⟨PipelineKind.pipeline_slice_pack4, by simp [select_pipeline], rfl, by decide⟩
      | exact ⟨PipelineKind.pipeline_slice_pack1to4, by simp [select_pipeline], rfl,
          by decide⟩
      | exact ⟨PipelineKind.pipeline_slice_pack8, by simp [select_pipeline], rfl, by decide⟩
      | exact ⟨PipelineKind.pipeline_slice_pack1to8, by simp [select_pipeline], rfl,
          by decide⟩
      | exact ⟨PipelineKind.pipeline_slice_pack4to8, by simp [select_pipeline], rfl,
          by decide⟩

theorem forward_packed_get (S : Slice) (opt : Opt) (create_empty : VkMat → Bool)
    (path : PackedPath) (bottom_blob : VkMat) (n : Nat) (tops : List (Int × VkMat))
    (htops : create_tops S opt create_empty path bottom_blob n = some tops)
    (i : Nat) (st : Int × VkMat) (hi : tops[i]? = some st) :
    ∃ d, (forward_packed S opt create_empty path bottom_blob n).dispatches[i]? = some d ∧
      d.bindings0 =
        (if bottom_blob.elempack > unified_elempack (tops.map Prod.snd) then
          convert_packing bottom_blob (unified_elempack (tops.map Prod.snd))
         else bottom_blob) ∧
      d.bindings1 = st.2 ∧
      d.pipeline = select_pipeline (unified_elempack (tops.map Prod.snd)) st.2.elempack i ∧
      d.offset = (((tops.map Prod.snd).take i).map (fun u =>
        (packed_axis u path * u.elempack).tdiv (unified_elempack (tops.map Prod.snd)))).sum := by
  simp only [forward_packed, htops]
  rw [record_packed_from_get path _ _ _ 0 0 i st.2 (get_map_snd tops i st hi)]
  exact ⟨_, rfl, by simp, rfl, by simp, by simp⟩

/-- C12. Offset accumulation in `Slice_vulkan::forward`.  On every path on which the first
loop completes, with slice lengths `s_0 .. s_(n-1)` of any sign, the run returns 0 and
records one dispatch per output; the offset constant of output `i` is
`(s_0 + ... + s_(i-1)) / P`, where `P` is the unified pack on a packed path and 1 on the
others; `P` divides every slice length and every partial sum, and each output extent is
exact (`extent * pack = s_i` on a packed path, `extent = s_i` otherwise). -/
theorem offset_accumulation (S : Slice) (opt : Opt) (create_empty : VkMat → Bool)
    (bottom_blob : VkMat) (n : Nat) (path : Path) (tops : List (Int × VkMat))
    (htops : tops_on S opt create_empty bottom_blob n path = some tops) :
    (forward_on S opt create_empty bottom_blob n path).status = 0 ∧
    (forward_on S opt create_empty bottom_blob n path).dispatches.length = n ∧
    tops.length = n ∧
    ∀ (i : Nat) (st : Int × VkMat), tops[i]? = some st →
      ∃ d, (forward_on S opt create_empty bottom_blob n path).dispatches[i]? = some d ∧
        d.bindings1 = st.2 ∧
        offset_unit (tops.map Prod.snd) path ∣ ((tops.take i).map Prod.fst).sum ∧
        d.offset =
          (((tops.take i).map Prod.fst).sum).tdiv (offset_unit (tops.map Prod.snd) path) ∧
        d.offset * offset_unit (tops.map Prod.snd) path = ((tops.take i).map Prod.fst).sum ∧
        offset_unit (tops.map Prod.snd) path ∣ st.1 ∧
        (match path with
          | Path.packed p => packed_axis st.2 p * st.2.elempack = st.1
          | Path.plain p => plain_axis st.2 p = st.1) := by
  cases path with
  | packed p =>
    simp only [tops_on] at htops
    obtain ⟨hlen, hall⟩ := packed_tops_facts S opt create_empty p bottom_blob n tops htops
    simp only [forward_on, forward_packed, htops, offset_unit, record_packed_from_length,
      List.length_map, hlen, true_and]
    intro i st hi
    have hne : tops ≠ [] := by
      rintro rfl
      simp at hi
    obtain ⟨hP, _, hmin⟩ := unified_facts p tops hne hall
    have hP0 : unified_elempack (tops.map Prod.snd) ≠ 0 := by
      rcases hP with h | h | h <;> rw [h] <;> decide
    have hst : st ∈ tops := mem_of_get tops i st hi
    obtain ⟨hd, hs⟩ := sum_tdiv_exact _ hP0 ((tops.take i).map Prod.fst) (by
      intro s hs
      obtain ⟨st', hst', rfl⟩ := List.mem_map.1 hs
      exact (hmin st' (List.mem_of_mem_take hst')).2.2)
    refine ⟨_, record_packed_from_get p _ _ _ 0 0 i st.2 (get_map_snd tops i st hi), rfl, hd,
      ?_, ?_, (hmin st hst).2.2, (hall st hst).2.2⟩
    · dsimp only
      rw [take_sum_packed p _ tops (fun st hst => (hall st hst).2.2), hs, zero_add]
    · dsimp only
      rw [take_sum_packed p _ tops (fun st hst => (hall st hst).2.2), hs, zero_add]
      exact Int.tdiv_mul_cancel hd
  | plain p =>
    simp only [tops_on] at htops
    obtain ⟨hlen, hall⟩ :=
      create_tops_plain_from_mem S create_empty p bottom_blob n _ _ _ htops
    have hlen' : tops.length = n := by simpa using hlen
    have haxis : ∀ st ∈ tops, plain_axis st.2 p = st.1 := by
      intro st hst
      rw [(hall st hst).1]
      exact (create_top_plain_axis p bottom_blob st.1).1
    simp only [forward_on, forward_plain, htops, offset_unit, record_plain_from_length,
      List.length_map, hlen', true_and, one_dvd, Int.tdiv_one, mul_one]
    intro i st hi
    refine ⟨_, record_plain_from_get p _ _ 0 0 i st.2 (get_map_snd tops i st hi), rfl, ?_,
      ?_, haxis st (mem_of_get tops i st hi)⟩
    · dsimp only
      rw [take_sum_plain p tops haxis, zero_add]
    · dsimp only
      rw [take_sum_plain p tops haxis, zero_add]

/-- C13 (amended). Pipeline variant and bound tensors on a packed path of
`Slice_vulkan::forward`.  When the first loop completes and the element pack of the source
is at least the unified pack `P`, the dispatch of output `i` binds as source the tensor
`bottom_blob_unpacked` (the source, converted to pack `P` when its pack exceeds `P`), binds
output `i`, and takes its pipeline from entry `i % 2` of the array labelled
(pack of the bound source, pack of output `i`). -/
theorem pipeline_matches_bound_tensors (S : Slice) (opt : Opt)
    (create_empty : VkMat → Bool) (path : PackedPath) (bottom_blob : VkMat) (n : Nat)
    (tops : List (Int × VkMat))
    (htops : create_tops S opt create_empty path bottom_blob n = some tops)
    (hsrc : unified_elempack (tops.map Prod.snd) ≤ bottom_blob.elempack) :
    ∀ (i : Nat) (st : Int × VkMat), tops[i]? = some st →
      ∃ d kind,
        (forward_packed S opt create_empty path bottom_blob n).dispatches[i]? = some d ∧
        d.bindings0 =
          (if bottom_blob.elempack > unified_elempack (tops.map Prod.snd) then
            convert_packing bottom_blob (unified_elempack (tops.map Prod.snd))
           else bottom_blob) ∧
        d.bindings1 = st.2 ∧
        d.pipeline = some (kind, i % 2) ∧
        kind.label = (d.bindings0.elempack, st.2.elempack) := by
  intro i st hi
  obtain ⟨_, hall⟩ := packed_tops_facts S opt create_empty path bottom_blob n tops htops
  have hne : tops ≠ [] := by
    rintro rfl
    simp at hi
  obtain ⟨hP, _, hmin⟩ := unified_facts path tops hne hall
  have hst : st ∈ tops := mem_of_get tops i st hi
  have hbound : (if bottom_blob.elempack > unified_elempack (tops.map Prod.snd) then
      convert_packing bottom_blob (unified_elempack (tops.map Prod.snd))
      else bottom_blob).elempack = unified_elempack (tops.map Prod.snd) := by
    split_ifs with hgt
    · unfold convert_packing
      split_ifs <;> rfl
    · exact le_antisymm (not_lt.1 hgt) hsrc
  obtain ⟨kind, hk, hlabel, _⟩ := select_pipeline_label hP (hall st hst).1 (hmin st hst).1 i
  obtain ⟨d, hd, hb0, hb1, hpipe, _⟩ :=
    forward_packed_get S opt create_empty path bottom_blob n tops htops i st hi
  refine ⟨d, kind, hd, hb0, hb1, hpipe.trans hk, ?_⟩
  rw [hb0, hbound]
  exact hlabel

/-- C14. The six-way pipeline selection is exhaustive.  On a packed path of
`Slice_vulkan::forward` with at least one output on which the first loop completes, the
unified pack `P` is the least of the outputs' element packs, `P` divides every output's
pack, `convert_packing` is called once (with target `P`) when the source pack exceeds `P`
and not at all otherwise, and every dispatch has `(P, output pack)` among (1,1), (4,4),
(1,4), (8,8), (1,8), (4,8) with a pipeline taken from one of the six arrays. -/
theorem pipeline_selection_exhaustive (S : Slice) (opt : Opt)
    (create_empty : VkMat → Bool) (path : PackedPath) (bottom_blob : VkMat) (n : Nat)
    (tops : List (Int × VkMat))
    (htops : create_tops S opt create_empty path bottom_blob n = some tops)
    (hn : 0 < n) :
    (∃ st ∈ tops, unified_elempack (tops.map Prod.snd) = st.2.elempack) ∧
    (∀ st ∈ tops, unified_elempack (tops.map Prod.snd) ≤ st.2.elempack ∧
      unified_elempack (tops.map Prod.snd) ∣ st.2.elempack) ∧
    (forward_packed S opt create_empty path bottom_blob n).conversions =
      (if bottom_blob.elempack > unified_elempack (tops.map Prod.snd) then
        [unified_elempack (tops.map Prod.snd)] else []) ∧
    (forward_packed S opt create_empty path bottom_blob n).dispatches.length = n ∧
    ∀ d ∈ (forward_packed S opt create_empty path bottom_blob n).dispatches,
      (unified_elempack (tops.map Prod.snd), d.bindings1.elempack) ∈
        [((1 : Int), (1 : Int)), (4, 4), (1, 4), (8, 8), (1, 8), (4, 8)] ∧
      d.pipeline ≠ none ∧
      ∃ kind i, d.pipeline = some (kind, i) ∧
        kind.label = (unified_elempack (tops.map Prod.snd), d.bindings1.elempack) := by
  obtain ⟨hlen, hall⟩ := packed_tops_facts S opt create_empty path bottom_blob n tops htops
  have hne : tops ≠ [] := by
    rintro rfl
    simp at hlen
    omega
  obtain ⟨hP, hex, hmin⟩ := unified_facts path tops hne hall
  refine ⟨hex, fun st hst => ⟨(hmin st hst).1, (hmin st hst).2.1⟩, ?_, ?_, ?_⟩
  · simp only [forward_packed, htops, decide_eq_true_eq]
  · simp only [forward_packed, htops, record_packed_from_length, List.length_map, hlen]
  · intro d hd
    obtain ⟨i, hi⟩ := List.getElem?_of_mem hd
    have hilt : i < tops.length := by
      have := (List.getElem?_eq_some.1 hi).1
      simpa [forward_packed, htops, record_packed_from_length] using this
    have hget : tops[i]? = some tops[i] := List.getElem?_eq_getElem hilt
    obtain ⟨d', hd', _, hb1, hpipe, _⟩ :=
      forward_packed_get S opt create_empty path bottom_blob n tops htops i _ hget
    have hdd : d = d' := Option.some.inj (hi.symm.trans hd')
    subst hdd
    have hst : tops[i] ∈ tops := List.getElem_mem hilt
    obtain ⟨kind, hk, hlabel, hmem⟩ :=
      select_pipeline_label hP (hall _ hst).1 (hmin _ hst).1 i
    rw [hb1, hpipe, hk]
    exact ⟨hmem, by simp, kind, _, rfl, hlabel⟩

theorem canonical_source_pack_ge (S : Slice) (opt : Opt) (create_empty : VkMat → Bool)
    (path : PackedPath) (bottom_blob : VkMat) (n : Nat) (tops : List (Int × VkMat))
    (htops : create_tops S opt create_empty path bottom_blob n = some tops) (hn : 0 < n)
    (hsum : (tops.map Prod.fst).sum = packed_extent bottom_blob path)
    (hcanon : bottom_blob.elempack = select_elempack opt (packed_extent bottom_blob path)) :
    unified_elempack (tops.map Prod.snd) ≤ bottom_blob.elempack := by
  obtain ⟨hlen, hall⟩ := packed_tops_facts S opt create_empty path bottom_blob n tops htops
  have hne : tops ≠ [] := by
    rintro rfl
    simp at hlen
    omega
  obtain ⟨hP, ⟨st0, hst0, hP0⟩, hmin⟩ := unified_facts path tops hne hall
  have hdvd : unified_elempack (tops.map Prod.snd) ∣ packed_extent bottom_blob path := by
    rw [← hsum]
    apply List.dvd_sum
    intro s hs
    obtain ⟨st, hst, rfl⟩ := List.mem_map.1 hs
    exact (hmin st hst).2.2
  have hsel0 : st0.2.elempack = select_elempack opt st0.1 := by
    obtain ⟨_, hall'⟩ := create_tops_from_mem S opt create_empty path bottom_blob n _ _ _ htops
    rw [(hall' st0 hst0).1]
    exact (create_top_fields opt path bottom_blob st0.1).1
  rw [hcanon]
  rcases hP with h | h | h
  · rw [h]
    rcases (select_elempack_cases opt (packed_extent bottom_blob path)).1 with e | e | e <;>
      rw [e] <;> decide
  · rw [h] at hdvd ⊢
    have h4 : (packed_extent bottom_blob path).tmod 4 = 0 :=
      Int.dvd_iff_tmod_eq_zero.1 hdvd
    unfold select_elempack
    split_ifs <;> decide
  · rw [h] at hdvd ⊢
    have h8 : (packed_extent bottom_blob path).tmod 8 = 0 :=
      Int.dvd_iff_tmod_eq_zero.1 hdvd
    have hopt : opt.use_shader_pack8 = true := by
      rw [hP0, hsel0] at h
      unfold select_elempack at h
      split_ifs at h with a
      · exact a.1
      · exact absurd h (by decide)
      · exact absurd h (by decide)
    unfold select_elempack
    rw [if_pos ⟨hopt, h8⟩]

/-- C11 (as stated). In the slicing example the packs chosen are not 4 and the offsets
recorded are not 0 and 4, whether the two equal slices are automatic (`-233`) or given as
lengths 2 and 2, and whether `use_shader_pack8` is off (`example_opt`) or on
(`example_opt_packing`). -/
theorem slice_example_counterexample :
    (forward example_slice example_opt (fun _ => false) example_vkblob_c4 2).dispatches.map
        (fun d => (d.bindings1.elempack, d.offset)) ≠ [(4, 0), (4, 4)] ∧
    (forward example_slice example_opt_packing (fun _ => false) example_vkblob_c4
        2).dispatches.map (fun d => (d.bindings1.elempack, d.offset)) ≠ [(4, 0), (4, 4)] ∧
    (forward example_slice_explicit example_opt (fun _ => false) example_vkblob_c4
        2).dispatches.map (fun d => (d.bindings1.elempack, d.offset)) ≠ [(4, 0), (4, 4)] ∧
    (forward example_slice_explicit example_opt_packing (fun _ => false) example_vkblob_c4
        2).dispatches.map (fun d => (d.bindings1.elempack, d.offset)) ≠ [(4, 0), (4, 4)] := by
  decide

/-- C11 (amended). Slicing the source of shape (w = 8, h = 1, c = 4), elempack 1, along
axis 0 into two equal outputs takes the 3-D packed path; each slice length is 2, each
output is created with element pack 1 and shape (8, 1, 2), no conversion is made, the
pipelines are entries 0 and 1 of `pipeline_slice`, and the offset constants recorded are 0
and then 2; the run returns 0. -/
theorem slice_example_dispatches :
    ∀ pack8 : Bool,
      select_path example_slice example_vkblob_c4 = some (Path.packed PackedPath.dims3) ∧
      create_tops example_slice { example_opt with use_shader_pack8 := pack8 }
          (fun _ => false) PackedPath.dims3 example_vkblob_c4 2 =
        some [(2, ⟨3, 8, 1, 1, 2, 4, 1⟩), (2, ⟨3, 8, 1, 1, 2, 4, 1⟩)] ∧
      forward example_slice { example_opt with use_shader_pack8 := pack8 } (fun _ => false)
          example_vkblob_c4 2 =
        ⟨0, [],
          [⟨some (PipelineKind.pipeline_slice, 0), example_vkblob_c4,
              ⟨3, 8, 1, 1, 2, 4, 1⟩, 0⟩,
           ⟨some (PipelineKind.pipeline_slice, 1), example_vkblob_c4,
              ⟨3, 8, 1, 1, 2, 4, 1⟩, 2⟩]⟩ ∧
      forward example_slice_explicit { example_opt with use_shader_pack8 := pack8 }
          (fun _ => false) example_vkblob_c4 2 =
        forward example_slice { example_opt with use_shader_pack8 := pack8 } (fun _ => false)
          example_vkblob_c4 2 := by
  decide

/-- C13 (as stated). A source of 16 channels stored with element pack 1, sliced into two
automatic halves with `use_shader_pack8` on: both outputs have pack 8, the unified pack is
8, no conversion is made, and each dispatch takes its pipeline from the array labelled
(8, 8) while the tensor bound as source has pack 1. -/
theorem pipeline_label_counterexample :
    (forward example_slice example_opt_packing (fun _ => false) example_vkblob 2).conversions
      = [] ∧
    (forward example_slice example_opt_packing (fun _ => false) example_vkblob
        2).dispatches.map
      (fun d => (d.pipeline.map (fun p => p.1.label), d.bindings0.elempack,
        d.bindings1.elempack)) =
      [(some (8, 8), 1, 8), (some (8, 8), 1, 8)] := by
  decide

end Slice_vulkan

/-- C15. `destroy_pipeline` is idempotent.  For `Slice_vulkan::destroy_pipeline`, from every
state of the twelve pointers, and for `DeconvolutionDepthWise_arm::destroy_pipeline`, from
every content of `group_ops`: the first and the second call return 0, the second call
leaves the state the first one left (all twelve pointers null, respectively `group_ops`
empty), and the second call deletes no object and calls no sub-operator. -/
theorem destroy_pipeline_idempotent :
    (∀ s : Slice_vulkan.Pipelines,
      (Slice_vulkan.destroy_pipeline s).1 = 0 ∧
      (Slice_vulkan.destroy_pipeline (Slice_vulkan.destroy_pipeline s).2.1).1 = 0 ∧
      (Slice_vulkan.destroy_pipeline (Slice_vulkan.destroy_pipeline s).2.1).2.1 =
        (Slice_vulkan.destroy_pipeline s).2.1 ∧
      (Slice_vulkan.destroy_pipeline s).2.1 =
        ⟨(none, none), (none, none), (none, none), (none, none), (none, none),
          (none, none)⟩ ∧
      (Slice_vulkan.destroy_pipeline (Slice_vulkan.destroy_pipeline s).2.1).2.2 = []) ∧
    (∀ (ν : Type) (group_ops : List ν),
      (DeconvolutionDepthWise_arm.destroy_pipeline group_ops).1 = 0 ∧
      (DeconvolutionDepthWise_arm.destroy_pipeline
        (DeconvolutionDepthWise_arm.destroy_pipeline group_ops).2.1).1 = 0 ∧
      (DeconvolutionDepthWise_arm.destroy_pipeline
        (DeconvolutionDepthWise_arm.destroy_pipeline group_ops).2.1).2.1 =
        (DeconvolutionDepthWise_arm.destroy_pipeline group_ops).2.1 ∧
      (DeconvolutionDepthWise_arm.destroy_pipeline group_ops).2.1 = [] ∧
      (DeconvolutionDepthWise_arm.destroy_pipeline
        (DeconvolutionDepthWise_arm.destroy_pipeline group_ops).2.1).2.2 = []) := by
  constructor
  · intro s
    exact ⟨rfl, rfl, rfl, rfl, rfl⟩
  · intro ν group_ops
    exact ⟨rfl, rfl, rfl, rfl, rfl⟩

namespace DeconvolutionDepthWise

theorem weight_data_transposed_block {α : Type} (L : DeconvolutionDepthWise)
    (weight_data pt0 : Int → α)
    (hcreate : L.create_pipeline_channels = L.group ∧ L.group = L.num_output)
    (c r : Int) (hc : 0 ≤ c ∧ c < L.group) (hr : 0 ≤ r ∧ r < L.maxk) :
    L.weight_data_transposed weight_data pt0 (c * L.maxk + r) =
      weight_data (c * L.maxk + (L.maxk - 1 - r)) := by
  obtain ⟨hc1, hc2⟩ := hcreate
  have hgrp : L.group ≠ 0 := by omega
  have hn : (L.create_pipeline_channels.tdiv L.group) * (L.num_output.tdiv L.group) * L.group
      = L.group := by
    rw [hc1, ← hc2, Int.tdiv_self hgrp]; ring
  unfold weight_data_transposed
  rw [hn]
  obtain ⟨n, hn'⟩ := Int.eq_ofNat_of_zero_le (show 0 ≤ L.group by omega)
  rw [hn'] at hc ⊢
  exact flip_loop_apply L.maxk weight_data pt0 (by omega) n c r hc hr

/-- C19. Weight flip at pipeline creation.  In the depthwise branch of
`DeconvolutionDepthWise_arm::create_pipeline` and of
`DeconvolutionDepthWise_riscv::create_pipeline_fp16s` (the same loop), for every channel
`c < group` and tap `(y, x)` in range,
`transposed[c*maxk + y*kernel_w + x] = weight_data[c*maxk + (kernel_h-1-y)*kernel_w +
(kernel_w-1-x)]`; on each block of `maxk` elements the loop reads position `maxk-1-r` for
position `r`, a map of the block into itself that is its own inverse (hence a permutation);
and flipping the flipped array gives back the original weights. -/
theorem weight_flip_rotation {α : Type} (L : DeconvolutionDepthWise)
    (weight_data pt0 pt1 : Int → α)
    (hcreate : L.create_pipeline_channels = L.group ∧ L.group = L.num_output) :
    (∀ c y x : Int, 0 ≤ c ∧ c < L.group → 0 ≤ y ∧ y < L.kernel_h → 0 ≤ x ∧ x < L.kernel_w →
      L.weight_data_transposed weight_data pt0 (c * L.maxk + y * L.kernel_w + x) =
        weight_data (c * L.maxk + (L.kernel_h - 1 - y) * L.kernel_w + (L.kernel_w - 1 - x))) ∧
    (∀ c r : Int, 0 ≤ c ∧ c < L.group → 0 ≤ r ∧ r < L.maxk →
      L.weight_data_transposed weight_data pt0 (c * L.maxk + r) =
        weight_data (c * L.maxk + (L.maxk - 1 - r)) ∧
      (0 ≤ L.maxk - 1 - r ∧ L.maxk - 1 - r < L.maxk) ∧
      L.maxk - 1 - (L.maxk - 1 - r) = r ∧
      L.weight_data_transposed (L.weight_data_transposed weight_data pt0) pt1
        (c * L.maxk + r) = weight_data (c * L.maxk + r)) := by
  constructor
  · intro c y x hc hy hx
    have h := weight_data_transposed_apply L weight_data pt0 hcreate c y x hc hy hx
    have e1 : c * L.maxk + y * L.kernel_w + x = L.maxk * c + (y * L.kernel_w + x) := by ring
    have e2 : c * L.maxk + (L.kernel_h - 1 - y) * L.kernel_w + (L.kernel_w - 1 - x) =
        c * L.maxk + ((L.kernel_h - 1 - y) * L.kernel_w + (L.kernel_w - 1 - x)) := by ring
    rw [e1, e2]
    exact h
  · intro c r hc hr
    refine ⟨weight_data_transposed_block L weight_data pt0 hcreate c r hc hr,
      ⟨by omega, by omega⟩, by omega, ?_⟩
    rw [weight_data_transposed_block L _ pt1 hcreate c r hc hr,
      weight_data_transposed_block L weight_data pt0 hcreate c (L.maxk - 1 - r) hc
        ⟨by omega, by omega⟩]
    congr 1
    omega

end DeconvolutionDepthWise

theorem loopRange_add (m n : Nat) :
    loopRange ((m : Int) + n) = loopRange m ++ (loopRange n).map (fun y => (m : Int) + y) := by
  have h : ((m : Int) + n).toNat = m + n := by omega
  simp only [loopRange, h, Int.toNat_ofNat, List.range_add, List.map_append, List.map_map]
  congr 1

theorem loopRange_mixed_radix {β : Type} (a : Nat) (b : Int) (hb : 0 ≤ b) (f : Int → β) :
    (loopRange (a : Int)).flatMap (fun x => (loopRange b).map (fun y => f (x * b + y))) =
      (loopRange ((a : Int) * b)).map f := by
  obtain ⟨bn, rfl⟩ := Int.eq_ofNat_of_zero_le hb
  induction a with
  | zero => simp [loopRange_zero]
  | succ a ih =>
    have e : ((a + 1 : Nat) : Int) = (a : Int) + 1 := by push_cast; ring
    have e2 : ((a : Int) + 1) * (bn : Int) = ((a * bn : Nat) : Int) + (bn : Int) := by
      push_cast; ring
    rw [e, loopRange_natCast_succ, List.flatMap_append, ih, e2, loopRange_add]
    simp only [List.flatMap_cons, List.flatMap_nil, List.append_nil, List.map_append,
      List.map_map, Nat.cast_mul]
    rfl

theorem foldl_update_not_mem {α : Type} (f : Int → α) (l : List (Int × Int)) (wt : Int → α)
    (d : Int) (h : d ∉ l.map Prod.fst) :
    l.foldl (fun wt ds => Function.update wt ds.1 (f ds.2)) wt d = wt d := by
  induction l generalizing wt with
  | nil => rfl
  | cons x rest ih =>
    simp only [List.map_cons, List.mem_cons, not_or] at h
    rw [List.foldl_cons, ih _ h.2, Function.update_noteq h.1]

theorem foldl_update_mem {α : Type} (f : Int → α) (l : List (Int × Int)) (wt : Int → α)
    (d s : Int) (hnodup : (l.map Prod.fst).Nodup) (h : (d, s) ∈ l) :
    l.foldl (fun wt ds => Function.update wt ds.1 (f ds.2)) wt d = f s := by
  induction l generalizing wt with
  | nil => simp at h
  | cons x rest ih =>
    simp only [List.map_cons, List.nodup_cons] at hnodup
    rw [List.foldl_cons]
    rcases List.mem_cons.1 h with rfl | h
    · rw [foldl_update_not_mem f rest _ _ hnodup.1, Function.update_same]
    · exact ih _ hnodup.2 h

theorem perm_flatMap_comm {α β γ : Type} (l₁ : List α) (l₂ : List β) (f : α → β → List γ) :
    (l₁.flatMap (fun a => l₂.flatMap (fun b => f a b))).Perm
      (l₂.flatMap (fun b => l₁.flatMap (fun a => f a b))) := by
  rw [← Multiset.coe_eq_coe]
  simp only [← Multiset.coe_bind]
  exact Multiset.bind_bind _ _

theorem loopRange_mixed_radix_flatMap {β : Type} (a : Nat) (b : Int) (hb : 0 ≤ b)
    (h : Int → List β) :
    (loopRange (a : Int)).flatMap (fun x => (loopRange b).flatMap (fun y => h (x * b + y))) =
      (loopRange ((a : Int) * b)).flatMap h := by
  obtain ⟨bn, rfl⟩ := Int.eq_ofNat_of_zero_le hb
  induction a with
  | zero => simp [loopRange_zero]
  | succ a ih =>
    have e : ((a + 1 : Nat) : Int) = (a : Int) + 1 := by push_cast; ring
    have e2 : ((a : Int) + 1) * (bn : Int) = ((a * bn : Nat) : Int) + (bn : Int) := by
      push_cast; ring
    rw [e, loopRange_natCast_succ, List.flatMap_append, ih, e2, loopRange_add]
    simp only [List.flatMap_cons, List.flatMap_nil, List.append_nil, List.flatMap_append,
      List.flatMap_map, Nat.cast_mul]

theorem loopRange_length (n : Int) : ((loopRange n).length : Int) = max n 0 := by
  simp only [loopRange, List.length_map, List.length_range]
  omega

theorem loopRange_nodup (n : Int) : (loopRange n).Nodup :=
  (loopRange_pairwise n).imp (fun h => ne_of_lt h)

namespace DeconvolutionDepthWise_arm

theorem transpose_loop_eq_steps {α : Type}
    (group _num_input _kernel_w _kernel_h _num_output : Int)
    (weight_data_flattened wt0 : Int → α) :
    transpose_loop group _num_input _kernel_w _kernel_h _num_output weight_data_flattened wt0 =
      (transpose_steps group _num_input _kernel_w _kernel_h _num_output).foldl
        (fun wt ds => Function.update wt ds.1 (weight_data_flattened ds.2)) wt0 := by
  simp only [transpose_loop, transpose_steps, foldl_flatMap, List.foldl_map]

theorem transpose_steps_fst (G O I : Nat) (K : Int) (hK : 0 ≤ K) :
    ((loopRange (G : Int)).flatMap (fun g =>
      (loopRange (O : Int)).flatMap (fun i =>
        (loopRange (I : Int)).flatMap (fun j =>
          (loopRange K).map (fun k =>
            (g * O * I * K + ((i * I + j) * K + k),
             g * I * O * K + ((j * O + i) * K + k))))))).map Prod.fst =
      loopRange ((G : Int) * O * I * K) := by
  have e : ∀ g i j k : Int,
      g * O * I * K + ((i * I + j) * K + k) = ((g * O + i) * I + j) * K + k := by
    intro g i j k; ring
  simp only [List.map_flatMap, List.map_map, Function.comp_def, e]
  rw [loopRange_mixed_radix_flatMap G O (Int.natCast_nonneg _)
    (fun x => (loopRange (I : Int)).flatMap (fun j => (loopRange K).map (fun k =>
      (x * I + j) * K + k)))]
  have e1 : (G : Int) * O = ((G * O : Nat) : Int) := by push_cast; rfl
  rw [e1, loopRange_mixed_radix_flatMap (G * O) I (Int.natCast_nonneg _)
    (fun x => (loopRange K).map (fun k => x * K + k))]
  have e2 : ((G * O : Nat) : Int) * I = ((G * O * I : Nat) : Int) := by push_cast; rfl
  rw [e2, loopRange_mixed_radix (G * O * I) K hK (fun t => t), List.map_id']

theorem transpose_steps_snd (G O I : Nat) (K : Int) (hK : 0 ≤ K) :
    (((loopRange (G : Int)).flatMap (fun g =>
      (loopRange (O : Int)).flatMap (fun i =>
        (loopRange (I : Int)).flatMap (fun j =>
          (loopRange K).map (fun k =>
            (g * O * I * K + ((i * I + j) * K + k),
             g * I * O * K + ((j * O + i) * K + k))))))).map Prod.snd).Perm
      (loopRange ((G : Int) * O * I * K)) := by
  have e : ∀ g i j k : Int,
      g * I * O * K + ((j * O + i) * K + k) = ((g * I + j) * O + i) * K + k := by
    intro g i j k; ring
  simp only [List.map_flatMap, List.map_map, Function.comp_def, e]
  refine (List.Perm.flatMap_left _ (fun g _ => perm_flatMap_comm _ _ _)).trans ?_
  rw [loopRange_mixed_radix_flatMap G I (Int.natCast_nonneg _)
    (fun x => (loopRange (O : Int)).flatMap (fun i => (loopRange K).map (fun k =>
      (x * O + i) * K + k)))]
  have e1 : (G : Int) * I = ((G * I : Nat) : Int) := by push_cast; rfl
  rw [e1, loopRange_mixed_radix_flatMap (G * I) O (Int.natCast_nonneg _)
    (fun x => (loopRange K).map (fun k => x * K + k))]
  have e2 : ((G * I : Nat) : Int) * O = ((G * I * O : Nat) : Int) := by push_cast; rfl
  rw [e2, loopRange_mixed_radix (G * I * O) K hK (fun t => t), List.map_id']
  have e3 : ((G * I * O : Nat) : Int) * K = (G : Int) * O * I * K := by push_cast; ring
  rw [e3]

end DeconvolutionDepthWise_arm

namespace DeconvolutionDepthWise_arm

theorem transpose_shape (group _num_input _kernel_w _kernel_h _num_output : Int)
    (hgroup : 0 < group) (hin : group ∣ _num_input) (hout : group ∣ _num_output)
    (hin0 : 0 ≤ _num_input) (hout0 : 0 ≤ _num_output) :
    ∃ G O I : Nat, group = G ∧ _num_output.tdiv group = O ∧ _num_input.tdiv group = I ∧
      transposed_size group _num_input _kernel_w _kernel_h _num_output =
        (G : Int) * O * I * (_kernel_h * _kernel_w) := by
  obtain ⟨G, rfl⟩ := Int.eq_ofNat_of_zero_le hgroup.le
  have hG : (G : Int) ≠ 0 := hgroup.ne'
  obtain ⟨o, rfl⟩ := hout
  obtain ⟨i, rfl⟩ := hin
  have ho : 0 ≤ o := by
    by_contra hneg
    have : (G : Int) * o < 0 := mul_neg_of_pos_of_neg hgroup (not_le.1 hneg)
    omega
  have hi : 0 ≤ i := by
    by_contra hneg
    have : (G : Int) * i < 0 := mul_neg_of_pos_of_neg hgroup (not_le.1 hneg)
    omega
  obtain ⟨O, rfl⟩ := Int.eq_ofNat_of_zero_le ho
  obtain ⟨I, rfl⟩ := Int.eq_ofNat_of_zero_le hi
  refine ⟨G, O, I, rfl, Int.mul_tdiv_cancel_left _ hG, Int.mul_tdiv_cancel_left _ hG, ?_⟩
  unfold transposed_size
  have e : _kernel_w * _kernel_h * ((G : Int) * O) * ((G : Int) * I) =
      (G : Int) * ((G : Int) * O * I * (_kernel_h * _kernel_w)) := by ring
  rw [e, Int.mul_tdiv_cancel_left _ hG]

/-- C20. Dynamic-weight transposition.  In the dynamic-weight `forward`, with `group > 0`
dividing the input channel count and `num_output`, and non-negative sizes: for all
`g < group`, `i < outch_g`, `j < inch_g`, `k < maxk`,
`transposed[((g*outch_g + i)*inch_g + j)*maxk + k] =
flattened[((g*inch_g + j)*outch_g + i)*maxk + k]`; the indices written are
`0, 1, ..., size - 1` in this order, each once, where
`size = _kernel_w * _kernel_h * _num_output * _num_input / group` is the length created and
declared as `weight_data_size`; the indices read are a permutation of the same range; and
the number of assignments is `size`. -/
theorem dynamic_weight_transposition {α : Type}
    (group _num_input _kernel_w _kernel_h _num_output : Int)
    (weight_data_flattened wt0 : Int → α)
    (hgroup : 0 < group) (hin : group ∣ _num_input) (hout : group ∣ _num_output)
    (hin0 : 0 ≤ _num_input) (hout0 : 0 ≤ _num_output)
    (hkw : 0 ≤ _kernel_w) (hkh : 0 ≤ _kernel_h) :
    (∀ g i j k : Int, 0 ≤ g ∧ g < group → 0 ≤ i ∧ i < _num_output.tdiv group →
      0 ≤ j ∧ j < _num_input.tdiv group → 0 ≤ k ∧ k < _kernel_h * _kernel_w →
      transpose_loop group _num_input _kernel_w _kernel_h _num_output
          weight_data_flattened wt0
          (((g * _num_output.tdiv group + i) * _num_input.tdiv group + j) *
            (_kernel_h * _kernel_w) + k) =
        weight_data_flattened
          (((g * _num_input.tdiv group + j) * _num_output.tdiv group + i) *
            (_kernel_h * _kernel_w) + k)) ∧
    (transpose_steps group _num_input _kernel_w _kernel_h _num_output).map Prod.fst =
      loopRange (transposed_size group _num_input _kernel_w _kernel_h _num_output) ∧
    ((transpose_steps group _num_input _kernel_w _kernel_h _num_output).map Prod.snd).Perm
      (loopRange (transposed_size group _num_input _kernel_w _kernel_h _num_output)) ∧
    ((transpose_steps group _num_input _kernel_w _kernel_h _num_output).length : Int) =
      transposed_size group _num_input _kernel_w _kernel_h _num_output ∧
    0 ≤ transposed_size group _num_input _kernel_w _kernel_h _num_output := by
  obtain ⟨G, O, I, hG, hO, hI, hsize⟩ :=
    transpose_shape group _num_input _kernel_w _kernel_h _num_output hgroup hin hout hin0 hout0
  have hK : 0 ≤ _kernel_h * _kernel_w := mul_nonneg hkh hkw
  have hO' := hO
  have hI' := hI
  rw [hG] at hO' hI'
  have hsteps : transpose_steps group _num_input _kernel_w _kernel_h _num_output =
      (loopRange (G : Int)).flatMap (fun g =>
        (loopRange (O : Int)).flatMap (fun i =>
          (loopRange (I : Int)).flatMap (fun j =>
            (loopRange (_kernel_h * _kernel_w)).map (fun k =>
              (g * O * I * (_kernel_h * _kernel_w) + ((i * I + j) * (_kernel_h * _kernel_w) + k),
               g * I * O * (_kernel_h * _kernel_w) +
                 ((j * O + i) * (_kernel_h * _kernel_w) + k)))))) := by
    simp only [transpose_steps, hG, hO', hI']
  have hfst := transpose_steps_fst G O I _ hK
  have hsnd := transpose_steps_snd G O I _ hK
  rw [← hsteps, ← hsize] at hfst hsnd
  have hsz : 0 ≤ transposed_size group _num_input _kernel_w _kernel_h _num_output := by
    rw [hsize]
    positivity
  refine ⟨?_, hfst, hsnd, ?_, hsz⟩
  · intro g i j k hg hi hj hk
    rw [transpose_loop_eq_steps]
    have hmem : (g * _num_output.tdiv group * _num_input.tdiv group * (_kernel_h * _kernel_w) +
          ((i * _num_input.tdiv group + j) * (_kernel_h * _kernel_w) + k),
        g * _num_input.tdiv group * _num_output.tdiv group * (_kernel_h * _kernel_w) +
          ((j * _num_output.tdiv group + i) * (_kernel_h * _kernel_w) + k)) ∈
        transpose_steps group _num_input _kernel_w _kernel_h _num_output := by
      simp only [transpose_steps, List.mem_flatMap, List.mem_map, mem_loopRange]
      exact ⟨g, hg, i, hi, j, hj, k, hk, rfl⟩
    have e1 : ((g * _num_output.tdiv group + i) * _num_input.tdiv group + j) *
          (_kernel_h * _kernel_w) + k =
        g * _num_output.tdiv group * _num_input.tdiv group * (_kernel_h * _kernel_w) +
          ((i * _num_input.tdiv group + j) * (_kernel_h * _kernel_w) + k) := by ring
    have e2 : ((g * _num_input.tdiv group + j) * _num_output.tdiv group + i) *
          (_kernel_h * _kernel_w) + k =
        g * _num_input.tdiv group * _num_output.tdiv group * (_kernel_h * _kernel_w) +
          ((j * _num_output.tdiv group + i) * (_kernel_h * _kernel_w) + k) := by ring
    rw [e1, e2]
    exact foldl_update_mem weight_data_flattened _ wt0 _ _
      (by rw [hfst]; exact loopRange_nodup _) hmem
  · have h := congrArg List.length hfst
    rw [List.length_map] at h
    rw [h, loopRange_length]
    exact max_eq_left hsz

end DeconvolutionDepthWise_arm

namespace Conv3x3

theorem conv3x3s1_pack1to4_block8_eq {α V : Type} (fma : V → V → α → V) (zero : α)
    (img : Int → α) (k : Nat → V) (acc0 : Nat → V) (inp0 : Nat → Nat → α) (s : KState V) :
    run_asm 4 fma zero img k acc0 inp0 conv3x3s1_pack1to4_block8 s =
      (column 1 fma img k)^[8] s := by
  simp [run_asm, conv3x3s1_pack1to4_block8, exec, load_regs, store_regs, KState.row,
    KState.set_row, column, tap9, Function.iterate_succ, add_assoc]

theorem conv3x3s1_pack1to4_block4_eq {α V : Type} (fma : V → V → α → V) (zero : α)
    (img : Int → α) (k : Nat → V) (acc0 : Nat → V) (inp0 : Nat → Nat → α) (s : KState V) :
    run_asm 4 fma zero img k acc0 inp0 conv3x3s1_pack1to4_block4 s =
      (column 1 fma img k)^[4] s := by
  simp [run_asm, conv3x3s1_pack1to4_block4, exec, load_regs, store_regs, KState.row,
    KState.set_row, column, tap9, Function.iterate_succ, add_assoc]

theorem conv3x3s1_pack1to4_block2_eq {α V : Type} (fma : V → V → α → V) (zero : α)
    (img : Int → α) (k : Nat → V) (acc0 : Nat → V) (inp0 : Nat → Nat → α) (s : KState V) :
    run_asm 4 fma zero img k acc0 inp0 conv3x3s1_pack1to4_block2 s =
      (column 1 fma img k)^[2] s := by
  simp [run_asm, conv3x3s1_pack1to4_block2, exec, load_regs, store_regs, KState.row,
    KState.set_row, column, tap9, Function.iterate_succ, add_assoc]

theorem conv3x3s1_pack1to4_block1_eq {α V : Type} (fma : V → V → α → V) (zero : α)
    (img : Int → α) (k : Nat → V) (acc0 : Nat → V) (inp0 : Nat → Nat → α) (s : KState V) :
    run_asm 4 fma zero img k acc0 inp0 conv3x3s1_pack1to4_block1 s =
      (column 1 fma img k)^[1] s := by
  simp [run_asm, conv3x3s1_pack1to4_block1, exec, load_regs, store_regs, KState.row,
    KState.set_row, column, tap9, Function.iterate_succ, add_assoc]

theorem conv3x3s2_pack1to4_block4_eq {α V : Type} (fma : V → V → α → V) (zero : α)
    (img : Int → α) (k : Nat → V) (acc0 : Nat → V) (inp0 : Nat → Nat → α) (s : KState V) :
    run_asm 4 fma zero img k acc0 inp0 conv3x3s2_pack1to4_block4 s =
      (column 2 fma img k)^[4] s := by
  simp [run_asm, conv3x3s2_pack1to4_block4, exec, load_regs, store_regs, KState.row,
    KState.set_row, column, tap9, Function.iterate_succ, add_assoc]

theorem conv3x3s2_pack1to4_block2_eq {α V : Type} (fma : V → V → α → V) (zero : α)
    (img : Int → α) (k : Nat → V) (acc0 : Nat → V) (inp0 : Nat → Nat → α) (s : KState V) :
    run_asm 4 fma zero img k acc0 inp0 conv3x3s2_pack1to4_block2 s =
      (column 2 fma img k)^[2] s := by
  simp [run_asm, conv3x3s2_pack1to4_block2, exec, load_regs, store_regs, KState.row,
    KState.set_row, column, tap9, Function.iterate_succ, add_assoc]

theorem conv3x3s2_pack1to4_block1_eq {α V : Type} (fma : V → V → α → V) (zero : α)
    (img : Int → α) (k : Nat → V) (acc0 : Nat → V) (inp0 : Nat → Nat → α) (s : KState V) :
    run_asm 4 fma zero img k acc0 inp0 conv3x3s2_pack1to4_block1 s =
      (column 2 fma img k)^[1] s := by
  simp [run_asm, conv3x3s2_pack1to4_block1, exec, load_regs, store_regs, KState.row,
    KState.set_row, column, tap9, Function.iterate_succ, add_assoc]

theorem conv3x3s1_pack1to8_block8_eq {α V : Type} (fma : V → V → α → V) (zero : α)
    (img : Int → α) (k : Nat → V) (acc0 : Nat → V) (inp0 : Nat → Nat → α) (s : KState V) :
    run_asm 8 fma zero img k acc0 inp0 conv3x3s1_pack1to8_block8 s =
      (column 1 fma img k)^[8] s := by
  simp [run_asm, conv3x3s1_pack1to8_block8, exec, load_regs, store_regs, KState.row,
    KState.set_row, column, tap9, Function.iterate_succ, add_assoc]

theorem conv3x3s1_pack1to8_block4_eq {α V : Type} (fma : V → V → α → V) (zero : α)
    (img : Int → α) (k : Nat → V) (acc0 : Nat → V) (inp0 : Nat → Nat → α) (s : KState V) :
    run_asm 8 fma zero img k acc0 inp0 conv3x3s1_pack1to8_block4 s =
      (column 1 fma img k)^[4] s := by
  simp [run_asm, conv3x3s1_pack1to8_block4, exec, load_regs, store_regs, KState.row,
    KState.set_row, column, tap9, Function.iterate_succ, add_assoc]

theorem conv3x3s1_pack1to8_block2_eq {α V : Type} (fma : V → V → α → V) (zero : α)
    (img : Int → α) (k : Nat → V) (acc0 : Nat → V) (inp0 : Nat → Nat → α) (s : KState V) :
    run_asm 8 fma zero img k acc0 inp0 conv3x3s1_pack1to8_block2 s =
      (column 1 fma img k)^[2] s := by
  simp [run_asm, conv3x3s1_pack1to8_block2, exec, load_regs, store_regs, KState.row,
    KState.set_row, column, tap9, Function.iterate_succ, add_assoc]

theorem conv3x3s1_pack1to8_block1_eq {α V : Type} (fma : V → V → α → V) (zero : α)
    (img : Int → α) (k : Nat → V) (acc0 : Nat → V) (inp0 : Nat → Nat → α) (s : KState V) :
    run_asm 8 fma zero img k acc0 inp0 conv3x3s1_pack1to8_block1 s =
      (column 1 fma img k)^[1] s := by
  simp [run_asm, conv3x3s1_pack1to8_block1, exec, load_regs, store_regs, KState.row,
    KState.set_row, column, tap9, Function.iterate_succ, add_assoc]

theorem conv3x3s2_pack1to8_block4_eq {α V : Type} (fma : V → V → α → V) (zero : α)
    (img : Int → α) (k : Nat → V) (acc0 : Nat → V) (inp0 : Nat → Nat → α) (s : KState V) :
    run_asm 8 fma zero img k acc0 inp0 conv3x3s2_pack1to8_block4 s =
      (column 2 fma img k)^[4] s := by
  simp [run_asm, conv3x3s2_pack1to8_block4, exec, load_regs, store_regs, KState.row,
    KState.set_row, column, tap9, Function.iterate_succ, add_assoc]

theorem conv3x3s2_pack1to8_block2_eq {α V : Type} (fma : V → V → α → V) (zero : α)
    (img : Int → α) (k : Nat → V) (acc0 : Nat → V) (inp0 : Nat → Nat → α) (s : KState V) :
    run_asm 8 fma zero img k acc0 inp0 conv3x3s2_pack1to8_block2 s =
      (column 2 fma img k)^[2] s := by
  simp [run_asm, conv3x3s2_pack1to8_block2, exec, load_regs, store_regs, KState.row,
    KState.set_row, column, tap9, Function.iterate_succ, add_assoc]

theorem conv3x3s2_pack1to8_block1_eq {α V : Type} (fma : V → V → α → V) (zero : α)
    (img : Int → α) (k : Nat → V) (acc0 : Nat → V) (inp0 : Nat → Nat → α) (s : KState V) :
    run_asm 8 fma zero img k acc0 inp0 conv3x3s2_pack1to8_block1 s =
      (column 2 fma img k)^[1] s := by
  simp [run_asm, conv3x3s2_pack1to8_block1, exec, load_regs, store_regs, KState.row,
    KState.set_row, column, tap9, Function.iterate_succ, add_assoc]

theorem block_loop_spec {σ : Type} (W outw : Int) (hW : 0 < W) (body : Int → σ → σ)
    (fuel : Nat) (j : Int) (s : σ) (hfuel : (outw - j).toNat ≤ fuel) :
    ∃ t : Nat, block_loop W outw body fuel j s =
        (j + W * t, (List.range t).foldl (fun s n => body (j + W * (n : Nat)) s) s) ∧
      outw ≤ j + W * t + (W - 1) ∧ (t = 0 ∨ j + W * t ≤ outw) := by
  induction fuel generalizing j s with
  | zero =>
    refine ⟨0, by simp [block_loop], ?_, Or.inl rfl⟩
    simp only [Nat.cast_zero, mul_zero, add_zero]
    omega
  | succ fuel ih =>
    simp only [block_loop]
    split_ifs with hc
    · obtain ⟨t, h1, h2, h3⟩ := ih (j + W) (body j s) (by omega)
      have e : (j + W + W * (t : Int)) = j + W * ((t + 1 : Nat) : Int) := by push_cast; ring
      refine ⟨t + 1, ?_, by rw [← e]; exact h2, Or.inr ?_⟩
      · rw [h1, e, List.range_succ_eq_map, List.foldl_cons, List.foldl_map]
        simp only [Nat.cast_zero, mul_zero, add_zero, Prod.mk.injEq, true_and]
        apply List.foldl_ext
        intro a n _
        congr 1
        push_cast
        ring
      · rw [← e]
        rcases h3 with h3 | h3
        · subst h3
          simp only [Nat.cast_zero, mul_zero, add_zero]
          omega
        · exact h3
    · refine ⟨0, by simp, ?_, Or.inl rfl⟩
      simp only [Nat.cast_zero, mul_zero, add_zero]
      omega

theorem foldl_const_iterate {σ : Type} (f : σ → σ) (t : Nat) (s : σ) :
    (List.range t).foldl (fun s (_ : Nat) => f s) s = f^[t] s := by
  induction t generalizing s with
  | zero => rfl
  | succ t ih =>
    rw [List.range_succ, List.foldl_append, ih]
    simp only [List.foldl_cons, List.foldl_nil]
    exact (Function.iterate_succ_apply' f t s).symm

theorem block_loop_iterate {σ : Type} (W : Nat) (outw : Int) (hW : 0 < W) (f : σ → σ)
    (fuel : Nat) (j : Int) (s : σ) (hfuel : (outw - j).toNat ≤ fuel) :
    ∃ t : Nat, block_loop W outw (fun _ => f^[W]) fuel j s = (j + W * t, f^[W * t] s) ∧
      outw ≤ j + W * t + (W - 1) ∧ (t = 0 ∨ j + W * t ≤ outw) := by
  obtain ⟨t, h1, h2, h3⟩ :=
    block_loop_spec (W : Int) outw (by exact_mod_cast hW) (fun _ => f^[W]) fuel j s hfuel
  refine ⟨t, ?_, h2, h3⟩
  rw [h1, foldl_const_iterate, ← Function.iterate_mul]

theorem columns_s1_iterate {σ : Type} (outw : Int) (h : 0 ≤ outw) (f : σ → σ) (s : σ) :
    columns_s1 outw (fun _ => f^[8]) (fun _ => f^[4]) (fun _ => f^[2]) (fun _ => f^[1]) s =
      (outw, f^[outw.toNat] s) := by
  unfold columns_s1
  obtain ⟨t8, e8, a8, b8⟩ :=
    block_loop_iterate 8 outw (by decide) f outw.toNat 0 s (by omega)
  simp only [Nat.cast_ofNat] at e8 a8 b8
  simp only [e8]
  obtain ⟨t4, e4, a4, b4⟩ :=
    block_loop_iterate 4 outw (by decide) f outw.toNat (0 + 8 * t8) (f^[8 * t8] s) (by omega)
  simp only [Nat.cast_ofNat] at e4 a4 b4
  simp only [e4]
  obtain ⟨t2, e2, a2, b2⟩ :=
    block_loop_iterate 2 outw (by decide) f outw.toNat (0 + 8 * t8 + 4 * t4)
      (f^[4 * t4] (f^[8 * t8] s)) (by omega)
  simp only [Nat.cast_ofNat] at e2 a2 b2
  simp only [e2]
  obtain ⟨t1, e1, a1, b1⟩ :=
    block_loop_iterate 1 outw (by decide) f outw.toNat (0 + 8 * t8 + 4 * t4 + 2 * t2)
      (f^[2 * t2] (f^[4 * t4] (f^[8 * t8] s))) (by omega)
  simp only [Nat.cast_one] at e1 a1 b1
  simp only [e1]
  have hsum : outw.toNat = 1 * t1 + (2 * t2 + (4 * t4 + 8 * t8)) := by omega
  rw [hsum, Function.iterate_add_apply, Function.iterate_add_apply,
    Function.iterate_add_apply]
  refine Prod.ext ?_ rfl
  simp only
  omega

theorem columns_s2_iterate {σ : Type} (outw : Int) (h : 0 ≤ outw) (f : σ → σ) (s : σ) :
    columns_s2 outw (fun _ => f^[4]) (fun _ => f^[2]) (fun _ => f^[1]) s =
      (outw, f^[outw.toNat] s) := by
  unfold columns_s2
  obtain ⟨t4, e4, a4, b4⟩ :=
    block_loop_iterate 4 outw (by decide) f outw.toNat 0 s (by omega)
  simp only [Nat.cast_ofNat] at e4 a4 b4
  simp only [e4]
  obtain ⟨t2, e2, a2, b2⟩ :=
    block_loop_iterate 2 outw (by decide) f outw.toNat (0 + 4 * t4) (f^[4 * t4] s) (by omega)
  simp only [Nat.cast_ofNat] at e2 a2 b2
  simp only [e2]
  obtain ⟨t1, e1, a1, b1⟩ :=
    block_loop_iterate 1 outw (by decide) f outw.toNat (0 + 4 * t4 + 2 * t2)
      (f^[2 * t2] (f^[4 * t4] s)) (by omega)
  simp only [Nat.cast_one] at e1 a1 b1
  simp only [e1]
  have hsum : outw.toNat = 1 * t1 + (2 * t2 + 4 * t4) := by omega
  rw [hsum, Function.iterate_add_apply, Function.iterate_add_apply]
  refine Prod.ext ?_ rfl
  simp only
  omega

theorem foldl_log (W : Int) (j : Int) (t : Nat) (l : List (Int × Int)) :
    (List.range t).foldl (fun l n => l ++ [(j + W * (n : Nat), W)]) l =
      l ++ (List.range t).map (fun n => (j + W * (n : Nat), W)) := by
  induction t with
  | zero => simp
  | succ t ih =>
    rw [List.range_succ, List.foldl_append, ih]
    simp

theorem columns_of_append (l₁ l₂ : List (Int × Int)) :
    columns_of (l₁ ++ l₂) = columns_of l₁ ++ columns_of l₂ := by
  simp [columns_of]

theorem columns_of_blocks (W t : Nat) (j : Int) :
    columns_of ((List.range t).map (fun n => (j + (W : Int) * (n : Nat), (W : Int)))) =
      (loopRange ((W * t : Nat) : Int)).map (fun c => j + c) := by
  induction t with
  | zero => simp [columns_of, loopRange_zero]
  | succ t ih =>
    have e : ((W * (t + 1) : Nat) : Int) = ((W * t : Nat) : Int) + (W : Nat) := by
      push_cast; ring
    rw [List.range_succ, List.map_append, columns_of_append, ih, e, loopRange_add,
      List.map_append]
    congr 1
    simp only [columns_of, List.map_cons, List.map_nil, List.flatMap_cons, List.flatMap_nil,
      List.append_nil, List.map_map]
    apply List.map_congr_left
    intro c _
    simp only [Function.comp_apply]
    push_cast
    ring

theorem loopRange_append_shift (a b : Nat) :
    loopRange (a : Int) ++ (loopRange (b : Int)).map (fun c => (a : Int) + c) =
      loopRange ((a + b : Nat) : Int) := by
  rw [Nat.cast_add, loopRange_add]

theorem block_loop_log (W : Nat) (outw : Int) (hW : 0 < W) (fuel : Nat) (j : Int)
    (l : List (Int × Int)) (hfuel : (outw - j).toNat ≤ fuel) :
    ∃ t : Nat, block_loop W outw (fun j l => l ++ [(j, (W : Int))]) fuel j l =
        (j + W * t, l ++ (List.range t).map (fun n => (j + (W : Int) * (n : Nat), (W : Int)))) ∧
      outw ≤ j + W * t + (W - 1) ∧ (t = 0 ∨ j + W * t ≤ outw) := by
  obtain ⟨t, h1, h2, h3⟩ :=
    block_loop_spec (W : Int) outw (by exact_mod_cast hW) (fun j l => l ++ [(j, (W : Int))])
      fuel j l hfuel
  exact ⟨t, by rw [h1, foldl_log], h2, h3⟩

theorem block_trace_s1_spec (outw : Int) (h : 0 ≤ outw) :
    block_trace_s1 outw =
      (outw,
       (List.range (outw / 8).toNat).map (fun n => ((0 : Int) + 8 * (n : Nat), (8 : Int))) ++
       (List.range (outw % 8 / 4).toNat).map
         (fun n => (8 * (outw / 8) + 4 * (n : Nat), (4 : Int))) ++
       (List.range (outw % 4 / 2).toNat).map
         (fun n => (4 * (outw / 4) + 2 * (n : Nat), (2 : Int))) ++
       (List.range (outw % 2).toNat).map
         (fun n => (2 * (outw / 2) + 1 * (n : Nat), (1 : Int)))) := by
  unfold block_trace_s1 columns_s1
  obtain ⟨t8, e8, a8, b8⟩ := block_loop_log 8 outw (by decide) outw.toNat 0 [] (by omega)
  simp only [Nat.cast_ofNat] at e8 a8 b8
  simp only [e8]
  obtain ⟨t4, e4, a4, b4⟩ := block_loop_log 4 outw (by decide) outw.toNat (0 + 8 * t8)
    ([] ++ (List.range t8).map (fun n => ((0 : Int) + 8 * (n : Nat), (8 : Int)))) (by omega)
  simp only [Nat.cast_ofNat] at e4 a4 b4
  simp only [e4]
  obtain ⟨t2, e2, a2, b2⟩ := block_loop_log 2 outw (by decide) outw.toNat
    (0 + 8 * t8 + 4 * t4)
    ([] ++ (List.range t8).map (fun n => ((0 : Int) + 8 * (n : Nat), (8 : Int))) ++
      (List.range t4).map (fun n => (0 + 8 * (t8 : Int) + 4 * (n : Nat), (4 : Int))))
    (by omega)
  simp only [Nat.cast_ofNat] at e2 a2 b2
  simp only [e2]
  obtain ⟨t1, e1, a1, b1⟩ := block_loop_log 1 outw (by decide) outw.toNat
    (0 + 8 * t8 + 4 * t4 + 2 * t2)
    ([] ++ (List.range t8).map (fun n => ((0 : Int) + 8 * (n : Nat), (8 : Int))) ++
      (List.range t4).map (fun n => (0 + 8 * (t8 : Int) + 4 * (n : Nat), (4 : Int))) ++
      (List.range t2).map
        (fun n => (0 + 8 * (t8 : Int) + 4 * (t4 : Int) + 2 * (n : Nat), (2 : Int))))
    (by omega)
  simp only [Nat.cast_one] at e1 a1 b1
  simp only [e1]
  have h8 : (outw / 8).toNat = t8 := by omega
  have h4 : (outw % 8 / 4).toNat = t4 := by omega
  have h2 : (outw % 4 / 2).toNat = t2 := by omega
  have h1 : (outw % 2).toNat = t1 := by omega
  have p4 : 8 * (outw / 8) = 0 + 8 * (t8 : Int) := by omega
  have p2 : 4 * (outw / 4) = 0 + 8 * (t8 : Int) + 4 * (t4 : Int) := by omega
  have p1 : 2 * (outw / 2) = 0 + 8 * (t8 : Int) + 4 * (t4 : Int) + 2 * (t2 : Int) := by omega
  rw [h8, h4, h2, h1, p4, p2, p1]
  refine Prod.ext ?_ ?_
  · simp only
    omega
  · simp only [List.nil_append]

theorem block_trace_s2_spec (outw : Int) (h : 0 ≤ outw) :
    block_trace_s2 outw =
      (outw,
       (List.range (outw / 4).toNat).map (fun n => ((0 : Int) + 4 * (n : Nat), (4 : Int))) ++
       (List.range (outw % 4 / 2).toNat).map
         (fun n => (4 * (outw / 4) + 2 * (n : Nat), (2 : Int))) ++
       (List.range (outw % 2).toNat).map
         (fun n => (2 * (outw / 2) + 1 * (n : Nat), (1 : Int)))) := by
  unfold block_trace_s2 columns_s2
  obtain ⟨t4, e4, a4, b4⟩ := block_loop_log 4 outw (by decide) outw.toNat 0 [] (by omega)
  simp only [Nat.cast_ofNat] at e4 a4 b4
  simp only [e4]
  obtain ⟨t2, e2, a2, b2⟩ := block_loop_log 2 outw (by decide) outw.toNat (0 + 4 * t4)
    ([] ++ (List.range t4).map (fun n => ((0 : Int) + 4 * (n : Nat), (4 : Int)))) (by omega)
  simp only [Nat.cast_ofNat] at e2 a2 b2
  simp only [e2]
  obtain ⟨t1, e1, a1, b1⟩ := block_loop_log 1 outw (by decide) outw.toNat
    (0 + 4 * t4 + 2 * t2)
    ([] ++ (List.range t4).map (fun n => ((0 : Int) + 4 * (n : Nat), (4 : Int))) ++
      (List.range t2).map (fun n => (0 + 4 * (t4 : Int) + 2 * (n : Nat), (2 : Int))))
    (by omega)
  simp only [Nat.cast_one] at e1 a1 b1
  simp only [e1]
  have h4 : (outw / 4).toNat = t4 := by omega
  have h2 : (outw % 4 / 2).toNat = t2 := by omega
  have h1 : (outw % 2).toNat = t1 := by omega
  have p2 : 4 * (outw / 4) = 0 + 4 * (t4 : Int) := by omega
  have p1 : 2 * (outw / 2) = 0 + 4 * (t4 : Int) + 2 * (t2 : Int) := by omega
  rw [h4, h2, h1, p2, p1]
  refine Prod.ext ?_ ?_
  · simp only
    omega
  · simp only [List.nil_append]

theorem columns_of_cascade (W : Nat) (j a t : Nat) (hj : (j : Int) = a)
    (rest : List (Int × Int)) (n : Nat)
    (hrest : columns_of rest = (loopRange (n : Int)).map (fun c => ((j + W * t : Nat) : Int) + c)) :
    columns_of ((List.range t).map (fun m => ((a : Int) + (W : Int) * (m : Nat), (W : Int))) ++
        rest) =
      (loopRange ((W * t + n : Nat) : Int)).map (fun c => (j : Int) + c) := by
  rw [columns_of_append, columns_of_blocks, hrest, ← hj, Nat.cast_add (W * t) n, loopRange_add,
    List.map_append, List.map_map]
  congr 1
  apply List.map_congr_left
  intro c _
  simp only [Function.comp_apply]
  push_cast
  ring

/-- C17. Column tiling cascade.  For every `outw >= 0`, the column loops of the stride-1
kernels (steps 8, 4, 2, 1) and of the stride-2 kernels (steps 4, 2, 1) end with
`j = outw`; the blocks they run are `outw / 8` (respectively `outw / 4`) blocks of the
widest step, starting at multiples of it, followed by at most one block of each narrower
step; and the columns of these blocks, taken in program order, are exactly
`0, 1, ..., outw - 1`: no column is processed twice or skipped. -/
theorem column_tiling_cascade (outw : Int) (h : 0 ≤ outw) :
    ((block_trace_s1 outw).1 = outw ∧
      (block_trace_s1 outw).2 =
        (List.range (outw / 8).toNat).map (fun n => ((0 : Int) + 8 * (n : Nat), (8 : Int))) ++
        (List.range (outw % 8 / 4).toNat).map
          (fun n => (8 * (outw / 8) + 4 * (n : Nat), (4 : Int))) ++
        (List.range (outw % 4 / 2).toNat).map
          (fun n => (4 * (outw / 4) + 2 * (n : Nat), (2 : Int))) ++
        (List.range (outw % 2).toNat).map
          (fun n => (2 * (outw / 2) + 1 * (n : Nat), (1 : Int))) ∧
      (outw % 8 / 4).toNat ≤ 1 ∧ (outw % 4 / 2).toNat ≤ 1 ∧ (outw % 2).toNat ≤ 1 ∧
      columns_of (block_trace_s1 outw).2 = loopRange outw) ∧
    ((block_trace_s2 outw).1 = outw ∧
      (block_trace_s2 outw).2 =
        (List.range (outw / 4).toNat).map (fun n => ((0 : Int) + 4 * (n : Nat), (4 : Int))) ++
        (List.range (outw % 4 / 2).toNat).map
          (fun n => (4 * (outw / 4) + 2 * (n : Nat), (2 : Int))) ++
        (List.range (outw % 2).toNat).map
          (fun n => (2 * (outw / 2) + 1 * (n : Nat), (1 : Int))) ∧
      (outw % 4 / 2).toNat ≤ 1 ∧ (outw % 2).toNat ≤ 1 ∧
      columns_of (block_trace_s2 outw).2 = loopRange outw) := by
  obtain ⟨n, rfl⟩ := Int.eq_ofNat_of_zero_le h
  have hs1 := block_trace_s1_spec (n : Int) h
  have hs2 := block_trace_s2_spec (n : Int) h
  have q8 : ((n : Int) / 8).toNat = n / 8 := by omega
  have q84 : ((n : Int) % 8 / 4).toNat = n % 8 / 4 := by omega
  have q4 : ((n : Int) / 4).toNat = n / 4 := by omega
  have q42 : ((n : Int) % 4 / 2).toNat = n % 4 / 2 := by omega
  have q2 : ((n : Int) % 2).toNat = n % 2 := by omega
  have c8 : (8 : Int) * ((n : Int) / 8) = ((0 + 8 * (n / 8) : Nat) : Int) := by omega
  have c4 : (4 : Int) * ((n : Int) / 4) = ((0 + 4 * (n / 4) : Nat) : Int) := by omega
  have c2 : (2 : Int) * ((n : Int) / 2) = ((0 + 2 * (n / 2) : Nat) : Int) := by omega
  refine ⟨⟨by rw [hs1], by rw [hs1], by omega, by omega, by omega, ?_⟩,
    ⟨by rw [hs2], by rw [hs2], by omega, by omega, ?_⟩⟩
  · rw [hs1]
    simp only [q8, q84, q42, q2, List.append_assoc]
    have e1 := columns_of_cascade 1 (0 + 2 * (n / 2)) (0 + 2 * (n / 2)) (n % 2) rfl [] 0
      (by simp [columns_of, loopRange_zero])
    have e2 := columns_of_cascade 2 (0 + 4 * (n / 4)) (0 + 4 * (n / 4)) (n % 4 / 2) rfl _
      (1 * (n % 2) + 0) (by
        rw [e1]
        have : 0 + 4 * (n / 4) + 2 * (n % 4 / 2) = 0 + 2 * (n / 2) := by omega
        rw [this])
    have e4 := columns_of_cascade 4 (0 + 8 * (n / 8)) (0 + 8 * (n / 8)) (n % 8 / 4) rfl _
      (2 * (n % 4 / 2) + (1 * (n % 2) + 0)) (by
        rw [e2]
        have : 0 + 8 * (n / 8) + 4 * (n % 8 / 4) = 0 + 4 * (n / 4) := by omega
        rw [this])
    have e8 := columns_of_cascade 8 0 0 (n / 8) rfl _
      (4 * (n % 8 / 4) + (2 * (n % 4 / 2) + (1 * (n % 2) + 0))) (by
        rw [e4])
    have hsum : 8 * (n / 8) + (4 * (n % 8 / 4) + (2 * (n % 4 / 2) + (1 * (n % 2) + 0))) = n := by
      omega
    simp only [c8, c4, c2, List.append_nil, Nat.cast_one, Nat.cast_ofNat, Nat.cast_zero,
      hsum] at e8 ⊢
    rw [e8]
    simp
  · rw [hs2]
    simp only [q4, q42, q2, List.append_assoc]
    have e1 := columns_of_cascade 1 (0 + 2 * (n / 2)) (0 + 2 * (n / 2)) (n % 2) rfl [] 0
      (by simp [columns_of, loopRange_zero])
    have e2 := columns_of_cascade 2 (0 + 4 * (n / 4)) (0 + 4 * (n / 4)) (n % 4 / 2) rfl _
      (1 * (n % 2) + 0) (by
        rw [e1]
        have : 0 + 4 * (n / 4) + 2 * (n % 4 / 2) = 0 + 2 * (n / 2) := by omega
        rw [this])
    have e4 := columns_of_cascade 4 0 0 (n / 4) rfl _
      (2 * (n % 4 / 2) + (1 * (n % 2) + 0)) (by
        rw [e2])
    have hsum : 4 * (n / 4) + (2 * (n % 4 / 2) + (1 * (n % 2) + 0)) = n := by omega
    simp only [c4, c2, List.append_nil, Nat.cast_one, Nat.cast_ofNat, Nat.cast_zero,
      hsum] at e4 ⊢
    rw [e4]
    simp

theorem column_iterate {α V : Type} (S : Int) (fma : V → V → α → V) (img : Int → α)
    (k : Nat → V) (n : Nat) (s : KState V) :
    (column S fma img k)^[n] s =
      { out := fun a =>
          if s.outptr0 ≤ a ∧ a < s.outptr0 + n then
            tap9 fma img k (s.out a) (s.r0 + S * (a - s.outptr0))
              (s.r1 + S * (a - s.outptr0)) (s.r2 + S * (a - s.outptr0))
          else s.out a,
        outptr0 := s.outptr0 + n,
        r0 := s.r0 + S * n,
        r1 := s.r1 + S * n,
        r2 := s.r2 + S * n } := by
  induction n with
  | zero =>
    cases s
    simp only [Function.iterate_zero, id_eq, Nat.cast_zero, add_zero, mul_zero,
      KState.mk.injEq, and_true]
    funext a
    rw [if_neg (by omega)]
  | succ n ih =>
    rw [Function.iterate_succ_apply', ih]
    simp only [column, KState.mk.injEq]
    refine ⟨?_, by push_cast; ring, by push_cast; ring, by push_cast; ring,
      by push_cast; ring⟩
    funext a
    rw [Function.update_apply]
    by_cases ha : a = s.outptr0 + n
    · subst ha
      rw [if_pos rfl, if_neg (by omega), if_pos ⟨by omega, by push_cast; omega⟩]
      simp only [add_sub_cancel_left]
    · rw [if_neg ha]
      by_cases hin : s.outptr0 ≤ a ∧ a < s.outptr0 + n
      · rw [if_pos hin, if_pos ⟨hin.1, by push_cast; omega⟩]
      · rw [if_neg hin, if_neg (by push_cast; omega)]

theorem rows_spec {α V : Type} (S : Int) (fma : V → V → α → V) (img : Int → α)
    (k : Nat → V) (outw tail : Int) (hw : 0 ≤ outw) (m : Nat) (s : KState V) :
    (rows (fun s => (outw, (column S fma img k)^[outw.toNat] s)) tail (m : Int) s).outptr0 =
        s.outptr0 + m * outw ∧
    (rows (fun s => (outw, (column S fma img k)^[outw.toNat] s)) tail (m : Int) s).r0 =
        s.r0 + m * (S * outw + tail) ∧
    (rows (fun s => (outw, (column S fma img k)^[outw.toNat] s)) tail (m : Int) s).r1 =
        s.r1 + m * (S * outw + tail) ∧
    (rows (fun s => (outw, (column S fma img k)^[outw.toNat] s)) tail (m : Int) s).r2 =
        s.r2 + m * (S * outw + tail) ∧
    (∀ i j : Int, 0 ≤ i ∧ i < m → 0 ≤ j ∧ j < outw →
      (rows (fun s => (outw, (column S fma img k)^[outw.toNat] s)) tail (m : Int) s).out
          (s.outptr0 + i * outw + j) =
        tap9 fma img k (s.out (s.outptr0 + i * outw + j))
          (s.r0 + i * (S * outw + tail) + S * j) (s.r1 + i * (S * outw + tail) + S * j)
          (s.r2 + i * (S * outw + tail) + S * j)) ∧
    (∀ a : Int, a < s.outptr0 ∨ s.outptr0 + m * outw ≤ a →
      (rows (fun s => (outw, (column S fma img k)^[outw.toNat] s)) tail (m : Int) s).out a =
        s.out a) := by
  obtain ⟨n, rfl⟩ := Int.eq_ofNat_of_zero_le hw
  induction m with
  | zero =>
    simp only [rows, Nat.cast_zero, loopRange_zero, List.foldl_nil, zero_mul, add_zero,
      true_and]
    refine ⟨fun i j hi _ => by omega, ?_⟩
    simp
  | succ m ih =>
    obtain ⟨h0, h1, h2, h3, h4, h5⟩ := ih
    have e : ((m + 1 : Nat) : Int) = (m : Int) + 1 := by push_cast; ring
    have hstep : rows (fun s => ((n : Int), (column S fma img k)^[(n : Int).toNat] s)) tail
        ((m + 1 : Nat) : Int) s =
        (fun s' : KState V =>
          { s' with r0 := s'.r0 + tail, r1 := s'.r1 + tail, r2 := s'.r2 + tail })
          ((column S fma img k)^[n]
            (rows (fun s => ((n : Int), (column S fma img k)^[(n : Int).toNat] s)) tail
              (m : Int) s)) := by
      simp only [rows, e, loopRange_natCast_succ, List.foldl_append, List.foldl_cons,
        List.foldl_nil, Int.toNat_ofNat]
    rw [hstep, column_iterate]
    simp only [h0, h1, h2, h3]
    have hmn : ((m + 1 : Nat) : Int) * (n : Int) = m * n + n := by push_cast; ring
    refine ⟨by push_cast; ring, by push_cast; ring, by push_cast; ring, by push_cast; ring,
      ?_, ?_⟩
    · intro i j hi hj
      by_cases him : i = m
      · subst him
        rw [if_pos ⟨by omega, by omega⟩, h5 _ (Or.inr (by omega))]
        congr 1 <;> ring
      · have hlt : i < m := by omega
        have hmul : i * (n : Int) + n ≤ m * n := by
          have := Int.mul_le_mul_of_nonneg_right (show i + 1 ≤ (m : Int) by omega)
            (Int.natCast_nonneg n)
          linarith
        rw [if_neg (by omega)]
        exact h4 i j ⟨hi.1, hlt⟩ hj
    · intro a ha
      have hn0 : (0 : Int) ≤ m * n := by positivity
      rw [if_neg (by omega)]
      exact h5 a (by omega)

theorem rows_s1_eq {α V : Type} (P : Int) (fma : V → V → α → V) (zero : α) (img : Int → α)
    (k : Nat → V) (acc0 : Nat → V) (inp0 : Nat → Nat → α) (b8 b4 b2 b1 : List Insn)
    (h8 : ∀ s, run_asm P fma zero img k acc0 inp0 b8 s = (column 1 fma img k)^[8] s)
    (h4 : ∀ s, run_asm P fma zero img k acc0 inp0 b4 s = (column 1 fma img k)^[4] s)
    (h2 : ∀ s, run_asm P fma zero img k acc0 inp0 b2 s = (column 1 fma img k)^[2] s)
    (h1 : ∀ s, run_asm P fma zero img k acc0 inp0 b1 s = (column 1 fma img k)^[1] s)
    (outw outh : Int) (hw : 0 ≤ outw) (s : KState V) :
    rows_s1 P fma zero img k acc0 inp0 b8 b4 b2 b1 outw outh s =
      rows (fun s => (outw, (column 1 fma img k)^[outw.toNat] s)) 2 outh s := by
  unfold rows_s1
  simp only [h8, h4, h2, h1]
  congr 1
  funext s
  exact columns_s1_iterate outw hw (column 1 fma img k) s

theorem rows_s2_eq {α V : Type} (P : Int) (fma : V → V → α → V) (zero : α) (img : Int → α)
    (k : Nat → V) (acc0 : Nat → V) (inp0 : Nat → Nat → α) (b4 b2 b1 : List Insn)
    (h4 : ∀ s, run_asm P fma zero img k acc0 inp0 b4 s = (column 2 fma img k)^[4] s)
    (h2 : ∀ s, run_asm P fma zero img k acc0 inp0 b2 s = (column 2 fma img k)^[2] s)
    (h1 : ∀ s, run_asm P fma zero img k acc0 inp0 b1 s = (column 2 fma img k)^[1] s)
    (w outw outh : Int) (hw : 0 ≤ outw) (s : KState V) :
    rows_s2 P fma zero img k acc0 inp0 b4 b2 b1 w outw outh s =
      rows (fun s => (outw, (column 2 fma img k)^[outw.toNat] s)) (w - 2 * outw + w) outh
        s := by
  unfold rows_s2
  simp only [h4, h2, h1]
  congr 1
  funext s
  exact columns_s2_iterate outw hw (column 2 fma img k) s

theorem row_loop_eq {α V : Type} (K : Kernel) (fma : V → V → α → V) (zero : α)
    (img : Int → α) (k : Nat → V) (acc0 : Nat → V) (inp0 : Nat → Nat → α)
    (w outw outh : Int) (hw : 0 ≤ outw) (s : KState V) :
    K.row_loop fma zero img k acc0 inp0 w outw outh s =
      rows (fun s => (outw, (column K.S fma img k)^[outw.toNat] s))
        (K.row_step w outw - K.S * outw) outh s := by
  cases K
  · have e : Kernel.row_step Kernel.conv3x3s1_pack1to4 w outw -
        Kernel.S Kernel.conv3x3s1_pack1to4 * outw = 2 := by
      simp only [Kernel.row_step, Kernel.S]; ring
    rw [e]
    exact rows_s1_eq 4 fma zero img k acc0 inp0 _ _ _ _
      (conv3x3s1_pack1to4_block8_eq fma zero img k acc0 inp0)
      (conv3x3s1_pack1to4_block4_eq fma zero img k acc0 inp0)
      (conv3x3s1_pack1to4_block2_eq fma zero img k acc0 inp0)
      (conv3x3s1_pack1to4_block1_eq fma zero img k acc0 inp0) outw outh hw s
  · have e : Kernel.row_step Kernel.conv3x3s2_pack1to4 w outw -
        Kernel.S Kernel.conv3x3s2_pack1to4 * outw = w - 2 * outw + w := by
      simp only [Kernel.row_step, Kernel.S]; ring
    rw [e]
    exact rows_s2_eq 4 fma zero img k acc0 inp0 _ _ _
      (conv3x3s2_pack1to4_block4_eq fma zero img k acc0 inp0)
      (conv3x3s2_pack1to4_block2_eq fma zero img k acc0 inp0)
      (conv3x3s2_pack1to4_block1_eq fma zero img k acc0 inp0) w outw outh hw s
  · have e : Kernel.row_step Kernel.conv3x3s1_pack1to8 w outw -
        Kernel.S Kernel.conv3x3s1_pack1to8 * outw = 2 := by
      simp only [Kernel.row_step, Kernel.S]; ring
    rw [e]
    exact rows_s1_eq 8 fma zero img k acc0 inp0 _ _ _ _
      (conv3x3s1_pack1to8_block8_eq fma zero img k acc0 inp0)
      (conv3x3s1_pack1to8_block4_eq fma zero img k acc0 inp0)
      (conv3x3s1_pack1to8_block2_eq fma zero img k acc0 inp0)
      (conv3x3s1_pack1to8_block1_eq fma zero img k acc0 inp0) outw outh hw s
  · have e : Kernel.row_step Kernel.conv3x3s2_pack1to8 w outw -
        Kernel.S Kernel.conv3x3s2_pack1to8 * outw = w - 2 * outw + w := by
      simp only [Kernel.row_step, Kernel.S]; ring
    rw [e]
    exact rows_s2_eq 8 fma zero img k acc0 inp0 _ _ _
      (conv3x3s2_pack1to8_block4_eq fma zero img k acc0 inp0)
      (conv3x3s2_pack1to8_block2_eq fma zero img k acc0 inp0)
      (conv3x3s2_pack1to8_block1_eq fma zero img k acc0 inp0) w outw outh hw s

theorem row_loop_spec {α V : Type} (K : Kernel) (fma : V → V → α → V) (zero : α)
    (img : Int → α) (k : Nat → V) (acc0 : Nat → V) (inp0 : Nat → Nat → α)
    (w outw : Int) (hw : 0 ≤ outw) (m : Nat) (s : KState V) :
    (K.row_loop fma zero img k acc0 inp0 w outw (m : Int) s).outptr0 =
        s.outptr0 + m * outw ∧
    (K.row_loop fma zero img k acc0 inp0 w outw (m : Int) s).r0 =
        s.r0 + m * K.row_step w outw ∧
    (K.row_loop fma zero img k acc0 inp0 w outw (m : Int) s).r1 =
        s.r1 + m * K.row_step w outw ∧
    (K.row_loop fma zero img k acc0 inp0 w outw (m : Int) s).r2 =
        s.r2 + m * K.row_step w outw ∧
    (∀ i j : Int, 0 ≤ i ∧ i < m → 0 ≤ j ∧ j < outw →
      (K.row_loop fma zero img k acc0 inp0 w outw (m : Int) s).out
          (s.outptr0 + i * outw + j) =
        tap9 fma img k (s.out (s.outptr0 + i * outw + j))
          (s.r0 + i * K.row_step w outw + K.S * j) (s.r1 + i * K.row_step w outw + K.S * j)
          (s.r2 + i * K.row_step w outw + K.S * j)) ∧
    (∀ a : Int, a < s.outptr0 ∨ s.outptr0 + m * outw ≤ a →
      (K.row_loop fma zero img k acc0 inp0 w outw (m : Int) s).out a = s.out a) := by
  rw [row_loop_eq K fma zero img k acc0 inp0 w outw (m : Int) hw s]
  have h := rows_spec K.S fma img k outw (K.row_step w outw - K.S * outw) hw m s
  have e : K.S * outw + (K.row_step w outw - K.S * outw) = K.row_step w outw := by ring
  rw [e] at h
  exact h

theorem conv_eq_fold {α V : Type} (K : Kernel) (X : Simd α V) (acc0 : Nat → V)
    (inp0 : Nat → Nat → α) (w inch outw outh : Int) (bottom_blob kernel : Int → Int → α)
    (bias : Option (Int → α)) (p : Int) :
    K.conv X acc0 inp0 w inch outw outh bottom_blob kernel bias p =
      ((loopRange inch).foldl (fun (st : (Int → V) × Int) q =>
        ((K.row_loop X.fma X.zero (bottom_blob q) (load_kernel X K.P (kernel p) st.2) acc0
            inp0 w outw outh (channel_entry st.1 w)).out,
          st.2 + 9 * K.P)) (fun _ => load_bias X K.P bias p, 0)).1 := by
  cases K <;> rfl

theorem loopRange_of_neg {n : Int} (h : n < 0) : loopRange n = [] := by
  have : n.toNat = 0 := by omega
  simp [loopRange, this]

theorem conv_pixel {α V : Type} (K : Kernel) (X : Simd α V) (acc0 : Nat → V)
    (inp0 : Nat → Nat → α) (w inch outw outh : Int) (bottom_blob kernel : Int → Int → α)
    (bias : Option (Int → α)) (p i j : Int) (hi : 0 ≤ i ∧ i < outh)
    (hj : 0 ≤ j ∧ j < outw) :
    K.conv X acc0 inp0 w inch outw outh bottom_blob kernel bias p (i * outw + j) =
      pixel_by_channel X K.P inch bottom_blob (kernel p) (load_bias X K.P bias p)
        (i * K.row_step w outw + K.S * j) (w + i * K.row_step w outw + K.S * j)
        (2 * w + i * K.row_step w outw + K.S * j) := by
  rw [conv_eq_fold]
  unfold pixel_by_channel
  obtain ⟨m, rfl⟩ := Int.eq_ofNat_of_zero_le (show 0 ≤ outh by omega)
  rcases lt_or_le inch 0 with hneg | hpos
  · rw [loopRange_of_neg hneg]
    rfl
  · obtain ⟨n, rfl⟩ := Int.eq_ofNat_of_zero_le hpos
    suffices h : ∀ n : Nat,
        ((loopRange (n : Int)).foldl (fun (st : (Int → V) × Int) q =>
          ((K.row_loop X.fma X.zero (bottom_blob q) (load_kernel X K.P (kernel p) st.2) acc0
              inp0 w outw (m : Int) (channel_entry st.1 w)).out,
            st.2 + 9 * K.P)) (fun _ => load_bias X K.P bias p, 0)).2 = n * (9 * K.P) ∧
        ((loopRange (n : Int)).foldl (fun (st : (Int → V) × Int) q =>
          ((K.row_loop X.fma X.zero (bottom_blob q) (load_kernel X K.P (kernel p) st.2) acc0
              inp0 w outw (m : Int) (channel_entry st.1 w)).out,
            st.2 + 9 * K.P)) (fun _ => load_bias X K.P bias p, 0)).1 (i * outw + j) =
          (loopRange (n : Int)).foldl (fun v q =>
            tap9 X.fma (bottom_blob q) (load_kernel X K.P (kernel p) (q * (9 * K.P))) v
              (i * K.row_step w outw + K.S * j) (w + i * K.row_step w outw + K.S * j)
              (2 * w + i * K.row_step w outw + K.S * j)) (load_bias X K.P bias p) from
      (h n).2
    intro n
    induction n with
    | zero => simp [loopRange_zero]
    | succ n ih =>
      obtain ⟨ih1, ih2⟩ := ih
      have e : ((n + 1 : Nat) : Int) = (n : Int) + 1 := by push_cast; ring
      rw [e, loopRange_natCast_succ, List.foldl_append, List.foldl_append]
      simp only [List.foldl_cons, List.foldl_nil]
      rw [ih1, ← ih2]
      refine ⟨by ring, ?_⟩
      have hspec := (row_loop_spec K X.fma X.zero (bottom_blob n)
        (load_kernel X K.P (kernel p) (n * (9 * K.P))) acc0 inp0 w outw (by omega) m
        (channel_entry ((loopRange (n : Int)).foldl (fun (st : (Int → V) × Int) q =>
          ((K.row_loop X.fma X.zero (bottom_blob q) (load_kernel X K.P (kernel p) st.2) acc0
              inp0 w outw (m : Int) (channel_entry st.1 w)).out,
            st.2 + 9 * K.P)) (fun _ => load_bias X K.P bias p, 0)).1 w)).2.2.2.2.1 i j hi hj
      simp only [channel_entry, zero_add] at hspec
      exact hspec

theorem Ico_three : Finset.Ico (0 : Int) 3 = {0, 1, 2} := by
  decide

theorem sum_Ico_three {α : Type} [AddCommMonoid α] (f : Int → α) :
    ∑ x ∈ Finset.Ico (0 : Int) 3, f x = f 0 + f 1 + f 2 := by
  rw [Ico_three, Finset.sum_insert (by decide), Finset.sum_insert (by decide),
    Finset.sum_singleton, add_assoc]

theorem tap9_exact {α : Type} [CommRing α] (P : Int) (img : Int → α) (k : Nat → Int → α)
    (v : Int → α) (r0 r1 r2 : Int) :
    tap9 (exact_simd α P).fma img k v r0 r1 r2 =
      v + fun l =>
        img r0 * k 0 l + img (r0 + 1) * k 1 l + img (r0 + 2) * k 2 l +
        img r1 * k 3 l + img (r1 + 1) * k 4 l + img (r1 + 2) * k 5 l +
        img r2 * k 6 l + img (r2 + 1) * k 7 l + img (r2 + 2) * k 8 l := by
  funext l
  simp only [tap9, exact_simd, Pi.add_apply]
  ring

theorem pixel_by_channel_exact {α : Type} [CommRing α] (P inch : Int)
    (bottom_blob : Int → Int → α) (kernel_p : Int → α) (bias0 : Int → α) (r0 w : Int)
    (l : Int) (hl : 0 ≤ l ∧ l < P) :
    pixel_by_channel (exact_simd α P) P inch bottom_blob kernel_p bias0 r0 (w + r0)
        (2 * w + r0) l =
      bias0 l + ∑ q ∈ Finset.Ico (0 : Int) inch, ∑ ky ∈ Finset.Ico (0 : Int) 3,
        ∑ kx ∈ Finset.Ico (0 : Int) 3,
          bottom_blob q (r0 + ky * w + kx) * kernel_p (q * 9 * P + (ky * 3 + kx) * P + l) := by
  unfold pixel_by_channel
  rw [foldl_add_eq_sum (fun (v : Int → α) (q : Int) =>
      tap9 (exact_simd α P).fma (bottom_blob q)
        (load_kernel (exact_simd α P) P kernel_p (q * (9 * P))) v r0 (w + r0) (2 * w + r0))
    (fun q l =>
      bottom_blob q r0 * load_kernel (exact_simd α P) P kernel_p (q * (9 * P)) 0 l +
      bottom_blob q (r0 + 1) * load_kernel (exact_simd α P) P kernel_p (q * (9 * P)) 1 l +
      bottom_blob q (r0 + 2) * load_kernel (exact_simd α P) P kernel_p (q * (9 * P)) 2 l +
      bottom_blob q (w + r0) * load_kernel (exact_simd α P) P kernel_p (q * (9 * P)) 3 l +
      bottom_blob q (w + r0 + 1) * load_kernel (exact_simd α P) P kernel_p (q * (9 * P)) 4 l +
      bottom_blob q (w + r0 + 2) * load_kernel (exact_simd α P) P kernel_p (q * (9 * P)) 5 l +
      bottom_blob q (2 * w + r0) * load_kernel (exact_simd α P) P kernel_p (q * (9 * P)) 6 l +
      bottom_blob q (2 * w + r0 + 1) *
        load_kernel (exact_simd α P) P kernel_p (q * (9 * P)) 7 l +
      bottom_blob q (2 * w + r0 + 2) *
        load_kernel (exact_simd α P) P kernel_p (q * (9 * P)) 8 l)
    (fun v q => tap9_exact P _ _ v r0 (w + r0) (2 * w + r0)),
    sum_map_loopRange, Pi.add_apply, Finset.sum_apply]
  congr 1
  apply Finset.sum_congr rfl
  intro q _
  simp only [sum_Ico_three, load_kernel, exact_simd, if_pos hl]
  have a00 : r0 + 0 * w + 0 = r0 := by ring
  have a01 : r0 + 0 * w + 1 = r0 + 1 := by ring
  have a02 : r0 + 0 * w + 2 = r0 + 2 := by ring
  have a10 : r0 + 1 * w + 0 = w + r0 := by ring
  have a11 : r0 + 1 * w + 1 = w + r0 + 1 := by ring
  have a12 : r0 + 1 * w + 2 = w + r0 + 2 := by ring
  have a20 : r0 + 2 * w + 0 = 2 * w + r0 := by ring
  have a21 : r0 + 2 * w + 1 = 2 * w + r0 + 1 := by ring
  have a22 : r0 + 2 * w + 2 = 2 * w + r0 + 2 := by ring
  have k0 : q * 9 * P + (0 * 3 + 0) * P + l = q * (9 * P) + ((0 : Nat) : Int) * P + l := by
    push_cast; ring
  have k1 : q * 9 * P + (0 * 3 + 1) * P + l = q * (9 * P) + ((1 : Nat) : Int) * P + l := by
    push_cast; ring
  have k2 : q * 9 * P + (0 * 3 + 2) * P + l = q * (9 * P) + ((2 : Nat) : Int) * P + l := by
    push_cast; ring
  have k3 : q * 9 * P + (1 * 3 + 0) * P + l = q * (9 * P) + ((3 : Nat) : Int) * P + l := by
    push_cast; ring
  have k4 : q * 9 * P + (1 * 3 + 1) * P + l = q * (9 * P) + ((4 : Nat) : Int) * P + l := by
    push_cast; ring
  have k5 : q * 9 * P + (1 * 3 + 2) * P + l = q * (9 * P) + ((5 : Nat) : Int) * P + l := by
    push_cast; ring
  have k6 : q * 9 * P + (2 * 3 + 0) * P + l = q * (9 * P) + ((6 : Nat) : Int) * P + l := by
    push_cast; ring
  have k7 : q * 9 * P + (2 * 3 + 1) * P + l = q * (9 * P) + ((7 : Nat) : Int) * P + l := by
    push_cast; ring
  have k8 : q * 9 * P + (2 * 3 + 2) * P + l = q * (9 * P) + ((8 : Nat) : Int) * P + l := by
    push_cast; ring
  rw [a00, a01, a02, a10, a11, a12, a20, a21, a22, k0, k1, k2, k3, k4, k5, k6, k7, k8]
  ring

theorem block_eq_column {α V : Type} (K : Kernel) (fma : V → V → α → V) (zero : α)
    (img : Int → α) (k : Nat → V) (acc0 : Nat → V) (inp0 : Nat → Nat → α) (s : KState V)
    (b : Int × List Insn) (hb : b ∈ K.blocks) :
    run_asm K.P fma zero img k acc0 inp0 b.2 s = (column K.S fma img k)^[b.1.toNat] s := by
  cases K <;>
    simp only [Kernel.blocks, List.mem_cons, List.mem_singleton, List.not_mem_nil,
      or_false] at hb
  · rcases hb with rfl | rfl | rfl | rfl
    · exact conv3x3s1_pack1to4_block8_eq fma zero img k acc0 inp0 s
    · exact conv3x3s1_pack1to4_block4_eq fma zero img k acc0 inp0 s
    · exact conv3x3s1_pack1to4_block2_eq fma zero img k acc0 inp0 s
    · exact conv3x3s1_pack1to4_block1_eq fma zero img k acc0 inp0 s
  · rcases hb with rfl | rfl | rfl
    · exact conv3x3s2_pack1to4_block4_eq fma zero img k acc0 inp0 s
    · exact conv3x3s2_pack1to4_block2_eq fma zero img k acc0 inp0 s
    · exact conv3x3s2_pack1to4_block1_eq fma zero img k acc0 inp0 s
  · rcases hb with rfl | rfl | rfl | rfl
    · exact conv3x3s1_pack1to8_block8_eq fma zero img k acc0 inp0 s
    · exact conv3x3s1_pack1to8_block4_eq fma zero img k acc0 inp0 s
    · exact conv3x3s1_pack1to8_block2_eq fma zero img k acc0 inp0 s
    · exact conv3x3s1_pack1to8_block1_eq fma zero img k acc0 inp0 s
  · rcases hb with rfl | rfl | rfl
    · exact conv3x3s2_pack1to8_block4_eq fma zero img k acc0 inp0 s
    · exact conv3x3s2_pack1to8_block2_eq fma zero img k acc0 inp0 s
    · exact conv3x3s2_pack1to8_block1_eq fma zero img k acc0 inp0 s

theorem load_bias_exact {α : Type} [CommRing α] (P : Int) (bias : Option (Int → α))
    (p l : Int) (hl : 0 ≤ l ∧ l < P) :
    load_bias (exact_simd α P) P bias p l =
      (match bias with
        | some b => b (p * P + l)
        | none => 0) := by
  cases bias <;> simp [load_bias, exact_simd, hl]

theorem conv_exact_general {α : Type} [CommRing α] (K : Kernel) (acc0 : Nat → Int → α)
    (inp0 : Nat → Nat → α) (w inch outw outh : Int) (bottom_blob kernel : Int → Int → α)
    (bias : Option (Int → α)) (p i j l : Int) (hi : 0 ≤ i ∧ i < outh)
    (hj : 0 ≤ j ∧ j < outw) (hl : 0 ≤ l ∧ l < K.P) :
    K.conv (exact_simd α K.P) acc0 inp0 w inch outw outh bottom_blob kernel bias p
        (i * outw + j) l =
      (match bias with
        | some b => b (p * K.P + l)
        | none => 0) +
      ∑ q ∈ Finset.Ico (0 : Int) inch, ∑ ky ∈ Finset.Ico (0 : Int) 3,
        ∑ kx ∈ Finset.Ico (0 : Int) 3,
          bottom_blob q (i * K.row_step w outw + K.S * j + ky * w + kx) *
            kernel p (q * 9 * K.P + (ky * 3 + kx) * K.P + l) := by
  rw [conv_pixel K (exact_simd α K.P) acc0 inp0 w inch outw outh bottom_blob kernel bias p i j
    hi hj, add_assoc w, add_assoc (2 * w), pixel_by_channel_exact K.P inch bottom_blob
    (kernel p) _ _ w l hl, load_bias_exact K.P bias p l hl]

theorem row_step_eq (K : Kernel) (w outw : Int) (h : K.S = 1 → w = outw + 2) :
    K.row_step w outw = K.S * w := by
  cases K
  · have := h rfl
    simp only [Kernel.row_step, Kernel.S]
    omega
  · simp only [Kernel.row_step, Kernel.S]
    ring
  · have := h rfl
    simp only [Kernel.row_step, Kernel.S]
    omega
  · simp only [Kernel.row_step, Kernel.S]
    ring

/-- C16 (amended). The 3x3 kernels compute the direct convolution.  For each of the four
kernels: (1) with any arithmetic for `fmla`, every column block does to the state what
its number of columns of single-column steps do, each pixel receiving its nine taps in the
order `_k00 .. _k22`; (2) with any arithmetic, for `0 <= i < outh`, `0 <= j < outw`, the
pixel written at `(i, j)` of output channel `p` is the one obtained from `_bias0` by
adding, channel after channel, the nine taps read at `i * row_step + S * j` in rows 0, 1, 2
of the input, whatever block processed the column and whatever the registers held;
(3) in exact arithmetic, for a lane `0 <= l < P`, and with `w = outw + 2` when `S = 1`,
`out[p][i][j][l] = bias[p*P + l]` (or 0) plus the sum over `q < inch`, `ky < 3`, `kx < 3` of
`in[q][S*i + ky][S*j + kx] * kernel[p][q*9*P + (ky*3 + kx)*P + l]`, the input row having
`w` elements. -/
theorem conv3x3_direct_convolution (K : Kernel) :
    (∀ {α V : Type} (fma : V → V → α → V) (zero : α) (img : Int → α) (k : Nat → V)
        (acc0 : Nat → V) (inp0 : Nat → Nat → α) (s : KState V),
      ∀ b ∈ K.blocks,
        run_asm K.P fma zero img k acc0 inp0 b.2 s =
          (column K.S fma img k)^[b.1.toNat] s) ∧
    (∀ {α V : Type} (X : Simd α V) (acc0 : Nat → V) (inp0 : Nat → Nat → α)
        (w inch outw outh : Int) (bottom_blob kernel : Int → Int → α)
        (bias : Option (Int → α)) (p i j : Int),
      0 ≤ i ∧ i < outh → 0 ≤ j ∧ j < outw →
      K.conv X acc0 inp0 w inch outw outh bottom_blob kernel bias p (i * outw + j) =
        pixel_by_channel X K.P inch bottom_blob (kernel p) (load_bias X K.P bias p)
          (i * K.row_step w outw + K.S * j) (w + i * K.row_step w outw + K.S * j)
          (2 * w + i * K.row_step w outw + K.S * j)) ∧
    (∀ {α : Type} [CommRing α] (acc0 : Nat → Int → α) (inp0 : Nat → Nat → α)
        (w inch outw outh : Int) (bottom_blob kernel : Int → Int → α)
        (bias : Option (Int → α)) (p i j l : Int),
      0 ≤ i ∧ i < outh → 0 ≤ j ∧ j < outw → 0 ≤ l ∧ l < K.P →
      (K.S = 1 → w = outw + 2) →
      K.conv (exact_simd α K.P) acc0 inp0 w inch outw outh bottom_blob kernel bias p
          (i * outw + j) l =
        (match bias with
          | some b => b (p * K.P + l)
          | none => 0) +
        ∑ q ∈ Finset.Ico (0 : Int) inch, ∑ ky ∈ Finset.Ico (0 : Int) 3,
          ∑ kx ∈ Finset.Ico (0 : Int) 3,
            bottom_blob q ((K.S * i + ky) * w + (K.S * j + kx)) *
              kernel p (q * 9 * K.P + (ky * 3 + kx) * K.P + l)) := by
  refine ⟨?_, ?_, ?_⟩
  · intro α V fma zero img k acc0 inp0 s b hb
    exact block_eq_column K fma zero img k acc0 inp0 s b hb
  · intro α V X acc0 inp0 w inch outw outh bottom_blob kernel bias p i j hi hj
    exact conv_pixel K X acc0 inp0 w inch outw outh bottom_blob kernel bias p i j hi hj
  · intro α _ acc0 inp0 w inch outw outh bottom_blob kernel bias p i j l hi hj hl hw
    rw [conv_exact_general K acc0 inp0 w inch outw outh bottom_blob kernel bias p i j l hi hj
      hl, row_step_eq K w outw hw]
    congr 1
    apply Finset.sum_congr rfl
    intro q _
    apply Finset.sum_congr rfl
    intro ky _
    apply Finset.sum_congr rfl
    intro kx _
    congr 2
    ring

/-- C16 (as stated). A stride-1 kernel whose input rows are longer than `outw + 2`: with
`w = 4`, `outw = 1`, `outh = 2`, one input channel holding its flat index, and the only
non-zero weight at tap `_k00`, lane 0, the pixel of row 1 is `in[0][0][3]` (flat index 3),
whereas the convolution formula gives `in[0][1][0]` (flat index 4). -/
theorem conv3x3s1_wide_input_counterexample :
    Kernel.conv Kernel.conv3x3s1_pack1to8 (exact_simd Int 8) (fun _ _ => 0) (fun _ _ => 0)
        4 1 1 2 example_conv_input example_conv_kernel none 0 (1 * 1 + 0) 0 = 3 ∧
    (0 + ∑ q ∈ Finset.Ico (0 : Int) 1, ∑ ky ∈ Finset.Ico (0 : Int) 3,
      ∑ kx ∈ Finset.Ico (0 : Int) 3,
        example_conv_input q ((1 * 1 + ky) * 4 + (1 * 0 + kx)) *
          example_conv_kernel 0 (q * 9 * 8 + (ky * 3 + kx) * 8 + 0)) = 4 := by
  have hq : Finset.Ico (0 : Int) 1 = {0} := by decide
  constructor
  · refine (conv_exact_general Kernel.conv3x3s1_pack1to8 (fun _ _ => 0) (fun _ _ => 0) 4 1 1 2
      example_conv_input example_conv_kernel none 0 1 0 0 (by decide) (by decide)
      (by decide)).trans ?_
    simp [hq, sum_Ico_three, example_conv_input, example_conv_kernel, Kernel.row_step,
      Kernel.S, Kernel.P]
  · simp [hq, sum_Ico_three, example_conv_input, example_conv_kernel]

/-- C18. Row-pointer alignment.  For each of the four kernels, with any arithmetic:
(1) every column block advances `r0`, `r1`, `r2` by `S` elements per output column and
`outptr0` by one pixel (`P` elements) per output column; (2) for `outw >= 0`, after `i`
output rows the row pointers have advanced by `i * row_step` and `outptr0` by `i * outw`
pixels (`outw * P` elements per row); (3) in the stride-2 kernels `row_step`, which is
`2 * outw + tailstep` with `tailstep = w - 2 * outw + w`, equals `2 * w`, so that from the
entry state the pointers stand at column 0 of input rows `2i`, `2i + 1`, `2i + 2` after `i`
rows; (4) in the stride-1 kernels `row_step` is `outw + 2`, which equals `w` exactly when
`w = outw + 2`. -/
theorem row_pointer_alignment (K : Kernel) {α V : Type} (fma : V → V → α → V) (zero : α)
    (img : Int → α) (k : Nat → V) (acc0 : Nat → V) (inp0 : Nat → Nat → α) :
    (∀ b ∈ K.blocks, 0 ≤ b.1 ∧ ∀ s : KState V,
      (run_asm K.P fma zero img k acc0 inp0 b.2 s).r0 = s.r0 + K.S * b.1 ∧
      (run_asm K.P fma zero img k acc0 inp0 b.2 s).r1 = s.r1 + K.S * b.1 ∧
      (run_asm K.P fma zero img k acc0 inp0 b.2 s).r2 = s.r2 + K.S * b.1 ∧
      (run_asm K.P fma zero img k acc0 inp0 b.2 s).outptr0 = s.outptr0 + b.1) ∧
    (∀ (w outw : Int) (i : Nat) (s : KState V), 0 ≤ outw →
      (K.row_loop fma zero img k acc0 inp0 w outw (i : Int) s).r0 =
        s.r0 + i * K.row_step w outw ∧
      (K.row_loop fma zero img k acc0 inp0 w outw (i : Int) s).r1 =
        s.r1 + i * K.row_step w outw ∧
      (K.row_loop fma zero img k acc0 inp0 w outw (i : Int) s).r2 =
        s.r2 + i * K.row_step w outw ∧
      (K.row_loop fma zero img k acc0 inp0 w outw (i : Int) s).outptr0 =
        s.outptr0 + i * outw ∧
      ((K.row_loop fma zero img k acc0 inp0 w outw (i : Int) s).outptr0 - s.outptr0) * K.P =
        i * (outw * K.P)) ∧
    (∀ (w outw : Int) (i : Nat) (out0 : Int → V), 0 ≤ outw → K.S = 2 →
      K.row_step w outw = 2 * w ∧
      (K.row_loop fma zero img k acc0 inp0 w outw (i : Int) (channel_entry out0 w)).r0 =
        (2 * i) * w ∧
      (K.row_loop fma zero img k acc0 inp0 w outw (i : Int) (channel_entry out0 w)).r1 =
        (2 * i + 1) * w ∧
      (K.row_loop fma zero img k acc0 inp0 w outw (i : Int) (channel_entry out0 w)).r2 =
        (2 * i + 2) * w) ∧
    (∀ w outw : Int, K.S = 1 →
      K.row_step w outw = outw + 2 ∧ (K.row_step w outw = w ↔ w = outw + 2)) := by
  refine ⟨?_, ?_, ?_, ?_⟩
  · intro b hb
    have hb0 : 0 ≤ b.1 := by
      cases K <;>
        simp only [Kernel.blocks, List.mem_cons, List.mem_singleton, List.not_mem_nil,
          or_false] at hb <;>
        rcases hb with rfl | rfl | rfl | rfl <;> decide
    refine ⟨hb0, fun s => ?_⟩
    rw [block_eq_column K fma zero img k acc0 inp0 s b hb, column_iterate]
    simp only [Int.toNat_of_nonneg hb0, and_self]
  · intro w outw i s hw
    obtain ⟨h0, h1, h2, h3, _, _⟩ := row_loop_spec K fma zero img k acc0 inp0 w outw hw i s
    refine ⟨h1, h2, h3, h0, ?_⟩
    rw [h0]
    ring
  · intro w outw i out0 hw hS
    obtain ⟨_, h1, h2, h3, _, _⟩ :=
      row_loop_spec K fma zero img k acc0 inp0 w outw hw i (channel_entry out0 w)
    have hstep : K.row_step w outw = 2 * w := by
      rw [row_step_eq K w outw (fun h1 => by rw [hS] at h1; exact absurd h1 (by decide)), hS]
    refine ⟨hstep, ?_, ?_, ?_⟩
    · rw [h1, hstep]; simp only [channel_entry]; ring
    · rw [h2, hstep]; simp only [channel_entry]; ring
    · rw [h3, hstep]; simp only [channel_entry]; ring
  · intro w outw hS
    have hstep : K.row_step w outw = outw + 2 := by
      cases K
      · rfl
      · exact absurd hS (by decide)
      · rfl
      · exact absurd hS (by decide)
    exact ⟨hstep, by rw [hstep]; constructor <;> intro h <;> omega⟩

end Conv3x3

namespace Slice_vulkan

theorem create_tops_from_lengths (S : Slice) (opt : Opt) (create_empty : VkMat → Bool)
    (path : PackedPath) (bottom_blob : VkMat) (n : Nat) (l : List Nat) (q : Int)
    (tops : List (Int × VkMat))
    (h : create_tops_from S opt create_empty path bottom_blob n l q = some tops) :
    tops.map Prod.fst = slice_lengths_from S n (packed_extent bottom_blob path) l q := by
  induction l generalizing q tops with
  | nil =>
    simp only [create_tops_from, Option.some.injEq] at h
    subst h
    rfl
  | cons i rest ih =>
    simp only [create_tops_from] at h
    split_ifs at h with he
    rcases hr : create_tops_from S opt create_empty path bottom_blob n rest
      (q + slice_length S n (packed_extent bottom_blob path) q i) with _ | t
    · rw [hr] at h
      simp at h
    · rw [hr] at h
      simp only [Option.map_some', Option.some.injEq] at h
      subst h
      simp only [List.map_cons, slice_lengths_from]
      rw [ih _ _ hr]

theorem create_tops_plain_from_lengths (S : Slice) (create_empty : VkMat → Bool)
    (path : PlainPath) (bottom_blob : VkMat) (n : Nat) (l : List Nat) (q : Int)
    (tops : List (Int × VkMat))
    (h : create_tops_plain_from S create_empty path bottom_blob n l q = some tops) :
    tops.map Prod.fst = slice_lengths_from S n (plain_extent bottom_blob path) l q := by
  induction l generalizing q tops with
  | nil =>
    simp only [create_tops_plain_from, Option.some.injEq] at h
    subst h
    rfl
  | cons i rest ih =>
    simp only [create_tops_plain_from] at h
    split_ifs at h with he
    rcases hr : create_tops_plain_from S create_empty path bottom_blob n rest
      (q + slice_length S n (plain_extent bottom_blob path) q i) with _ | t
    · rw [hr] at h
      simp at h
    · rw [hr] at h
      simp only [Option.map_some', Option.some.injEq] at h
      subst h
      simp only [List.map_cons, slice_lengths_from]
      rw [ih _ _ hr]

theorem tops_on_lengths (S : Slice) (opt : Opt) (create_empty : VkMat → Bool)
    (bottom_blob : VkMat) (n : Nat) (path : Path) (tops : List (Int × VkMat))
    (h : tops_on S opt create_empty bottom_blob n path = some tops) :
    tops.map Prod.fst = slice_lengths S n (extent_on bottom_blob path) := by
  cases path with
  | packed p => exact create_tops_from_lengths S opt create_empty p bottom_blob n _ 0 tops h
  | plain p => exact create_tops_plain_from_lengths S create_empty p bottom_blob n _ 0 tops h

theorem slice_lengths_from_length (S : Slice) (n : Nat) (extent : Int) (l : List Nat)
    (q : Int) : (slice_lengths_from S n extent l q).length = l.length := by
  induction l generalizing q with
  | nil => rfl
  | cons i rest ih => simp only [slice_lengths_from, List.length_cons, ih]

theorem slice_lengths_from_append (S : Slice) (n : Nat) (extent : Int) (l₁ l₂ : List Nat)
    (q : Int) :
    slice_lengths_from S n extent (l₁ ++ l₂) q =
      slice_lengths_from S n extent l₁ q ++
        slice_lengths_from S n extent l₂ (q + (slice_lengths_from S n extent l₁ q).sum) := by
  induction l₁ generalizing q with
  | nil => simp [slice_lengths_from]
  | cons i rest ih =>
    simp only [List.cons_append, slice_lengths_from, List.sum_cons, List.append_eq, ih,
      add_assoc]

theorem to_int_to_size_t (x : Int) (h0 : 0 ≤ x) (h1 : x < 2 ^ 31) :
    to_int (to_size_t x) = x := by
  unfold to_int to_size_t
  have h2 : x % 2 ^ 64 = x := Int.emod_eq_of_lt h0 (by omega)
  rw [h2, Int.toNat_of_nonneg h0]
  omega

/-- C24. Slice lengths sum to the axis extent: for `n >= 1` outputs along an axis of
extent `E`, the slice lengths computed by the first loop of any path of
`Slice_vulkan::forward` number `n`, and they sum to `E` when `indices` is supplied, or when
`slices` is used, its last entry is -233 and the lengths accumulated before it do not
exceed `E` (the `int` subtraction `E - q` staying below 2^31); the lengths of the outputs
that a path creates are these lengths along the extent of that path. -/
theorem slice_lengths_sum (S : Slice) (n : Nat) (E : Int) (hn : 1 ≤ n)
    (h : S.indices ≠ none ∨
      (S.slices (n - 1) = -233 ∧ ((slice_lengths S n E).take (n - 1)).sum ≤ E ∧
        E - ((slice_lengths S n E).take (n - 1)).sum < 2 ^ 31)) :
    (slice_lengths S n E).length = n ∧ (slice_lengths S n E).sum = E ∧
    ∀ (opt : Opt) (create_empty : VkMat → Bool) (bottom_blob : VkMat) (path : Path)
      (tops : List (Int × VkMat)), extent_on bottom_blob path = E →
      tops_on S opt create_empty bottom_blob n path = some tops →
      tops.length = n ∧ (tops.map Prod.fst).sum = E := by
  have hlen : (slice_lengths S n E).length = n := by
    simp [slice_lengths, slice_lengths_from_length]
  obtain ⟨k, rfl⟩ : ∃ k, n = k + 1 := ⟨n - 1, by omega⟩
  have hsplit : slice_lengths S (k + 1) E =
      slice_lengths_from S (k + 1) E (List.range k) 0 ++
        [slice_length S (k + 1) E
          (slice_lengths_from S (k + 1) E (List.range k) 0).sum k] := by
    simp only [slice_lengths, List.range_succ, slice_lengths_from_append, slice_lengths_from,
      zero_add]
  have htake : (slice_lengths S (k + 1) E).take (k + 1 - 1) =
      slice_lengths_from S (k + 1) E (List.range k) 0 := by
    rw [hsplit]
    have hl : (slice_lengths_from S (k + 1) E (List.range k) 0).length = k := by
      simp [slice_lengths_from_length]
    rw [Nat.add_sub_cancel, List.take_append_of_le_length (le_of_eq hl.symm),
      List.take_of_length_le (le_of_eq hl)]
  have hsum : (slice_lengths S (k + 1) E).sum = E := by
    rw [htake] at h
    rw [hsplit, List.sum_append, List.sum_singleton]
    generalize (slice_lengths_from S (k + 1) E (List.range k) 0).sum = q at h ⊢
    unfold slice_length
    rcases hi : S.indices with _ | indices_ptr
    · rcases h with h | ⟨hlast, hq, hE⟩
      · exact absurd hi h
      · simp only [Nat.add_sub_cancel] at hlast
        simp only [hlast, if_true]
        have h1 : k + 1 - k = 1 := by omega
        rw [h1, Nat.div_one, to_int_to_size_t _ (by omega) hE]
        omega
    · simp
  refine ⟨hlen, hsum, ?_⟩
  intro opt create_empty bottom_blob path tops hE htops
  have hl := tops_on_lengths S opt create_empty bottom_blob (k + 1) path tops htops
  rw [hE] at hl
  constructor
  · rw [← List.length_map tops Prod.fst, hl, hlen]
  · rw [hl, hsum]

end Slice_vulkan
namespace Slice_vulkan

theorem auto_slice (R : Int) (k : Nat) (h0 : 0 ≤ R) (h1 : R < 2 ^ 31) (hk : 1 ≤ k) :
    to_int (to_size_t R / k) = R / (k : Int) := by
  have hR : to_size_t R = R.toNat := by
    unfold to_size_t
    rw [Int.emod_eq_of_lt h0 (by omega)]
  have hc : ((R.toNat / k : Nat) : Int) = R / (k : Int) := by
    rw [Int.ofNat_ediv, Int.toNat_of_nonneg h0]
  have hk' : (0 : Int) < k := by omega
  have hle : R / (k : Int) ≤ R := Int.ediv_le_self _ h0
  have hge : 0 ≤ R / (k : Int) := Int.ediv_nonneg h0 (by omega)
  unfold to_int
  rw [hR, hc]
  omega

theorem balanced_step (a c R m : Int) (hm : 1 ≤ m) (hac : c = a ∨ c = a + 1)
    (h1 : a * m ≤ R) (h2 : R ≤ c * m) :
    a ≤ R / m ∧ R / m ≤ c ∧ a * (m - 1) ≤ R - R / m ∧ R - R / m ≤ c * (m - 1) ∧
    R / m * (m - 1) ≤ R - R / m := by
  have hpos : 0 < m := by omega
  have ha : a ≤ R / m := Int.le_ediv_of_mul_le hpos h1
  have hc : R / m ≤ c := Int.ediv_le_of_le_mul hpos h2
  have hs : R / m * m ≤ R := Int.ediv_mul_le R (by omega)
  have hs' : R < (R / m + 1) * m := Int.lt_ediv_add_one_mul_self R hpos
  have hm0 : 0 ≤ m - 1 := by omega
  refine ⟨ha, hc, ?_, ?_, ?_⟩
  · nlinarith
  · rcases hac with rfl | rfl
    · have : R / m = c := le_antisymm hc ha
      rw [this]
      nlinarith
    · rcases (by omega : R / m = a ∨ R / m = a + 1) with h | h
      · rw [h] at hs' ⊢
        nlinarith
      · rw [h]
        nlinarith
  · nlinarith

theorem balanced_from (S : Slice) (n : Nat) (E a c : Int) (hS : S.indices = none)
    (hall : ∀ i, i < n → S.slices i = -233) (hac : c = a ∨ c = a + 1) (ha : 0 ≤ a)
    (m : Nat) : ∀ (i : Nat) (q : Int), i + m = n → a * m ≤ E - q → E - q ≤ c * m →
      E - q < 2 ^ 31 →
      (1 ≤ m → (slice_lengths_from S n E (List.range' i m) q).sum = E - q) ∧
      (∀ s ∈ slice_lengths_from S n E (List.range' i m) q,
        a ≤ s ∧ s ≤ c ∧ (E - q) / (m : Int) ≤ s) ∧
      (slice_lengths_from S n E (List.range' i m) q).Pairwise (fun x y => x ≤ y) := by
  induction m with
  | zero =>
    intro i q _ _ _ _
    simp [slice_lengths_from]
  | succ m ih =>
    intro i q him h1 h2 h3
    have hR0 : 0 ≤ E - q := by
      have : 0 ≤ a * ((m + 1 : Nat) : Int) := by positivity
      omega
    have hsl : slice_length S n E q i = (E - q) / ((m + 1 : Nat) : Int) := by
      unfold slice_length
      rw [hS]
      simp only [hall i (by omega), if_true]
      have hni : n - i = m + 1 := by omega
      rw [hni]
      exact auto_slice _ _ hR0 h3 (by omega)
    obtain ⟨b1, b2, b3, b4, b5⟩ := balanced_step a c (E - q) ((m + 1 : Nat) : Int)
      (by push_cast; omega) hac h1 h2
    have hcast : (((m + 1 : Nat) : Int) - 1) = (m : Int) := by push_cast; ring
    rw [hcast] at b3 b4 b5
    set s := (E - q) / ((m + 1 : Nat) : Int) with hs
    have hq : E - (q + s) = E - q - s := by ring
    obtain ⟨r1, r2, r3⟩ := ih (i + 1) (q + s) (by omega) (by rw [hq]; exact b3)
      (by rw [hq]; exact b4) (by omega)
    rw [List.range'_succ]
    simp only [slice_lengths_from, hsl, List.sum_cons, List.mem_cons, List.pairwise_cons]
    refine ⟨fun _ => ?_, ?_, ?_, r3⟩
    · rcases Nat.eq_zero_or_pos m with h0 | h0
      · subst h0
        simp only [List.range'_zero, slice_lengths_from, List.sum_nil, add_zero]
        rw [hs]
        simp
      · rw [r1 h0]
        ring
    · intro x hx
      rcases hx with rfl | hx
      · exact ⟨b1, b2, le_refl _⟩
      · obtain ⟨x1, x2, x3⟩ := r2 x hx
        refine ⟨x1, x2, ?_⟩
        rcases Nat.eq_zero_or_pos m with h0 | h0
        · subst h0
          simp [slice_lengths_from] at hx
        · have : s ≤ (E - (q + s)) / (m : Int) :=
            Int.le_ediv_of_mul_le (by omega) (by rw [hq]; exact b5)
          omega
    · intro x hx
      obtain ⟨x1, x2, x3⟩ := r2 x hx
      rcases Nat.eq_zero_or_pos m with h0 | h0
      · subst h0
        simp [slice_lengths_from] at hx
      · have : s ≤ (E - (q + s)) / (m : Int) :=
          Int.le_ediv_of_mul_le (by omega) (by rw [hq]; exact b5)
        omega

theorem floor_ceil_div (E : Int) (n : Nat) (hn : 1 ≤ n) :
    ⌊(E : ℚ) / (n : ℚ)⌋ = E / (n : Int) ∧
    (⌈(E : ℚ) / (n : ℚ)⌉ = E / (n : Int) ∨ ⌈(E : ℚ) / (n : ℚ)⌉ = E / (n : Int) + 1) ∧
    E / (n : Int) * n ≤ E ∧ E ≤ ⌈(E : ℚ) / (n : ℚ)⌉ * n ∧
    ((n : Int) ∣ E → ⌈(E : ℚ) / (n : ℚ)⌉ = E / (n : Int)) := by
  have hpos : (0 : Int) < n := by omega
  have hf := Rat.floor_intCast_div_natCast E n
  have hc : ⌈(E : ℚ) / (n : ℚ)⌉ = -((-E) / (n : Int)) := by
    have h := Rat.floor_intCast_div_natCast (-E) n
    rw [← h]
    push_cast
    rw [neg_div, Int.floor_neg, neg_neg]
  have e1 : E / (n : Int) * n ≤ E := Int.ediv_mul_le E (by omega)
  have e2 : E < (E / (n : Int) + 1) * n := Int.lt_ediv_add_one_mul_self E hpos
  have e3 : (-E) / (n : Int) * n ≤ -E := Int.ediv_mul_le (-E) (by omega)
  have e4 : -E < ((-E) / (n : Int) + 1) * n := Int.lt_ediv_add_one_mul_self (-E) hpos
  rw [hc]
  refine ⟨hf, ?_, e1, by nlinarith, ?_⟩
  · have h1 : E / (n : Int) ≤ -((-E) / (n : Int)) := by
      by_contra hlt
      push_neg at hlt
      nlinarith
    have h2 : -((-E) / (n : Int)) ≤ E / (n : Int) + 1 := by
      by_contra hlt
      push_neg at hlt
      nlinarith
    omega
  · rintro ⟨k, rfl⟩
    rw [Int.mul_ediv_cancel_left _ (by omega : (n : Int) ≠ 0), ← mul_neg,
      Int.mul_ediv_cancel_left _ (by omega : (n : Int) ≠ 0), neg_neg]

/-- C25. Automatic slices are a balanced split: when `indices` is null and all `n >= 1`
entries of `slices` are -233, for every extent `0 <= E < 2^31` the `n` computed slice
lengths are each `floor(E/n)` or `ceil(E/n)`, are non-decreasing in the output index, sum
to `E`, and all equal `E/n` when `n` divides `E`; the outputs created along a path of that
extent have these lengths. -/
theorem automatic_slices_balanced (S : Slice) (n : Nat) (E : Int) (hS : S.indices = none)
    (hall : ∀ i, i < n → S.slices i = -233) (hn : 1 ≤ n) (hE0 : 0 ≤ E) (hE : E < 2 ^ 31) :
    (slice_lengths S n E).length = n ∧
    (∀ s ∈ slice_lengths S n E, s = ⌊(E : ℚ) / (n : ℚ)⌋ ∨ s = ⌈(E : ℚ) / (n : ℚ)⌉) ∧
    (slice_lengths S n E).Pairwise (fun x y => x ≤ y) ∧
    (slice_lengths S n E).sum = E ∧
    ((n : Int) ∣ E → ∀ s ∈ slice_lengths S n E, s = E / (n : Int)) ∧
    ∀ (opt : Opt) (create_empty : VkMat → Bool) (bottom_blob : VkMat) (path : Path)
      (tops : List (Int × VkMat)), extent_on bottom_blob path = E →
      tops_on S opt create_empty bottom_blob n path = some tops →
      tops.map Prod.fst = slice_lengths S n E := by
  obtain ⟨hf, hc, e1, e2, hd⟩ := floor_ceil_div E n hn
  have ha : 0 ≤ E / (n : Int) := Int.ediv_nonneg hE0 (by omega)
  obtain ⟨r1, r2, r3⟩ := balanced_from S n E (E / (n : Int)) ⌈(E : ℚ) / (n : ℚ)⌉ hS hall hc
    ha n 0 0 (by omega) (by simpa using e1) (by simpa using e2) (by simpa using hE)
  rw [← List.range_eq_range'] at r1 r2 r3
  refine ⟨by simp [slice_lengths, slice_lengths_from_length], ?_, r3, ?_, ?_, ?_⟩
  · intro s hs
    obtain ⟨x1, x2, _⟩ := r2 s hs
    rw [hf]
    rcases hc with h | h
    · left
      rw [h] at x2
      omega
    · rw [h] at x2 ⊢
      omega
  · simpa using r1 hn
  · intro hdvd s hs
    obtain ⟨x1, x2, _⟩ := r2 s hs
    rw [hd hdvd] at x2
    omega
  · intro opt create_empty bottom_blob path tops hext htops
    rw [← hext]
    exact tops_on_lengths S opt create_empty bottom_blob n path tops htops

end Slice_vulkan

namespace Slice_vulkan

theorem create_pair_fresh (cond : Bool) (p : Option Nat × Option Nat) (fresh : Nat) :
    fresh ≤ (create_pair cond p fresh).2 ∧
    (cond = true → ∀ idx : Nat, ∃ q,
      (if idx = 0 then (create_pair cond p fresh).1.1 else (create_pair cond p fresh).1.2) =
        some q ∧ fresh ≤ q) := by
  unfold create_pair
  cases cond
  · simp
  · simp only [if_true, forall_const]
    refine ⟨by omega, fun idx => ?_⟩
    split_ifs
    · exact ⟨_, rfl, le_refl _⟩
    · exact ⟨_, rfl, by omega⟩

theorem create_pipeline_lookup (S : Slice) (opt : Opt)
    (bottom_shapes top_shapes : List ShapeHint) (s : Pipelines) (fresh : Nat)
    (kind : PipelineKind) (idx : Nat)
    (h : create_condition S opt bottom_shapes top_shapes kind = true) :
    ∃ q, (create_pipeline S opt bottom_shapes top_shapes s fresh).2.lookup (kind, idx) =
      some q ∧ fresh ≤ q := by
  set cond := create_condition S opt bottom_shapes top_shapes with hcond
  have f1 := create_pair_fresh (cond PipelineKind.pipeline_slice) s.pipeline_slice fresh
  have f2 := create_pair_fresh (cond PipelineKind.pipeline_slice_pack4)
    s.pipeline_slice_pack4 _ |>.imp_left (le_trans f1.1)
  have f3 := create_pair_fresh (cond PipelineKind.pipeline_slice_pack1to4)
    s.pipeline_slice_pack1to4 _ |>.imp_left (le_trans f2.1)
  have f4 := create_pair_fresh (cond PipelineKind.pipeline_slice_pack8)
    s.pipeline_slice_pack8 _ |>.imp_left (le_trans f3.1)
  have f5 := create_pair_fresh (cond PipelineKind.pipeline_slice_pack1to8)
    s.pipeline_slice_pack1to8 _ |>.imp_left (le_trans f4.1)
  have f6 := create_pair_fresh (cond PipelineKind.pipeline_slice_pack4to8)
    s.pipeline_slice_pack4to8 _ |>.imp_left (le_trans f5.1)
  cases kind
  · obtain ⟨q, hq, hle⟩ := f1.2 h idx
    exact ⟨q, hq, hle⟩
  · obtain ⟨q, hq, hle⟩ := f2.2 h idx
    exact ⟨q, hq, le_trans f1.1 hle⟩
  · obtain ⟨q, hq, hle⟩ := f3.2 h idx
    exact ⟨q, hq, le_trans f2.1 hle⟩
  · obtain ⟨q, hq, hle⟩ := f4.2 h idx
    exact ⟨q, hq, le_trans f3.1 hle⟩
  · obtain ⟨q, hq, hle⟩ := f5.2 h idx
    exact ⟨q, hq, le_trans f4.1 hle⟩
  · obtain ⟨q, hq, hle⟩ := f6.2 h idx
    exact ⟨q, hq, le_trans f5.1 hle⟩

theorem select_elempack_eight (opt : Opt) (s : Int) (h : select_elempack opt s = 8) :
    opt.use_shader_pack8 = true := by
  unfold select_elempack at h
  split_ifs at h with h1 h2
  · exact h1.1
  · exact absurd h (by decide)
  · exact absurd h (by decide)

theorem hint_elempack_cases (opt : Opt) (shape : ShapeHint) :
    (hint_elempack opt shape = 1 ∨ hint_elempack opt shape = 4 ∨
      hint_elempack opt shape = 8) ∧
    (hint_elempack opt shape = 8 → opt.use_shader_pack8 = true) := by
  unfold hint_elempack
  dsimp only
  split_ifs <;>
    first
    | exact ⟨(select_elempack_cases opt _).1, select_elempack_eight opt _⟩
    | exact ⟨Or.inl rfl, fun h => absurd h (by decide)⟩

theorem hint_of_top (opt : Opt) (path : PackedPath) (bottom_blob : VkMat) (s : Int) :
    hint_elempack opt (logical_shape (create_top path bottom_blob opt s)) =
      (create_top path bottom_blob opt s).elempack := by
  have hd := (select_elempack_cases opt s).2
  have hm : s.tdiv (select_elempack opt s) * select_elempack opt s = s :=
    Int.tdiv_mul_cancel hd
  cases path <;>
    simp [create_top, create1, create2, create3, create4, logical_shape, hint_elempack, hm]

theorem foldl_hint (opt : Opt) (path : PackedPath) (bottom_blob : VkMat)
    (rest : List (Int × VkMat))
    (hall : ∀ st ∈ rest, st.2 = create_top path bottom_blob opt st.1) (a : Int) :
    (rest.map (fun st => logical_shape st.2)).foldl
        (fun out_elempack shape1 => min out_elempack (hint_elempack opt shape1)) a =
      (rest.map Prod.snd).foldl (fun m t => min m t.elempack) a := by
  induction rest generalizing a with
  | nil => rfl
  | cons st rest ih =>
    simp only [List.map_cons, List.foldl_cons]
    have h1 : hint_elempack opt (logical_shape st.2) = st.2.elempack := by
      rw [hall st (List.mem_cons_self _ _)]
      exact hint_of_top opt path bottom_blob st.1
    rw [h1]
    exact ih (fun st' h => hall st' (List.mem_cons_of_mem _ h)) _

theorem out_elempack_of_tops (S : Slice) (opt : Opt) (bottom : ShapeHint) (path : PackedPath)
    (bottom_blob : VkMat) (tops : List (Int × VkMat))
    (hall : ∀ st ∈ tops, st.2 = create_top path bottom_blob opt st.1) (hne : tops ≠ [])
    (hax : (if S.axis < 0 then bottom.dims + S.axis else S.axis) = 0) :
    create_out_elempack S opt [bottom] (tops.map (fun st => logical_shape st.2)) =
      unified_elempack (tops.map Prod.snd) := by
  cases tops with
  | nil => exact absurd rfl hne
  | cons st rest =>
    have h1 : hint_elempack opt (logical_shape st.2) = st.2.elempack := by
      rw [hall st (List.mem_cons_self _ _)]
      exact hint_of_top opt path bottom_blob st.1
    simp only [create_out_elempack, List.headD_cons, hax, if_true, List.map_cons,
      List.drop_succ_cons, List.drop_zero, unified_elempack, List.foldl_cons, min_self, h1]
    exact foldl_hint opt path bottom_blob rest
      (fun st' h => hall st' (List.mem_cons_of_mem _ h)) _

theorem select_path_packed (S : Slice) (bottom_blob : VkMat) (p : PackedPath)
    (h : select_path S bottom_blob = some (Path.packed p)) :
    bottom_blob.dims = 1 ∨
      (if S.axis < 0 then bottom_blob.dims + S.axis else S.axis) = 0 := by
  unfold select_path at h
  dsimp only at h
  generalize (if S.axis < 0 then bottom_blob.dims + S.axis else S.axis) = pa at h ⊢
  by_cases h1 : bottom_blob.dims = 1
  · exact Or.inl h1
  rw [if_neg h1] at h
  by_cases c0 : bottom_blob.dims = 2 ∧ pa = 0
  · exact Or.inr c0.2
  rw [if_neg c0] at h
  by_cases c1 : bottom_blob.dims = 2 ∧ pa = 1
  · rw [if_pos c1] at h
    exact absurd h (by simp only [Option.some.injEq, reduceCtorEq, not_false_eq_true])
  rw [if_neg c1] at h
  by_cases c2 : bottom_blob.dims = 3 ∧ pa = 0
  · exact Or.inr c2.2
  rw [if_neg c2] at h
  by_cases c3 : bottom_blob.dims = 3 ∧ pa = 1
  · rw [if_pos c3] at h
    exact absurd h (by simp only [Option.some.injEq, reduceCtorEq, not_false_eq_true])
  rw [if_neg c3] at h
  by_cases c4 : bottom_blob.dims = 3 ∧ pa = 2
  · rw [if_pos c4] at h
    exact absurd h (by simp only [Option.some.injEq, reduceCtorEq, not_false_eq_true])
  rw [if_neg c4] at h
  by_cases c5 : bottom_blob.dims = 4 ∧ pa = 0
  · exact Or.inr c5.2
  rw [if_neg c5] at h
  by_cases c6 : bottom_blob.dims = 4 ∧ pa = 1
  · rw [if_pos c6] at h
    exact absurd h (by simp only [Option.some.injEq, reduceCtorEq, not_false_eq_true])
  rw [if_neg c6] at h
  by_cases c7 : bottom_blob.dims = 4 ∧ pa = 2
  · rw [if_pos c7] at h
    exact absurd h (by simp only [Option.some.injEq, reduceCtorEq, not_false_eq_true])
  rw [if_neg c7] at h
  by_cases c8 : bottom_blob.dims = 4 ∧ pa = 3
  · rw [if_pos c8] at h
    exact absurd h (by simp only [Option.some.injEq, reduceCtorEq, not_false_eq_true])
  rw [if_neg c8] at h
  exact absurd h (by simp only [reduceCtorEq, not_false_eq_true])

theorem select_path_plain (S : Slice) (bottom_blob : VkMat) (p : PlainPath)
    (h : select_path S bottom_blob = some (Path.plain p)) :
    (if S.axis < 0 then bottom_blob.dims + S.axis else S.axis) ≠ 0 ∧
    bottom_blob.dims ≠ 0 := by
  unfold select_path at h
  dsimp only at h
  generalize (if S.axis < 0 then bottom_blob.dims + S.axis else S.axis) = pa at h ⊢
  by_cases h1 : bottom_blob.dims = 1
  · rw [if_pos h1] at h
    exact absurd h (by simp only [Option.some.injEq, reduceCtorEq, not_false_eq_true])
  rw [if_neg h1] at h
  by_cases c0 : bottom_blob.dims = 2 ∧ pa = 0
  · rw [if_pos c0] at h
    exact absurd h (by simp only [Option.some.injEq, reduceCtorEq, not_false_eq_true])
  rw [if_neg c0] at h
  by_cases c1 : bottom_blob.dims = 2 ∧ pa = 1
  · exact ⟨by rw [c1.2]; decide, by rw [c1.1]; decide⟩
  rw [if_neg c1] at h
  by_cases c2 : bottom_blob.dims = 3 ∧ pa = 0
  · rw [if_pos c2] at h
    exact absurd h (by simp only [Option.some.injEq, reduceCtorEq, not_false_eq_true])
  rw [if_neg c2] at h
  by_cases c3 : bottom_blob.dims = 3 ∧ pa = 1
  · exact ⟨by rw [c3.2]; decide, by rw [c3.1]; decide⟩
  rw [if_neg c3] at h
  by_cases c4 : bottom_blob.dims = 3 ∧ pa = 2
  · exact ⟨by rw [c4.2]; decide, by rw [c4.1]; decide⟩
  rw [if_neg c4] at h
  by_cases c5 : bottom_blob.dims = 4 ∧ pa = 0
  · rw [if_pos c5] at h
    exact absurd h (by simp only [Option.some.injEq, reduceCtorEq, not_false_eq_true])
  rw [if_neg c5] at h
  by_cases c6 : bottom_blob.dims = 4 ∧ pa = 1
  · exact ⟨by rw [c6.2]; decide, by rw [c6.1]; decide⟩
  rw [if_neg c6] at h
  by_cases c7 : bottom_blob.dims = 4 ∧ pa = 2
  · exact ⟨by rw [c7.2]; decide, by rw [c7.1]; decide⟩
  rw [if_neg c7] at h
  by_cases c8 : bottom_blob.dims = 4 ∧ pa = 3
  · exact ⟨by rw [c8.2]; decide, by rw [c8.1]; decide⟩
  rw [if_neg c8] at h
  exact absurd h (by simp only [reduceCtorEq, not_false_eq_true])

theorem create_condition_absent (S : Slice) (opt : Opt) (kind : PipelineKind)
    (h8 : kind.label.2 = 8 → opt.use_shader_pack8 = true)
    (hax : kind.label.1 ≠ kind.label.2 → S.axis ≤ 0) :
    create_condition S opt [] [] kind = true := by
  cases kind <;>
    simp [create_condition, create_out_elempack, ShapeHint.empty, hint_elempack,
      PipelineKind.label] at h8 hax ⊢ <;>
    first | exact h8 | exact ⟨h8, hax⟩

theorem create_condition_label (S : Slice) (opt : Opt)
    (bottom_shapes top_shapes : List ShapeHint) (kind : PipelineKind)
    (h8 : kind.label.2 = 8 → opt.use_shader_pack8 = true)
    (hU : kind.label.1 = create_out_elempack S opt bottom_shapes top_shapes) :
    create_condition S opt bottom_shapes top_shapes kind = true := by
  cases kind <;>
    simp [create_condition, PipelineKind.label, ← hU] at h8 ⊢ <;>
    exact h8

theorem logical_shape_dims (t : VkMat) : (logical_shape t).dims = t.dims := by
  unfold logical_shape
  split_ifs <;> rfl

theorem select_pipeline_plain_created (S : Slice) (opt : Opt)
    (bottom_shapes top_shapes : List ShapeHint) (e : Int) (i : Nat)
    (he : e = 1 ∨ e = 4 ∨ e = 8) (h8 : e = 8 → opt.use_shader_pack8 = true)
    (hc : (bottom_shapes = [] ∧ top_shapes = []) ∨
      create_out_elempack S opt bottom_shapes top_shapes = e) :
    create_condition S opt bottom_shapes top_shapes (select_pipeline_plain e i).1 = true := by
  have hlab : (select_pipeline_plain e i).1.label = (e, e) := by
    unfold select_pipeline_plain
    rcases he with h | h | h <;> rw [h] <;> rfl
  rcases hc with ⟨rfl, rfl⟩ | hc
  · refine create_condition_absent S opt _ ?_ ?_
    · rw [hlab]
      exact h8
    · rw [hlab]
      exact fun h => absurd rfl h
  · refine create_condition_label S opt _ _ _ ?_ ?_
    · rw [hlab]
      exact h8
    · rw [hlab, hc]

/-- C26 (amended). Every pipeline that `forward` selects was created.  If
`Slice_vulkan::create_pipeline` ran with the same `Option` and with shape hints that are
both absent or both equal to the run-time shapes, the run-time source carries the canonical
element pack for its packed-axis extent, and the axis is in range for a 1-D source
(`positive_axis == 0`, as the comment at the `dims == 1` branch assumes), then on every
path of `forward` each output gets one dispatch whose pipeline pointer is an object
allocated by that run of `create_pipeline` (not null). -/
theorem selected_pipelines_created (S : Slice) (opt : Opt) (create_empty : VkMat → Bool)
    (bottom_blob : VkMat) (n : Nat) (path : Path) (tops : List (Int × VkMat))
    (s : Pipelines) (fresh : Nat) (bottom_shapes top_shapes : List ShapeHint)
    (hpath : select_path S bottom_blob = some path)
    (htops : tops_on S opt create_empty bottom_blob n path = some tops)
    (hhints : (bottom_shapes = [] ∧ top_shapes = []) ∨
      (bottom_shapes = [logical_shape bottom_blob] ∧
        top_shapes = tops.map (fun st => logical_shape st.2)))
    (hcanon : bottom_blob.elempack = hint_elempack opt (logical_shape bottom_blob))
    (haxis : bottom_blob.dims = 1 →
      (if S.axis < 0 then bottom_blob.dims + S.axis else S.axis) = 0) :
    (forward S opt create_empty bottom_blob n).dispatches.length = tops.length ∧
    ∀ (i : Nat) (st : Int × VkMat), tops[i]? = some st →
      ∃ d entry q, (forward S opt create_empty bottom_blob n).dispatches[i]? = some d ∧
        d.bindings1 = st.2 ∧ d.pipeline = some entry ∧
        (create_pipeline S opt bottom_shapes top_shapes s fresh).2.lookup entry = some q ∧
        fresh ≤ q := by
  simp only [forward, hpath]
  cases path with
  | packed p =>
    simp only [tops_on] at htops
    have hax0 : (if S.axis < 0 then bottom_blob.dims + S.axis else S.axis) = 0 := by
      rcases select_path_packed S bottom_blob p hpath with h | h
      · exact haxis h
      · exact h
    obtain ⟨hlen, hall⟩ := packed_tops_facts S opt create_empty p bottom_blob n tops htops
    have hmem := (create_tops_from_mem S opt create_empty p bottom_blob n _ 0 tops htops).2
    constructor
    · simp only [forward_on, forward_packed, htops, record_packed_from_length,
        List.length_map]
    intro i st hi
    have hne : tops ≠ [] := by
      rintro rfl
      simp at hi
    have hst : st ∈ tops := mem_of_get tops i st hi
    obtain ⟨hP, _, hmin⟩ := unified_facts p tops hne hall
    obtain ⟨d, hd, _, hb1, hpipe, _⟩ :=
      forward_packed_get S opt create_empty p bottom_blob n tops htops i st hi
    obtain ⟨kind, hk, hlab, _⟩ := select_pipeline_label hP (hall st hst).1 (hmin st hst).1 i
    have h8 : kind.label.2 = 8 → opt.use_shader_pack8 = true := by
      rw [hlab]
      intro h
      have h' : st.2.elempack = 8 := h
      rw [(hmem st hst).1, (create_top_fields opt p bottom_blob st.1).1] at h'
      exact select_elempack_eight opt _ h'
    have hcond : create_condition S opt bottom_shapes top_shapes kind = true := by
      rcases hhints with ⟨rfl, rfl⟩ | ⟨rfl, rfl⟩
      · refine create_condition_absent S opt kind h8 (fun _ => ?_)
        split_ifs at hax0 <;> omega
      · refine create_condition_label S opt _ _ kind h8 ?_
        rw [hlab, out_elempack_of_tops S opt _ p bottom_blob tops
          (fun st' h => (hmem st' h).1) hne (by rw [logical_shape_dims]; exact hax0)]
    obtain ⟨q, hq, hle⟩ :=
      create_pipeline_lookup S opt bottom_shapes top_shapes s fresh kind (i % 2) hcond
    exact ⟨d, (kind, i % 2), q, hd, hb1, hpipe.trans hk, hq, hle⟩
  | plain p =>
    simp only [tops_on] at htops
    obtain ⟨hax, hdims⟩ := select_path_plain S bottom_blob p hpath
    constructor
    · simp only [forward_on, forward_plain, htops, record_plain_from_length, List.length_map]
    intro i st hi
    have hcases := hint_elempack_cases opt (logical_shape bottom_blob)
    rw [← hcanon] at hcases
    have hcond : create_condition S opt bottom_shapes top_shapes
        (select_pipeline_plain bottom_blob.elempack i).1 = true := by
      refine select_pipeline_plain_created S opt _ _ _ i hcases.1 hcases.2 ?_
      rcases hhints with h | ⟨rfl, rfl⟩
      · exact Or.inl h
      · right
        simp only [create_out_elempack, List.headD_cons, logical_shape_dims, hax, if_false,
          ← hcanon]
    obtain ⟨q, hq, hle⟩ := create_pipeline_lookup S opt bottom_shapes top_shapes s fresh
      (select_pipeline_plain bottom_blob.elempack i).1 (i % 2) hcond
    have h2 : (select_pipeline_plain bottom_blob.elempack i).2 = i % 2 := by
      unfold select_pipeline_plain
      split_ifs <;> rfl
    have hget := record_plain_from_get p bottom_blob (tops.map Prod.snd) 0 0 i st.2
      (get_map_snd tops i st hi)
    rw [zero_add] at hget
    have hlook : (create_pipeline S opt bottom_shapes top_shapes s fresh).2.lookup
        (select_pipeline_plain bottom_blob.elempack i) = some q := by
      rw [← hq]
      simp only [Pipelines.lookup, h2]
    simp only [forward_on, forward_plain, htops]
    exact ⟨_, _, q, hget, rfl, rfl, hlook, hle⟩

/-- C26 as stated fails on a 1-D source with `axis = 1`: without shape hints and with
`use_shader_pack8`, a vector of 12 scalars in pack 4 (the canonical pack) sliced into
lengths 4 and 8 makes `forward` take the `dims == 1` branch and select
`pipeline_slice_pack4to8[1]` for the second output, while `create_pipeline`
(`positive_axis = 1`, `out_elempack = 1`) left that pointer null. -/
theorem slice_axis_out_of_range_counterexample :
    select_path example_slice_axis1 example_vkvector_pack4 =
      some (Path.packed PackedPath.dims1) ∧
    example_vkvector_pack4.elempack =
      hint_elempack example_opt_packing (logical_shape example_vkvector_pack4) ∧
    tops_on example_slice_axis1 example_opt_packing (fun _ => false) example_vkvector_pack4 2
        (Path.packed PackedPath.dims1) =
      some [(4, ⟨1, 1, 1, 1, 1, 16, 4⟩), (8, ⟨1, 1, 1, 1, 1, 32, 8⟩)] ∧
    (forward example_slice_axis1 example_opt_packing (fun _ => false)
        example_vkvector_pack4 2).dispatches.map (fun d => d.pipeline) =
      [some (PipelineKind.pipeline_slice_pack4, 0),
       some (PipelineKind.pipeline_slice_pack4to8, 1)] ∧
    (create_pipeline example_slice_axis1 example_opt_packing [] []
        Pipelines.null 0).2.lookup (PipelineKind.pipeline_slice_pack4to8, 1) = none := by
  decide

end Slice_vulkan

namespace Pnnx

theorem exact_float_ceil (w ksize stride pad : Int) (hs : 1 ≤ stride) :
    (ceil_quotient exact_float w ksize stride pad - 1) * stride < w + pad * 2 - ksize ∧
    w + pad * 2 - ksize ≤ ceil_quotient exact_float w ksize stride pad * stride := by
  simp only [ceil_quotient, exact_float]
  have hpos : (0 : ℚ) < (stride : ℚ) := by exact_mod_cast (by omega : (0 : Int) < stride)
  set x : ℚ := ((w + pad * 2 - ksize : Int) : ℚ) / (stride : ℚ) with hx
  have h1 : x ≤ (⌈x⌉ : ℚ) := Int.le_ceil x
  have h2 : (⌈x⌉ : ℚ) < x + 1 := Int.ceil_lt_add_one x
  have hn : ((w + pad * 2 - ksize : Int) : ℚ) = x * stride := by
    rw [hx, div_mul_cancel₀ _ (ne_of_gt hpos)]
  constructor
  · have : (((⌈x⌉ - 1) * stride : Int) : ℚ) < ((w + pad * 2 - ksize : Int) : ℚ) := by
      rw [hn]
      push_cast
      nlinarith
    exact_mod_cast this
  · have : ((w + pad * 2 - ksize : Int) : ℚ) ≤ ((⌈x⌉ * stride : Int) : ℚ) := by
      rw [hn]
      push_cast
      nlinarith
    exact_mod_cast this

/-- C30. Closed form of `get_pool_ceil_padding`: it returns 0 whenever `stride == 1`; for
`stride >= 2`, when the float computation `int(ceil(n / float(stride)))` with
`n = w + 2*pad - ksize` yields the ceiling `c` of the real quotient
(`(c - 1)*stride < n <= c*stride`), the result `r` satisfies `1 - stride <= r <= stride`
and `stride` divides `n + r - 1`; when additionally `stride <= ksize - pad`,
`r = 1 + ((-n) mod stride)` and `1 <= r <= stride`.  Rational arithmetic in place of
`float` yields that ceiling for every input. -/
theorem pool_ceil_padding_closed_form {F : Type} (fl : FloatOps F) (w ksize pad : Int) :
    get_pool_ceil_padding fl w ksize 1 pad = 0 ∧
    (∀ stride : Int, 2 ≤ stride →
      (ceil_quotient fl w ksize stride pad - 1) * stride < w + pad * 2 - ksize →
      w + pad * 2 - ksize ≤ ceil_quotient fl w ksize stride pad * stride →
      (1 - stride ≤ get_pool_ceil_padding fl w ksize stride pad ∧
        get_pool_ceil_padding fl w ksize stride pad ≤ stride ∧
        stride ∣ (w + pad * 2 - ksize) + get_pool_ceil_padding fl w ksize stride pad - 1) ∧
      (stride ≤ ksize - pad →
        get_pool_ceil_padding fl w ksize stride pad =
          1 + (-(w + pad * 2 - ksize)) % stride ∧
        1 ≤ get_pool_ceil_padding fl w ksize stride pad ∧
        get_pool_ceil_padding fl w ksize stride pad ≤ stride)) ∧
    ∀ stride : Int, 1 ≤ stride →
      (ceil_quotient exact_float w ksize stride pad - 1) * stride < w + pad * 2 - ksize ∧
      w + pad * 2 - ksize ≤ ceil_quotient exact_float w ksize stride pad * stride := by
  refine ⟨by simp [get_pool_ceil_padding], ?_, fun stride hs =>
    exact_float_ceil w ksize stride pad hs⟩
  intro stride hs h1 h2
  have hne : stride ≠ 1 := by omega
  set c := ceil_quotient fl w ksize stride pad with hc
  have e1 : (c - 1) * stride = c * stride - stride := by ring
  rw [e1] at h1
  simp only [get_pool_ceil_padding, hne, if_false, ← hc, add_sub_cancel_right, ge_iff_le]
  split_ifs with hdec
  · rw [e1]
    refine ⟨⟨by omega, by omega, ⟨c - 1, by ring⟩⟩, fun hk => ?_⟩
    omega
  · push_neg at hdec
    have e2 : (c + 1 - 1) * stride = c * stride := by ring
    rw [e2]
    refine ⟨⟨by omega, by omega, ⟨c, by ring⟩⟩, fun hk => ?_⟩
    have hmod : (-(w + pad * 2 - ksize)) % stride = c * stride - (w + pad * 2 - ksize) := by
      have : -(w + pad * 2 - ksize) = (c * stride - (w + pad * 2 - ksize)) + (-c) * stride := by
        ring
      rw [this, Int.add_mul_emod_self]
      exact Int.emod_eq_of_lt (by omega) (by omega)
    rw [hmod]
    refine ⟨by ring, by omega, by omega⟩

end Pnnx

namespace DeconvolutionDepthWise_arm

theorem loopRange_get (n g : Int) (h0 : 0 ≤ g) (h1 : g < n) :
    (loopRange n)[g.toNat]? = some g := by
  unfold loopRange
  rw [List.getElem?_map, List.getElem?_range (by omega)]
  simp only [Option.map_some', Option.some.injEq]
  exact Int.toNat_of_nonneg h0

theorem group_ranges_tile (L : DeconvolutionDepthWise) (channels_g num_output_g : Int)
    (G : Nat) (hsize : 0 ≤ L.maxk * channels_g * num_output_g) :
    ((loopRange (G : Int)).map (group_op L channels_g num_output_g)).flatMap
        SubOp.weight_elements =
      loopRange ((G : Int) * (L.maxk * channels_g * num_output_g)) := by
  rw [List.flatMap_map]
  have h := loopRange_mixed_radix G (L.maxk * channels_g * num_output_g) hsize (fun x => x)
  rw [List.map_id'] at h
  rw [← h]
  refine List.flatMap_congr ?_
  intro g _
  simp only [SubOp.weight_elements, group_op]
  refine List.map_congr_left ?_
  intro k _
  ring

theorem create_pipeline_grouped (B : Build) (support_fp16_storage : Bool)
    (L : DeconvolutionDepthWise) (opt : Opt) (fp16s : Int × Prepared × List SubOp)
    (old : Prepared) (hdyn : L.dynamic_weight = 0)
    (hfp16 : ¬(B.ncnn_arm82 = true ∧ support_fp16_storage = true ∧
      opt.use_fp16_storage = true))
    (hnd : ¬(L.create_pipeline_channels = L.group ∧ L.group = L.num_output)) :
    create_pipeline B support_fp16_storage L opt fp16s old =
      (0, { old with group_ops :=
                       (loopRange L.group).map
                         (group_op L (L.create_pipeline_channels.tdiv L.group)
                           (L.num_output.tdiv L.group)),
                     weight_data_released :=
                       if opt.lightmode then true else old.weight_data_released },
        old.group_ops) := by
  unfold create_pipeline
  rw [if_neg (by simpa using hdyn), if_neg hfp16]
  simp only [if_neg hnd]

/-- C21 (amended). One sub-operator per group.  After
`DeconvolutionDepthWise_arm::create_pipeline` in a non-dynamic, non-depthwise configuration
(outside the fp16 storage path, with `group > 0`, `maxk != 0` and `num_output/group != 0`,
so that the divisions of `create_pipeline` are defined), `group_ops` holds exactly `group`
sub-operators whatever it held before, the former entries being deleted; sub-operator `g`
has `num_output/group` outputs, zero padding, the parent's kernel, dilation, stride and
output-pad values, the weight range `[maxk*channels_g*num_output_g*g,
+maxk*channels_g*num_output_g)` and, when `bias_term` is set, the bias range
`[num_output_g*g, +num_output_g)`; when `group` divides `num_output` and
`weight_data_size = maxk * (channels/group) * num_output >= 0`, the weight ranges taken in
order enumerate `0 .. weight_data_size - 1` once each. -/
theorem one_sub_operator_per_group (B : Build) (support_fp16_storage : Bool)
    (L : DeconvolutionDepthWise) (opt : Opt) (fp16s : Int × Prepared × List SubOp)
    (old : Prepared) (hdyn : L.dynamic_weight = 0)
    (hfp16 : ¬(B.ncnn_arm82 = true ∧ support_fp16_storage = true ∧
      opt.use_fp16_storage = true))
    (hnd : ¬(L.create_pipeline_channels = L.group ∧ L.group = L.num_output))
    (hg : 0 < L.group) (hmaxk : L.maxk ≠ 0) (hNg : L.num_output.tdiv L.group ≠ 0) :
    (create_pipeline B support_fp16_storage L opt fp16s old).1 = 0 ∧
    (create_pipeline B support_fp16_storage L opt fp16s old).2.2 = old.group_ops ∧
    (((create_pipeline B support_fp16_storage L opt fp16s old).2.1.group_ops.length : Nat) :
      Int) = L.group ∧
    (∀ g : Int, 0 ≤ g → g < L.group →
      ∃ op, (create_pipeline B support_fp16_storage L opt fp16s old).2.1.group_ops[g.toNat]? =
          some op ∧
        op.num_output = L.num_output.tdiv L.group ∧ op.pad_w = 0 ∧ op.pad_h = 0 ∧
        op.kernel_w = L.kernel_w ∧ op.kernel_h = L.kernel_h ∧
        op.dilation_w = L.dilation_w ∧ op.dilation_h = L.dilation_h ∧
        op.stride_w = L.stride_w ∧ op.stride_h = L.stride_h ∧
        op.output_pad_right = L.output_pad_right ∧
        op.output_pad_bottom = L.output_pad_bottom ∧
        op.weight_data_g =
          (L.maxk * (L.create_pipeline_channels.tdiv L.group) * (L.num_output.tdiv L.group) *
            g,
           L.maxk * (L.create_pipeline_channels.tdiv L.group) *
            (L.num_output.tdiv L.group)) ∧
        op.bias_data_g =
          (if L.bias_term ≠ 0 then
            some ((L.num_output.tdiv L.group) * g, L.num_output.tdiv L.group)
           else none)) ∧
    (L.group ∣ L.num_output → 0 ≤ L.weight_data_size →
      L.weight_data_size =
        L.maxk * (L.create_pipeline_channels.tdiv L.group) * L.num_output →
      (create_pipeline B support_fp16_storage L opt fp16s old).2.1.group_ops.flatMap
          SubOp.weight_elements = loopRange L.weight_data_size ∧
      ((create_pipeline B support_fp16_storage L opt fp16s old).2.1.group_ops.flatMap
          SubOp.weight_elements).Nodup) := by
  have _hdefined := And.intro hmaxk hNg
  rw [create_pipeline_grouped B support_fp16_storage L opt fp16s old hdyn hfp16 hnd]
  refine ⟨rfl, rfl, ?_, ?_, ?_⟩
  · simp only [List.length_map]
    rw [loopRange_length]
    omega
  · intro g h0 h1
    refine ⟨group_op L (L.create_pipeline_channels.tdiv L.group)
      (L.num_output.tdiv L.group) g, ?_, rfl, rfl, rfl, rfl, rfl, rfl, rfl, rfl, rfl, rfl,
      rfl, rfl, rfl⟩
    simp only [List.getElem?_map, loopRange_get L.group g h0 h1, Option.map_some']
  · intro hdvd hw0 hw
    have hN : L.num_output = L.num_output.tdiv L.group * L.group :=
      (Int.tdiv_mul_cancel hdvd).symm
    generalize L.create_pipeline_channels.tdiv L.group = cg at hw ⊢
    generalize L.num_output.tdiv L.group = ng at hN ⊢
    have hw' : L.weight_data_size = L.group * (L.maxk * cg * ng) := by
      rw [hw]
      linear_combination (L.maxk * cg) * hN
    obtain ⟨G, hG⟩ := Int.eq_ofNat_of_zero_le (le_of_lt hg)
    rw [hG] at hw'
    have hcover : ((loopRange L.group).map (group_op L cg ng)).flatMap
        SubOp.weight_elements = loopRange L.weight_data_size := by
      rw [hG]
      rcases Nat.eq_zero_or_pos G with h0 | hpos
      · subst h0
        rw [hw']
        simp [loopRange]
      · have hsize : 0 ≤ L.maxk * cg * ng := by
          by_contra hneg
          push_neg at hneg
          have hGpos : (0 : Int) < (G : Int) := by exact_mod_cast hpos
          have := mul_neg_of_pos_of_neg hGpos hneg
          omega
        rw [group_ranges_tile L _ _ G hsize, ← hw']
    dsimp only
    rw [hcover]
    exact ⟨rfl, loopRange_nodup _⟩

/-- C21 as stated fails when `weight_data_size` is not the product the ranges are cut
from: with `weight_data_size = 10`, a 3x1 kernel, `group = 1` and `num_output = 1`,
`create_pipeline` infers `channels = 3` (so `group` divides `channels` and `num_output`,
and the configuration is not depthwise) and the single sub-operator takes the weight range
`[0, 9)`, which leaves element 9 of the 10 out. -/
theorem ragged_weight_size_counterexample :
    example_layer_ragged.dynamic_weight = 0 ∧
    example_layer_ragged.create_pipeline_channels = 3 ∧
    example_layer_ragged.group ∣ example_layer_ragged.create_pipeline_channels ∧
    example_layer_ragged.group ∣ example_layer_ragged.num_output ∧
    ¬(example_layer_ragged.create_pipeline_channels = example_layer_ragged.group ∧
      example_layer_ragged.group = example_layer_ragged.num_output) ∧
    (create_pipeline example_build false example_layer_ragged example_opt
        (0, Prepared.initial, []) Prepared.initial).2.1.group_ops.map
      (fun op => op.weight_data_g) = [(0, 9)] ∧
    (create_pipeline example_build false example_layer_ragged example_opt
        (0, Prepared.initial, []) Prepared.initial).2.1.group_ops.flatMap
      SubOp.weight_elements = loopRange 9 ∧
    loopRange 9 ≠ loopRange example_layer_ragged.weight_data_size := by
  decide

end DeconvolutionDepthWise_arm

namespace DeconvolutionDepthWise_arm

end DeconvolutionDepthWise_arm

theorem ranges_tile (G : Nat) (C ge : Int) (hG : 0 < G) (hdvd : (G : Int) ∣ C) (h0 : 0 ≤ C)
    (hge : 0 < ge) (hgd : ge ∣ C.tdiv (G : Int)) :
    ((loopRange (G : Int)).flatMap
        (fun g => (loopRange ((C.tdiv (G : Int)).tdiv ge)).map
          (fun k => ((C.tdiv (G : Int)) * g).tdiv ge + k)) =
      loopRange (C.tdiv ge)) ∧
    (∀ g : Int, ge ∣ (C.tdiv (G : Int)) * g) ∧
    C.tdiv ge * ge = C := by
  have hGne : (G : Int) ≠ 0 := by
    have : (0 : Int) < (G : Int) := by exact_mod_cast hG
    omega
  obtain ⟨cg, rfl⟩ := hdvd
  rw [Int.mul_tdiv_cancel_left _ hGne] at hgd ⊢
  obtain ⟨q, rfl⟩ := hgd
  have hgene : ge ≠ 0 := ne_of_gt hge
  have hq : 0 ≤ q := by
    have hGpos : (0 : Int) < (G : Int) := by exact_mod_cast hG
    have h1 : 0 ≤ ge * q := by
      by_contra hneg
      push_neg at hneg
      have := mul_neg_of_pos_of_neg hGpos hneg
      omega
    by_contra hneg
    push_neg at hneg
    have := mul_neg_of_pos_of_neg hge hneg
    omega
  rw [Int.mul_tdiv_cancel_left _ hgene]
  have e1 : ((G : Int) * (ge * q)).tdiv ge = (G : Int) * q := by
    rw [show (G : Int) * (ge * q) = ge * ((G : Int) * q) by ring,
      Int.mul_tdiv_cancel_left _ hgene]
  rw [e1]
  refine ⟨?_, fun g => ⟨q * g, by ring⟩, by ring⟩
  have h := loopRange_mixed_radix G q hq (fun x => x)
  rw [List.map_id'] at h
  rw [← h]
  refine List.flatMap_congr ?_
  intro g _
  refine List.map_congr_left ?_
  intro k _
  rw [show ge * q * g = ge * (g * q) by ring, Int.mul_tdiv_cancel_left _ hgene]

theorem pack_choice (pk : Prop) [Decidable pk] (P x : Int) (hP : 1 ≤ P) :
    0 < (if pk then (if x.tmod P = 0 then P else 1) else 1) ∧
    (if pk then (if x.tmod P = 0 then P else 1) else 1) ∣ x ∧
    ((pk ∧ P ∣ x ∧ (if pk then (if x.tmod P = 0 then P else 1) else 1) = P) ∨
      (¬(pk ∧ P ∣ x) ∧ (if pk then (if x.tmod P = 0 then P else 1) else 1) = 1)) := by
  by_cases h1 : pk
  · by_cases h2 : x.tmod P = 0
    · have hd : P ∣ x := Int.dvd_of_tmod_eq_zero h2
      simp only [h1, h2, if_true]
      exact ⟨by omega, hd, Or.inl ⟨trivial, hd, trivial⟩⟩
    · have hd : ¬ P ∣ x := fun hd => h2 (Int.tmod_eq_zero_of_dvd hd)
      simp only [h1, h2, if_true, if_false]
      exact ⟨by omega, one_dvd _, Or.inr ⟨fun h => hd h.2, trivial⟩⟩
  · simp only [h1, if_false]
    exact ⟨by omega, one_dvd _, Or.inr ⟨fun h => h.1, trivial⟩⟩

theorem pack_relation (pk : Prop) [Decidable pk] (P C group : Int) (hP : 1 ≤ P)
    (hd : group ∣ C) :
    ((if pk then (if C.tmod P = 0 then P else 1) else 1) =
      (if pk then (if (C.tdiv group).tmod P = 0 then P else 1) else 1)) ∨
    ((if pk then (if C.tmod P = 0 then P else 1) else 1) = P ∧
      (if pk then (if (C.tdiv group).tmod P = 0 then P else 1) else 1) = 1 ∧ 1 < P) := by
  have hC : C.tdiv group * group = C := Int.tdiv_mul_cancel hd
  obtain ⟨_, _, h1⟩ := pack_choice pk P C hP
  obtain ⟨_, _, h2⟩ := pack_choice pk P (C.tdiv group) hP
  rcases h1 with ⟨a1, a2, a3⟩ | ⟨a1, a3⟩ <;> rcases h2 with ⟨b1, b2, b3⟩ | ⟨b1, b3⟩
  · left
    rw [a3, b3]
  · by_cases hP1 : P = 1
    · left
      rw [a3, b3, hP1]
    · right
      exact ⟨a3, b3, by omega⟩
  · exact absurd ⟨b1, hC ▸ Dvd.dvd.mul_right b2 group⟩ a1
  · left
    rw [a3, b3]

theorem partition_generic (pk : Prop) [Decidable pk] (P C group : Int) (hP : 1 ≤ P)
    (hg : 0 < group) (h0 : 0 ≤ C) (hd : group ∣ C) :
    ((loopRange group).flatMap
        (fun g => (loopRange ((C.tdiv group).tdiv
            (if pk then (if (C.tdiv group).tmod P = 0 then P else 1) else 1))).map
          (fun k => ((C.tdiv group) * g).tdiv
            (if pk then (if (C.tdiv group).tmod P = 0 then P else 1) else 1) + k)) =
      loopRange (C.tdiv (if pk then (if (C.tdiv group).tmod P = 0 then P else 1) else 1))) ∧
    (∀ g : Int, (if pk then (if (C.tdiv group).tmod P = 0 then P else 1) else 1) ∣
      (C.tdiv group) * g) ∧
    (if pk then (if (C.tdiv group).tmod P = 0 then P else 1) else 1) ∣ C.tdiv group ∧
    C.tdiv (if pk then (if (C.tdiv group).tmod P = 0 then P else 1) else 1) *
      (if pk then (if (C.tdiv group).tmod P = 0 then P else 1) else 1) = C := by
  obtain ⟨e1, e2, _⟩ := pack_choice pk P (C.tdiv group) hP
  obtain ⟨G, hG⟩ := Int.eq_ofNat_of_zero_le (le_of_lt hg)
  have hGpos : 0 < G := by
    rw [hG] at hg
    exact_mod_cast hg
  rw [hG] at hd e1 e2 ⊢
  obtain ⟨t1, t2, t3⟩ := ranges_tile G C _ hGpos hd h0 e1 e2
  exact ⟨t1, t2, e2, t3⟩

theorem unpack_bottom (bottom_blob : Mat) (ge P tgt : Int) (cond : Prop) [Decidable cond]
    (R : bottom_blob.elempack = ge ∨ (bottom_blob.elempack = P ∧ ge = 1 ∧ 1 < P))
    (h1 : bottom_blob.elempack = ge → ¬cond)
    (h2 : bottom_blob.elempack = P ∧ ge = 1 ∧ 1 < P → cond ∧ tgt = ge) :
    (if cond then bottom_blob.convert_packing tgt else bottom_blob).c * ge =
      bottom_blob.c * bottom_blob.elempack ∧
    (if cond then bottom_blob.convert_packing tgt else bottom_blob).elempack = ge := by
  rcases R with h | h
  · rw [if_neg (h1 h), h]
    exact ⟨rfl, rfl⟩
  · obtain ⟨hc, ht⟩ := h2 h
    rw [if_pos hc, ht]
    simp only [Mat.convert_packing]
    rw [h.2.1, Int.tdiv_one, mul_one]
    exact ⟨rfl, trivial⟩

theorem unpack_top (outw outh N oe oge P cnew pnew : Int) (osz esz : Nat) (cond : Prop)
    [Decidable cond] (hoe : oe ∣ N)
    (R : oe = oge ∨ (oe = P ∧ oge = 1 ∧ 1 < P))
    (h1 : oe = oge → ¬cond)
    (h2 : oe = P ∧ oge = 1 ∧ 1 < P → cond ∧ cnew = N ∧ pnew = 1) :
    (if cond then (⟨outw, outh, cnew, esz, pnew⟩ : Mat)
      else ⟨outw, outh, N.tdiv oe, osz, oe⟩).c * oge = N ∧
    (if cond then (⟨outw, outh, cnew, esz, pnew⟩ : Mat)
      else ⟨outw, outh, N.tdiv oe, osz, oe⟩).elempack = oge := by
  rcases R with h | h
  · rw [if_neg (h1 h)]
    dsimp only
    rw [← h]
    exact ⟨Int.tdiv_mul_cancel hoe, rfl⟩
  · obtain ⟨hc, hn, hp⟩ := h2 h
    rw [if_pos hc]
    dsimp only
    rw [hn, hp, h.2.1, mul_one]
    exact ⟨rfl, rfl⟩

theorem part_assemble (V : GroupBlobs) (pk : Prop) [Decidable pk] (P C N group : Int)
    (hP : 1 ≤ P) (hg : 0 < group) (h0C : 0 ≤ C) (h0N : 0 ≤ N) (hdC : group ∣ C)
    (hdN : group ∣ N)
    (hcg : V.channels_g = C.tdiv group) (hng : V.num_output_g = N.tdiv group)
    (hge : V.g_elempack = (if pk then (if (C.tdiv group).tmod P = 0 then P else 1) else 1))
    (hoge : V.out_g_elempack =
      (if pk then (if (N.tdiv group).tmod P = 0 then P else 1) else 1))
    (hbg : V.bottom_blob_g = fun g =>
      ((V.channels_g * g).tdiv V.g_elempack, V.channels_g.tdiv V.g_elempack))
    (htg : V.top_blob_bordered_g = fun g =>
      ((V.num_output_g * g).tdiv V.out_g_elempack, V.num_output_g.tdiv V.out_g_elempack))
    (hbu : V.bottom_blob_unpacked.c * V.g_elempack = C ∧
      V.bottom_blob_unpacked.elempack = V.g_elempack)
    (htu : V.top_blob_bordered_unpacked.c * V.out_g_elempack = N ∧
      V.top_blob_bordered_unpacked.elempack = V.out_g_elempack) :
    V.bottom_channels group = loopRange V.bottom_blob_unpacked.c ∧
    V.bottom_blob_unpacked.elempack = V.g_elempack ∧
    V.top_channels group = loopRange V.top_blob_bordered_unpacked.c ∧
    V.top_blob_bordered_unpacked.c = N.tdiv V.out_g_elempack ∧
    V.top_blob_bordered_unpacked.elempack = V.out_g_elempack ∧
    (∀ g : Int, V.g_elempack ∣ V.channels_g * g) ∧ V.g_elempack ∣ V.channels_g ∧
    (∀ g : Int, V.out_g_elempack ∣ V.num_output_g * g) ∧
    V.out_g_elempack ∣ V.num_output_g ∧
    V.channels_g * group = C ∧ V.num_output_g * group = N := by
  obtain ⟨b1, b2, b3, b4⟩ := partition_generic pk P C group hP hg h0C hdC
  obtain ⟨t1, t2, t3, t4⟩ := partition_generic pk P N group hP hg h0N hdN
  obtain ⟨gpos, _, _⟩ := pack_choice pk P (C.tdiv group) hP
  obtain ⟨ogpos, _, _⟩ := pack_choice pk P (N.tdiv group) hP
  rw [← hge] at b1 b2 b3 b4 gpos
  rw [← hcg] at b1 b2 b3
  rw [← hoge] at t1 t2 t3 t4 ogpos
  rw [← hng] at t1 t2 t3
  have hbc : V.bottom_blob_unpacked.c = C.tdiv V.g_elempack := by
    rw [← hbu.1, Int.mul_tdiv_cancel _ (ne_of_gt gpos)]
  have htc : V.top_blob_bordered_unpacked.c = N.tdiv V.out_g_elempack := by
    rw [← htu.1, Int.mul_tdiv_cancel _ (ne_of_gt ogpos)]
  refine ⟨?_, hbu.2, ?_, htc, htu.2, b2, b3, t2, t3, ?_, ?_⟩
  · rw [hbc, ← b1]
    simp only [GroupBlobs.bottom_channels, hbg]
  · rw [htc, ← t1]
    simp only [GroupBlobs.top_channels, htg]
  · rw [hcg]
    exact Int.tdiv_mul_cancel hdC
  · rw [hng]
    exact Int.tdiv_mul_cancel hdN

theorem arm_grouped_partition (B : Build) (L : DeconvolutionDepthWise) (opt : Opt)
    (bottom_blob : Mat)
    (hdC : L.group ∣ bottom_blob.c * bottom_blob.elempack) (hdN : L.group ∣ L.num_output)
    (hcanon : bottom_blob.elempack =
      (if B.arm_neon = true ∧ opt.use_packing_layout = true then
        (if (bottom_blob.c * bottom_blob.elempack).tmod 4 = 0 then 4 else 1) else 1)) :
    0 < bottom_blob.elempack ∧
    ((DeconvolutionDepthWise_arm.grouped_blobs B L opt bottom_blob).bottom_blob_unpacked.c *
        (DeconvolutionDepthWise_arm.grouped_blobs B L opt bottom_blob).g_elempack =
      bottom_blob.c * bottom_blob.elempack ∧
      (DeconvolutionDepthWise_arm.grouped_blobs B L opt bottom_blob).bottom_blob_unpacked.elempack =
        (DeconvolutionDepthWise_arm.grouped_blobs B L opt bottom_blob).g_elempack) ∧
    ((DeconvolutionDepthWise_arm.grouped_blobs B L opt
          bottom_blob).top_blob_bordered_unpacked.c *
        (DeconvolutionDepthWise_arm.grouped_blobs B L opt bottom_blob).out_g_elempack =
      L.num_output ∧
      (DeconvolutionDepthWise_arm.grouped_blobs B L opt
          bottom_blob).top_blob_bordered_unpacked.elempack =
        (DeconvolutionDepthWise_arm.grouped_blobs B L opt bottom_blob).out_g_elempack) := by
  have hP : (1 : Int) ≤ 4 := by decide
  obtain ⟨epos, _, _⟩ := pack_choice (B.arm_neon = true ∧ opt.use_packing_layout = true) 4
    (bottom_blob.c * bottom_blob.elempack) hP
  rw [← hcanon] at epos
  obtain ⟨_, hoe, _⟩ := pack_choice (B.arm_neon = true ∧ opt.use_packing_layout = true) 4
    L.num_output hP
  have R := pack_relation (B.arm_neon = true ∧ opt.use_packing_layout = true) 4
    (bottom_blob.c * bottom_blob.elempack) L.group hP hdC
  rw [← hcanon] at R
  have Rn := pack_relation (B.arm_neon = true ∧ opt.use_packing_layout = true) 4
    L.num_output L.group hP hdN
  refine ⟨epos, ?_, ?_⟩
  · exact unpack_bottom bottom_blob _ 4 1 _ R
      (fun h hc => absurd (hc.1.symm.trans (h.trans hc.2)) (by decide))
      (fun h => ⟨⟨h.1, h.2.1⟩, h.2.1.symm⟩)
  · exact unpack_top _ _ L.num_output _ _ 4 L.num_output 1 _ _ _ hoe Rn
      (fun h hc => absurd (hc.2.symm.trans (h.trans hc.1)) (by decide))
      (fun h => ⟨⟨h.2.1, h.1⟩, rfl, rfl⟩)

theorem riscv_fp16s_grouped_partition (B : Build) (vlenb : Int) (L : DeconvolutionDepthWise)
    (opt : Opt) (bottom_blob : Mat) (hP : 1 ≤ vlenb.tdiv 2)
    (hdC : L.group ∣ bottom_blob.c * bottom_blob.elempack) (hdN : L.group ∣ L.num_output)
    (hcanon : bottom_blob.elempack =
      (if B.riscv_zvfh = true ∧ opt.use_packing_layout = true then
        (if (bottom_blob.c * bottom_blob.elempack).tmod (vlenb.tdiv 2) = 0 then
          vlenb.tdiv 2 else 1) else 1)) :
    0 < bottom_blob.elempack ∧
    ((DeconvolutionDepthWise_riscv.fp16s_grouped_blobs B vlenb L opt bottom_blob).bottom_blob_unpacked.c *
        (DeconvolutionDepthWise_riscv.fp16s_grouped_blobs B vlenb L opt bottom_blob).g_elempack =
      bottom_blob.c * bottom_blob.elempack ∧
      (DeconvolutionDepthWise_riscv.fp16s_grouped_blobs B vlenb L opt
          bottom_blob).bottom_blob_unpacked.elempack =
        (DeconvolutionDepthWise_riscv.fp16s_grouped_blobs B vlenb L opt bottom_blob).g_elempack) ∧
    ((DeconvolutionDepthWise_riscv.fp16s_grouped_blobs B vlenb L opt
          bottom_blob).top_blob_bordered_unpacked.c *
        (DeconvolutionDepthWise_riscv.fp16s_grouped_blobs B vlenb L opt bottom_blob).out_g_elempack =
      L.num_output ∧
      (DeconvolutionDepthWise_riscv.fp16s_grouped_blobs B vlenb L opt
          bottom_blob).top_blob_bordered_unpacked.elempack =
        (DeconvolutionDepthWise_riscv.fp16s_grouped_blobs B vlenb L opt bottom_blob).out_g_elempack) := by
  obtain ⟨epos, _, _⟩ := pack_choice (B.riscv_zvfh = true ∧ opt.use_packing_layout = true)
    (vlenb.tdiv 2) (bottom_blob.c * bottom_blob.elempack) hP
  rw [← hcanon] at epos
  obtain ⟨_, hoe, _⟩ := pack_choice (B.riscv_zvfh = true ∧ opt.use_packing_layout = true)
    (vlenb.tdiv 2) L.num_output hP
  have R := pack_relation (B.riscv_zvfh = true ∧ opt.use_packing_layout = true)
    (vlenb.tdiv 2) (bottom_blob.c * bottom_blob.elempack) L.group hP hdC
  rw [← hcanon] at R
  have Rn := pack_relation (B.riscv_zvfh = true ∧ opt.use_packing_layout = true)
    (vlenb.tdiv 2) L.num_output L.group hP hdN
  refine ⟨epos, ?_, ?_⟩
  · exact unpack_bottom bottom_blob _ (vlenb.tdiv 2) _ _ R
      (fun h hc => lt_irrefl _ (lt_of_lt_of_eq hc h))
      (fun h => ⟨lt_of_eq_of_lt h.2.1 (lt_of_lt_of_eq h.2.2 h.1.symm), h.2.1.symm⟩)
  · exact unpack_top _ _ L.num_output _ _ (vlenb.tdiv 2) _ _ _ _ _ hoe Rn
      (fun h hc => lt_irrefl _ (lt_of_lt_of_eq hc h))
      (fun h => ⟨lt_of_eq_of_lt h.2.1 (lt_of_lt_of_eq h.2.2 h.1.symm), rfl, rfl⟩)

theorem riscv_fp16sa_grouped_partition (B : Build) (vlenb : Int) (L : DeconvolutionDepthWise)
    (opt : Opt) (bottom_blob : Mat) (hP : 1 ≤ vlenb.tdiv 2)
    (hdC : L.group ∣ bottom_blob.c * bottom_blob.elempack) (hdN : L.group ∣ L.num_output)
    (hcanon : bottom_blob.elempack =
      (if B.riscv_zvfh = true ∧ opt.use_packing_layout = true then
        (if (bottom_blob.c * bottom_blob.elempack).tmod (vlenb.tdiv 2) = 0 then
          vlenb.tdiv 2 else 1) else 1)) :
    0 < bottom_blob.elempack ∧
    ((DeconvolutionDepthWise_riscv.fp16sa_grouped_blobs B vlenb L opt bottom_blob).bottom_blob_unpacked.c *
        (DeconvolutionDepthWise_riscv.fp16sa_grouped_blobs B vlenb L opt bottom_blob).g_elempack =
      bottom_blob.c * bottom_blob.elempack ∧
      (DeconvolutionDepthWise_riscv.fp16sa_grouped_blobs B vlenb L opt
          bottom_blob).bottom_blob_unpacked.elempack =
        (DeconvolutionDepthWise_riscv.fp16sa_grouped_blobs B vlenb L opt bottom_blob).g_elempack) ∧
    ((DeconvolutionDepthWise_riscv.fp16sa_grouped_blobs B vlenb L opt
          bottom_blob).top_blob_bordered_unpacked.c *
        (DeconvolutionDepthWise_riscv.fp16sa_grouped_blobs B vlenb L opt bottom_blob).out_g_elempack =
      L.num_output ∧
      (DeconvolutionDepthWise_riscv.fp16sa_grouped_blobs B vlenb L opt
          bottom_blob).top_blob_bordered_unpacked.elempack =
        (DeconvolutionDepthWise_riscv.fp16sa_grouped_blobs B vlenb L opt bottom_blob).out_g_elempack) := by
  obtain ⟨epos, _, _⟩ := pack_choice (B.riscv_zvfh = true ∧ opt.use_packing_layout = true)
    (vlenb.tdiv 2) (bottom_blob.c * bottom_blob.elempack) hP
  rw [← hcanon] at epos
  obtain ⟨_, hoe, _⟩ := pack_choice (B.riscv_zvfh = true ∧ opt.use_packing_layout = true)
    (vlenb.tdiv 2) L.num_output hP
  have R := pack_relation (B.riscv_zvfh = true ∧ opt.use_packing_layout = true)
    (vlenb.tdiv 2) (bottom_blob.c * bottom_blob.elempack) L.group hP hdC
  rw [← hcanon] at R
  have Rn := pack_relation (B.riscv_zvfh = true ∧ opt.use_packing_layout = true)
    (vlenb.tdiv 2) L.num_output L.group hP hdN
  refine ⟨epos, ?_, ?_⟩
  · exact unpack_bottom bottom_blob _ (vlenb.tdiv 2) _ _ R
      (fun h hc => lt_irrefl _ (lt_of_lt_of_eq hc h))
      (fun h => ⟨lt_of_eq_of_lt h.2.1 (lt_of_lt_of_eq h.2.2 h.1.symm), rfl⟩)
  · exact unpack_top _ _ L.num_output _ _ (vlenb.tdiv 2) _ _ _ _ _ hoe Rn
      (fun h hc => lt_irrefl _ (lt_of_lt_of_eq hc h))
      (fun h => ⟨lt_of_eq_of_lt h.2.1 (lt_of_lt_of_eq h.2.2 h.1.symm), (congrArg (fun x => L.num_output.tdiv x) h.2.1).trans (Int.tdiv_one _), h.2.1⟩)

/-- C22. Group channel ranges partition the tensors.  In the grouped path of the
deconvolution forwards (ARM `forward` / `forward_bf16s`, RISC-V `forward_fp16s` /
`forward_fp16sa`), when `group > 0` divides the input channel count
`channels * elempack` and `num_output` (both non-negative, lane count at least 1) and the
input carries the canonical pack for its channel count, the input ranges
`[channels_g*g/g_elempack, +channels_g/g_elempack)` for `g = 0 .. group-1`, taken in order,
enumerate every channel of `bottom_blob_unpacked` once, which is stored with pack
`g_elempack`; the output ranges `[num_output_g*g/out_g_elempack,
+num_output_g/out_g_elempack)` enumerate once every one of the
`num_output/out_g_elempack` channels of `top_blob_bordered_unpacked`; every division is
exact. -/
theorem group_ranges_partition (F : GroupedForward) (B : Build) (vlenb : Int)
    (L : DeconvolutionDepthWise) (opt : Opt) (bottom_blob : Mat)
    (hP : 1 ≤ F.lanes vlenb) (hg : 0 < L.group) (hc : 0 ≤ bottom_blob.c)
    (hN : 0 ≤ L.num_output)
    (hdC : L.group ∣ bottom_blob.c * bottom_blob.elempack) (hdN : L.group ∣ L.num_output)
    (hcanon : bottom_blob.elempack =
      F.canonical_pack B vlenb opt (bottom_blob.c * bottom_blob.elempack)) :
    (F.blobs B vlenb L opt bottom_blob).bottom_channels L.group =
      loopRange (F.blobs B vlenb L opt bottom_blob).bottom_blob_unpacked.c ∧
    (F.blobs B vlenb L opt bottom_blob).bottom_blob_unpacked.elempack =
      (F.blobs B vlenb L opt bottom_blob).g_elempack ∧
    (F.blobs B vlenb L opt bottom_blob).top_channels L.group =
      loopRange (F.blobs B vlenb L opt bottom_blob).top_blob_bordered_unpacked.c ∧
    (F.blobs B vlenb L opt bottom_blob).top_blob_bordered_unpacked.c =
      L.num_output.tdiv (F.blobs B vlenb L opt bottom_blob).out_g_elempack ∧
    (F.blobs B vlenb L opt bottom_blob).top_blob_bordered_unpacked.elempack =
      (F.blobs B vlenb L opt bottom_blob).out_g_elempack ∧
    (∀ g : Int, (F.blobs B vlenb L opt bottom_blob).g_elempack ∣
      (F.blobs B vlenb L opt bottom_blob).channels_g * g) ∧
    (F.blobs B vlenb L opt bottom_blob).g_elempack ∣
      (F.blobs B vlenb L opt bottom_blob).channels_g ∧
    (∀ g : Int, (F.blobs B vlenb L opt bottom_blob).out_g_elempack ∣
      (F.blobs B vlenb L opt bottom_blob).num_output_g * g) ∧
    (F.blobs B vlenb L opt bottom_blob).out_g_elempack ∣
      (F.blobs B vlenb L opt bottom_blob).num_output_g ∧
    (F.blobs B vlenb L opt bottom_blob).channels_g * L.group =
      bottom_blob.c * bottom_blob.elempack ∧
    (F.blobs B vlenb L opt bottom_blob).num_output_g * L.group = L.num_output := by
  cases F
  · simp only [GroupedForward.canonical_pack, GroupedForward.packing, GroupedForward.lanes,
      Bool.and_eq_true] at hcanon hP
    obtain ⟨epos, hbu, htu⟩ := arm_grouped_partition B L opt bottom_blob hdC hdN hcanon
    exact part_assemble (DeconvolutionDepthWise_arm.grouped_blobs B L opt bottom_blob)
      (B.arm_neon = true ∧ opt.use_packing_layout = true) 4 _ _ L.group hP hg
      (mul_nonneg hc (le_of_lt epos)) hN hdC hdN rfl rfl rfl rfl rfl rfl hbu htu
  · simp only [GroupedForward.canonical_pack, GroupedForward.packing, GroupedForward.lanes,
      Bool.and_eq_true] at hcanon hP
    obtain ⟨epos, hbu, htu⟩ := arm_grouped_partition B L opt bottom_blob hdC hdN hcanon
    exact part_assemble (DeconvolutionDepthWise_arm.grouped_blobs B L opt bottom_blob)
      (B.arm_neon = true ∧ opt.use_packing_layout = true) 4 _ _ L.group hP hg
      (mul_nonneg hc (le_of_lt epos)) hN hdC hdN rfl rfl rfl rfl rfl rfl hbu htu
  · simp only [GroupedForward.canonical_pack, GroupedForward.packing, GroupedForward.lanes,
      Bool.and_eq_true] at hcanon hP
    obtain ⟨epos, hbu, htu⟩ :=
      riscv_fp16s_grouped_partition B vlenb L opt bottom_blob hP hdC hdN hcanon
    exact part_assemble
      (DeconvolutionDepthWise_riscv.fp16s_grouped_blobs B vlenb L opt bottom_blob)
      (B.riscv_zvfh = true ∧ opt.use_packing_layout = true) (vlenb.tdiv 2) _ _ L.group hP hg
      (mul_nonneg hc (le_of_lt epos)) hN hdC hdN rfl rfl rfl rfl rfl rfl hbu htu
  · simp only [GroupedForward.canonical_pack, GroupedForward.packing, GroupedForward.lanes,
      Bool.and_eq_true] at hcanon hP
    obtain ⟨epos, hbu, htu⟩ :=
      riscv_fp16sa_grouped_partition B vlenb L opt bottom_blob hP hdC hdN hcanon
    exact part_assemble
      (DeconvolutionDepthWise_riscv.fp16sa_grouped_blobs B vlenb L opt bottom_blob)
      (B.riscv_zvfh = true ∧ opt.use_packing_layout = true) (vlenb.tdiv 2) _ _ L.group hP hg
      (mul_nonneg hc (le_of_lt epos)) hN hdC hdN rfl rfl rfl rfl rfl rfl hbu htu

namespace Mlir2ncnn

theorem flatMap_length_const {β : Type} (a b : Nat) (F : Int → List β)
    (hF : ∀ x : Int, 0 ≤ x → x < a → (F x).length = b) :
    ((loopRange (a : Int)).flatMap F).length = a * b := by
  induction a with
  | zero => simp [loopRange]
  | succ a ih =>
    have hrec : ((loopRange (a : Int)).flatMap F).length = a * b :=
      ih (fun x h0 h1 => hF x h0 (by push_cast; omega))
    have hlast : (F (a : Int)).length = b := hF a (by omega) (by push_cast; omega)
    rw [show ((a + 1 : Nat) : Int) = (a : Int) + 1 by push_cast; rfl, loopRange_natCast_succ,
      List.flatMap_append, List.length_append, hrec]
    simp only [List.flatMap_cons, List.flatMap_nil, List.append_nil, hlast]
    ring

theorem flatMap_get {β : Type} (a b : Nat) (F : Int → List β)
    (hF : ∀ x : Int, 0 ≤ x → x < a → (F x).length = b) (x y : Nat) (hx : x < a)
    (hy : y < b) :
    ((loopRange (a : Int)).flatMap F)[x * b + y]? = (F (x : Int))[y]? := by
  induction a with
  | zero => omega
  | succ a ih =>
    have hlen : ((loopRange (a : Int)).flatMap F).length = a * b :=
      flatMap_length_const a b F (fun x h0 h1 => hF x h0 (by push_cast; omega))
    rw [show ((a + 1 : Nat) : Int) = (a : Int) + 1 by push_cast; rfl, loopRange_natCast_succ,
      List.flatMap_append]
    simp only [List.flatMap_cons, List.flatMap_nil, List.append_nil]
    rcases Nat.lt_or_ge x a with h | h
    · have hlt : x * b + y < a * b := by
        have : (x + 1) * b ≤ a * b := Nat.mul_le_mul_right b h
        rw [Nat.add_mul, Nat.one_mul] at this
        omega
      rw [List.getElem?_append_left (by rw [hlen]; exact hlt)]
      exact ih (fun x h0 h1 => hF x h0 (by push_cast; omega)) h
    · have hxa : x = a := by omega
      subst hxa
      rw [List.getElem?_append_right (by rw [hlen]; omega), hlen]
      congr 1
      omega

theorem loopRange_length_nat (n : Nat) : (loopRange (n : Int)).length = n := by
  simp [loopRange]

theorem loopRange_get_nat (n j : Nat) (h : j < n) : (loopRange (n : Int))[j]? = some (j : Int) := by
  unfold loopRange
  rw [List.getElem?_map, Int.toNat_ofNat, List.getElem?_range h]
  rfl

theorem radix_lt (x y a b : Nat) (hx : x < a) (hy : y < b) : x * b + y < a * b := by
  have : (x + 1) * b ≤ a * b := Nat.mul_le_mul_right b hx
  rw [Nat.add_mul, Nat.one_mul] at this
  omega

theorem reorder_loops_length {β : Type} (OUT IN KH KW : Nat)
    (body : Int → Int → Int → Int → β) :
    (reorder_loops (OUT : Int) IN KH KW body).length = OUT * (IN * (KH * KW)) := by
  unfold reorder_loops
  refine flatMap_length_const OUT _ _ (fun p _ _ => ?_)
  refine flatMap_length_const IN _ _ (fun q _ _ => ?_)
  refine flatMap_length_const KH _ _ (fun i _ _ => ?_)
  rw [List.length_map, loopRange_length_nat]

theorem reorder_loops_get {β : Type} (OUT IN KH KW : Nat)
    (body : Int → Int → Int → Int → β) (p q i j : Nat) (hp : p < OUT) (hq : q < IN)
    (hi : i < KH) (hj : j < KW) :
    (reorder_loops (OUT : Int) IN KH KW body)[((p * IN + q) * KH + i) * KW + j]? =
      some (body p q i j) := by
  have e : ((p * IN + q) * KH + i) * KW + j =
      p * (IN * (KH * KW)) + (q * (KH * KW) + (i * KW + j)) := by ring
  have h1 : i * KW + j < KH * KW := radix_lt i j KH KW hi hj
  have h2 : q * (KH * KW) + (i * KW + j) < IN * (KH * KW) := radix_lt q _ IN _ hq h1
  unfold reorder_loops
  rw [e, flatMap_get OUT (IN * (KH * KW)) _ (fun p _ _ => by
      refine flatMap_length_const IN _ _ (fun q _ _ => ?_)
      refine flatMap_length_const KH _ _ (fun i _ _ => ?_)
      rw [List.length_map, loopRange_length_nat]) p _ hp h2,
    flatMap_get IN (KH * KW) _ (fun q _ _ => by
      refine flatMap_length_const KH _ _ (fun i _ _ => ?_)
      rw [List.length_map, loopRange_length_nat]) q _ hq h1,
    flatMap_get KH KW _ (fun i _ _ => by
      rw [List.length_map, loopRange_length_nat]) i j hi hj,
    List.getElem?_map, loopRange_get_nat KW j hj]
  rfl

theorem flatMap_id_singleton (l : List Int) : l.flatMap (fun t => [t]) = l := by
  induction l with
  | nil => rfl
  | cons a l ih => simp only [List.flatMap_cons, List.singleton_append, ih]

theorem map_as_flatMap {α β : Type} (l : List α) (f : α → β) :
    l.map f = l.flatMap (fun x => [f x]) := by
  induction l with
  | nil => rfl
  | cons a l ih => simp only [List.map_cons, List.flatMap_cons, List.singleton_append, ih]

theorem hwio_reads_perm (KH KW IN OUT : Nat) :
    (reorder_loops (OUT : Int) IN KH KW (hwio_index KW IN OUT)).Perm
      (loopRange ((KH : Int) * KW * IN * OUT)) := by
  have e : ∀ p q i j : Int,
      hwio_index KW IN OUT p q i j = ((i * KW + j) * IN + q) * OUT + p := by
    intro p q i j
    unfold hwio_index
    ring
  simp only [reorder_loops, map_as_flatMap, e]
  -- p q i j -> p i q j
  refine (List.Perm.flatMap_left _ (fun p _ => perm_flatMap_comm _ _ _)).trans ?_
  -- p i q j -> p i j q
  refine (List.Perm.flatMap_left _ (fun p _ =>
    List.Perm.flatMap_left _ (fun i _ => perm_flatMap_comm _ _ _))).trans ?_
  -- p i j q -> i p j q
  refine (perm_flatMap_comm _ _ _).trans ?_
  -- i p j q -> i j p q
  refine (List.Perm.flatMap_left _ (fun i _ => perm_flatMap_comm _ _ _)).trans ?_
  -- i j p q -> i j q p
  refine (List.Perm.flatMap_left _ (fun i _ =>
    List.Perm.flatMap_left _ (fun j _ => perm_flatMap_comm _ _ _))).trans ?_
  rw [loopRange_mixed_radix_flatMap KH KW (Int.natCast_nonneg _)
    (fun x => (loopRange (IN : Int)).flatMap (fun q => (loopRange (OUT : Int)).flatMap
      (fun p => [(x * IN + q) * OUT + p])))]
  have e1 : (KH : Int) * KW = ((KH * KW : Nat) : Int) := by push_cast; rfl
  rw [e1, loopRange_mixed_radix_flatMap (KH * KW) IN (Int.natCast_nonneg _)
    (fun x => (loopRange (OUT : Int)).flatMap (fun p => [x * OUT + p]))]
  have e2 : ((KH * KW : Nat) : Int) * IN = ((KH * KW * IN : Nat) : Int) := by push_cast; rfl
  rw [e2, loopRange_mixed_radix_flatMap (KH * KW * IN) OUT (Int.natCast_nonneg _)
    (fun t => [t]), flatMap_id_singleton]

theorem hwoi_reads_perm (KH KW IN OUT : Nat) :
    (reorder_loops (OUT : Int) IN KH KW (hwoi_index KW IN OUT)).Perm
      (loopRange ((KH : Int) * KW * OUT * IN)) := by
  have e : ∀ p q i j : Int,
      hwoi_index KW IN OUT p q i j = ((i * KW + j) * OUT + p) * IN + q := by
    intro p q i j
    unfold hwoi_index
    ring
  simp only [reorder_loops, map_as_flatMap, e]
  -- p q i j -> p i q j
  refine (List.Perm.flatMap_left _ (fun p _ => perm_flatMap_comm _ _ _)).trans ?_
  -- p i q j -> p i j q
  refine (List.Perm.flatMap_left _ (fun p _ =>
    List.Perm.flatMap_left _ (fun i _ => perm_flatMap_comm _ _ _))).trans ?_
  -- p i j q -> i p j q
  refine (perm_flatMap_comm _ _ _).trans ?_
  -- i p j q -> i j p q
  refine (List.Perm.flatMap_left _ (fun i _ => perm_flatMap_comm _ _ _)).trans ?_
  rw [loopRange_mixed_radix_flatMap KH KW (Int.natCast_nonneg _)
    (fun x => (loopRange (OUT : Int)).flatMap (fun p => (loopRange (IN : Int)).flatMap
      (fun q => [(x * OUT + p) * IN + q])))]
  have e1 : (KH : Int) * KW = ((KH * KW : Nat) : Int) := by push_cast; rfl
  rw [e1, loopRange_mixed_radix_flatMap (KH * KW) OUT (Int.natCast_nonneg _)
    (fun x => (loopRange (IN : Int)).flatMap (fun q => [x * IN + q]))]
  have e2 : ((KH * KW : Nat) : Int) * OUT = ((KH * KW * OUT : Nat) : Int) := by
    push_cast; rfl
  rw [e2, loopRange_mixed_radix_flatMap (KH * KW * OUT) IN (Int.natCast_nonneg _)
    (fun t => [t]), flatMap_id_singleton]

theorem reorder_loops_map {β γ : Type} (num_output num_input kernel_size_h kernel_size_w : Int)
    (body : Int → Int → Int → Int → β) (f : β → γ) :
    (reorder_loops num_output num_input kernel_size_h kernel_size_w body).map f =
      reorder_loops num_output num_input kernel_size_h kernel_size_w
        (fun p q i j => f (body p q i j)) := by
  simp only [reorder_loops, List.map_flatMap, List.map_map, Function.comp_def]

/-- C28. Weight reordering in mlir2ncnn is an exact layout permutation.  For a tf.Conv2D /
ncnn.KerasConv2D weight `v` of shape `[kh, kw, in, out]`, the block writes the quantize tag
and then `kh*kw*in*out` floats, the one at position `((p*in + q)*kh + i)*kw + j` being
`v[((i*kw + j)*in + q)*out + p]`; for tf.Conv2DBackpropInput (shape `[kh, kw, out, in]`) it
is `v[((i*kw + j)*out + p)*in + q]`; in both cases the floats are `v` at the indices read,
and the indices read are a permutation of `0 .. kh*kw*in*out - 1` (every source element is
written exactly once). -/
theorem weight_reorder_permutation {α : Type} (KH KW IN OUT : Nat) (v : Int → α) :
    (reorder_hwio (KH : Int) KW IN OUT v =
        Word.int 0 :: (reorder_loops (OUT : Int) IN KH KW (hwio_index KW IN OUT)).map
          (fun k => Word.float (v k)) ∧
      (reorder_hwio (KH : Int) KW IN OUT v).tail.length = KH * KW * IN * OUT ∧
      (∀ p q i j : Nat, p < OUT → q < IN → i < KH → j < KW →
        (reorder_hwio (KH : Int) KW IN OUT v).tail[((p * IN + q) * KH + i) * KW + j]? =
          some (Word.float (v ((((i : Int) * KW + j) * IN + q) * OUT + p)))) ∧
      (reorder_loops (OUT : Int) IN KH KW (hwio_index KW IN OUT)).Perm
        (loopRange ((KH : Int) * KW * IN * OUT))) ∧
    (reorder_hwoi (KH : Int) KW IN OUT v =
        Word.int 0 :: (reorder_loops (OUT : Int) IN KH KW (hwoi_index KW IN OUT)).map
          (fun k => Word.float (v k)) ∧
      (reorder_hwoi (KH : Int) KW IN OUT v).tail.length = KH * KW * IN * OUT ∧
      (∀ p q i j : Nat, p < OUT → q < IN → i < KH → j < KW →
        (reorder_hwoi (KH : Int) KW IN OUT v).tail[((p * IN + q) * KH + i) * KW + j]? =
          some (Word.float (v ((((i : Int) * KW + j) * OUT + p) * IN + q)))) ∧
      (reorder_loops (OUT : Int) IN KH KW (hwoi_index KW IN OUT)).Perm
        (loopRange ((KH : Int) * KW * OUT * IN))) := by
  refine ⟨⟨?_, ?_, ?_, hwio_reads_perm KH KW IN OUT⟩, ⟨?_, ?_, ?_, hwoi_reads_perm KH KW IN OUT⟩⟩
  · rw [reorder_loops_map]
    rfl
  · simp only [reorder_hwio, List.tail_cons, reorder_loops_length]
    ring
  · intro p q i j hp hq hi hj
    simp only [reorder_hwio, List.tail_cons]
    rw [reorder_loops_get OUT IN KH KW _ p q i j hp hq hi hj]
    simp only [hwio_index]
    congr 3
    ring
  · rw [reorder_loops_map]
    rfl
  · simp only [reorder_hwoi, List.tail_cons, reorder_loops_length]
    ring
  · intro p q i j hp hq hi hj
    simp only [reorder_hwoi, List.tail_cons]
    rw [reorder_loops_get OUT IN KH KW _ p q i j hp hq hi hj]
    simp only [hwoi_index]
    congr 3
    ring

end Mlir2ncnn

namespace DeconvolutionDepthWise_arm

end DeconvolutionDepthWise_arm

namespace Conv3x3

end Conv3x3

namespace Mlir2ncnn

/-- C29 fails in the code on a block that meets its hypotheses.  In `example_block` value
ids are unique and every operand is the result of an earlier operation; the constant `%0`
(id `2:10`) keeps two references after its use as the convolution weight is taken off, so
it is split in two, but all three of its uses take a `_splitncnn_` suffix when the layer
lines are written: 1, 0 and -1.  The header announces 6 layers and 7 blobs; 6 layer lines
follow (one `MemoryData`, one `Split`, four operations), in which 8 distinct blob names
appear, `2:10_splitncnn_-1` among them. -/
theorem split_suffix_underflow :
    (result_ids example_block).Nodup ∧
    operands_defined_earlier example_block [] = true ∧
    get_mlir_value_uniq_id 2 10 = [50, 58, 49, 48] ∧
    header example_block = (6, 7) ∧
    (layer_lines example_block).length = 6 ∧
    (blob_names_of (layer_lines example_block)).dedup.length = 8 ∧
    (⟨get_mlir_value_uniq_id 2 10, some (-1)⟩ : BlobName) ∈
      blob_names_of (layer_lines example_block) ∧
    layer_lines example_block =
      [⟨LineKind.memory_data, 0, 1, [], [⟨get_mlir_value_uniq_id 2 10, none⟩]⟩,
       ⟨LineKind.split 0, 1, 2, [⟨get_mlir_value_uniq_id 2 10, none⟩],
         [⟨get_mlir_value_uniq_id 2 10, some 0⟩, ⟨get_mlir_value_uniq_id 2 10, some 1⟩]⟩,
       ⟨LineKind.operation 1, 0, 1, [], [⟨get_mlir_value_uniq_id 3 10, none⟩]⟩,
       ⟨LineKind.operation 2, 2, 1,
         [⟨get_mlir_value_uniq_id 3 10, none⟩, ⟨get_mlir_value_uniq_id 2 10, some 1⟩],
         [⟨get_mlir_value_uniq_id 4 10, none⟩]⟩,
       ⟨LineKind.operation 3, 2, 1,
         [⟨get_mlir_value_uniq_id 4 10, none⟩, ⟨get_mlir_value_uniq_id 2 10, some 0⟩],
         [⟨get_mlir_value_uniq_id 5 10, none⟩]⟩,
       ⟨LineKind.operation 4, 2, 1,
         [⟨get_mlir_value_uniq_id 5 10, none⟩, ⟨get_mlir_value_uniq_id 2 10, some (-1)⟩],
         [⟨get_mlir_value_uniq_id 6 10, none⟩]⟩] := by
  decide

end Mlir2ncnn

/-! ## Instances of the theorems at concrete inputs -/

theorem depthwise_pack1_eq_scatter_witness :
    (0 < example_layer.stride_w ∧ 0 < example_layer.stride_h) ∧
    DeconvolutionDepthWise_arm.depthwise_pack1 example_layer id
        (example_layer.weight_data_transposed example_weights (fun _ => 0)) example_bias
        example_input 4 3 2 1 4 6 =
      some (example_layer.scatter_deconvolution example_weights example_bias example_input
        4 3 1 4 6) :=
  ⟨by decide,
    DeconvolutionDepthWise.depthwise_pack1_eq_scatter example_layer example_weights
      example_bias (fun _ => 0) example_input 4 3 2 1 4 6 (by decide) (by decide) (by decide)
      (by decide) (by decide) (by decide) (by decide)⟩

theorem bordered_output_geometry_witness :
    (0 < example_blob.elempack ∧ (2 : Int) ≤ 16) ∧
    ∃ (out_elempack : Int) (workspace empty : Bool),
      0 < out_elempack ∧
      (DeconvolutionDepthWise_riscv.forward_fp16s example_build 16 example_layer
          example_externals example_opt_packing example_blob).2.head? =
        some (Event.create
          ⟨(example_blob.w - 1) * example_layer.stride_w
              + example_layer.dilation_w * (example_layer.kernel_w - 1) + 1
              + example_layer.output_pad_right,
            (example_blob.h - 1) * example_layer.stride_h
              + example_layer.dilation_h * (example_layer.kernel_h - 1) + 1
              + example_layer.output_pad_bottom,
            example_layer.num_output.tdiv out_elempack,
            example_blob.elemsize / example_blob.elempack.toNat * out_elempack.toNat,
            out_elempack⟩ workspace empty) ∧
      example_layer.num_output.tdiv out_elempack * out_elempack = example_layer.num_output ∧
      (example_blob.elemsize / example_blob.elempack.toNat * out_elempack.toNat)
          / out_elempack.toNat
        = example_blob.elemsize / example_blob.elempack.toNat :=
  ⟨by decide,
    bordered_output_geometry example_build 16 example_layer example_externals
      example_opt_packing example_blob (by decide) (by decide) _
      (List.mem_cons_of_mem _ (List.mem_cons_of_mem _ (List.mem_cons_self _ _)))⟩

theorem deconvolution_1x1_is_scale_witness :
    (example_layer_1x1.kernel_w = 1 ∧ example_layer_1x1.kernel_h = 1 ∧
      example_layer_1x1.stride_w = 1 ∧ example_layer_1x1.stride_h = 1 ∧
      example_layer_1x1.dilation_w = 1 ∧ example_layer_1x1.dilation_h = 1 ∧
      example_layer_1x1.bias_term = 0) ∧
    (example_layer_1x1.outw 4 = 4 ∧ example_layer_1x1.outh 3 = 3 ∧
    ((2 : Int) * 1 = example_layer_1x1.group →
      DeconvolutionDepthWise_arm.depthwise_pack1 example_layer_1x1 id
        (example_layer_1x1.weight_data_transposed example_weights (fun _ => 0))
        example_bias example_input 4 3 2 1 2 3 =
          some (example_input 1 2 3 * example_weights 1)) ∧
    (∀ l : Int, 0 ≤ l ∧ l < 4 →
      DeconvolutionDepthWise_arm.depthwise_pack4 example_layer_1x1 id example_weights
        example_bias example_input 4 3 2 1 2 (3 * 4 + l) =
          some (example_input 1 2 (3 * 4 + l) * example_weights (1 * 4 + l))) ∧
    ((2 : Int) * 4 = example_layer_1x1.group → ∀ l : Int, 0 ≤ l ∧ l < 4 →
      DeconvolutionDepthWise_arm.depthwise_pack4 example_layer_1x1 id
        (example_layer_1x1.weight_data_tm_pack4 example_weights (fun _ => 0))
        example_bias example_input 4 3 2 1 2 (3 * 4 + l) =
          some (example_input 1 2 (3 * 4 + l) * example_weights (1 * 4 + l)))) :=
  ⟨by decide,
    DeconvolutionDepthWise.deconvolution_1x1_is_scale example_layer_1x1 example_weights
      example_weights example_bias (fun _ => 0) example_input 4 3 2 1 2 3
      (by decide) (by decide) (by decide) (by decide) (by decide) (by decide) (by decide)
      (by decide) (by decide) (by decide) (by decide) (by decide) (by decide)⟩

theorem depthwise_channel_independent_witness :
    example_input 1 = example_input_other 1 ∧
    DeconvolutionDepthWise_arm.depthwise_pack1 example_layer id example_weights example_bias
        example_input 4 3 2 1 4 6 =
      DeconvolutionDepthWise_arm.depthwise_pack1 example_layer id example_weights example_bias
        example_input_other 4 3 2 1 4 6 :=
  have hin : example_input 1 = example_input_other 1 := by
    funext y x
    simp [example_input, example_input_other]
  ⟨hin,
    (DeconvolutionDepthWise.depthwise_channel_independent example_layer id example_weights
      example_weights example_bias example_bias example_input example_input_other 4 3 2 1
      hin).1 (fun _ _ => rfl) rfl 4 6⟩

theorem forward_empty_output_rejected_witness :
    (0 : Int) < example_blob.elempack ∧
    ¬ (example_build.ncnn_arm82 = true ∧ false = true ∧
      example_opt.use_fp16_storage = true ∧ example_blob.elembits = 16) ∧
    ∃ (top_blob_bordered : Mat) (workspace : Bool),
      (DeconvolutionDepthWise_arm.forward example_build false example_layer
          example_externals_alloc_fail example_opt example_blob).2.head? =
        some (Event.create top_blob_bordered workspace
          (example_externals_alloc_fail.create_empty top_blob_bordered workspace)) ∧
      (example_externals_alloc_fail.create_empty top_blob_bordered workspace = true →
        DeconvolutionDepthWise_arm.forward example_build false example_layer
            example_externals_alloc_fail example_opt example_blob =
          (-100, [Event.create top_blob_bordered workspace true])) ∧
      (example_blob.c = 0 →
        example_blob.c * example_blob.elempack = example_layer.group ∧
          example_layer.group = example_layer.num_output →
        top_blob_bordered.c = 0) :=
  ⟨by decide, by decide,
    forward_empty_output_rejected example_build false example_layer
      example_externals_alloc_fail example_opt example_blob (by decide) (by decide)⟩

theorem slice_output_pack_witness :
    0 < example_vkblob.elempack ∧
    Slice_vulkan.create_tops example_slice example_opt_packing (fun _ => false)
        Slice_vulkan.PackedPath.dims3 example_vkblob 2 =
      some [(8, ⟨3, 8, 1, 1, 1, 32, 8⟩), (8, ⟨3, 8, 1, 1, 1, 32, 8⟩)] ∧
    ∀ st ∈ [((8 : Int), (⟨3, 8, 1, 1, 1, 32, 8⟩ : VkMat)), (8, ⟨3, 8, 1, 1, 1, 32, 8⟩)],
      st.2 = Slice_vulkan.create_top Slice_vulkan.PackedPath.dims3 example_vkblob
        example_opt_packing st.1 ∧
      (0 ≤ st.1 →
        st.2.elempack =
          (if example_opt_packing.use_shader_pack8 = true ∧ st.1 % 8 = 0 then 8
           else if st.1 % 4 = 0 then 4 else 1) ∧
        Slice_vulkan.packed_axis st.2 Slice_vulkan.PackedPath.dims3 = st.1 / st.2.elempack ∧
        Slice_vulkan.packed_axis st.2 Slice_vulkan.PackedPath.dims3 * st.2.elempack = st.1 ∧
        st.2.elemsize / st.2.elempack.toNat =
          example_vkblob.elemsize / example_vkblob.elempack.toNat) :=
  ⟨by decide, by decide,
    ((Slice_vulkan.slice_output_pack example_slice example_opt_packing (fun _ => false)
      Slice_vulkan.PackedPath.dims3 example_vkblob 2 (by decide)).2
      [(8, ⟨3, 8, 1, 1, 1, 32, 8⟩), (8, ⟨3, 8, 1, 1, 1, 32, 8⟩)] (by decide)).2⟩

theorem offset_accumulation_witness :
    Slice_vulkan.tops_on example_slice_mixed example_opt_packing (fun _ => false)
        example_vkblob_pack4 2 (Slice_vulkan.Path.packed Slice_vulkan.PackedPath.dims3) =
      some [(4, ⟨3, 8, 1, 1, 1, 16, 4⟩), (8, ⟨3, 8, 1, 1, 1, 32, 8⟩)] ∧
    (Slice_vulkan.forward_on example_slice_mixed example_opt_packing (fun _ => false)
        example_vkblob_pack4 2
        (Slice_vulkan.Path.packed Slice_vulkan.PackedPath.dims3)).dispatches.map
      (fun d => d.offset) = [0, 1] ∧
    ∃ d, (Slice_vulkan.forward_on example_slice_mixed example_opt_packing (fun _ => false)
        example_vkblob_pack4 2
        (Slice_vulkan.Path.packed Slice_vulkan.PackedPath.dims3)).dispatches[1]? = some d ∧
      d.offset = (4 : Int).tdiv 4 :=
  ⟨by decide, by decide,
    (((Slice_vulkan.offset_accumulation example_slice_mixed example_opt_packing
      (fun _ => false) example_vkblob_pack4 2
      (Slice_vulkan.Path.packed Slice_vulkan.PackedPath.dims3)
      [(4, ⟨3, 8, 1, 1, 1, 16, 4⟩), (8, ⟨3, 8, 1, 1, 1, 32, 8⟩)] (by decide)).2.2.2 1
      (8, ⟨3, 8, 1, 1, 1, 32, 8⟩) (by decide)).imp
      (fun _ h => ⟨h.1, h.2.2.2.1.trans (by decide)⟩))⟩

theorem pipeline_matches_bound_tensors_witness :
    Slice_vulkan.create_tops example_slice example_opt_packing (fun _ => false)
        Slice_vulkan.PackedPath.dims3 example_vkblob_pack4 2 =
      some [(6, ⟨3, 8, 1, 1, 6, 4, 1⟩), (6, ⟨3, 8, 1, 1, 6, 4, 1⟩)] ∧
    Slice_vulkan.unified_elempack
        ([((6 : Int), (⟨3, 8, 1, 1, 6, 4, 1⟩ : VkMat)), (6, ⟨3, 8, 1, 1, 6, 4, 1⟩)].map
          Prod.snd) ≤ example_vkblob_pack4.elempack ∧
    ∃ d kind,
      (Slice_vulkan.forward_packed example_slice example_opt_packing (fun _ => false)
        Slice_vulkan.PackedPath.dims3 example_vkblob_pack4 2).dispatches[1]? = some d ∧
      d.pipeline = some (kind, 1 % 2) ∧
      kind.label = (d.bindings0.elempack, (1 : Int)) :=
  ⟨by decide, by decide,
    (Slice_vulkan.pipeline_matches_bound_tensors example_slice example_opt_packing
      (fun _ => false) Slice_vulkan.PackedPath.dims3 example_vkblob_pack4 2
      [(6, ⟨3, 8, 1, 1, 6, 4, 1⟩), (6, ⟨3, 8, 1, 1, 6, 4, 1⟩)] (by decide) (by decide) 1
      (6, ⟨3, 8, 1, 1, 6, 4, 1⟩) (by decide)).imp
      (fun _ h => h.imp (fun _ h => ⟨h.1, h.2.2.2.1, h.2.2.2.2⟩))⟩

theorem pipeline_selection_exhaustive_witness :
    Slice_vulkan.create_tops example_slice_mixed example_opt_packing (fun _ => false)
        Slice_vulkan.PackedPath.dims3 example_vkblob_pack4 2 =
      some [(4, ⟨3, 8, 1, 1, 1, 16, 4⟩), (8, ⟨3, 8, 1, 1, 1, 32, 8⟩)] ∧
    0 < 2 ∧
    (Slice_vulkan.forward_packed example_slice_mixed example_opt_packing (fun _ => false)
        Slice_vulkan.PackedPath.dims3 example_vkblob_pack4 2).dispatches.length = 2 ∧
    (Slice_vulkan.forward_packed example_slice_mixed example_opt_packing (fun _ => false)
        Slice_vulkan.PackedPath.dims3 example_vkblob_pack4 2).dispatches.map
      (fun d => d.pipeline) =
      [some (Slice_vulkan.PipelineKind.pipeline_slice_pack4, 0),
       some (Slice_vulkan.PipelineKind.pipeline_slice_pack4to8, 1)] :=
  ⟨by decide, by decide,
    (Slice_vulkan.pipeline_selection_exhaustive example_slice_mixed example_opt_packing
      (fun _ => false) Slice_vulkan.PackedPath.dims3 example_vkblob_pack4 2
      [(4, ⟨3, 8, 1, 1, 1, 16, 4⟩), (8, ⟨3, 8, 1, 1, 1, 32, 8⟩)] (by decide)
      (by decide)).2.2.2.1, by decide⟩

theorem weight_flip_rotation_witness :
    (example_layer.create_pipeline_channels = example_layer.group ∧
      example_layer.group = example_layer.num_output) ∧
    example_layer.weight_data_transposed example_weights (fun _ => 0)
        (1 * example_layer.maxk + 0 * example_layer.kernel_w + 2) =
      example_weights (1 * example_layer.maxk +
        (example_layer.kernel_h - 1 - 0) * example_layer.kernel_w +
        (example_layer.kernel_w - 1 - 2)) :=
  ⟨by decide,
    (DeconvolutionDepthWise.weight_flip_rotation example_layer example_weights (fun _ => 0)
      (fun _ => 0) (by decide)).1 1 0 2 (by decide) (by decide) (by decide)⟩

theorem dynamic_weight_transposition_witness :
    (0 : Int) < 2 ∧ (2 : Int) ∣ 4 ∧ (2 : Int) ∣ 6 ∧ (0 : Int) ≤ 4 ∧ (0 : Int) ≤ 6 ∧
    (0 : Int) ≤ 3 ∧ (0 : Int) ≤ 2 ∧
    ((DeconvolutionDepthWise_arm.transpose_steps 2 4 3 2 6).length : Int) =
      DeconvolutionDepthWise_arm.transposed_size 2 4 3 2 6 ∧
    DeconvolutionDepthWise_arm.transposed_size 2 4 3 2 6 = 72 :=
  ⟨by decide, by decide, by decide, by decide, by decide, by decide, by decide,
    (DeconvolutionDepthWise_arm.dynamic_weight_transposition 2 4 3 2 6 example_weights
      (fun _ => 0) (by decide) (by decide) (by decide) (by decide) (by decide) (by decide)
      (by decide)).2.2.2.1, by decide⟩

theorem conv3x3_direct_convolution_witness :
    ((0 : Int) ≤ 1 ∧ (1 : Int) < 2) ∧ ((0 : Int) ≤ 2 ∧ (2 : Int) < 5) ∧
    ((0 : Int) ≤ 3 ∧ (3 : Int) < Conv3x3.Kernel.P Conv3x3.Kernel.conv3x3s2_pack1to4) ∧
    (Conv3x3.Kernel.S Conv3x3.Kernel.conv3x3s2_pack1to4 = 1 → (12 : Int) = 5 + 2) ∧
    Conv3x3.Kernel.conv Conv3x3.Kernel.conv3x3s2_pack1to4
        (Conv3x3.exact_simd Int (Conv3x3.Kernel.P Conv3x3.Kernel.conv3x3s2_pack1to4))
        (fun _ _ => 0) (fun _ _ => 0) 12 2 5 2 example_conv_input example_conv_kernel
        (some (fun e => 100 * e)) 1 (1 * 5 + 2) 3 =
      (match (some (fun e => 100 * e) : Option (Int → Int)) with
        | some b => b (1 * Conv3x3.Kernel.P Conv3x3.Kernel.conv3x3s2_pack1to4 + 3)
        | none => 0) +
      ∑ q ∈ Finset.Ico (0 : Int) 2, ∑ ky ∈ Finset.Ico (0 : Int) 3,
        ∑ kx ∈ Finset.Ico (0 : Int) 3,
          example_conv_input q
              ((Conv3x3.Kernel.S Conv3x3.Kernel.conv3x3s2_pack1to4 * 1 + ky) * 12 +
                (Conv3x3.Kernel.S Conv3x3.Kernel.conv3x3s2_pack1to4 * 2 + kx)) *
            example_conv_kernel 1
              (q * 9 * Conv3x3.Kernel.P Conv3x3.Kernel.conv3x3s2_pack1to4 +
                (ky * 3 + kx) * Conv3x3.Kernel.P Conv3x3.Kernel.conv3x3s2_pack1to4 + 3) :=
  ⟨by decide, by decide, by decide, by decide,
    (Conv3x3.conv3x3_direct_convolution Conv3x3.Kernel.conv3x3s2_pack1to4).2.2
      (fun _ _ => 0) (fun _ _ => 0) 12 2 5 2 example_conv_input example_conv_kernel
      (some (fun e => 100 * e)) 1 1 2 3 (by decide) (by decide) (by decide) (by decide)⟩

theorem column_tiling_cascade_witness :
    (0 : Int) ≤ 23 ∧ (Conv3x3.block_trace_s1 23).1 = 23 ∧
    Conv3x3.columns_of (Conv3x3.block_trace_s1 23).2 = loopRange 23 ∧
    (Conv3x3.block_trace_s2 23).1 = 23 :=
  ⟨by decide, (Conv3x3.column_tiling_cascade 23 (by decide)).1.1,
    (Conv3x3.column_tiling_cascade 23 (by decide)).1.2.2.2.2.2,
    (Conv3x3.column_tiling_cascade 23 (by decide)).2.1⟩

theorem row_pointer_alignment_witness :
    (0 : Int) ≤ 5 ∧ Conv3x3.Kernel.S Conv3x3.Kernel.conv3x3s2_pack1to8 = 2 ∧
    (Conv3x3.Kernel.row_loop Conv3x3.Kernel.conv3x3s2_pack1to8
        (Conv3x3.exact_simd Int 8).fma 0 (example_conv_input 0) (fun _ _ => 0)
        (fun _ _ => 0) (fun _ _ => 0) 12 5 ((3 : Nat) : Int)
        (Conv3x3.channel_entry (fun _ _ => 0) 12)).r0 = (2 * ((3 : Nat) : Int)) * 12 :=
  ⟨by decide, by decide,
    ((Conv3x3.row_pointer_alignment Conv3x3.Kernel.conv3x3s2_pack1to8
      (Conv3x3.exact_simd Int 8).fma 0 (example_conv_input 0) (fun _ _ => 0)
      (fun _ _ => 0) (fun _ _ => 0)).2.2.1 12 5 3 (fun _ _ => 0) (by decide)
      (by decide)).2.1⟩

theorem slice_lengths_sum_witness :
    1 ≤ 2 ∧ example_slice_tail.slices (2 - 1) = -233 ∧
    (Slice_vulkan.slice_lengths example_slice_tail 2 12).sum = 12 ∧
    Slice_vulkan.slice_lengths example_slice_tail 2 12 = [5, 7] :=
  ⟨by decide, by decide,
    (Slice_vulkan.slice_lengths_sum example_slice_tail 2 12 (by decide)
      (Or.inr ⟨by decide, by decide, by decide⟩)).2.1, by decide⟩

theorem automatic_slices_balanced_witness :
    example_slice.indices = none ∧ 1 ≤ 3 ∧ (0 : Int) ≤ 14 ∧ (14 : Int) < 2 ^ 31 ∧
    Slice_vulkan.slice_lengths example_slice 3 14 = [4, 5, 5] ∧
    (Slice_vulkan.slice_lengths example_slice 3 14).sum = 14 :=
  ⟨rfl, by decide, by decide, by decide, by decide,
    (Slice_vulkan.automatic_slices_balanced example_slice 3 14 rfl (fun _ _ => rfl)
      (by decide) (by decide) (by decide)).2.2.2.1⟩

theorem selected_pipelines_created_witness :
    Slice_vulkan.select_path example_slice_mixed example_vkblob_pack4 =
      some (Slice_vulkan.Path.packed Slice_vulkan.PackedPath.dims3) ∧
    example_vkblob_pack4.elempack =
      Slice_vulkan.hint_elempack example_opt_packing
        (Slice_vulkan.logical_shape example_vkblob_pack4) ∧
    ∃ d entry q,
      (Slice_vulkan.forward example_slice_mixed example_opt_packing (fun _ => false)
        example_vkblob_pack4 2).dispatches[1]? = some d ∧
      d.bindings1 = ((8 : Int), (⟨3, 8, 1, 1, 1, 32, 8⟩ : VkMat)).2 ∧
      d.pipeline = some entry ∧
      (Slice_vulkan.create_pipeline example_slice_mixed example_opt_packing [] []
        Slice_vulkan.Pipelines.null 0).2.lookup entry = some q ∧ 0 ≤ q :=
  ⟨by decide, by decide,
    (Slice_vulkan.selected_pipelines_created example_slice_mixed example_opt_packing
      (fun _ => false) example_vkblob_pack4 2
      (Slice_vulkan.Path.packed Slice_vulkan.PackedPath.dims3)
      [(4, ⟨3, 8, 1, 1, 1, 16, 4⟩), (8, ⟨3, 8, 1, 1, 1, 32, 8⟩)]
      Slice_vulkan.Pipelines.null 0 [] [] (by decide) (by decide) (Or.inl ⟨rfl, rfl⟩)
      (by decide) (by decide)).2 1 (8, ⟨3, 8, 1, 1, 1, 32, 8⟩) (by decide)⟩

theorem pool_ceil_padding_closed_form_witness :
    (2 : Int) ≤ 3 ∧ (3 : Int) ≤ 4 - 1 ∧
    Pnnx.get_pool_ceil_padding Pnnx.exact_float 10 4 3 1 = 1 + (-(10 + 1 * 2 - 4)) % 3 :=
  ⟨by decide, by decide,
    (((Pnnx.pool_ceil_padding_closed_form Pnnx.exact_float 10 4 1).2.1 3 (by decide)
      ((Pnnx.exact_float_ceil 10 4 3 1 (by decide)).1)
      ((Pnnx.exact_float_ceil 10 4 3 1 (by decide)).2)).2 (by decide)).1⟩

theorem one_sub_operator_per_group_witness :
    example_layer_grouped.dynamic_weight = 0 ∧
    ¬(example_layer_grouped.create_pipeline_channels = example_layer_grouped.group ∧
      example_layer_grouped.group = example_layer_grouped.num_output) ∧
    (0 : Int) < example_layer_grouped.group ∧ example_layer_grouped.maxk ≠ 0 ∧
    example_layer_grouped.num_output.tdiv example_layer_grouped.group ≠ 0 ∧
    example_layer_grouped.group ∣ example_layer_grouped.num_output ∧
    example_layer_grouped.weight_data_size =
      example_layer_grouped.maxk *
        (example_layer_grouped.create_pipeline_channels.tdiv example_layer_grouped.group) *
        example_layer_grouped.num_output ∧
    (DeconvolutionDepthWise_arm.create_pipeline example_build false example_layer_grouped
        example_opt (0, DeconvolutionDepthWise_arm.Prepared.initial, [])
        DeconvolutionDepthWise_arm.Prepared.initial).2.1.group_ops.flatMap
      DeconvolutionDepthWise_arm.SubOp.weight_elements = loopRange 16 :=
  ⟨by decide, by decide, by decide, by decide, by decide, by decide, by decide,
    ((DeconvolutionDepthWise_arm.one_sub_operator_per_group example_build false
      example_layer_grouped example_opt (0, DeconvolutionDepthWise_arm.Prepared.initial, [])
      DeconvolutionDepthWise_arm.Prepared.initial (by decide) (by decide) (by decide)
      (by decide) (by decide) (by decide)).2.2.2.2 (by decide) (by decide) (by decide)).1⟩

theorem group_ranges_partition_witness :
    (1 : Int) ≤ GroupedForward.lanes GroupedForward.arm_forward 16 ∧
    (0 : Int) < example_layer_grouped.group ∧
    example_layer_grouped.group ∣ example_blob_pack4.c * example_blob_pack4.elempack ∧
    example_layer_grouped.group ∣ example_layer_grouped.num_output ∧
    example_blob_pack4.elempack =
      GroupedForward.canonical_pack GroupedForward.arm_forward example_build 16
        example_opt_packing (example_blob_pack4.c * example_blob_pack4.elempack) ∧
    (GroupedForward.blobs GroupedForward.arm_forward example_build 16 example_layer_grouped
        example_opt_packing example_blob_pack4).bottom_channels example_layer_grouped.group =
      loopRange
        (GroupedForward.blobs GroupedForward.arm_forward example_build 16
          example_layer_grouped example_opt_packing example_blob_pack4).bottom_blob_unpacked.c ∧
    (GroupedForward.blobs GroupedForward.arm_forward example_build 16 example_layer_grouped
        example_opt_packing example_blob_pack4).top_channels example_layer_grouped.group =
      [0, 1, 2, 3] :=
  ⟨by decide, by decide, by decide, by decide, by decide,
    (group_ranges_partition GroupedForward.arm_forward example_build 16
      example_layer_grouped example_opt_packing example_blob_pack4 (by decide) (by decide)
      (by decide) (by decide) (by decide) (by decide) (by decide)).1, by decide⟩

theorem weight_reorder_permutation_witness :
    1 < 2 ∧ 2 < 3 ∧ 0 < 2 ∧
    (Mlir2ncnn.reorder_hwio ((2 : Nat) : Int) (2 : Nat) (3 : Nat) (2 : Nat)
        example_weights).tail[((1 * 3 + 2) * 2 + 1) * 2 + 0]? =
      some (Mlir2ncnn.Word.float
        (example_weights (((((1 : Nat) : Int) * (2 : Nat) + (0 : Nat)) * (3 : Nat) +
          (2 : Nat)) * (2 : Nat) + (1 : Nat)))) :=
  ⟨by decide, by decide, by decide,
    (Mlir2ncnn.weight_reorder_permutation 2 2 3 2 example_weights).1.2.2.1 1 2 1 0
      (by decide) (by decide) (by decide) (by decide)⟩

end Ncnn
